import Mathlib

/-!
# City Management Agent core (client/agents/cma_core.c)

A shallow embedding of the parameter codec, the result model, the snapshot of
the current city state, the application of a result on the server
(`apply_result_on_server`, `check_city`, `cma_apply_result`) and the
reconciliation cycle (`handle_city`), together with their properties; and of
`format_duration`, the progress indicators, the compound ids and the continent
numbers of client/climisc.c.

Conventions of the embedding

* C `int` values are `Int`; bytes of a stored blob are `Nat` (a writer only ever
  produces values below 256).  The compound ids of client/climisc.c are taken
  over the whole range of a 32-bit `int`, and their additions and subtractions
  wrap around (`wrap_int`).
* C arrays are functions from the index; `array_set` is the assignment `a[i] = v`.
* A function that can end in a hard fault (a failed `assert`) returns an
  `Option`: `none` is the fault, `some v` is a normal return of `v`.
* Out-parameters are passed in with their prior content and returned.
* A function that talks to the server takes the state of the client and returns
  the state it reaches; the calls it makes are appended to a trace, and its
  result is `none` for a failed `assert`.
* A recursive function takes a bound on the depth of its recursion and ends in
  `run_result.out_of_fuel` when the bound is reached; its properties give a bound
  that is never reached.
-/

namespace CmaCore

/-! ## Constants and plain data -/

/-- Modelled from the spec: the number of output categories `O_LAST` of
`output_type_iterate`, declared in common/city.h which is not among the
sources.  The record of 29 bytes made of one version byte, four bytes for each
output category, two bytes of happiness factor and two single bytes fixes it
to six. -/
def O_LAST : Nat := 6

/-- The constant `SAVED_PARAMETER_SIZE` of cma_core.c. -/
def SAVED_PARAMETER_SIZE : Nat := 29

/-- The assignment `a[i] = v` on an array seen as a function of its index. -/
def array_set {α : Type} (a : Nat → α) (i : Nat) (v : α) : Nat → α :=
  fun j => if j = i then v else a j

/-- The assignment `a[x][y] = v` on a two-dimensional array. -/
def array2_set {α : Type} (a : Nat → Nat → α) (x y : Nat) (v : α) : Nat → Nat → α :=
  fun i j => if i = x ∧ j = y then v else a i j

/-- The record `struct cm_parameter`.  The four fields that cma_core.c names are
explicit; `rest` stands for every other field of the record (the declaration in
common/aicore/cm.h is not among the sources), whatever its type `R`. -/
structure cm_parameter (R : Type) where
  minimal_surplus : Nat → Int
  factor : Nat → Int
  happy_factor : Int
  require_happy : Bool
  rest : R

/-! ## Byte streams (dataio) -/

/-- Modelled from the spec: the output stream `struct data_out` of dataio.c,
which is not among the sources: the capacity of the destination buffer, the
bytes written so far and the flag raised when a write did not fit. -/
structure data_out where
  dest_size : Nat
  dest : List Nat
  too_short : Bool

/-- Modelled from the spec: `dio_output_init` of dataio.c (not among the
sources) starts an empty stream over a buffer of the given size. -/
def dio_output_init (dest_size : Nat) : data_out :=
  { dest_size := dest_size, dest := [], too_short := false }

/-- Modelled from the spec: `dio_output_used` of dataio.c (not among the
sources), the number of bytes written. -/
def dio_output_used (dout : data_out) : Nat := dout.dest.length

/-- Modelled from the spec: the space test of dataio.c (not among the sources):
do `size` more bytes fit in the destination buffer. -/
def enough_space : data_out → Nat → Bool
  | ⟨dest_size, dest, _⟩, size => decide (dest.length + size ≤ dest_size)

/-- Modelled from the spec: `dio_put_uint8` of dataio.c (not among the sources)
writes the low eight bits of the value as one byte, when it fits. -/
def dio_put_uint8 : data_out → Int → data_out
  | ⟨dest_size, dest, too_short⟩, value =>
    if enough_space ⟨dest_size, dest, too_short⟩ 1 then
      ⟨dest_size, dest ++ [(value % 256).toNat], too_short⟩
    else
      ⟨dest_size, dest, true⟩

/-- Modelled from the spec: `dio_put_uint16` of dataio.c (not among the sources)
writes the low sixteen bits of the value as two bytes, the most significant
first (the byte order is fixed, the spec leaves its choice open), when they
fit. -/
def dio_put_uint16 : data_out → Int → data_out
  | ⟨dest_size, dest, too_short⟩, value =>
    if enough_space ⟨dest_size, dest, too_short⟩ 2 then
      ⟨dest_size, dest ++ [(value % 65536).toNat / 256, (value % 65536).toNat % 256],
        too_short⟩
    else
      ⟨dest_size, dest, true⟩

/-- Modelled from the spec: `dio_put_sint16` of dataio.c (not among the sources)
writes a 2-byte signed value: the two's complement of the value on sixteen
bits. -/
def dio_put_sint16 (dout : data_out) (value : Int) : data_out :=
  dio_put_uint16 dout value

/-- Modelled from the spec: `dio_put_bool8` of dataio.c (not among the sources)
writes a 1-byte boolean, 1 for TRUE and 0 for FALSE. -/
def dio_put_bool8 (dout : data_out) (value : Bool) : data_out :=
  dio_put_uint8 dout (if value then 1 else 0)

/-- Modelled from the spec: the input stream `struct data_in` of dataio.c, which
is not among the sources: the source bytes, their number and the read
position. -/
structure data_in where
  src : List Nat
  src_size : Nat
  current : Nat

/-- Modelled from the spec: `dio_input_init` of dataio.c (not among the
sources). -/
def dio_input_init (src : List Nat) (src_size : Nat) : data_in :=
  { src := src, src_size := src_size, current := 0 }

/-- Modelled from the spec: the data test of dataio.c (not among the sources):
are `size` more bytes left to read. -/
def enough_data : data_in → Nat → Bool
  | ⟨_, src_size, current⟩, size => decide (current + size ≤ src_size)

/-- Modelled from the spec: `dio_get_uint8` of dataio.c (not among the sources)
reads one byte into `dest`; `dest` keeps its prior content when no byte is
left. -/
def dio_get_uint8 : data_in → Int → data_in × Int
  | ⟨src, src_size, current⟩, dest =>
    if enough_data ⟨src, src_size, current⟩ 1 then
      (⟨src, src_size, current + 1⟩, (src.getD current 0 : Nat))
    else
      (⟨src, src_size, current⟩, dest)

/-- Modelled from the spec: `dio_get_uint16` of dataio.c (not among the sources)
reads two bytes, the most significant first. -/
def dio_get_uint16 : data_in → Int → data_in × Int
  | ⟨src, src_size, current⟩, dest =>
    if enough_data ⟨src, src_size, current⟩ 2 then
      (⟨src, src_size, current + 2⟩,
        ((src.getD current 0 * 256 + src.getD (current + 1) 0 : Nat) : Int))
    else
      (⟨src, src_size, current⟩, dest)

/-- Modelled from the spec: `dio_get_sint16` of dataio.c (not among the sources)
reads a 2-byte signed value: the sixteen bits read are taken as a two's
complement number. -/
def dio_get_sint16 (din : data_in) (_dest : Int) : data_in × Int :=
  let (din, tmp) := dio_get_uint16 din 0
  (din, if tmp > 0x7fff then tmp - 0x10000 else tmp)

/-- Modelled from the spec: `dio_get_bool8` of dataio.c (not among the sources)
reads a 1-byte boolean; a byte that is neither 0 nor 1 reads as TRUE. -/
def dio_get_bool8 (din : data_in) (_dest : Bool) : data_in × Bool :=
  let (din, ival) := dio_get_uint8 din 0
  let ival : Int := if ival ≠ 0 ∧ ival ≠ 1 then 1 else ival
  (din, decide (ival ≠ 0))

/-! ## The attribute store -/

/-- The type `enum attr_city` of attribute keys. -/
abbrev attr_city := Nat

/-- The key `ATTR_CITY_CMA_PARAMETER` under which the agent keeps the parameter
of a city (its numeric value is immaterial). -/
def ATTR_CITY_CMA_PARAMETER : attr_city := 0

/-- Modelled from the spec: the per-city attribute store (attribute.c is not
among the sources): for each key and city id the stored blob; the empty blob
stands for "no blob stored". -/
abbrev attribute_store := attr_city → Int → List Nat

/-- Modelled from the spec: `attr_city_get` of attribute.c (not among the
sources) hands out the blob stored for the key and the city; the length it
returns is the length of that blob, 0 when there is none. -/
def attr_city_get (store : attribute_store) (attr : attr_city) (city_id : Int) : List Nat :=
  store attr city_id

/-- Modelled from the spec: `attr_city_set` of attribute.c (not among the
sources) replaces the blob stored for the key and the city by the first
`data_length` bytes of `data`; a length of 0 removes the blob. -/
def attr_city_set (store : attribute_store) (attr : attr_city) (city_id : Int)
    (data_length : Nat) (data : List Nat) : attribute_store :=
  fun a c => if a = attr ∧ c = city_id then data.take data_length else store a c

/-! ## The parameter codec -/

/-- The function `cma_set_parameter`: encode the parameter and store it.
`none` is the failure of the size assertion. -/
def cma_set_parameter {R : Type} (store : attribute_store) (attr : attr_city) (city_id : Int)
    (parameter : cm_parameter R) : Option attribute_store :=
  let dout := dio_output_init SAVED_PARAMETER_SIZE
  let dout := dio_put_uint8 dout 2
  let dout := (List.range O_LAST).foldl
    (fun d i => dio_put_sint16 (dio_put_sint16 d (parameter.minimal_surplus i))
      (parameter.factor i)) dout
  let dout := dio_put_sint16 dout parameter.happy_factor
  let dout := dio_put_uint8 dout 0
  let dout := dio_put_bool8 dout parameter.require_happy
  if dio_output_used dout = SAVED_PARAMETER_SIZE then
    some (attr_city_set store attr city_id SAVED_PARAMETER_SIZE dout.dest)
  else
    none

/-- The body of the loop of `cma_get_parameter` over the output types: read
`minimal_surplus[i]`, then `factor[i]`. -/
def get_parameter_step {R : Type} (s : data_in × cm_parameter R) (i : Nat) :
    data_in × cm_parameter R :=
  let (din, parameter) := s
  let (din, v) := dio_get_sint16 din (parameter.minimal_surplus i)
  let parameter := { parameter with minimal_surplus := array_set parameter.minimal_surplus i v }
  let (din, v) := dio_get_sint16 din (parameter.factor i)
  (din, { parameter with factor := array_set parameter.factor i v })

/-- The function `cma_get_parameter`.  `cm_init_parameter` (common/aicore/cm.c,
not among the sources) is taken as an argument.  `none` is a failed assertion;
`some (false, _)` is the return of FALSE with the parameter untouched;
`some (true, p)` is the return of TRUE with the parameter filled as `p`. -/
def cma_get_parameter {R : Type} (cm_init_parameter : cm_parameter R → cm_parameter R)
    (store : attribute_store) (attr : attr_city) (city_id : Int)
    (parameter : cm_parameter R) : Option (Bool × cm_parameter R) :=
  let buffer := attr_city_get store attr city_id
  let len := buffer.length
  if len = 0 then
    some (false, parameter)
  else if len ≠ SAVED_PARAMETER_SIZE then
    none
  else
    let din := dio_input_init buffer len
    let (din, version) := dio_get_uint8 din 0
    if version ≠ 2 then
      none
    else
      let parameter := cm_init_parameter parameter
      let (din, parameter) := (List.range O_LAST).foldl get_parameter_step (din, parameter)
      let (din, happy_factor) := dio_get_sint16 din parameter.happy_factor
      let parameter := { parameter with happy_factor := happy_factor }
      let (din, _dummy) := dio_get_uint8 din 0
      let (_, require_happy) := dio_get_bool8 din parameter.require_happy
      some (true, { parameter with require_happy := require_happy })

/-- The function `cma_is_city_under_agent`, on the id of the city.  `none` is a
fault of `cma_get_parameter`; otherwise the returned flag, and the caller's
`parameter` (when one is passed) overwritten on TRUE. -/
def cma_is_city_under_agent {R : Type} (cm_init_parameter : cm_parameter R → cm_parameter R)
    (store : attribute_store) (pcity_id : Int) (my_parameter : cm_parameter R)
    (parameter : Option (cm_parameter R)) : Option (Bool × Option (cm_parameter R)) :=
  match cma_get_parameter cm_init_parameter store ATTR_CITY_CMA_PARAMETER pcity_id
      my_parameter with
  | none => none
  | some (false, _) => some (false, parameter)
  | some (true, p) =>
    match parameter with
    | some _ => some (true, some p)
    | none => some (true, none)

/-! ## Cities and results -/

/-- The states `enum city_tile_type` of a position of a city map (declared in
common/city.h, not among the sources; cma_core.c names the first two). -/
inductive city_tile_type where
  | C_TILE_EMPTY
  | C_TILE_WORKER
  | C_TILE_UNAVAILABLE
  deriving DecidableEq, Repr

/-- The constants and iteration orders of the game that cma_core.c uses and that
are declared outside the sources: the side `CITY_MAP_SIZE` of the city map array,
the positions that `city_map_iterate` visits (in its order), the number
`SP_COUNT` of specialist types that `specialist_type_iterate` visits, and the
default specialist type `DEFAULT_SPECIALIST`. -/
structure game_consts where
  CITY_MAP_SIZE : Nat
  city_map_positions : List (Nat × Nat)
  SP_COUNT : Nat
  DEFAULT_SPECIALIST : Nat

/-- The part of `struct city` (declared in common/city.h, not among the sources)
and of the map around the city that cma_core.c reads.  `tile_on_map x y` tells whether the city-map position is a real tile of
the map (what `city_map_checked_iterate` checks from `pcity->tile`); `surplus`,
`disorder` and `happy` stand for the live output, disorder and happiness state of
the city. -/
structure city where
  id : Int
  owner : Nat
  size : Int
  city_map : Nat → Nat → city_tile_type
  specialists : Nat → Int
  tile_on_map : Nat → Nat → Bool
  surplus : Nat → Int
  disorder : Bool
  happy : Bool

/-- The record `struct cm_result` (declared in common/aicore/cm.h, not among the
sources), with the fields that cma_core.c names. -/
structure cm_result where
  found_a_valid : Bool
  disorder : Bool
  happy : Bool
  surplus : Nat → Int
  worker_positions_used : Nat → Nat → Bool
  specialists : Nat → Int

/-- Modelled from the spec: `CITY_MAP_RADIUS` of common/city.h (not among the
sources), the coordinate of the city centre in the city map. -/
def CITY_MAP_RADIUS (g : game_consts) : Nat := g.CITY_MAP_SIZE / 2

/-- Modelled from the spec: `is_free_worked_tile` of common/city.h (not among
the sources): the free worked tile is the city centre. -/
def is_free_worked_tile (g : game_consts) (x y : Nat) : Bool :=
  decide (x = CITY_MAP_RADIUS g ∧ y = CITY_MAP_RADIUS g)

/-- Modelled from the spec: the iteration `city_map_checked_iterate(pcity->tile,
x, y, ptile)` of common/city.h (not among the sources) visits the positions of
the city's work area, those of `city_map_iterate`, that are real tiles of the
map. -/
def city_map_checked_iterate (g : game_consts) (pcity : city) : List (Nat × Nat) :=
  g.city_map_positions.filter (fun p => pcity.tile_on_map p.1 p.2)

/-- The positions that `my_city_map_iterate(pcity, x, y)` visits: those of
`city_map_checked_iterate` that are not a free worked tile. -/
def my_city_map_iterate (g : game_consts) (pcity : city) : List (Nat × Nat) :=
  (city_map_checked_iterate g pcity).filter (fun p => !is_free_worked_tile g p.1 p.2)

/-- The function `results_are_equal`; each loop that returns FALSE at the first
difference is an `any`. -/
def results_are_equal (g : game_consts) (pcity : city) (result1 result2 : cm_result) : Bool :=
  if result1.disorder ≠ result2.disorder then false
  else if result1.happy ≠ result2.happy then false
  else if (List.range g.SP_COUNT).any
      (fun sp => decide (result1.specialists sp ≠ result2.specialists sp)) then false
  else if (List.range O_LAST).any
      (fun stat => decide (result1.surplus stat ≠ result2.surplus stat)) then false
  else if (my_city_map_iterate g pcity).any
      (fun p => decide (result1.worker_positions_used p.1 p.2
        ≠ result2.worker_positions_used p.1 p.2)) then false
  else true

/-- Modelled from the spec: `cm_copy_result_from_city` of common/aicore/cm.c
(not among the sources).  The spec has the snapshot read the labour assignment
and the "live output/happiness/disorder state" of the city; the labour
assignment is read by the part of `get_current_as_result` that is in the
sources, so this call is modelled as filling in the surplus of every output
type and the disorder and happy flags from the city, and nothing else. -/
def cm_copy_result_from_city (pcity : city) (result : cm_result) : cm_result :=
  { result with surplus := pcity.surplus, disorder := pcity.disorder, happy := pcity.happy }

/-- The body of the first loop of `get_current_as_result`: set the flag of the
position and count it when set. -/
def get_current_worker_step (pcity : city) (s : cm_result × Int) (p : Nat × Nat) :
    cm_result × Int :=
  let (result, worker) := s
  let flag := decide (pcity.city_map p.1 p.2 = city_tile_type.C_TILE_WORKER)
  let result :=
    { result with
      worker_positions_used := array2_set result.worker_positions_used p.1 p.2 flag }
  if result.worker_positions_used p.1 p.2 then (result, worker + 1) else (result, worker)

/-- The body of the second loop of `get_current_as_result`: copy the count of the
specialist type and add it up. -/
def get_current_specialist_step (pcity : city) (s : cm_result × Int) (sp : Nat) :
    cm_result × Int :=
  let (result, specialist) := s
  ({ result with specialists := array_set result.specialists sp (pcity.specialists sp) },
    specialist + pcity.specialists sp)

/-- The function `get_current_as_result`; `result` is the prior content of the
output record, `none` is the failure of the assertion
`worker + specialist == pcity->size`. -/
def get_current_as_result (g : game_consts) (pcity : city) (result : cm_result) :
    Option cm_result :=
  let worker : Int := 0
  let specialist : Int := 0
  let result := { result with worker_positions_used := fun _ _ => false }
  let (result, worker) :=
    (my_city_map_iterate g pcity).foldl (get_current_worker_step pcity) (result, worker)
  let (result, specialist) :=
    (List.range g.SP_COUNT).foldl (get_current_specialist_step pcity) (result, specialist)
  if worker + specialist ≠ pcity.size then
    none
  else
    let result := { result with found_a_valid := true }
    some (cm_copy_result_from_city pcity result)

/-! ## The client state, the connection and the trace of calls -/

/-- A call that `apply_result_on_server`, `check_city` or `cma_release_city` makes
and that the properties speak about, with its arguments.  The first two record
that a snapshot is taken and that a comparison is made; the three requests
`city_toggle_worker`, `city_change_specialist` and `dsend_packet_city_refresh`
are the ones sent to the server. -/
inductive event where
  | get_current_as_result (city_id : Int)
  | results_are_equal (city_id : Int)
  | connection_do_buffer
  | city_toggle_worker (city_id : Int) (x y : Nat)
  | city_change_specialist (city_id : Int) (from_sp to_sp : Nat)
  | dsend_packet_city_refresh (city_id : Int)
  | reports_freeze_till (request_id : Int)
  | connection_do_unbuffer
  | wait_for_requests (first_request_id last_request_id : Int)
  | cm_clear_cache (city_id : Int)
  | refresh_city_dialog (city_id : Int)
  | city_report_dialog_update_city (city_id : Int)
  deriving DecidableEq, Repr

/-- The static record `stats` of cma_core.c (without its timer). -/
structure cma_stats where
  apply_result_ignored : Int
  apply_result_applied : Int
  refresh_forced : Int
  deriving DecidableEq, Repr

/-- The part of the client's data that packets from the server can change while
the agent waits: the cities by id (`game_find_city_by_number`), the local player
`game.player_ptr` and the attribute store. -/
structure client_world where
  cities : Int → Option city
  player_ptr : Nat
  store : attribute_store

/-- The state of the client: its world, the statistics counters of the agent and
the trace of the calls made so far, oldest first. -/
structure client where
  world : client_world
  stats : cma_stats
  trace : List event

/-- What cma_core.c takes from outside the sources: the constants of the game,
`cm_init_parameter`, the content of uninitialised locals, the request ids that
the connection hands out (`request_id n` is the id returned for the request sent
after `n` earlier ones), and what the world has become when `wait_for_requests`
returns. -/
structure environment (R : Type) where
  g : game_consts
  cm_init_parameter : cm_parameter R → cm_parameter R
  uninit_parameter : cm_parameter R
  uninit_result : cm_result
  request_id : Nat → Int
  wait_for_requests : client → Int → Int → client_world

/-- The constant `ALWAYS_APPLY_AT_SERVER` of cma_core.c. -/
def ALWAYS_APPLY_AT_SERVER : Bool := false

/-- Append a call to the trace. -/
def log_event (c : client) (e : event) : client :=
  { c with trace := c.trace ++ [e] }

/-- The calls that send a request to the server. -/
def is_request : event → Bool
  | event.city_toggle_worker _ _ _ => true
  | event.city_change_specialist _ _ _ => true
  | event.dsend_packet_city_refresh _ => true
  | _ => false

/-- The number of requests sent so far. -/
def request_count (trace : List event) : Nat := (trace.filter is_request).length

/-- Modelled from the spec: sending a request on the connection (the packet
layer is not among the sources) records it and returns the next request id. -/
def send_packet {R : Type} (env : environment R) (c : client) (e : event) : client × Int :=
  (log_event c e, env.request_id (request_count c.trace))

/-- Modelled from the spec: `city_toggle_worker` (not among the sources), the
request toggle-worker-at-position; returns the request id. -/
def city_toggle_worker {R : Type} (env : environment R) (c : client) (pcity : city)
    (x y : Nat) : client × Int :=
  send_packet env c (event.city_toggle_worker pcity.id x y)

/-- Modelled from the spec: `city_change_specialist` (not among the sources), the
request change-specialist; returns the request id. -/
def city_change_specialist {R : Type} (env : environment R) (c : client) (pcity : city)
    (from_sp to_sp : Nat) : client × Int :=
  send_packet env c (event.city_change_specialist pcity.id from_sp to_sp)

/-- Modelled from the spec: `dsend_packet_city_refresh` (not among the sources),
the request request-full-refresh; returns the request id. -/
def dsend_packet_city_refresh {R : Type} (env : environment R) (c : client)
    (city_id : Int) : client × Int :=
  send_packet env c (event.dsend_packet_city_refresh city_id)

/-- Modelled from the spec: `cm_count_worker` of common/aicore/cm.c (not among
the sources), the number of worked-tile flags of a result over the workable
positions of the city, the free worked tile left out. -/
def cm_count_worker (g : game_consts) (pcity : city) (result : cm_result) : Int :=
  (((my_city_map_iterate g pcity).filter
    (fun p => result.worker_positions_used p.1 p.2)).length : Int)

/-- Modelled from the spec: `cm_count_specialist` of common/aicore/cm.c (not
among the sources), the sum of the specialist counts of a result. -/
def cm_count_specialist (g : game_consts) (_pcity : city) (result : cm_result) : Int :=
  ((List.range g.SP_COUNT).map result.specialists).sum

/-! ## check_city and release -/

/-- The function `release_city`: remove the stored parameter of the city. -/
def release_city (c : client) (city_id : Int) : client :=
  { c with world := { c.world with
      store := attr_city_set c.world.store ATTR_CITY_CMA_PARAMETER city_id 0 [] } }

/-- The function `cma_release_city`. -/
def cma_release_city (c : client) (pcity : city) : client :=
  let c := release_city c pcity.id
  let c := log_event c (event.refresh_city_dialog pcity.id)
  log_event c (event.city_report_dialog_update_city pcity.id)

/-- The function `check_city`.  `parameter` is the caller's record when one is
passed (`none` is the NULL pointer).  The outcome `none` is a fault of
`cma_get_parameter`; otherwise the returned flag and the caller's record as it
is left. -/
def check_city {R : Type} (env : environment R) (c : client) (city_id : Int)
    (parameter : Option (cm_parameter R)) :
    client × Option (Bool × Option (cm_parameter R)) :=
  let pcity := c.world.cities city_id
  let dummy := env.uninit_parameter
  let target := parameter.getD dummy
  match pcity with
  | none => (c, some (false, parameter))
  | some pcity =>
    match cma_get_parameter env.cm_init_parameter c.world.store ATTR_CITY_CMA_PARAMETER
        city_id target with
    | none => (c, none)
    | some (false, _) => (c, some (false, parameter))
    | some (true, filled) =>
      let parameter := parameter.map (fun _ => filled)
      if pcity.owner ≠ c.world.player_ptr then
        (cma_release_city c pcity, some (false, parameter))
      else
        (c, some (true, parameter))

/-! ## apply_result_on_server -/

/-- The locals of `apply_result_on_server` while it sends requests: the client
state, `first_request_id` and `last_request_id`; `aborted` is set when an
assertion has failed, after which nothing more is done. -/
structure req_state where
  c : client
  first_request_id : Int
  last_request_id : Int
  aborted : Bool

/-- The two statements after each request:
`last_request_id = <request>; if (first_request_id == 0) first_request_id =
last_request_id;`. -/
def record_request (s : req_state) (r : client × Int) : req_state :=
  { c := r.1
    first_request_id := if s.first_request_id = 0 then r.2 else s.first_request_id
    last_request_id := r.2
    aborted := s.aborted }

/-- The block "Remove all surplus workers" of `apply_result_on_server`. -/
def remove_surplus_workers {R : Type} (env : environment R) (pcity : city)
    (result : cm_result) (s : req_state) : req_state :=
  (my_city_map_iterate env.g pcity).foldl (fun s p =>
    if pcity.city_map p.1 p.2 = city_tile_type.C_TILE_WORKER
        ∧ result.worker_positions_used p.1 p.2 = false then
      record_request s (city_toggle_worker env s.c pcity p.1 p.2)
    else s) s

/-- The block "Change the excess non-default specialists to default" of
`apply_result_on_server`. -/
def change_excess_specialists {R : Type} (env : environment R) (pcity : city)
    (result : cm_result) (s : req_state) : req_state :=
  (List.range env.g.SP_COUNT).foldl (fun s sp =>
    if sp = env.g.DEFAULT_SPECIALIST then s
    else
      (List.range (pcity.specialists sp - result.specialists sp).toNat).foldl
        (fun s _ => record_request s
          (city_change_specialist env s.c pcity sp env.g.DEFAULT_SPECIALIST)) s) s

/-- The block "Set workers" of `apply_result_on_server`; the assertion that the
tile is `C_TILE_EMPTY` can fail. -/
def set_workers {R : Type} (env : environment R) (pcity : city)
    (result : cm_result) (s : req_state) : req_state :=
  (my_city_map_iterate env.g pcity).foldl (fun s p =>
    if s.aborted then s
    else if result.worker_positions_used p.1 p.2 = true
        ∧ pcity.city_map p.1 p.2 ≠ city_tile_type.C_TILE_WORKER then
      if pcity.city_map p.1 p.2 ≠ city_tile_type.C_TILE_EMPTY then
        { s with aborted := true }
      else
        record_request s (city_toggle_worker env s.c pcity p.1 p.2)
    else s) s

/-- The block "Set all specialists except DEFAULT_SPECIALIST" of
`apply_result_on_server`. -/
def set_specialists {R : Type} (env : environment R) (pcity : city)
    (result : cm_result) (s : req_state) : req_state :=
  (List.range env.g.SP_COUNT).foldl (fun s sp =>
    if sp = env.g.DEFAULT_SPECIALIST then s
    else
      (List.range (result.specialists sp - pcity.specialists sp).toNat).foldl
        (fun s _ => record_request s
          (city_change_specialist env s.c pcity env.g.DEFAULT_SPECIALIST sp)) s) s

/-- The block of `apply_result_on_server` that forces a refresh when no request
was sent: `if (last_request_id == 0 || ALWAYS_APPLY_AT_SERVER) ...`. -/
def force_refresh {R : Type} (env : environment R) (pcity : city) (s : req_state) :
    req_state :=
  if s.last_request_id = 0 ∨ ALWAYS_APPLY_AT_SERVER = true then
    let r := dsend_packet_city_refresh env s.c pcity.id
    { c := { r.1 with stats := { r.1.stats with refresh_forced := r.1.stats.refresh_forced + 1 } }
      first_request_id := r.2
      last_request_id := r.2
      aborted := s.aborted }
  else s

/-- The part of `apply_result_on_server` from "Do checks" to
`connection_do_unbuffer`: the check of the target against the size of the city,
the four blocks of requests, the forced refresh, `reports_freeze_till` and the
release of the buffer. -/
def send_changes {R : Type} (env : environment R) (c : client) (pcity : city)
    (result : cm_result) : req_state :=
  let s : req_state := { c := c, first_request_id := 0, last_request_id := 0, aborted := false }
  if pcity.size ≠ cm_count_worker env.g pcity result + cm_count_specialist env.g pcity result then
    { s with aborted := true }
  else
    let s := remove_surplus_workers env pcity result s
    let s := change_excess_specialists env pcity result s
    let s := set_workers env pcity result s
    if s.aborted then s
    else
      let s := set_specialists env pcity result s
      let s := force_refresh env pcity s
      let s := { s with c := log_event s.c (event.reports_freeze_till s.last_request_id) }
      { s with c := log_event s.c event.connection_do_unbuffer }

/-- The end of `apply_result_on_server`, from the comment "Return.": the second
snapshot, the comparison with the target and the invalidation of the solver cache
on a mismatch. -/
def compare_with_target {R : Type} (env : environment R) (c : client) (pcity : city)
    (result : cm_result) : client × Option Bool :=
  let c := log_event c (event.get_current_as_result pcity.id)
  match get_current_as_result env.g pcity env.uninit_result with
  | none => (c, none)
  | some current_state =>
    let c := log_event c (event.results_are_equal pcity.id)
    let success := results_are_equal env.g pcity result current_state
    if success = false then
      (log_event c (event.cm_clear_cache pcity.id), some success)
    else
      (c, some success)

/-- The part of `apply_result_on_server` after `connection_do_unbuffer`: the wait
for the requests and the eligibility check when a request was sent, then the
comparison.  After the wait `pcity` points to the city as the world now has
it. -/
def await_and_compare {R : Type} (env : environment R) (s : req_state) (pcity : city)
    (result : cm_result) : client × Option Bool :=
  if s.last_request_id ≠ 0 then
    let city_id := pcity.id
    let c := log_event s.c (event.wait_for_requests s.first_request_id s.last_request_id)
    let c := { c with world := env.wait_for_requests c s.first_request_id s.last_request_id }
    match check_city env c city_id none with
    | (c, none) => (c, none)
    | (c, some (false, _)) => (c, some false)
    | (c, some (true, _)) =>
      compare_with_target env c ((c.world.cities city_id).getD pcity) result
  else
    compare_with_target env s.c pcity result

/-- The function `apply_result_on_server`.  It returns the state of the client
when it returns or faults, and `some b` when it returns `b`, `none` when an
assertion fails. -/
def apply_result_on_server {R : Type} (env : environment R) (c : client) (pcity : city)
    (result : cm_result) : client × Option Bool :=
  if result.found_a_valid = false then
    (c, none)
  else
    let c := log_event c (event.get_current_as_result pcity.id)
    match get_current_as_result env.g pcity env.uninit_result with
    | none => (c, none)
    | some current_state =>
      let c := log_event c (event.results_are_equal pcity.id)
      if results_are_equal env.g pcity result current_state = true
          ∧ ALWAYS_APPLY_AT_SERVER = false then
        ({ c with stats := { c.stats with
            apply_result_ignored := c.stats.apply_result_ignored + 1 } }, some true)
      else
        let c := { c with stats := { c.stats with
          apply_result_applied := c.stats.apply_result_applied + 1 } }
        let c := log_event c event.connection_do_buffer
        let s := send_changes env c pcity result
        if s.aborted then
          (s.c, none)
        else
          await_and_compare env s pcity result

/-- The function `cma_apply_result`. -/
def cma_apply_result {R : Type} (env : environment R) (c : client) (pcity : city)
    (result : cm_result) : client × Option Bool :=
  match cma_is_city_under_agent env.cm_init_parameter c.world.store pcity.id
      env.uninit_parameter none with
  | none => (c, none)
  | some (true, _) => (c, none)
  | some (false, _) =>
    if result.found_a_valid then
      apply_result_on_server env c pcity result
    else
      (c, some true)

/-! ## handle_city and the callbacks -/

/-- The two texts that `handle_city` passes to `create_event` (both with the
event type `E_CITY_CMA_RELEASE`): "The citizen governor can't fulfill the
requirements for %s. Passing back control." and "The citizen governor has gotten
confused dealing with %s.  You may want to have a look." -/
inductive cma_message where
  | cant_fulfill
  | confused
  deriving DecidableEq, Repr

/-- The two texts that `handle_city` logs at the level `LOG_ERROR`:
"handle_city() CMA: %s has changed multiple times." and "Please report this
message at %s". -/
inductive error_message where
  | changed_multiple_times
  | please_report
  deriving DecidableEq, Repr

/-- A call that `handle_city` makes, with its arguments and, for the functions
that return a value, what the call returned (`none` is a failed assertion inside
the call).  `check_city` records whether a parameter was passed (`FALSE` is the
call `check_city(city_id, NULL)`); `cm_query_result` records the flag
`found_a_valid` of the result it produced.  The calls of `freelog` at the debug
levels are left out. -/
inductive cycle_event where
  | check_city (city_id : Int) (with_parameter : Bool) (returned : Option Bool)
  | cm_query_result (city_id : Int) (found_a_valid : Bool)
  | apply_result_on_server (city_id : Int) (returned : Option Bool)
  | cma_release_city (city_id : Int)
  | create_event (city_id : Int) (message : cma_message)
  | freelog_error (message : error_message)
  deriving DecidableEq, Repr

/-- The state of the agent while `handle_city` runs: the state of the client and
the calls that `handle_city` has made so far, oldest first. -/
structure agent_state where
  c : client
  log : List cycle_event

/-- What `handle_city` takes from outside the sources: the environment of
`apply_result_on_server` and the oracle `cm_query_result` (common/aicore/cm.c).
The oracle is a black box: its result may depend on the whole state of the
client, on the city, on the parameter and on the prior content of the result
record. -/
structure agent_environment (R : Type) where
  base : environment R
  cm_query_result : client → city → cm_parameter R → cm_result → cm_result

/-- Append a call of `handle_city` to its log. -/
def log_call (s : agent_state) (e : cycle_event) : agent_state :=
  { s with log := s.log ++ [e] }

/-- How one pass through the body of the loop of `handle_city` ends:
`not_eligible` is the `break` after `check_city` returned FALSE, `infeasible` the
`break` after the result had no valid assignment, `converged` the `break` after
`apply_result_on_server` returned TRUE (the three set `handled = TRUE`),
`diverged` is the end of the body after `apply_result_on_server` returned FALSE
(the loop goes on with `i++`), and `fault` is a failed assertion. -/
inductive try_outcome where
  | not_eligible
  | infeasible
  | converged
  | diverged
  | fault
  deriving DecidableEq, Repr

/-- The end of the body of the loop of `handle_city`, once
`apply_result_on_server` has returned: on TRUE `handled = TRUE; break;`, on
FALSE the test `check_city(city_id, NULL) && i == 0` and the event "confused"
when it holds. -/
def after_apply {R : Type} (env : agent_environment R) (city_id : Int) (i : Nat)
    (s : agent_state) (pcity : city) (applied : client × Option Bool) :
    agent_state × try_outcome :=
  let s := log_call { s with c := applied.1 }
    (cycle_event.apply_result_on_server pcity.id applied.2)
  match applied.2 with
  | none => (s, try_outcome.fault)
  | some true => (s, try_outcome.converged)
  | some false =>
    let checked := check_city env.base s.c city_id none
    let s := log_call { s with c := checked.1 }
      (cycle_event.check_city city_id false (checked.2.map Prod.fst))
    match checked.2 with
    | none => (s, try_outcome.fault)
    | some (passed, _) =>
      if passed = true ∧ i = 0 then
        (log_call s (cycle_event.create_event pcity.id cma_message.confused),
          try_outcome.diverged)
      else
        (s, try_outcome.diverged)

/-- The body of the loop of `handle_city` from `cm_query_result` on: the query,
then either the release of the city with the event "can't fulfill", or the call
of `apply_result_on_server`. -/
def query_and_apply {R : Type} (env : agent_environment R) (city_id : Int) (i : Nat)
    (s : agent_state) (pcity : city) (parameter : cm_parameter R) (result : cm_result) :
    agent_state × cm_result × try_outcome :=
  let result := env.cm_query_result s.c pcity parameter result
  let s := log_call s (cycle_event.cm_query_result pcity.id result.found_a_valid)
  if result.found_a_valid = false then
    let s := log_call { s with c := cma_release_city s.c pcity }
      (cycle_event.cma_release_city pcity.id)
    let s := log_call s (cycle_event.create_event pcity.id cma_message.cant_fulfill)
    (s, result, try_outcome.infeasible)
  else
    let r := after_apply env city_id i s pcity (apply_result_on_server env.base s.c pcity result)
    (r.1, result, r.2)

/-- The body of the loop of `handle_city` for the value `i` of the loop counter.
`parameter` is a local of the body, so it is uninitialised at each pass;
`result` is a local of the function and keeps its content from pass to pass.
After a successful `check_city` the city is looked up again by its id
(`game_find_city_by_number`); a city that is not found there is a fault (the
dereference of NULL), which cannot happen when `check_city` has returned TRUE. -/
def handle_city_try {R : Type} (env : agent_environment R) (city_id : Int) (i : Nat)
    (s : agent_state) (result : cm_result) : agent_state × cm_result × try_outcome :=
  let checked := check_city env.base s.c city_id (some env.base.uninit_parameter)
  let s := log_call { s with c := checked.1 }
    (cycle_event.check_city city_id true (checked.2.map Prod.fst))
  match checked.2 with
  | none => (s, result, try_outcome.fault)
  | some (false, _) => (s, result, try_outcome.not_eligible)
  | some (true, parameter) =>
    match s.c.world.cities city_id with
    | none => (s, result, try_outcome.fault)
    | some pcity =>
      query_and_apply env city_id i s pcity (parameter.getD env.base.uninit_parameter) result

/-- The loop `for (i = 0; i < 5; i++)` of `handle_city`, with `n` passes left and
the loop counter at `i`.  It returns `some handled` when the loop is left, by a
`break` (`handled = TRUE`) or because no pass is left (`handled = FALSE`), and
`none` after a failed assertion. -/
def handle_city_loop {R : Type} (env : agent_environment R) (city_id : Int) :
    Nat → Nat → agent_state → cm_result → agent_state × Option Bool
  | 0, _, s, _ => (s, some false)
  | n + 1, i, s, result =>
    match handle_city_try env city_id i s result with
    | (s, result, try_outcome.diverged) => handle_city_loop env city_id n (i + 1) s result
    | (s, _, try_outcome.fault) => (s, none)
    | (s, _, _) => (s, some true)

/-- The part of `handle_city` after the loop: when the cycle was not handled,
the assertion `pcity != NULL`, the event "confused", the release of the city and
the two messages at the level `LOG_ERROR`. -/
def after_loop (s : agent_state) (city_id : Int) (handled : Bool) :
    agent_state × Option Unit :=
  let pcity := s.c.world.cities city_id
  if handled = false then
    match pcity with
    | none => (s, none)
    | some pcity =>
      let s := log_call s (cycle_event.create_event pcity.id cma_message.confused)
      let s := log_call { s with c := cma_release_city s.c pcity }
        (cycle_event.cma_release_city pcity.id)
      let s := log_call s (cycle_event.freelog_error error_message.changed_multiple_times)
      let s := log_call s (cycle_event.freelog_error error_message.please_report)
      (s, some ())
  else
    (s, some ())

/-- The function `handle_city`.  It returns the state reached and `some ()` when
it returns, `none` when an assertion fails. -/
def handle_city {R : Type} (env : agent_environment R) (s : agent_state) (pcity : city) :
    agent_state × Option Unit :=
  let city_id := pcity.id
  match handle_city_loop env city_id 5 0 s env.base.uninit_result with
  | (s, none) => (s, none)
  | (s, some handled) => after_loop s city_id handled

/-- The callback `city_remove` of the agent. -/
def city_remove (c : client) (city_id : Int) : client :=
  release_city c city_id

/-! ## cma_init -/

/-- The function `cma_init`, as far as the statistics go:
`memset(&stats, 0, sizeof(stats))`.  The timer and the registration of the agent
are left out. -/
def cma_init (c : client) : client :=
  { c with stats := { apply_result_ignored := 0, apply_result_applied := 0, refresh_forced := 0 } }

/-! ## Formatting a duration (client/climisc.c) -/

/-- Modelled from the spec: the macro `Q_` of utility/fcintl.h (not among the
sources) when no translation is loaded: a text of the form `?qualifier:text`
stands for `text`, any other text for itself. -/
def Q_ (text : List Char) : List Char :=
  match text with
  | '?' :: rest => if ':' ∈ rest then (rest.dropWhile (fun ch => ch ≠ ':')).drop 1 else text
  | _ => text

/-- The conversion `%02d` of the C library: the decimal digits of the number, with
a sign when it is negative, filled with `0` on the left to a width of 2. -/
def format_02d (n : Int) : List Char :=
  if n < 0 then '-' :: Nat.toDigits 10 n.natAbs
  else if n < 10 then '0' :: Nat.toDigits 10 n.toNat
  else Nat.toDigits 10 n.toNat

/-- The text that a format made of plain characters and conversions `%02d`
produces with the given arguments. -/
def format_text : List Char → List Int → List Char
  | '%' :: '0' :: '2' :: 'd' :: rest, n :: args => format_02d n ++ format_text rest args
  | ch :: rest, args => ch :: format_text rest args
  | [], _ => []

/-- Modelled from the spec: `my_snprintf` of utility/support.c (not among the
sources) writes the formatted text into a buffer of `buffer_size` bytes, one of
which is the terminating NUL: the text is cut after `buffer_size - 1`
characters. -/
def my_snprintf (buffer_size : Nat) (format : List Char) (args : List Int) : List Char :=
  (format_text format args).take (buffer_size - 1)

/-- The function `format_duration`: the text left in the buffer.  The divisions
and remainders are those of C, which truncate. -/
def format_duration (buffer_size : Nat) (duration : Int) : List Char :=
  let duration := if duration < 0 then 0 else duration
  if duration < 60 then
    my_snprintf buffer_size (Q_ "?seconds:%02ds".toList) [duration]
  else if duration < 3600 then
    my_snprintf buffer_size (Q_ "?mins/secs:%02dm %02ds".toList)
      [duration.tdiv 60, duration.tmod 60]
  else if duration < 360000 then
    my_snprintf buffer_size (Q_ "?hrs/mns:%02dh %02dm".toList)
      [duration.tdiv 3600, (duration.tdiv 60).tmod 60]
  else if duration < 8640000 then
    my_snprintf buffer_size (Q_ "?dys/hrs:%02dd %02dh".toList)
      [duration.tdiv 86400, (duration.tdiv 3600).tmod 24]
  else
    my_snprintf buffer_size (Q_ "?duration:overflow".toList) []

/-! ## The progress indicators (client/climisc.c) -/

/-- Modelled from the spec: the macro `MAX` of utility/shared.h (not among the
sources), `(((x)>(y))?(x):(y))`. -/
def MAX (x y : Int) : Int :=
  if x > y then x else y

/-- Modelled from the spec: the macro `MIN` of utility/shared.h (not among the
sources), `(((x)<(y))?(x):(y))`. -/
def MIN (x y : Int) : Int :=
  if x < y then x else y

/-- The fields of the global `game` that the indicators of global warming and of
nuclear winter read. -/
structure game_climate where
  globalwarming : Int
  heating : Int
  nuclearwinter : Int
  cooling : Int
  deriving DecidableEq, Repr

/-- The function `client_warming_sprite`; the constant `NUM_TILES_PROGRESS` of
client/tilespec.h is not among the sources and is an argument. -/
def client_warming_sprite (NUM_TILES_PROGRESS : Int) (game : game_climate) : Int :=
  if game.globalwarming ≤ 0 ∧ game.heating < NUM_TILES_PROGRESS.tdiv 2 then
    MAX 0 game.heating
  else
    MIN NUM_TILES_PROGRESS
      ((MAX 0 (4 + game.globalwarming)).tdiv 5 + (NUM_TILES_PROGRESS.tdiv 2 - 1))

/-- The function `client_cooling_sprite`. -/
def client_cooling_sprite (NUM_TILES_PROGRESS : Int) (game : game_climate) : Int :=
  if game.nuclearwinter ≤ 0 ∧ game.cooling < NUM_TILES_PROGRESS.tdiv 2 then
    MAX 0 game.cooling
  else
    MIN NUM_TILES_PROGRESS
      ((MAX 0 (4 + game.nuclearwinter)).tdiv 5 + (NUM_TILES_PROGRESS.tdiv 2 - 1))

/-! ## Compound ids and worklist ids (client/climisc.c)

The types `cid` and `wid` are `int`; the constants `B_LAST`, `U_LAST` and
`WORKLIST_END` are not among the sources and are arguments.  An `int` has 32
bits, and an addition or a subtraction that leaves its range wraps around. -/

/-- The smallest value of a C `int` of 32 bits. -/
def INT_MIN : Int := -2147483648

/-- The largest value of a C `int` of 32 bits. -/
def INT_MAX : Int := 2147483647

/-- The value that a C `int` of 32 bits holds after an addition or a subtraction
whose exact result is `x`: the result itself when it lies between `INT_MIN` and
`INT_MAX`, and the result brought back into that range by a multiple of `2^32`
otherwise (two's complement wrap-around). -/
def wrap_int (x : Int) : Int :=
  (x + 2147483648) % 4294967296 - 2147483648

/-- The function `cid_encode`. -/
def cid_encode (B_LAST : Int) (is_unit : Bool) (id : Int) : Int :=
  wrap_int (id + (if is_unit then B_LAST else 0))

/-- The function `cid_is_unit`. -/
def cid_is_unit (B_LAST : Int) (cid : Int) : Bool :=
  decide (cid ≥ B_LAST)

/-- The function `cid_id`. -/
def cid_id (B_LAST : Int) (cid : Int) : Int :=
  if cid ≥ B_LAST then wrap_int (cid - B_LAST) else cid

/-- The function `cid_decode`: the values it leaves in `*is_unit` and `*id`. -/
def cid_decode (B_LAST : Int) (cid : Int) : Bool × Int :=
  (cid_is_unit B_LAST cid, cid_id B_LAST cid)

/-- The function `wid_encode`; `none` when `assert(!is_unit || !is_worklist)`
fails. -/
def wid_encode (B_LAST U_LAST : Int) (is_unit is_worklist : Bool) (id : Int) : Option Int :=
  if (!is_unit || !is_worklist) = false then none
  else if is_unit then some (wrap_int (id + B_LAST))
  else if is_worklist then some (wrap_int (wrap_int (id + B_LAST) + U_LAST))
  else some id

/-- The function `wid_is_unit`; `none` when `assert(wid != WORKLIST_END)` fails. -/
def wid_is_unit (B_LAST U_LAST WORKLIST_END : Int) (wid : Int) : Option Bool :=
  if wid = WORKLIST_END then none
  else some (decide (wid ≥ B_LAST ∧ wid < wrap_int (B_LAST + U_LAST)))

/-- The function `wid_is_worklist`; `none` when `assert(wid != WORKLIST_END)`
fails. -/
def wid_is_worklist (B_LAST U_LAST WORKLIST_END : Int) (wid : Int) : Option Bool :=
  if wid = WORKLIST_END then none
  else some (decide (wid ≥ wrap_int (B_LAST + U_LAST)))

/-- The function `wid_id`; `none` when `assert(wid != WORKLIST_END)` fails. -/
def wid_id (B_LAST U_LAST WORKLIST_END : Int) (wid : Int) : Option Int :=
  if wid = WORKLIST_END then none
  else if wid ≥ wrap_int (B_LAST + U_LAST) then
    some (wrap_int (wid - wrap_int (B_LAST + U_LAST)))
  else if wid ≥ B_LAST then some (wrap_int (wid - B_LAST))
  else some wid

/-! ## The continent numbers of the client (client/climisc.c)

A map position is a pair of coordinates.  The map is seen as a function from the
position to the tile that `map_get_tile` returns for it; the recursion works on
normalised positions, one for each tile. -/

/-- The constant `MAX_NUM_CONT` of climisc.c. -/
def MAX_NUM_CONT : Int := 32767

/-- The fields of `struct tile` that the continent functions read and write. -/
structure tile where
  terrain : Int
  known : Int
  continent : Int
  deriving DecidableEq, Repr

/-- What the continent functions take from common/map.h and common/terrain.h,
which are not among the sources: the terrain `T_OCEAN`, the value
`TILE_KNOWN_FOGGED`, the function `normalize_map_pos` (`none` when it returns
FALSE, the normalised position otherwise) and the positions that
`adjc_iterate` visits around a position, in its order. -/
structure map_env where
  T_OCEAN : Int
  TILE_KNOWN_FOGGED : Int
  normalize_map_pos : Int × Int → Option (Int × Int)
  adjc_iterate : Int × Int → List (Int × Int)

/-- The calls that move the improvement data of the players from a continent
number to another; their effect on that data is not part of the model. -/
inductive island_call where
  | renumber_island_impr_effect (old newnumber : Int)
  | update_island_impr_effect (oldmax maxcont : Int)
  deriving DecidableEq, Repr

/-- The state that the continent functions work on: the tiles of the map, the
statics `max_cont_used` and `recyc_conts` (the recycled numbers, `recyc_ptr[0]`
first), and the calls made to the two functions of `island_call`. -/
structure climap where
  tiles : Int × Int → tile
  max_cont_used : Int
  recyc_conts : List Int
  island_calls : List island_call

/-- How a run of a recursive function ends: it returns, an assertion fails, or
the recursion is deeper than the fuel allows. -/
inductive run_result (α : Type) where
  | returned (a : α)
  | fault
  | out_of_fuel
  deriving DecidableEq, Repr

/-- Modelled from the spec: `map_get_continent` of common/map.c (not among the
sources), the field `continent` of the tile. -/
def map_get_continent (m : climap) (p : Int × Int) : Int :=
  (m.tiles p).continent

/-- Modelled from the spec: `map_set_continent` of common/map.c (not among the
sources), the assignment of the field `continent` of the tile. -/
def map_set_continent (m : climap) (p : Int × Int) (val : Int) : climap :=
  { m with tiles := fun q => if q = p then { m.tiles p with continent := val } else m.tiles q }

/-- The test `tile_get_known(i, j) >= TILE_KNOWN_FOGGED && map_get_terrain(i, j)
!= T_OCEAN` of the loops over the adjacent tiles. -/
def is_known_land (env : map_env) (m : climap) (p : Int × Int) : Bool :=
  decide ((m.tiles p).known ≥ env.TILE_KNOWN_FOGGED) && decide ((m.tiles p).terrain ≠ env.T_OCEAN)

/-- The function `recycle_continent_num`; `none` when its assertion fails. -/
def recycle_continent_num (m : climap) (cont : Int) : Option climap :=
  if cont > 0 ∧ cont ≤ m.max_cont_used then
    some { m with recyc_conts := m.recyc_conts ++ [cont] }
  else none

/-- The function `new_continent_num`: the state it leaves and the number it
returns; `none` when its assertion fails. -/
def new_continent_num (m : climap) : Option (climap × Int) :=
  match m.recyc_conts.getLast? with
  | some ret => some ({ m with recyc_conts := m.recyc_conts.dropLast }, ret)
  | none =>
    if m.max_cont_used < MAX_NUM_CONT then
      let m := { m with max_cont_used := m.max_cont_used + 1 }
      some ({ m with
        island_calls := m.island_calls
          ++ [island_call.update_island_impr_effect (m.max_cont_used - 1) m.max_cont_used] },
        m.max_cont_used)
    else none

/-- The loop `adjc_iterate` of `climap_renumber_continent` over the positions
`qs` still to visit; `recurse` is the recursive call. -/
def renumber_adjacent (env : map_env) (recurse : climap → Int × Int → run_result climap)
    (old : Int) : List (Int × Int) → climap → run_result climap
  | [], m => run_result.returned m
  | q :: qs, m =>
    if is_known_land env m q = true ∧ map_get_continent m q = old then
      match recurse m q with
      | run_result.returned m => renumber_adjacent env recurse old qs m
      | run_result.fault => run_result.fault
      | run_result.out_of_fuel => run_result.out_of_fuel
    else renumber_adjacent env recurse old qs m

/-- The function `climap_renumber_continent`; the first argument bounds the depth
of the recursion. -/
def climap_renumber_continent (env : map_env) :
    Nat → climap → Int × Int → Int → run_result climap
  | 0, _, _, _ => run_result.out_of_fuel
  | fuel + 1, m, xy, newnumber =>
    match env.normalize_map_pos xy with
    | none => run_result.returned m
    | some p =>
      let old := map_get_continent m p
      if ¬ ((m.tiles p).known ≥ env.TILE_KNOWN_FOGGED) then run_result.fault
      else if ¬ ((m.tiles p).terrain ≠ env.T_OCEAN) then run_result.fault
      else if ¬ (old > 0 ∧ old ≤ m.max_cont_used) then run_result.fault
      else
        let m := { m with
          island_calls := m.island_calls
            ++ [island_call.renumber_island_impr_effect old newnumber] }
        let m := map_set_continent m p newnumber
        renumber_adjacent env (fun m q => climap_renumber_continent env fuel m q newnumber)
          old (env.adjc_iterate p) m

/-- The loop `adjc_iterate` of `climap_update_continents` over the positions `qs`
still to visit, with the map and the local `this_con`. -/
def update_adjacent (env : map_env) (fuel : Nat) (xy : Int × Int) :
    List (Int × Int) → climap → Int → run_result (climap × Int)
  | [], m, this_con => run_result.returned (m, this_con)
  | q :: qs, m, this_con =>
    if is_known_land env m q = true then
      let con := map_get_continent m q
      if con > 0 then
        if this_con = -1 then
          update_adjacent env fuel xy qs (map_set_continent m xy con) con
        else if con ≠ this_con then
          match climap_renumber_continent env fuel m q this_con with
          | run_result.returned m =>
            match recycle_continent_num m con with
            | some m => update_adjacent env fuel xy qs m this_con
            | none => run_result.fault
          | run_result.fault => run_result.fault
          | run_result.out_of_fuel => run_result.out_of_fuel
        else update_adjacent env fuel xy qs m this_con
      else update_adjacent env fuel xy qs m this_con
    else update_adjacent env fuel xy qs m this_con

/-- The function `climap_update_continents`; the first argument bounds the depth
of the recursion of `climap_renumber_continent`. -/
def climap_update_continents (env : map_env) (fuel : Nat) (m : climap) (xy : Int × Int) :
    run_result climap :=
  if (m.tiles xy).terrain = env.T_OCEAN then run_result.returned m
  else
    match update_adjacent env fuel xy (env.adjc_iterate xy) m (-1) with
    | run_result.returned (m, this_con) =>
      if this_con = -1 then
        match new_continent_num m with
        | some (m, ret) => run_result.returned (map_set_continent m xy ret)
        | none => run_result.fault
      else run_result.returned m
    | run_result.fault => run_result.fault
    | run_result.out_of_fuel => run_result.out_of_fuel

/-! ## Auxiliary definitions used to state the properties -/

/-- The first (most significant) byte that `dio_put_sint16` writes for a value. -/
def hi16 (v : Int) : Nat := (v % 65536).toNat / 256

/-- The second (least significant) byte that `dio_put_sint16` writes for a value. -/
def lo16 (v : Int) : Nat := (v % 65536).toNat % 256

/-- The blob that `cma_set_parameter` builds, written out byte by byte. -/
def saved_bytes {R : Type} (p : cm_parameter R) : List Nat :=
  [2,
   hi16 (p.minimal_surplus 0), lo16 (p.minimal_surplus 0), hi16 (p.factor 0), lo16 (p.factor 0),
   hi16 (p.minimal_surplus 1), lo16 (p.minimal_surplus 1), hi16 (p.factor 1), lo16 (p.factor 1),
   hi16 (p.minimal_surplus 2), lo16 (p.minimal_surplus 2), hi16 (p.factor 2), lo16 (p.factor 2),
   hi16 (p.minimal_surplus 3), lo16 (p.minimal_surplus 3), hi16 (p.factor 3), lo16 (p.factor 3),
   hi16 (p.minimal_surplus 4), lo16 (p.minimal_surplus 4), hi16 (p.factor 4), lo16 (p.factor 4),
   hi16 (p.minimal_surplus 5), lo16 (p.minimal_surplus 5), hi16 (p.factor 5), lo16 (p.factor 5),
   hi16 p.happy_factor, lo16 p.happy_factor,
   0,
   if p.require_happy then 1 else 0]

/-- The signed value that `dio_get_sint16` reads at a position of a blob. -/
def rd16 (blob : List Nat) (pos : Nat) : Int :=
  if ((blob.getD pos 0 * 256 + blob.getD (pos + 1) 0 : Nat) : Int) > 0x7fff then
    ((blob.getD pos 0 * 256 + blob.getD (pos + 1) 0 : Nat) : Int) - 0x10000
  else ((blob.getD pos 0 * 256 + blob.getD (pos + 1) 0 : Nat) : Int)

/-- The boolean that `dio_get_bool8` reads at a position of a blob. -/
def rdbool (blob : List Nat) (pos : Nat) : Bool :=
  decide ((if ((blob.getD pos 0 : Nat) : Int) ≠ 0 ∧ ((blob.getD pos 0 : Nat) : Int) ≠ 1 then (1 : Int)
    else ((blob.getD pos 0 : Nat) : Int)) ≠ 0)

/-- A parameter used to exercise the codec: negative and positive values,
`require_happy` set. -/
def sample_parameter : cm_parameter Unit :=
  { minimal_surplus := fun i => (i : Int) - 3
    factor := fun i => 100 * (i : Int) + 1
    happy_factor := -2
    require_happy := true
    rest := () }

/-- An empty attribute store. -/
def empty_store : attribute_store := fun _ _ => []

/-- A store whose only blob, for city 7, is three bytes long. -/
def short_blob_store : attribute_store :=
  fun a c => if a = ATTR_CITY_CMA_PARAMETER ∧ c = 7 then [2, 0, 0] else []

/-- A store whose only blob, for city 7, has 29 bytes and starts with version 1. -/
def old_version_store : attribute_store :=
  fun a c => if a = ATTR_CITY_CMA_PARAMETER ∧ c = 7 then
    [1, 0, 0, 0, 1, 0, 0, 0, 1, 0, 0, 0, 1, 0, 0, 0, 1, 0, 0, 0, 1, 0, 0, 0, 1, 0, 1, 0, 0]
  else []

/-- A store whose only blob, for city 7, is a well-formed record (all fields 0
but factor[0] = 1 and require_happy set). -/
def good_store : attribute_store :=
  fun a c => if a = ATTR_CITY_CMA_PARAMETER ∧ c = 7 then
    [2, 0, 0, 0, 1, 0, 0, 0, 0, 0, 0, 0, 0, 0, 0, 0, 0, 0, 0, 0, 0, 0, 0, 0, 0, 0, 0, 0, 1]
  else []

/-- A stand-in for `cm_init_parameter` on a record whose remaining part is one
number: it sets that part to 42. -/
def sample_init (_p : cm_parameter Nat) : cm_parameter Nat :=
  { minimal_surplus := fun _ => 0, factor := fun _ => 1, happy_factor := 1,
    require_happy := false, rest := 42 }

/-- A prior content of the output parameter that differs from the defaults. -/
def scratch_parameter : cm_parameter Nat :=
  { minimal_surplus := fun _ => 9, factor := fun _ => 9, happy_factor := 9,
    require_happy := true, rest := 7 }

/-- A position is valid for the city when `city_map_checked_iterate` visits it:
it is a position of the city map and a real tile of the map. -/
def valid_city_position (g : game_consts) (pcity : city) (x y : Nat) : Prop :=
  (x, y) ∈ g.city_map_positions ∧ pcity.tile_on_map x y = true

instance (g : game_consts) (pcity : city) (x y : Nat) :
    Decidable (valid_city_position g pcity x y) := by
  unfold valid_city_position
  infer_instance

/-- All index pairs of the array `worker_positions_used`. -/
def city_map_array_positions (g : game_consts) : List (Nat × Nat) :=
  List.product (List.range g.CITY_MAP_SIZE) (List.range g.CITY_MAP_SIZE)

/-- The number of non-free valid positions of the city whose state is
`C_TILE_WORKER`, counted over the whole city map array. -/
def current_worker_count (g : game_consts) (pcity : city) : Nat :=
  ((city_map_array_positions g).filter (fun p =>
    decide (valid_city_position g pcity p.1 p.2) && !is_free_worked_tile g p.1 p.2
      && decide (pcity.city_map p.1 p.2 = city_tile_type.C_TILE_WORKER))).length

/-- The sum of specialist counts over all specialist types. -/
def specialists_sum (g : game_consts) (specialists : Nat → Int) : Int :=
  ((List.range g.SP_COUNT).map specialists).sum

/-- The number of set tile flags of a result, over the whole array. -/
def worker_flag_count (g : game_consts) (result : cm_result) : Nat :=
  ((city_map_array_positions g).filter
    (fun p => result.worker_positions_used p.1 p.2)).length

/-- The geometry is well formed: `city_map_iterate` visits no position twice and
only positions inside the array. -/
def well_formed_geometry (g : game_consts) : Prop :=
  g.city_map_positions.Nodup ∧
    ∀ p ∈ g.city_map_positions, p.1 < g.CITY_MAP_SIZE ∧ p.2 < g.CITY_MAP_SIZE

instance (g : game_consts) : Decidable (well_formed_geometry g) := by
  unfold well_formed_geometry
  infer_instance

/-- The usual constants: a city map of side 5 without its four corners, visited
row by row, three specialist types, the first being the default. -/
def standard_consts : game_consts :=
  { CITY_MAP_SIZE := 5
    city_map_positions :=
      [(0, 1), (0, 2), (0, 3),
       (1, 0), (1, 1), (1, 2), (1, 3), (1, 4),
       (2, 0), (2, 1), (2, 2), (2, 3), (2, 4),
       (3, 0), (3, 1), (3, 2), (3, 3), (3, 4),
       (4, 1), (4, 2), (4, 3)]
    SP_COUNT := 3
    DEFAULT_SPECIALIST := 0 }

/-- A city of size 3 at the edge of the map (the column x = 0 of its city map is
off the map): its centre (2, 2) is worked for free, two citizens work the tiles
(1, 2) and (3, 3), and one is a specialist of type 1. -/
def sample_city : city :=
  { id := 7
    owner := 0
    size := 3
    city_map := fun x y =>
      if (x, y) = (2, 2) ∨ (x, y) = (1, 2) ∨ (x, y) = (3, 3) then city_tile_type.C_TILE_WORKER
      else if (x, y) = (4, 2) then city_tile_type.C_TILE_UNAVAILABLE
      else city_tile_type.C_TILE_EMPTY
    specialists := fun sp => if sp = 1 then 1 else 0
    tile_on_map := fun x _ => decide (x ≠ 0)
    surplus := fun i => (i : Int) - 1
    disorder := false
    happy := true }

/-- The same city with one citizen unaccounted for. -/
def inconsistent_city : city := { sample_city with size := 4 }

/-- A prior content of a result record: everything set. -/
def scratch_result : cm_result :=
  { found_a_valid := false
    disorder := true
    happy := false
    surplus := fun _ => 99
    worker_positions_used := fun _ _ => true
    specialists := fun _ => 99 }

/-- The copy of a result with the tile flag at `(x, y)` inverted. -/
def flip_tile_flag (s : cm_result) (x y : Nat) : cm_result :=
  { s with worker_positions_used :=
      array2_set s.worker_positions_used x y (!s.worker_positions_used x y) }

/-- The copy of a result with the count of specialist type `sp` set to `v`. -/
def set_specialist_count (s : cm_result) (sp : Nat) (v : Int) : cm_result :=
  { s with specialists := array_set s.specialists sp v }

/-- The number of `C_TILE_WORKER` positions that `my_city_map_iterate` visits. -/
def visited_worker_count (g : game_consts) (pcity : city) : Nat :=
  ((my_city_map_iterate g pcity).filter (fun p =>
    decide (pcity.city_map p.1 p.2 = city_tile_type.C_TILE_WORKER))).length

/-- The record that `get_current_as_result` returns when its assertion holds. -/
def current_result (g : game_consts) (pcity : city) (prior : cm_result) : cm_result :=
  { found_a_valid := true
    disorder := pcity.disorder
    happy := pcity.happy
    surplus := pcity.surplus
    worker_positions_used := fun x y =>
      if (x, y) ∈ my_city_map_iterate g pcity then
        decide (pcity.city_map x y = city_tile_type.C_TILE_WORKER)
      else false
    specialists := fun sp =>
      if sp < g.SP_COUNT then pcity.specialists sp else prior.specialists sp }

/-! ## Auxiliary definitions for the properties of apply_result_on_server -/

/-- Append a list of calls to the trace. -/
def log_events (c : client) (es : List event) : client :=
  { c with trace := c.trace ++ es }

/-- Send a list of requests one after the other, with the two statements that
follow each request in `apply_result_on_server`. -/
def send_all {R : Type} (env : environment R) (s : req_state) (es : List event) : req_state :=
  es.foldl (fun s e => record_request s (send_packet env s.c e)) s

/-- Phase (a): one toggle-worker for each currently worked non-free valid tile
that the target does not use, in the order of the iteration. -/
def surplus_worker_toggles (g : game_consts) (pcity : city) (result : cm_result) :
    List event :=
  ((my_city_map_iterate g pcity).filter (fun p =>
      decide (pcity.city_map p.1 p.2 = city_tile_type.C_TILE_WORKER)
        && !result.worker_positions_used p.1 p.2)).map
    (fun p => event.city_toggle_worker pcity.id p.1 p.2)

/-- Phase (b): for each non-default specialist type `sp`, in order,
`max(0, current[sp] - target[sp])` conversions from `sp` to the default
specialist. -/
def excess_specialist_changes (g : game_consts) (pcity : city) (result : cm_result) :
    List event :=
  (List.range g.SP_COUNT).flatMap (fun sp =>
    if sp = g.DEFAULT_SPECIALIST then []
    else List.replicate (pcity.specialists sp - result.specialists sp).toNat
      (event.city_change_specialist pcity.id sp g.DEFAULT_SPECIALIST))

/-- Phase (c): one toggle-worker for each non-free valid tile that the target
uses and that is not currently worked, in the order of the iteration. -/
def missing_worker_toggles (g : game_consts) (pcity : city) (result : cm_result) :
    List event :=
  ((my_city_map_iterate g pcity).filter (fun p =>
      result.worker_positions_used p.1 p.2
        && !decide (pcity.city_map p.1 p.2 = city_tile_type.C_TILE_WORKER))).map
    (fun p => event.city_toggle_worker pcity.id p.1 p.2)

/-- Phase (d): for each non-default specialist type `sp`, in order,
`max(0, target[sp] - current[sp])` conversions from the default specialist to
`sp`. -/
def missing_specialist_changes (g : game_consts) (pcity : city) (result : cm_result) :
    List event :=
  (List.range g.SP_COUNT).flatMap (fun sp =>
    if sp = g.DEFAULT_SPECIALIST then []
    else List.replicate (result.specialists sp - pcity.specialists sp).toNat
      (event.city_change_specialist pcity.id g.DEFAULT_SPECIALIST sp))

/-- The requests of the four phases, in order. -/
def diff_requests (g : game_consts) (pcity : city) (result : cm_result) : List event :=
  surplus_worker_toggles g pcity result ++ excess_specialist_changes g pcity result
    ++ missing_worker_toggles g pcity result ++ missing_specialist_changes g pcity result

/-- The target passes the checks that `apply_result_on_server` asserts before and
while it sends requests: its workers and specialists sum to the size of the
city, and every tile it uses that is not worked now is `C_TILE_EMPTY`. -/
def target_passes_checks (g : game_consts) (pcity : city) (result : cm_result) : Prop :=
  pcity.size = cm_count_worker g pcity result + cm_count_specialist g pcity result ∧
  ∀ p ∈ my_city_map_iterate g pcity, result.worker_positions_used p.1 p.2 = true →
    pcity.city_map p.1 p.2 ≠ city_tile_type.C_TILE_WORKER →
    pcity.city_map p.1 p.2 = city_tile_type.C_TILE_EMPTY

instance (g : game_consts) (pcity : city) (result : cm_result) :
    Decidable (target_passes_checks g pcity result) := by
  unfold target_passes_checks
  infer_instance

/-- The toggle-worker and change-specialist requests. -/
def is_diff_request : event → Bool
  | event.city_toggle_worker _ _ _ => true
  | event.city_change_specialist _ _ _ => true
  | _ => false

/-- The state of the client when `apply_result_on_server` has left the fast path
behind: the first snapshot and the comparison are made, `apply_result_applied` is
incremented and the connection is buffered. -/
def client_after_entry (c : client) (pcity : city) : client :=
  let c := log_event c (event.get_current_as_result pcity.id)
  let c := log_event c (event.results_are_equal pcity.id)
  let c := { c with stats := { c.stats with
    apply_result_applied := c.stats.apply_result_applied + 1 } }
  log_event c event.connection_do_buffer

/-- The locals of `apply_result_on_server` when the connection has been
unbuffered, on a call that does not take the fast path. -/
def state_before_wait {R : Type} (env : environment R) (c : client) (pcity : city)
    (result : cm_result) : req_state :=
  send_changes env (client_after_entry c pcity) pcity result

/-- The state of the client when `wait_for_requests`, called with the locals `s`,
has returned. -/
def waited {R : Type} (env : environment R) (s : req_state) : client :=
  let c := log_event s.c (event.wait_for_requests s.first_request_id s.last_request_id)
  { c with world := env.wait_for_requests c s.first_request_id s.last_request_id }

/-- The state of the client when `wait_for_requests` has returned, on a call that
does not take the fast path and has sent a request. -/
def client_after_wait {R : Type} (env : environment R) (c : client) (pcity : city)
    (result : cm_result) : client :=
  waited env (state_before_wait env c pcity result)

/-- The city that `pcity` points to when `wait_for_requests` has returned. -/
def city_after_wait {R : Type} (env : environment R) (c : client) (pcity : city)
    (result : cm_result) : city :=
  ((client_after_wait env c pcity result).world.cities pcity.id).getD pcity

/-- The calls that a function has added to the trace. -/
def new_events (before after : client) : List event :=
  after.trace.drop before.trace.length

/-- The refresh request that `apply_result_on_server` adds to the requests of the
four phases: one `dsend_packet_city_refresh` when `last_request_id` is 0 after
them, none otherwise. -/
def forced_refresh_events {R : Type} (env : environment R) (c : client) (pcity : city)
    (result : cm_result) : List event :=
  if (send_all env ⟨c, 0, 0, false⟩ (diff_requests env.g pcity result)).last_request_id = 0 then
    [event.dsend_packet_city_refresh pcity.id]
  else []

/-- A city of size 5 whose citizens are five default specialists; only its centre
(2, 2) is worked, for free. -/
def village : city :=
  { id := 7
    owner := 0
    size := 5
    city_map := fun x y =>
      if (x, y) = (2, 2) then city_tile_type.C_TILE_WORKER else city_tile_type.C_TILE_EMPTY
    specialists := fun sp => if sp = 0 then 5 else 0
    tile_on_map := fun _ _ => true
    surplus := fun _ => 0
    disorder := false
    happy := false }

/-- A target for `village`: three worked tiles and two default specialists. -/
def village_target : cm_result :=
  { found_a_valid := true
    disorder := false
    happy := false
    surplus := fun _ => 3
    worker_positions_used := fun x y => decide ((x, y) = (1, 2) ∨ (x, y) = (2, 1) ∨ (x, y) = (3, 3))
    specialists := fun sp => if sp = 0 then 2 else 0 }

/-- The city `village` once the server has applied the three toggles that lead to
`village_target`. -/
def village_after : city :=
  { village with
    city_map := fun x y =>
      if (x, y) = (2, 2) ∨ (x, y) = (1, 2) ∨ (x, y) = (2, 1) ∨ (x, y) = (3, 3) then
        city_tile_type.C_TILE_WORKER
      else city_tile_type.C_TILE_EMPTY
    specialists := fun sp => if sp = 0 then 2 else 0
    surplus := fun _ => 3 }

/-- An environment with the usual constants, request ids 1, 2, 3, ..., and a
server that applies the requests for city 7 faithfully: when the wait returns
the city is `village_after`. -/
def faithful_env : environment Unit :=
  { g := standard_consts
    cm_init_parameter := id
    uninit_parameter := sample_parameter
    uninit_result := scratch_result
    request_id := fun n => (n : Int) + 1
    wait_for_requests := fun c _ _ =>
      { c.world with cities := fun i => if i = 7 then some village_after else c.world.cities i } }

/-- A client that knows `village`, owned by the local player, and has no
stored parameter for it: the city is not under agent control. -/
def free_client : client :=
  { world := { cities := fun i => if i = 7 then some village else none
               player_ptr := 0
               store := empty_store }
    stats := { apply_result_ignored := 0, apply_result_applied := 0, refresh_forced := 0 }
    trace := [] }

/-- The same client with a well-formed parameter stored for `village`: the city
is under agent control. -/
def agent_client : client :=
  { free_client with world := { free_client.world with store := good_store } }

/-- A valid target equal to what `village` is now, but for the surplus that the
client computed: no request can bring the two together. -/
def village_stale_target : cm_result :=
  { found_a_valid := true
    disorder := false
    happy := false
    surplus := fun _ => 1
    worker_positions_used := fun _ _ => false
    specialists := fun sp => if sp = 0 then 5 else 0 }

/-- A labour assignment as the server holds it: which tiles are worked and how
many specialists of each type there are. -/
structure assignment where
  worked : Nat → Nat → Bool
  specialists : Nat → Int

/-- The labour assignment of a city. -/
def city_assignment (pcity : city) : assignment :=
  { worked := fun x y => decide (pcity.city_map x y = city_tile_type.C_TILE_WORKER)
    specialists := pcity.specialists }

/-- The server model: toggling a worked tile frees the tile and adds one default
specialist, toggling an empty tile consumes one default specialist, and a
conversion from `a` to `b` consumes one specialist of type `a` and adds one of
type `b`.  Any other call leaves the assignment alone. -/
def server_apply (g : game_consts) (a : assignment) : event → assignment
  | event.city_toggle_worker _ x y =>
    if a.worked x y then
      { worked := array2_set a.worked x y false
        specialists := array_set a.specialists g.DEFAULT_SPECIALIST
          (a.specialists g.DEFAULT_SPECIALIST + 1) }
    else
      { worked := array2_set a.worked x y true
        specialists := array_set a.specialists g.DEFAULT_SPECIALIST
          (a.specialists g.DEFAULT_SPECIALIST - 1) }
  | event.city_change_specialist _ from_sp to_sp =>
    { worked := a.worked
      specialists :=
        array_set (array_set a.specialists from_sp (a.specialists from_sp - 1)) to_sp
          (array_set a.specialists from_sp (a.specialists from_sp - 1) to_sp + 1) }
  | _ => a

/-- The request finds the citizen it consumes: a toggle on an empty tile needs a
default specialist, a conversion needs a specialist of the type it converts. -/
def citizen_available (g : game_consts) (a : assignment) : event → Prop
  | event.city_toggle_worker _ x y =>
    a.worked x y = true ∨ 1 ≤ a.specialists g.DEFAULT_SPECIALIST
  | event.city_change_specialist _ from_sp _ => 1 ≤ a.specialists from_sp
  | _ => True

/-- The assignment after the server has applied a list of requests in order. -/
def simulate (g : game_consts) (a : assignment) (es : List event) : assignment :=
  es.foldl (server_apply g) a

/-- The citizens of an assignment: the worked non-free valid tiles of the city
plus the specialists of all types. -/
def assignment_total (g : game_consts) (pcity : city) (a : assignment) : Int :=
  (((my_city_map_iterate g pcity).filter (fun p => a.worked p.1 p.2)).length : Int)
    + specialists_sum g a.specialists

/-- No count of an assignment is negative and its citizens are as many as the
size of the city. -/
def assignment_sound (g : game_consts) (pcity : city) (a : assignment) : Prop :=
  (∀ sp < g.SP_COUNT, 0 ≤ a.specialists sp) ∧ assignment_total g pcity a = pcity.size

/-- Every request of the list, applied in order from `a`, finds the citizen it
consumes, and the assignment is sound before and after each of them. -/
def safe_run (g : game_consts) (pcity : city) (a : assignment) : List event → Prop
  | [] => assignment_sound g pcity a
  | e :: es => assignment_sound g pcity a ∧ citizen_available g a e ∧
      safe_run g pcity (server_apply g a e) es

/-- The toggle-worker requests. -/
def is_toggle_worker : event → Bool
  | event.city_toggle_worker _ _ _ => true
  | _ => false

/-- The specialist conversions. -/
def is_change_specialist : event → Bool
  | event.city_change_specialist _ _ _ => true
  | _ => false

/-- The number of non-free valid tiles on which the worked state of the city and
the tile flag of the target differ. -/
def differing_tile_count (g : game_consts) (pcity : city) (result : cm_result) : Nat :=
  ((city_map_array_positions g).filter (fun p =>
    decide (valid_city_position g pcity p.1 p.2) && !is_free_worked_tile g p.1 p.2
      && (decide (pcity.city_map p.1 p.2 = city_tile_type.C_TILE_WORKER)
            != result.worker_positions_used p.1 p.2))).length

/-- The sum over the non-default specialist types of `|current - target|`. -/
def conversion_count (g : game_consts) (pcity : city) (result : cm_result) : Nat :=
  ((List.range g.SP_COUNT).map (fun sp =>
    if sp = g.DEFAULT_SPECIALIST then 0
    else (pcity.specialists sp - result.specialists sp).natAbs)).sum

/-- The refresh requests. -/
def is_refresh : event → Bool
  | event.dsend_packet_city_refresh _ => true
  | _ => false

/-! ## Auxiliary definitions for the properties of handle_city -/

/-- The state of the agent and the content of the result record at the start of
pass `k` of the loop of `handle_city` (the first pass is pass 0), when the loop
has gone through the passes before it. -/
def attempt_start {R : Type} (env : agent_environment R) (city_id : Int) (s : agent_state) :
    Nat → agent_state × cm_result
  | 0 => (s, env.base.uninit_result)
  | k + 1 =>
    let r := handle_city_try env city_id k (attempt_start env city_id s k).1
      (attempt_start env city_id s k).2
    (r.1, r.2.1)

/-- Pass `k` of the loop of `handle_city` called in the state `s`. -/
def attempt {R : Type} (env : agent_environment R) (city_id : Int) (s : agent_state)
    (k : Nat) : agent_state × cm_result × try_outcome :=
  handle_city_try env city_id k (attempt_start env city_id s k).1
    (attempt_start env city_id s k).2

/-- The calls that `handle_city` has added to its log. -/
def new_calls (before after : agent_state) : List cycle_event :=
  after.log.drop before.log.length

/-- The calls of `cm_query_result`. -/
def is_query : cycle_event → Bool
  | cycle_event.cm_query_result _ _ => true
  | _ => false

/-- The calls of `apply_result_on_server`. -/
def is_apply : cycle_event → Bool
  | cycle_event.apply_result_on_server _ _ => true
  | _ => false

/-- The calls of `cma_release_city` made by `handle_city` itself. -/
def is_release : cycle_event → Bool
  | cycle_event.cma_release_city _ => true
  | _ => false

/-- The user events: the calls of `create_event`. -/
def is_user_event : cycle_event → Bool
  | cycle_event.create_event _ _ => true
  | _ => false

/-- The user events "The citizen governor has gotten confused ...". -/
def is_confused_event : cycle_event → Bool
  | cycle_event.create_event _ cma_message.confused => true
  | _ => false

/-- The diagnostics at the level `LOG_ERROR`. -/
def is_error_log : cycle_event → Bool
  | cycle_event.freelog_error _ => true
  | _ => false

/-- The calls of `refresh_city_dialog`, which only `cma_release_city` makes. -/
def is_refresh_city_dialog : event → Bool
  | event.refresh_city_dialog _ => true
  | _ => false

/-- An oracle that always proposes `village_target`, with a faithful server. -/
def faithful_agent_env : agent_environment Unit :=
  { base := faithful_env
    cm_query_result := fun _ _ _ _ => village_target }

/-- An oracle that always proposes `village_target`, with a server that ignores
every request: the world is the same when the wait returns. -/
def ignoring_env : agent_environment Unit :=
  { base := { faithful_env with wait_for_requests := fun c _ _ => c.world }
    cm_query_result := fun _ _ _ _ => village_target }

/-- An oracle that finds no valid assignment. -/
def infeasible_env : agent_environment Unit :=
  { base := faithful_env
    cm_query_result := fun _ _ _ _ => { village_target with found_a_valid := false } }

/-- An oracle that always proposes `village_target`, with a server that ignores
every request; while the client waits for the requests 13 to 15, which are those
of the fifth pass, the city is destroyed. -/
def destroying_env : agent_environment Unit :=
  { base := { faithful_env with
      wait_for_requests := fun c first _ =>
        if 13 ≤ first then { c.world with cities := fun _ => none } else c.world }
    cm_query_result := fun _ _ _ _ => village_target }

/-- The agent before a call of `handle_city`, with `village` under agent
control. -/
def agent_start : agent_state :=
  { c := agent_client, log := [] }

/-- The agent before a call of `handle_city`, with `village` not under agent
control. -/
def free_start : agent_state :=
  { c := free_client, log := [] }

/-- The parameter that `check_city(city_id, &parameter)` leaves in the local
`parameter` of the loop body. -/
def checked_parameter {R : Type} (env : agent_environment R) (c : client) (city_id : Int) :
    cm_parameter R :=
  (((check_city env.base c city_id (some env.base.uninit_parameter)).2.map Prod.snd).join).getD
    env.base.uninit_parameter

/-- The result that `cm_query_result` produces in a pass of the loop that starts
in the state `c` of the client with `result` in the result record, for the city
`pcity`. -/
def queried_result {R : Type} (env : agent_environment R) (c : client) (city_id : Int)
    (pcity : city) (result : cm_result) : cm_result :=
  env.cm_query_result c pcity (checked_parameter env c city_id) result

/-- An oracle that always proposes `village_target`, with a server that ignores
every request; while the client waits for the requests 13 to 15, which are those
of the fifth pass, the stored parameter of the city is removed. -/
def revoking_env : agent_environment Unit :=
  { base := { faithful_env with
      wait_for_requests := fun c first _ =>
        if 13 ≤ first then { c.world with store := empty_store } else c.world }
    cm_query_result := fun _ _ _ _ => village_target }

/-- The calls of `wait_for_requests`. -/
def is_wait : event → Bool
  | event.wait_for_requests _ _ => true
  | _ => false

/-! ## Auxiliary definitions for the properties of the statistics and of the solver cache -/

/-- The calls of `cm_clear_cache`. -/
def is_clear_cache : event → Bool
  | event.cm_clear_cache _ => true
  | _ => false

/-- One call of `apply_result_on_server` in a sequence of calls: the world in
which the call is made (anything may have happened to it since the call before),
the city and the target. -/
structure apply_call where
  world : client_world
  pcity : city
  result : cm_result

/-- The client after a sequence of calls of `apply_result_on_server`, each made in
the world of its entry; a call that ends in a fault leaves the client as the
fault found it. -/
def apply_calls {R : Type} (env : environment R) (c : client) (calls : List apply_call) :
    client :=
  calls.foldl (fun c call =>
    (apply_result_on_server env { c with world := call.world } call.pcity call.result).1) c

/-- A target for `sample_city` that sums to its size but uses the tile (4, 2),
which is `C_TILE_UNAVAILABLE`: it keeps the worker on (1, 2) and the specialist
of type 1, gives up the tile (3, 3) and asks for the tile (4, 2). -/
def blocked_target : cm_result :=
  { found_a_valid := true
    disorder := false
    happy := true
    surplus := fun i => (i : Int) - 1
    worker_positions_used := fun x y => decide ((x, y) = (1, 2) ∨ (x, y) = (4, 2))
    specialists := fun sp => if sp = 1 then 1 else 0 }

/-- A target for `sample_city` that asks for one citizen more than the city has:
what the city has now and a worker on the tile (4, 2). -/
def oversized_target : cm_result :=
  { found_a_valid := true
    disorder := false
    happy := true
    surplus := fun i => (i : Int) - 1
    worker_positions_used := fun x y =>
      decide ((x, y) = (1, 2) ∨ (x, y) = (3, 3) ∨ (x, y) = (4, 2))
    specialists := fun sp => if sp = 1 then 1 else 0 }

/-! ## Auxiliary definitions for the properties of the continent numbers -/

/-- The map is finite and its geometry is sound: every normalised position is
one of `all_tiles`, and the positions that `adjc_iterate` visits are
normalised. -/
def well_formed_map (env : map_env) (all_tiles : List (Int × Int)) : Prop :=
  (∀ p q, env.normalize_map_pos p = some q → q ∈ all_tiles) ∧
  (∀ p, ∀ q ∈ env.adjc_iterate p, env.normalize_map_pos q = some q)

/-- The number of tiles of the map that carry the continent number `old`. -/
def carrying (all_tiles : List (Int × Int)) (m : climap) (old : Int) : Nat :=
  all_tiles.countP (fun t => decide (map_get_continent m t = old))

/-- The state `m2` comes from `m1` by giving the number `newnumber` to some of
the tiles that carried `old`: nothing else differs in the tiles, and the statics
are the same. -/
def renumbered (old newnumber : Int) (m1 m2 : climap) : Prop :=
  m2.max_cont_used = m1.max_cont_used ∧ m2.recyc_conts = m1.recyc_conts ∧
  ∀ t, (m2.tiles t).terrain = (m1.tiles t).terrain ∧ (m2.tiles t).known = (m1.tiles t).known ∧
    (map_get_continent m2 t = map_get_continent m1 t ∨
      (map_get_continent m1 t = old ∧ map_get_continent m2 t = newnumber))

/-- Every tile that carried `old` in `m1` and does not in `m2` has no adjacent
known land tile that carries `old` in `m2`. -/
def closed_under_adjacency (env : map_env) (old : Int) (m1 m2 : climap) : Prop :=
  ∀ t, map_get_continent m1 t = old → map_get_continent m2 t ≠ old →
    ∀ q ∈ env.adjc_iterate t, is_known_land env m1 q = true → map_get_continent m2 q ≠ old

/-- The tiles that can be reached from `p` through adjacent known land tiles that
carry `old` in `m`. -/
inductive reachable (env : map_env) (m : climap) (old : Int) (p : Int × Int) :
    Int × Int → Prop where
  | start : reachable env m old p p
  | step (t q : Int × Int) : reachable env m old p t → q ∈ env.adjc_iterate t →
      is_known_land env m q = true → map_get_continent m q = old → reachable env m old p q

/-- The state `m2` comes from `m1` by giving the number `this_con` to some tiles:
nothing else differs in the tiles, and `max_cont_used` is the same. -/
def merged_into (this_con : Int) (m1 m2 : climap) : Prop :=
  m2.max_cont_used = m1.max_cont_used ∧
  ∀ t, (m2.tiles t).terrain = (m1.tiles t).terrain ∧ (m2.tiles t).known = (m1.tiles t).known ∧
    (map_get_continent m2 t = map_get_continent m1 t ∨ map_get_continent m2 t = this_con)

/-- The test of the loop of `climap_update_continents` for a numbered neighbour:
a known land tile with a positive continent number. -/
def is_numbered_land (env : map_env) (m : climap) (q : Int × Int) : Bool :=
  is_known_land env m q && decide (0 < map_get_continent m q)

/-- The assertions that a call of `climap_update_continents` at `xy` comes to
hold.  With a numbered neighbour: every other numbered neighbour (the tile
itself apart) whose number differs from the number of the first one is
renumbered and its number recycled, which asserts that the number is at most
`max_cont_used`.  Without a numbered neighbour: `new_continent_num` asserts
`max_cont_used < MAX_NUM_CONT` when no number is recycled. -/
def update_asserts_hold (env : map_env) (m : climap) (xy : Int × Int) : Prop :=
  (∀ q0, (env.adjc_iterate xy).find? (is_numbered_land env m) = some q0 →
    ∀ q ∈ env.adjc_iterate xy, q ≠ xy → is_numbered_land env m q = true →
      map_get_continent m q ≠ map_get_continent m q0 →
      map_get_continent m q ≤ m.max_cont_used) ∧
  ((env.adjc_iterate xy).find? (is_numbered_land env m) = none →
    m.recyc_conts ≠ [] ∨ m.max_cont_used < MAX_NUM_CONT)

/-- The statics of the continent numbers are sound for the map: `max_cont_used`
is not negative, no known land tile has a number above it, and the recycled
numbers are positive and on no known land tile. -/
def continents_sound (env : map_env) (m : climap) : Prop :=
  0 ≤ m.max_cont_used ∧
  (∀ t, is_known_land env m t = true → map_get_continent m t ≤ m.max_cont_used) ∧
  (∀ c ∈ m.recyc_conts, 0 < c ∧
    ∀ t, is_known_land env m t = true → map_get_continent m t ≠ c)

/-- Every positive continent number on known land tiles labels one set of tiles
connected through adjacent known land tiles that carry it. -/
def continents_connected (env : map_env) (m : climap) : Prop :=
  ∀ t1 t2, is_known_land env m t1 = true → is_known_land env m t2 = true →
    0 < map_get_continent m t1 → map_get_continent m t2 = map_get_continent m t1 →
    reachable env m (map_get_continent m t1) t1 t2

/-- The continent number of a position in the state that a run has returned. -/
def returned_continent (r : run_result climap) (p : Int × Int) : Option Int :=
  match r with
  | run_result.returned m => some (map_get_continent m p)
  | _ => none

/-- A flat map of four columns and two rows: a position is real when it lies on
the map, and `adjc_iterate` visits the real positions among the eight around a
position, row by row. -/
def sample_map_env : map_env :=
  { T_OCEAN := 7
    TILE_KNOWN_FOGGED := 1
    normalize_map_pos := fun p =>
      if 0 ≤ p.1 ∧ p.1 < 4 ∧ 0 ≤ p.2 ∧ p.2 < 2 then some p else none
    adjc_iterate := fun p =>
      ([(-1, -1), (0, -1), (1, -1), (-1, 0), (1, 0), (-1, 1), (0, 1), (1, 1)].map
        (fun d : Int × Int => (p.1 + d.1, p.2 + d.2))).filter
        (fun q => decide (0 ≤ q.1 ∧ q.1 < 4 ∧ 0 ≤ q.2 ∧ q.2 < 2)) }

/-- The positions of the sample map. -/
def sample_tiles : List (Int × Int) :=
  [(0, 0), (1, 0), (2, 0), (3, 0), (0, 1), (1, 1), (2, 1), (3, 1)]

/-- A sample map: the known land tiles (0, 0) and (1, 0) are continent 1, the
known land tiles (3, 0) and (3, 1) are continent 2, the land tile (2, 0) between
them has no number yet, the land tile (1, 1) is unknown and the other tiles are
ocean. -/
def sample_map : climap :=
  { tiles := fun p =>
      if p = (0, 0) then ⟨3, 2, 1⟩
      else if p = (1, 0) then ⟨3, 2, 1⟩
      else if p = (2, 0) then ⟨3, 2, 0⟩
      else if p = (3, 0) then ⟨3, 2, 2⟩
      else if p = (3, 1) then ⟨3, 1, 2⟩
      else if p = (1, 1) then ⟨3, 0, 0⟩
      else ⟨7, 2, 0⟩
    max_cont_used := 2
    recyc_conts := []
    island_calls := [] }

/-- A map whose statics are not sound: the known land tiles (0, 0) and (1, 0) are
continent 1, the known land tile (3, 0) has no number yet and has only ocean
around it, and the number 1 is among the recycled numbers although it is in
use. -/
def stale_map : climap :=
  { tiles := fun p =>
      if p = (0, 0) then ⟨3, 2, 1⟩
      else if p = (1, 0) then ⟨3, 2, 1⟩
      else if p = (3, 0) then ⟨3, 2, 0⟩
      else ⟨7, 2, 0⟩
    max_cont_used := 1
    recyc_conts := [1]
    island_calls := [] }

/-! ## Properties of the parameter codec -/

theorem rdbool_eq (blob : List Nat) (pos : Nat) :
    rdbool blob pos = decide (blob.getD pos 0 ≠ 0) := by
  unfold rdbool
  generalize blob.getD pos 0 = b
  by_cases h0 : b = 0
  · simp [h0]
  · by_cases h1 : b = 1
    · simp [h1]
    · have e0 : (b : Int) ≠ 0 := by exact_mod_cast h0
      have e1 : (b : Int) ≠ 1 := by exact_mod_cast h1
      simp [h0, e0, e1]

/-- The two bytes written for a value hold the value modulo 65536. -/
theorem hi16_lo16_value (v : Int) : ((hi16 v * 256 + lo16 v : Nat) : Int) = v % 65536 := by
  unfold hi16 lo16
  rw [Nat.div_add_mod']
  exact Int.toNat_of_nonneg (Int.emod_nonneg _ (by norm_num))

theorem hi16_lt (v : Int) : hi16 v < 256 := by
  have h := hi16_lo16_value v
  have : lo16 v < 256 := Nat.mod_lt _ (by norm_num)
  omega

theorem lo16_lt (v : Int) : lo16 v < 256 := Nat.mod_lt _ (by norm_num)

/-- Reading back the two bytes written for a value in the signed 16-bit range
gives the value. -/
theorem rd16_hi16_lo16 (v : Int) (h1 : -32768 ≤ v) (h2 : v ≤ 32767) (blob : List Nat)
    (pos : Nat) (hhi : blob.getD pos 0 = hi16 v) (hlo : blob.getD (pos + 1) 0 = lo16 v) :
    rd16 blob pos = v := by
  unfold rd16
  rw [hhi, hlo, hi16_lo16_value]
  split <;> omega

/-- The unsigned value of two bytes of a blob that were written for `v`. -/
theorem be_value (v : Int) (blob : List Nat) (pos pos' : Nat)
    (hhi : blob.getD pos 0 = hi16 v) (hlo : blob.getD pos' 0 = lo16 v) :
    ((blob.getD pos 0 * 256 + blob.getD pos' 0 : Nat) : Int) = v % 65536 := by
  rw [hhi, hlo, hi16_lo16_value]

theorem cma_set_parameter_eq {R : Type} (store : attribute_store) (attr : attr_city)
    (city_id : Int) (p : cm_parameter R) :
    cma_set_parameter store attr city_id p
      = some (attr_city_set store attr city_id SAVED_PARAMETER_SIZE (saved_bytes p)) := by
  cases h : p.require_happy <;>
  simp [cma_set_parameter, dio_output_init, dio_put_uint8, dio_put_sint16, dio_put_uint16,
    dio_put_bool8, enough_space, dio_output_used, O_LAST, SAVED_PARAMETER_SIZE, List.range,
    List.range.loop, saved_bytes, hi16, lo16, h]

theorem attr_city_get_set (store : attribute_store) (attr : attr_city) (city_id : Int)
    (n : Nat) (data : List Nat) :
    attr_city_get (attr_city_set store attr city_id n data) attr city_id = data.take n := by
  simp [attr_city_get, attr_city_set]

theorem saved_bytes_take {R : Type} (p : cm_parameter R) :
    (saved_bytes p).take SAVED_PARAMETER_SIZE = saved_bytes p := rfl

theorem length_29 (l : List Nat) (h : l.length = 29) :
    ∃ b0 b1 b2 b3 b4 b5 b6 b7 b8 b9 b10 b11 b12 b13 b14 b15 b16 b17 b18 b19 b20 b21 b22 b23 b24 b25 b26 b27 b28 : Nat,
      l = [b0, b1, b2, b3, b4, b5, b6, b7, b8, b9, b10, b11, b12, b13, b14, b15, b16, b17, b18, b19, b20, b21, b22, b23, b24, b25, b26, b27, b28] := by
  rcases l with _ | ⟨b0, l⟩
  · simp at h
  rcases l with _ | ⟨b1, l⟩
  · simp at h
  rcases l with _ | ⟨b2, l⟩
  · simp at h
  rcases l with _ | ⟨b3, l⟩
  · simp at h
  rcases l with _ | ⟨b4, l⟩
  · simp at h
  rcases l with _ | ⟨b5, l⟩
  · simp at h
  rcases l with _ | ⟨b6, l⟩
  · simp at h
  rcases l with _ | ⟨b7, l⟩
  · simp at h
  rcases l with _ | ⟨b8, l⟩
  · simp at h
  rcases l with _ | ⟨b9, l⟩
  · simp at h
  rcases l with _ | ⟨b10, l⟩
  · simp at h
  rcases l with _ | ⟨b11, l⟩
  · simp at h
  rcases l with _ | ⟨b12, l⟩
  · simp at h
  rcases l with _ | ⟨b13, l⟩
  · simp at h
  rcases l with _ | ⟨b14, l⟩
  · simp at h
  rcases l with _ | ⟨b15, l⟩
  · simp at h
  rcases l with _ | ⟨b16, l⟩
  · simp at h
  rcases l with _ | ⟨b17, l⟩
  · simp at h
  rcases l with _ | ⟨b18, l⟩
  · simp at h
  rcases l with _ | ⟨b19, l⟩
  · simp at h
  rcases l with _ | ⟨b20, l⟩
  · simp at h
  rcases l with _ | ⟨b21, l⟩
  · simp at h
  rcases l with _ | ⟨b22, l⟩
  · simp at h
  rcases l with _ | ⟨b23, l⟩
  · simp at h
  rcases l with _ | ⟨b24, l⟩
  · simp at h
  rcases l with _ | ⟨b25, l⟩
  · simp at h
  rcases l with _ | ⟨b26, l⟩
  · simp at h
  rcases l with _ | ⟨b27, l⟩
  · simp at h
  rcases l with _ | ⟨b28, l⟩
  · simp at h
  rcases l with _ | ⟨c, l⟩
  · exact ⟨b0, b1, b2, b3, b4, b5, b6, b7, b8, b9, b10, b11, b12, b13, b14, b15, b16, b17, b18, b19, b20, b21, b22, b23, b24, b25, b26, b27, b28, rfl⟩
  · simp at h

/-- The value of `cma_get_parameter` depends on the store only through the
blob of the city. -/
theorem cma_get_parameter_congr {R : Type} (init : cm_parameter R → cm_parameter R)
    (store store' : attribute_store) (attr : attr_city) (city_id : Int) (prior : cm_parameter R)
    (h : attr_city_get store attr city_id = attr_city_get store' attr city_id) :
    cma_get_parameter init store attr city_id prior
      = cma_get_parameter init store' attr city_id prior := by
  unfold cma_get_parameter
  rw [h]

/-- What `cma_get_parameter` returns on a blob of 29 bytes of version 2. -/
theorem cma_get_parameter_decode {R : Type} (init : cm_parameter R → cm_parameter R)
    (store : attribute_store) (attr : attr_city) (city_id : Int) (prior : cm_parameter R)
    (hlen : (attr_city_get store attr city_id).length = 29)
    (hver : (attr_city_get store attr city_id).getD 0 0 = 2) :
    ∃ q, cma_get_parameter init store attr city_id prior = some (true, q) ∧
      (∀ i < O_LAST, q.minimal_surplus i = rd16 (attr_city_get store attr city_id) (1 + 4 * i)) ∧
      (∀ i < O_LAST, q.factor i = rd16 (attr_city_get store attr city_id) (3 + 4 * i)) ∧
      q.happy_factor = rd16 (attr_city_get store attr city_id) 25 ∧
      q.require_happy = rdbool (attr_city_get store attr city_id) 28 ∧
      q.rest = (init prior).rest ∧
      (∀ i, O_LAST ≤ i → q.minimal_surplus i = (init prior).minimal_surplus i ∧
        q.factor i = (init prior).factor i) := by
  obtain ⟨b0, b1, b2, b3, b4, b5, b6, b7, b8, b9, b10, b11, b12, b13, b14, b15, b16, b17, b18, b19, b20, b21, b22, b23, b24, b25, b26, b27, b28, hb⟩ :=
    length_29 _ hlen
  rw [cma_get_parameter_congr init store (fun _ _ => attr_city_get store attr city_id) attr
    city_id prior rfl]
  rw [hb] at hver ⊢
  simp only [List.getD_cons_zero] at hver
  subst hver
  refine ⟨((cma_get_parameter init (fun _ _ => [2, b1, b2, b3, b4, b5, b6, b7, b8, b9, b10, b11, b12, b13, b14, b15, b16, b17, b18, b19, b20, b21, b22, b23, b24, b25, b26, b27, b28]) attr city_id prior).getD (false, prior)).2,
    rfl, ?_, ?_, rfl, rfl, rfl, ?_⟩
  · intro i hi
    simp only [O_LAST] at hi
    interval_cases i <;> rfl
  · intro i hi
    simp only [O_LAST] at hi
    interval_cases i <;> rfl
  · intro i hi
    simp only [O_LAST] at hi
    have e1 : ((cma_get_parameter init (fun _ _ => [2, b1, b2, b3, b4, b5, b6, b7, b8, b9, b10, b11, b12, b13, b14, b15, b16, b17, b18, b19, b20, b21, b22, b23, b24, b25, b26, b27, b28]) attr city_id prior).getD (false, prior)).2.minimal_surplus
        = array_set (array_set (array_set (array_set (array_set (array_set
            (init prior).minimal_surplus 0 (rd16 [2, b1, b2, b3, b4, b5, b6, b7, b8, b9, b10, b11, b12, b13, b14, b15, b16, b17, b18, b19, b20, b21, b22, b23, b24, b25, b26, b27, b28] 1)) 1 (rd16 [2, b1, b2, b3, b4, b5, b6, b7, b8, b9, b10, b11, b12, b13, b14, b15, b16, b17, b18, b19, b20, b21, b22, b23, b24, b25, b26, b27, b28] 5)) 2
            (rd16 [2, b1, b2, b3, b4, b5, b6, b7, b8, b9, b10, b11, b12, b13, b14, b15, b16, b17, b18, b19, b20, b21, b22, b23, b24, b25, b26, b27, b28] 9)) 3 (rd16 [2, b1, b2, b3, b4, b5, b6, b7, b8, b9, b10, b11, b12, b13, b14, b15, b16, b17, b18, b19, b20, b21, b22, b23, b24, b25, b26, b27, b28] 13)) 4 (rd16 [2, b1, b2, b3, b4, b5, b6, b7, b8, b9, b10, b11, b12, b13, b14, b15, b16, b17, b18, b19, b20, b21, b22, b23, b24, b25, b26, b27, b28] 17)) 5
            (rd16 [2, b1, b2, b3, b4, b5, b6, b7, b8, b9, b10, b11, b12, b13, b14, b15, b16, b17, b18, b19, b20, b21, b22, b23, b24, b25, b26, b27, b28] 21) := rfl
    have e2 : ((cma_get_parameter init (fun _ _ => [2, b1, b2, b3, b4, b5, b6, b7, b8, b9, b10, b11, b12, b13, b14, b15, b16, b17, b18, b19, b20, b21, b22, b23, b24, b25, b26, b27, b28]) attr city_id prior).getD (false, prior)).2.factor
        = array_set (array_set (array_set (array_set (array_set (array_set
            (init prior).factor 0 (rd16 [2, b1, b2, b3, b4, b5, b6, b7, b8, b9, b10, b11, b12, b13, b14, b15, b16, b17, b18, b19, b20, b21, b22, b23, b24, b25, b26, b27, b28] 3)) 1 (rd16 [2, b1, b2, b3, b4, b5, b6, b7, b8, b9, b10, b11, b12, b13, b14, b15, b16, b17, b18, b19, b20, b21, b22, b23, b24, b25, b26, b27, b28] 7)) 2
            (rd16 [2, b1, b2, b3, b4, b5, b6, b7, b8, b9, b10, b11, b12, b13, b14, b15, b16, b17, b18, b19, b20, b21, b22, b23, b24, b25, b26, b27, b28] 11)) 3 (rd16 [2, b1, b2, b3, b4, b5, b6, b7, b8, b9, b10, b11, b12, b13, b14, b15, b16, b17, b18, b19, b20, b21, b22, b23, b24, b25, b26, b27, b28] 15)) 4 (rd16 [2, b1, b2, b3, b4, b5, b6, b7, b8, b9, b10, b11, b12, b13, b14, b15, b16, b17, b18, b19, b20, b21, b22, b23, b24, b25, b26, b27, b28] 19)) 5
            (rd16 [2, b1, b2, b3, b4, b5, b6, b7, b8, b9, b10, b11, b12, b13, b14, b15, b16, b17, b18, b19, b20, b21, b22, b23, b24, b25, b26, b27, b28] 23) := rfl
    rw [e1, e2]
    have n0 : i ≠ 0 := by omega
    have n1 : i ≠ 1 := by omega
    have n2 : i ≠ 2 := by omega
    have n3 : i ≠ 3 := by omega
    have n4 : i ≠ 4 := by omega
    have n5 : i ≠ 5 := by omega
    simp only [array_set, n0, n1, n2, n3, n4, n5, if_false, and_self]

/-- `cma_get_parameter` faults on a stored blob whose length is neither 0 nor 29. -/
theorem cma_get_parameter_bad_length {R : Type} (init : cm_parameter R → cm_parameter R)
    (store : attribute_store) (attr : attr_city) (city_id : Int) (prior : cm_parameter R)
    (h0 : (attr_city_get store attr city_id).length ≠ 0)
    (h1 : (attr_city_get store attr city_id).length ≠ 29) :
    cma_get_parameter init store attr city_id prior = none :=
  (if_neg h0).trans (if_pos h1)

/-- `cma_get_parameter` faults on a blob of 29 bytes whose first byte is not 2. -/
theorem cma_get_parameter_bad_version {R : Type} (init : cm_parameter R → cm_parameter R)
    (store : attribute_store) (attr : attr_city) (city_id : Int) (prior : cm_parameter R)
    (hlen : (attr_city_get store attr city_id).length = 29)
    (hver : (attr_city_get store attr city_id).getD 0 0 ≠ 2) :
    cma_get_parameter init store attr city_id prior = none := by
  obtain ⟨b0, b1, b2, b3, b4, b5, b6, b7, b8, b9, b10, b11, b12, b13, b14, b15, b16, b17, b18,
    b19, b20, b21, b22, b23, b24, b25, b26, b27, b28, hb⟩ := length_29 _ hlen
  rw [cma_get_parameter_congr init store (fun _ _ => attr_city_get store attr city_id) attr
    city_id prior rfl]
  rw [hb] at hver ⊢
  simp only [List.getD_cons_zero] at hver
  have hv : ((b0 : Nat) : Int) ≠ 2 := by exact_mod_cast hver
  exact if_pos hv

/-- `cma_get_parameter` returns FALSE and leaves the parameter alone when no blob
is stored. -/
theorem cma_get_parameter_none_stored {R : Type} (init : cm_parameter R → cm_parameter R)
    (store : attribute_store) (attr : attr_city) (city_id : Int) (prior : cm_parameter R)
    (h0 : (attr_city_get store attr city_id).length = 0) :
    cma_get_parameter init store attr city_id prior = some (false, prior) :=
  if_pos h0

/-- C1 (codec round trip): for a parameter whose `minimal_surplus[i]`, `factor[i]`
(for every output type `i`) and `happy_factor` lie in the signed 16-bit range,
`cma_set_parameter` followed by `cma_get_parameter` on the same attribute and city
id returns TRUE with a parameter that has the same `minimal_surplus`, `factor`,
`happy_factor` and `require_happy`. -/
theorem cma_parameter_round_trip {R : Type} (init : cm_parameter R → cm_parameter R)
    (store : attribute_store) (attr : attr_city) (city_id : Int) (p prior : cm_parameter R)
    (hms : ∀ i < O_LAST, -32768 ≤ p.minimal_surplus i ∧ p.minimal_surplus i ≤ 32767)
    (hf : ∀ i < O_LAST, -32768 ≤ p.factor i ∧ p.factor i ≤ 32767)
    (hh : -32768 ≤ p.happy_factor ∧ p.happy_factor ≤ 32767) :
    ∃ store' q, cma_set_parameter store attr city_id p = some store' ∧
      cma_get_parameter init store' attr city_id prior = some (true, q) ∧
      (∀ i < O_LAST, q.minimal_surplus i = p.minimal_surplus i) ∧
      (∀ i < O_LAST, q.factor i = p.factor i) ∧
      q.happy_factor = p.happy_factor ∧ q.require_happy = p.require_happy := by
  have hb : attr_city_get (attr_city_set store attr city_id SAVED_PARAMETER_SIZE (saved_bytes p))
      attr city_id = saved_bytes p := by
    rw [attr_city_get_set, saved_bytes_take]
  have hlen : (saved_bytes p).length = 29 := rfl
  have hver : (saved_bytes p).getD 0 0 = 2 := rfl
  obtain ⟨q, hq, h1, h2, h3, h4, -, -⟩ := cma_get_parameter_decode init
    (attr_city_set store attr city_id SAVED_PARAMETER_SIZE (saved_bytes p)) attr city_id prior
    (by rw [hb]; exact hlen) (by rw [hb]; exact hver)
  rw [hb] at h1 h2 h3 h4
  refine ⟨_, q, cma_set_parameter_eq store attr city_id p, hq, ?_, ?_, ?_, ?_⟩
  · intro i hi
    rw [h1 i hi]
    have hr := hms i hi
    simp only [O_LAST] at hi
    interval_cases i <;> exact rd16_hi16_lo16 _ hr.1 hr.2 _ _ rfl rfl
  · intro i hi
    rw [h2 i hi]
    have hr := hf i hi
    simp only [O_LAST] at hi
    interval_cases i <;> exact rd16_hi16_lo16 _ hr.1 hr.2 _ _ rfl rfl
  · rw [h3]
    exact rd16_hi16_lo16 _ hh.1 hh.2 _ _ rfl rfl
  · rw [h4, rdbool_eq]
    have e : (saved_bytes p).getD 28 0 = (if p.require_happy then 1 else 0) := rfl
    rw [e]
    cases p.require_happy <;> rfl

/-- Witness of C1 on `sample_parameter`, stored for city 7 in an empty store. -/
theorem cma_parameter_round_trip_witness :
    ∃ store' q, cma_set_parameter empty_store ATTR_CITY_CMA_PARAMETER 7 sample_parameter
        = some store' ∧
      cma_get_parameter id store' ATTR_CITY_CMA_PARAMETER 7 sample_parameter = some (true, q) ∧
      (∀ i < O_LAST, q.minimal_surplus i = sample_parameter.minimal_surplus i) ∧
      (∀ i < O_LAST, q.factor i = sample_parameter.factor i) ∧
      q.happy_factor = sample_parameter.happy_factor ∧
      q.require_happy = sample_parameter.require_happy :=
  cma_parameter_round_trip id empty_store ATTR_CITY_CMA_PARAMETER 7 sample_parameter
    sample_parameter
    (by intro i hi; simp only [O_LAST] at hi; interval_cases i <;> decide)
    (by intro i hi; simp only [O_LAST] at hi; interval_cases i <;> decide)
    (by decide)

/-- C2 (encoded layout): `cma_set_parameter` never fails its size assertion and
stores a blob of exactly 29 bytes: first the byte 2; then for each output type
`i`, at offset `1 + 4 * i`, the two bytes of `minimal_surplus[i]` followed by the
two bytes of `factor[i]` (a value `v` is written as the two bytes of its two's
complement on sixteen bits, `v mod 65536`, most significant byte first); at
offset 25 the two bytes of `happy_factor`; at offset 27 the byte 0; at offset 28
the byte 1 when `require_happy` is set and 0 otherwise. -/
theorem cma_set_parameter_layout {R : Type} (store : attribute_store) (attr : attr_city)
    (city_id : Int) (p : cm_parameter R) :
    ∃ store', cma_set_parameter store attr city_id p = some store' ∧
      (attr_city_get store' attr city_id).length = 29 ∧
      (∀ b ∈ attr_city_get store' attr city_id, b < 256) ∧
      (attr_city_get store' attr city_id).getD 0 0 = 2 ∧
      (∀ i < O_LAST,
        (((attr_city_get store' attr city_id).getD (1 + 4 * i) 0 * 256
            + (attr_city_get store' attr city_id).getD (2 + 4 * i) 0 : Nat) : Int)
          = p.minimal_surplus i % 65536 ∧
        (((attr_city_get store' attr city_id).getD (3 + 4 * i) 0 * 256
            + (attr_city_get store' attr city_id).getD (4 + 4 * i) 0 : Nat) : Int)
          = p.factor i % 65536) ∧
      (((attr_city_get store' attr city_id).getD 25 0 * 256
          + (attr_city_get store' attr city_id).getD 26 0 : Nat) : Int)
        = p.happy_factor % 65536 ∧
      (attr_city_get store' attr city_id).getD 27 0 = 0 ∧
      (attr_city_get store' attr city_id).getD 28 0 = (if p.require_happy then 1 else 0) := by
  have hb : attr_city_get (attr_city_set store attr city_id SAVED_PARAMETER_SIZE (saved_bytes p))
      attr city_id = saved_bytes p := by
    rw [attr_city_get_set, saved_bytes_take]
  refine ⟨_, cma_set_parameter_eq store attr city_id p, ?_⟩
  rw [hb]
  refine ⟨rfl, ?_, rfl, ?_, be_value _ _ _ _ rfl rfl, rfl, rfl⟩
  · intro b hb'
    cases hrh : p.require_happy <;>
    simp only [saved_bytes, hrh, List.mem_cons, List.mem_singleton, List.not_mem_nil,
      or_false] at hb' <;>
    rcases hb' with h | h | h | h | h | h | h | h | h | h | h | h | h | h | h | h | h | h | h
      | h | h | h | h | h | h | h | h | h | h <;>
    subst h <;> first | exact hi16_lt _ | exact lo16_lt _ | decide
  · intro i hi
    simp only [O_LAST] at hi
    interval_cases i <;> exact ⟨be_value _ _ _ _ rfl rfl, be_value _ _ _ _ rfl rfl⟩

/-- C3 (codec rejects corruption): when the stored blob has a length that is
neither 0 nor 29, or has 29 bytes the first of which is not 2,
`cma_get_parameter` ends in a failed assertion (`none`); so it does not return
TRUE with a parsed parameter. -/
theorem cma_get_parameter_rejects_corruption {R : Type}
    (init : cm_parameter R → cm_parameter R) (store : attribute_store) (attr : attr_city)
    (city_id : Int) (prior : cm_parameter R)
    (h : ((attr_city_get store attr city_id).length ≠ 0 ∧
            (attr_city_get store attr city_id).length ≠ 29) ∨
          ((attr_city_get store attr city_id).length = 29 ∧
            (attr_city_get store attr city_id).getD 0 0 ≠ 2)) :
    cma_get_parameter init store attr city_id prior = none ∧
      ∀ q, cma_get_parameter init store attr city_id prior ≠ some (true, q) := by
  have hn : cma_get_parameter init store attr city_id prior = none := by
    rcases h with ⟨h0, h1⟩ | ⟨hlen, hver⟩
    · exact cma_get_parameter_bad_length init store attr city_id prior h0 h1
    · exact cma_get_parameter_bad_version init store attr city_id prior hlen hver
  exact ⟨hn, fun q hq => by rw [hn] at hq; exact Option.noConfusion hq⟩

/-- Witness of C3: a blob of three bytes, and a blob of 29 bytes of version 1. -/
theorem cma_get_parameter_rejects_corruption_witness :
    (cma_get_parameter id short_blob_store ATTR_CITY_CMA_PARAMETER 7 sample_parameter = none ∧
      ∀ q, cma_get_parameter id short_blob_store ATTR_CITY_CMA_PARAMETER 7 sample_parameter
        ≠ some (true, q)) ∧
    (cma_get_parameter id old_version_store ATTR_CITY_CMA_PARAMETER 7 sample_parameter = none ∧
      ∀ q, cma_get_parameter id old_version_store ATTR_CITY_CMA_PARAMETER 7 sample_parameter
        ≠ some (true, q)) :=
  ⟨cma_get_parameter_rejects_corruption id short_blob_store ATTR_CITY_CMA_PARAMETER 7
      sample_parameter (Or.inl ⟨by decide, by decide⟩),
   cma_get_parameter_rejects_corruption id old_version_store ATTR_CITY_CMA_PARAMETER 7
      sample_parameter (Or.inr ⟨by decide, by decide⟩)⟩

/-- C4 (absent parameter): `cma_get_parameter` returns FALSE exactly when the
store holds no blob (length 0) for the city id; it then returns without a fault
and leaves the caller's parameter alone, and `cma_is_city_under_agent` returns
FALSE for that city. -/
theorem cma_get_parameter_absent {R : Type} (init : cm_parameter R → cm_parameter R)
    (store : attribute_store) (attr : attr_city) (city_id : Int)
    (prior my_parameter : cm_parameter R) (parameter : Option (cm_parameter R)) :
    ((∃ q, cma_get_parameter init store attr city_id prior = some (false, q)) ↔
        (attr_city_get store attr city_id).length = 0) ∧
    ((attr_city_get store attr city_id).length = 0 →
        cma_get_parameter init store attr city_id prior = some (false, prior)) ∧
    ((attr_city_get store ATTR_CITY_CMA_PARAMETER city_id).length = 0 →
        cma_is_city_under_agent init store city_id my_parameter parameter
          = some (false, parameter)) := by
  refine ⟨⟨?_, fun h0 => ⟨prior, cma_get_parameter_none_stored init store attr city_id prior h0⟩⟩,
    cma_get_parameter_none_stored init store attr city_id prior, ?_⟩
  · rintro ⟨q, hq⟩
    by_contra h0
    by_cases h1 : (attr_city_get store attr city_id).length = 29
    · by_cases hv : (attr_city_get store attr city_id).getD 0 0 = 2
      · obtain ⟨q', hq', -⟩ := cma_get_parameter_decode init store attr city_id prior h1 hv
        rw [hq'] at hq
        simp at hq
      · rw [cma_get_parameter_bad_version init store attr city_id prior h1 hv] at hq
        exact Option.noConfusion hq
    · rw [cma_get_parameter_bad_length init store attr city_id prior h0 h1] at hq
      exact Option.noConfusion hq
  · intro h0
    unfold cma_is_city_under_agent
    rw [cma_get_parameter_none_stored init store ATTR_CITY_CMA_PARAMETER city_id my_parameter h0]

/-- C5 (decode defaults): on a well-formed stored blob (29 bytes, version 2), and
whatever the prior content of the output parameter, `cma_get_parameter` returns
TRUE and every part of the returned parameter that the wire format does not
carry (the fields other than `minimal_surplus`, `factor`, `happy_factor` and
`require_happy`, and the entries of the two arrays beyond the output types) has
the value that `cm_init_parameter` assigns to it. -/
theorem cma_get_parameter_defaults {R : Type} (init : cm_parameter R → cm_parameter R)
    (store : attribute_store) (attr : attr_city) (city_id : Int) (prior : cm_parameter R)
    (hlen : (attr_city_get store attr city_id).length = 29)
    (hver : (attr_city_get store attr city_id).getD 0 0 = 2) :
    ∃ q, cma_get_parameter init store attr city_id prior = some (true, q) ∧
      q.rest = (init prior).rest ∧
      (∀ i, O_LAST ≤ i → q.minimal_surplus i = (init prior).minimal_surplus i ∧
        q.factor i = (init prior).factor i) := by
  obtain ⟨q, hq, -, -, -, -, h5, h6⟩ :=
    cma_get_parameter_decode init store attr city_id prior hlen hver
  exact ⟨q, hq, h5, h6⟩

/-- Witness of C5 on `good_store`, with `sample_init` and a prior content that
is not the default. -/
theorem cma_get_parameter_defaults_witness :
    ∃ q, cma_get_parameter sample_init good_store ATTR_CITY_CMA_PARAMETER 7 scratch_parameter
        = some (true, q) ∧
      q.rest = (sample_init scratch_parameter).rest ∧
      (∀ i, O_LAST ≤ i →
        q.minimal_surplus i = (sample_init scratch_parameter).minimal_surplus i ∧
        q.factor i = (sample_init scratch_parameter).factor i) :=
  cma_get_parameter_defaults sample_init good_store ATTR_CITY_CMA_PARAMETER 7 scratch_parameter
    (by decide) (by decide)

/-! ## Properties of the result model -/

theorem mem_my_city_map_iterate (g : game_consts) (pcity : city) (x y : Nat) :
    (x, y) ∈ my_city_map_iterate g pcity ↔
      valid_city_position g pcity x y ∧ is_free_worked_tile g x y = false := by
  simp [my_city_map_iterate, city_map_checked_iterate, valid_city_position, List.mem_filter]
  tauto

/-- The value of `results_are_equal`, field by field. -/
theorem results_are_equal_eq_true (g : game_consts) (pcity : city) (r1 r2 : cm_result) :
    results_are_equal g pcity r1 r2 = true ↔
      r1.disorder = r2.disorder ∧ r1.happy = r2.happy ∧
      (∀ sp < g.SP_COUNT, r1.specialists sp = r2.specialists sp) ∧
      (∀ i < O_LAST, r1.surplus i = r2.surplus i) ∧
      (∀ x y, valid_city_position g pcity x y → is_free_worked_tile g x y = false →
        r1.worker_positions_used x y = r2.worker_positions_used x y) := by
  unfold results_are_equal
  split_ifs with h1 h2 h3 h4 h5
  · simp only [Bool.false_eq_true, false_iff]
    exact fun hh => h1 hh.1
  · simp only [Bool.false_eq_true, false_iff]
    exact fun hh => h2 hh.2.1
  · simp only [Bool.false_eq_true, false_iff]
    obtain ⟨sp, hsp, hne⟩ := List.any_eq_true.1 h3
    exact fun hh => (of_decide_eq_true hne) (hh.2.2.1 sp (List.mem_range.1 hsp))
  · simp only [Bool.false_eq_true, false_iff]
    obtain ⟨i, hi, hne⟩ := List.any_eq_true.1 h4
    exact fun hh => (of_decide_eq_true hne) (hh.2.2.2.1 i (List.mem_range.1 hi))
  · simp only [Bool.false_eq_true, false_iff]
    obtain ⟨⟨x, y⟩, hp, hne⟩ := List.any_eq_true.1 h5
    obtain ⟨hv, hf⟩ := (mem_my_city_map_iterate g pcity x y).1 hp
    exact fun hh => (of_decide_eq_true hne) (hh.2.2.2.2 x y hv hf)
  · simp only [true_iff]
    refine ⟨not_not.1 h1, not_not.1 h2, ?_, ?_, ?_⟩
    · intro sp hsp
      by_contra hne
      exact h3 (List.any_eq_true.2 ⟨sp, List.mem_range.2 hsp, decide_eq_true hne⟩)
    · intro i hi
      by_contra hne
      exact h4 (List.any_eq_true.2 ⟨i, List.mem_range.2 hi, decide_eq_true hne⟩)
    · intro x y hv hf
      by_contra hne
      exact h5 (List.any_eq_true.2
        ⟨(x, y), (mem_my_city_map_iterate g pcity x y).2 ⟨hv, hf⟩, decide_eq_true hne⟩)

/-- The value `results_are_equal` is FALSE as soon as one compared field differs. -/
theorem results_are_equal_eq_false (g : game_consts) (pcity : city) (r1 r2 : cm_result)
    (h : ¬ (r1.disorder = r2.disorder ∧ r1.happy = r2.happy ∧
      (∀ sp < g.SP_COUNT, r1.specialists sp = r2.specialists sp) ∧
      (∀ i < O_LAST, r1.surplus i = r2.surplus i) ∧
      (∀ x y, valid_city_position g pcity x y → is_free_worked_tile g x y = false →
        r1.worker_positions_used x y = r2.worker_positions_used x y))) :
    results_are_equal g pcity r1 r2 = false := by
  rw [Bool.eq_false_iff]
  intro hc
  exact h ((results_are_equal_eq_true g pcity r1 r2).1 hc)

theorem results_are_equal_self (g : game_consts) (pcity : city) (s : cm_result) :
    results_are_equal g pcity s s = true :=
  (results_are_equal_eq_true g pcity s s).2
    ⟨rfl, rfl, fun _ _ => rfl, fun _ _ => rfl, fun _ _ _ _ => rfl⟩

/-- The first loop of `get_current_as_result` over any list of positions: the
flags of the visited positions are set from the city map, and the counter grows
by the number of visited positions whose state is `C_TILE_WORKER`. -/
theorem get_current_worker_loop (pcity : city) (l : List (Nat × Nat)) (r0 : cm_result)
    (w0 : Int) :
    l.foldl (get_current_worker_step pcity) (r0, w0)
      = ({ r0 with worker_positions_used := fun x y =>
             if (x, y) ∈ l then
               decide (pcity.city_map x y = city_tile_type.C_TILE_WORKER)
             else r0.worker_positions_used x y },
         w0 + ((l.filter (fun p =>
           decide (pcity.city_map p.1 p.2 = city_tile_type.C_TILE_WORKER))).length : Int)) := by
  induction l generalizing r0 w0 with
  | nil => simp
  | cons p l ih =>
    obtain ⟨px, py⟩ := p
    rw [List.foldl_cons]
    have hstep : get_current_worker_step pcity (r0, w0) (px, py)
        = ({ r0 with
             worker_positions_used :=
               array2_set r0.worker_positions_used px py
                 (decide (pcity.city_map px py = city_tile_type.C_TILE_WORKER)) },
           w0 + (if pcity.city_map px py = city_tile_type.C_TILE_WORKER then 1 else 0)) := by
      by_cases hw : pcity.city_map px py = city_tile_type.C_TILE_WORKER
      · simp [get_current_worker_step, array2_set, hw]
      · simp [get_current_worker_step, array2_set, hw]
    rw [hstep, ih]
    refine Prod.ext ?_ ?_
    · simp only [cm_result.mk.injEq, true_and, and_true]
      funext x y
      by_cases hm : (x, y) ∈ l
      · simp [hm]
      · by_cases he : x = px ∧ y = py
        · obtain ⟨rfl, rfl⟩ := he
          simp [hm, array2_set]
        · have hne : ¬ (x, y) = (px, py) := fun h => he (Prod.mk.inj h)
          simp [hm, array2_set, he, hne]
    · by_cases hw : pcity.city_map px py = city_tile_type.C_TILE_WORKER
      · simp [List.filter_cons, hw]; ring
      · simp [List.filter_cons, hw]

/-- The second loop of `get_current_as_result` over the first `n` specialist
types: their counts are copied and added up. -/
theorem get_current_specialist_loop (pcity : city) (n : Nat) (r0 : cm_result) (s0 : Int) :
    (List.range n).foldl (get_current_specialist_step pcity) (r0, s0)
      = ({ r0 with specialists := fun sp =>
             if sp < n then pcity.specialists sp else r0.specialists sp },
         s0 + ((List.range n).map pcity.specialists).sum) := by
  induction n with
  | zero => simp
  | succ n ih =>
    rw [List.range_succ, List.foldl_append, ih]
    simp only [List.foldl_cons, List.foldl_nil, get_current_specialist_step, List.map_append,
      List.map_cons, List.map_nil, List.sum_append, List.sum_cons, List.sum_nil, add_zero]
    refine Prod.ext ?_ (by simp only []; ring)
    simp only [cm_result.mk.injEq, true_and, and_true]
    funext sp
    by_cases h1 : sp = n
    · subst h1; simp [array_set]
    · by_cases h2 : sp < n
      · simp [array_set, h1, h2, Nat.lt_succ_of_lt h2]
      · have : ¬ sp < n + 1 := by omega
        simp [array_set, h1, h2, this]

/-- The function `get_current_as_result` in closed form. -/
theorem get_current_as_result_eq (g : game_consts) (pcity : city) (prior : cm_result) :
    get_current_as_result g pcity prior
      = if (visited_worker_count g pcity : Int) + specialists_sum g pcity.specialists
            ≠ pcity.size then none
        else some (current_result g pcity prior) := by
  simp only [get_current_as_result, get_current_worker_loop, get_current_specialist_loop,
    visited_worker_count, specialists_sum, current_result, cm_copy_result_from_city, zero_add]

/-- On a well-formed geometry the positions visited by `my_city_map_iterate` that
satisfy a predicate are as many as the array positions that are valid, not free
and satisfy it. -/
theorem visited_count_eq_array_count (g : game_consts) (pcity : city)
    (hg : well_formed_geometry g) (P : Nat × Nat → Bool) :
    ((my_city_map_iterate g pcity).filter P).length
      = ((city_map_array_positions g).filter (fun p =>
          decide (valid_city_position g pcity p.1 p.2) && !is_free_worked_tile g p.1 p.2
            && P p)).length := by
  apply List.Perm.length_eq
  rw [List.perm_ext_iff_of_nodup]
  · rintro ⟨x, y⟩
    simp only [List.mem_filter, mem_my_city_map_iterate, Bool.and_eq_true, decide_eq_true_eq,
      Bool.not_eq_true']
    constructor
    · rintro ⟨⟨hv, hf⟩, hP⟩
      have hr := hg.2 (x, y) hv.1
      exact ⟨List.mem_product.2 ⟨List.mem_range.2 hr.1, List.mem_range.2 hr.2⟩,
        ⟨hv, hf⟩, hP⟩
    · rintro ⟨-, ⟨hv, hf⟩, hP⟩
      exact ⟨⟨hv, hf⟩, hP⟩
  · exact ((hg.1.filter _).filter _).filter _
  · exact ((List.nodup_range _).product (List.nodup_range _)).filter _

theorem visited_worker_count_eq (g : game_consts) (pcity : city)
    (hg : well_formed_geometry g) :
    visited_worker_count g pcity = current_worker_count g pcity := by
  unfold visited_worker_count current_worker_count
  exact visited_count_eq_array_count g pcity hg _

theorem sample_city_snapshot :
    get_current_as_result standard_consts sample_city scratch_result
      = some (current_result standard_consts sample_city scratch_result) := by
  rw [get_current_as_result_eq]
  exact if_neg (by decide)

/-- C6 (result equality): `results_are_equal(city, r1, r2)` is TRUE exactly when
the two results have the same disorder flag, the same happy flag, the same count
for every specialist type, the same surplus for every output type, and the same
`worker_positions_used` flag at every position that is valid for the city and is
not a free worked tile. -/
theorem results_are_equal_iff (g : game_consts) (pcity : city) (r1 r2 : cm_result) :
    results_are_equal g pcity r1 r2 = true ↔
      r1.disorder = r2.disorder ∧ r1.happy = r2.happy ∧
      (∀ sp < g.SP_COUNT, r1.specialists sp = r2.specialists sp) ∧
      (∀ i < O_LAST, r1.surplus i = r2.surplus i) ∧
      (∀ x y, valid_city_position g pcity x y → is_free_worked_tile g x y = false →
        r1.worker_positions_used x y = r2.worker_positions_used x y) :=
  results_are_equal_eq_true g pcity r1 r2

/-- C7 (equality is reflexive on snapshots): when `get_current_as_result`
succeeds on a city, the snapshot it produces is equal to itself under
`results_are_equal`. -/
theorem snapshot_equals_itself (g : game_consts) (pcity : city) (prior s : cm_result)
    (_h : get_current_as_result g pcity prior = some s) :
    results_are_equal g pcity s s = true :=
  results_are_equal_self g pcity s

/-- Witness of C7: the snapshot of `sample_city` exists and equals itself. -/
theorem snapshot_equals_itself_witness :
    get_current_as_result standard_consts sample_city scratch_result
        = some (current_result standard_consts sample_city scratch_result) ∧
      results_are_equal standard_consts sample_city
        (current_result standard_consts sample_city scratch_result)
        (current_result standard_consts sample_city scratch_result) = true :=
  ⟨sample_city_snapshot,
   snapshot_equals_itself standard_consts sample_city scratch_result _ sample_city_snapshot⟩

/-- Counterexample to C8 as stated: in the snapshot of `sample_city`, inverting the
one tile flag of the city centre (2, 2), a free worked tile, gives a copy that
differs from the snapshot in exactly that flag and still compares equal. -/
theorem centre_flag_change_not_detected :
    ∃ s s', get_current_as_result standard_consts sample_city scratch_result = some s ∧
      s' = flip_tile_flag s 2 2 ∧
      s'.worker_positions_used 2 2 ≠ s.worker_positions_used 2 2 ∧
      (∀ x y, (x, y) ≠ (2, 2) → s'.worker_positions_used x y = s.worker_positions_used x y) ∧
      s'.specialists = s.specialists ∧
      results_are_equal standard_consts sample_city s s' = true := by
  refine ⟨_, _, sample_city_snapshot, rfl, by decide, ?_, rfl, by decide⟩
  intro x y hxy
  have hne : ¬ (x = 2 ∧ y = 2) := fun h => hxy (by rw [h.1, h.2])
  simp [flip_tile_flag, array2_set, hne]

/-- C8 as amended (no false positive): a copy of a result `s` (in particular of a
snapshot) that differs from `s` in exactly one `worker_positions_used` flag, at a
position that is valid for the city and is not a free worked tile, or in exactly
one count of a specialist type, is not equal to `s` under `results_are_equal`. -/
theorem single_change_detected (g : game_consts) (pcity : city) (s s' : cm_result)
    (h : (∃ x y, valid_city_position g pcity x y ∧ is_free_worked_tile g x y = false ∧
            s' = flip_tile_flag s x y) ∨
         (∃ sp v, sp < g.SP_COUNT ∧ v ≠ s.specialists sp ∧ s' = set_specialist_count s sp v)) :
    results_are_equal g pcity s s' = false := by
  apply results_are_equal_eq_false
  rintro ⟨-, -, h3, -, h5⟩
  rcases h with ⟨x, y, hv, hf, rfl⟩ | ⟨sp, v, hsp, hv, rfl⟩
  · have := h5 x y hv hf
    simp [flip_tile_flag, array2_set] at this
  · have := h3 sp hsp
    simp [set_specialist_count, array_set] at this
    exact hv this.symm

/-- Witness of the amended C8: in the snapshot of `sample_city`, inverting the flag
of the worked tile (1, 2) is detected, and so is changing the count of
specialist type 1. -/
theorem single_change_detected_witness :
    results_are_equal standard_consts sample_city
        (current_result standard_consts sample_city scratch_result)
        (flip_tile_flag (current_result standard_consts sample_city scratch_result) 1 2)
        = false ∧
      results_are_equal standard_consts sample_city
        (current_result standard_consts sample_city scratch_result)
        (set_specialist_count (current_result standard_consts sample_city scratch_result) 1 5)
        = false :=
  ⟨single_change_detected standard_consts sample_city _ _
      (Or.inl ⟨1, 2, by decide, by decide, rfl⟩),
   single_change_detected standard_consts sample_city _ _
      (Or.inr ⟨1, 5, by decide, by decide, rfl⟩)⟩

/-- C9 (snapshot invariant check): on a well-formed geometry,
`get_current_as_result` ends in a failed assertion exactly when the number of
non-free valid positions whose state is `C_TILE_WORKER` plus the sum of the
specialist counts over all specialist types differs from the size of the city. -/
theorem get_current_as_result_fault_iff (g : game_consts) (pcity : city) (prior : cm_result)
    (hg : well_formed_geometry g) :
    get_current_as_result g pcity prior = none ↔
      (current_worker_count g pcity : Int) + specialists_sum g pcity.specialists
        ≠ pcity.size := by
  rw [get_current_as_result_eq, visited_worker_count_eq g pcity hg]
  split_ifs with h
  · simp [h]
  · simp [h]

/-- Witness of C9: the snapshot of `inconsistent_city` (two workers, one
specialist, size 4) faults, the one of `sample_city` (size 3) does not. -/
theorem get_current_as_result_fault_iff_witness :
    get_current_as_result standard_consts inconsistent_city scratch_result = none ∧
      get_current_as_result standard_consts sample_city scratch_result ≠ none :=
  ⟨(get_current_as_result_fault_iff standard_consts inconsistent_city scratch_result
      (by decide)).2 (by decide),
   fun h => (get_current_as_result_fault_iff standard_consts sample_city scratch_result
      (by decide)).1 h (by decide)⟩

/-- C10 (snapshot postcondition): on a well-formed geometry, a result returned by
`get_current_as_result` has `found_a_valid` set, has the specialist counts of the
city, has a tile flag set exactly at the non-free valid positions whose state is
`C_TILE_WORKER` (so the flag of the city centre is cleared), and the number of set
tile flags over the whole array plus the sum of its specialist counts is the size
of the city. -/
theorem get_current_as_result_post (g : game_consts) (pcity : city) (prior r : cm_result)
    (hg : well_formed_geometry g) (h : get_current_as_result g pcity prior = some r) :
    r.found_a_valid = true ∧
      (∀ sp < g.SP_COUNT, r.specialists sp = pcity.specialists sp) ∧
      (∀ x y, r.worker_positions_used x y = true ↔
        (valid_city_position g pcity x y ∧ is_free_worked_tile g x y = false ∧
          pcity.city_map x y = city_tile_type.C_TILE_WORKER)) ∧
      r.worker_positions_used (CITY_MAP_RADIUS g) (CITY_MAP_RADIUS g) = false ∧
      (worker_flag_count g r : Int) + specialists_sum g r.specialists = pcity.size := by
  rw [get_current_as_result_eq] at h
  split_ifs at h with hsum
  have hr : r = current_result g pcity prior := (Option.some.inj h).symm
  subst hr
  have hflags : ∀ x y, (current_result g pcity prior).worker_positions_used x y = true ↔
      (valid_city_position g pcity x y ∧ is_free_worked_tile g x y = false ∧
        pcity.city_map x y = city_tile_type.C_TILE_WORKER) := by
    intro x y
    simp only [current_result]
    by_cases hm : (x, y) ∈ my_city_map_iterate g pcity
    · have := (mem_my_city_map_iterate g pcity x y).1 hm
      simp [hm, this.1, this.2]
    · have hn := fun hh => hm ((mem_my_city_map_iterate g pcity x y).2 hh)
      simp only [hm, if_false, Bool.false_eq_true, false_iff]
      exact fun hh => hn ⟨hh.1, hh.2.1⟩
  have hspec : specialists_sum g (current_result g pcity prior).specialists
      = specialists_sum g pcity.specialists := by
    unfold specialists_sum
    congr 1
    apply List.map_congr_left
    intro sp hsp
    simp [current_result, List.mem_range.1 hsp]
  have hcount : worker_flag_count g (current_result g pcity prior)
      = visited_worker_count g pcity := by
    unfold worker_flag_count visited_worker_count
    rw [visited_count_eq_array_count g pcity hg]
    congr 1
    apply List.filter_congr
    rintro ⟨x, y⟩ -
    rw [Bool.eq_iff_iff, hflags x y]
    simp [and_assoc]
  refine ⟨rfl, ?_, hflags, ?_, ?_⟩
  · intro sp hsp
    simp [current_result, hsp]
  · rw [Bool.eq_false_iff]
    intro hc
    have := ((hflags _ _).1 hc).2.1
    simp [is_free_worked_tile] at this
  · rw [hspec, hcount]
    exact not_not.1 hsum

/-- Witness of C10 on `sample_city`: its snapshot exists and has the stated
properties. -/
theorem get_current_as_result_post_witness :
    get_current_as_result standard_consts sample_city scratch_result
        = some (current_result standard_consts sample_city scratch_result) ∧
      (worker_flag_count standard_consts
          (current_result standard_consts sample_city scratch_result) : Int)
        + specialists_sum standard_consts
            (current_result standard_consts sample_city scratch_result).specialists
        = sample_city.size ∧
      (current_result standard_consts sample_city scratch_result).worker_positions_used 2 2
        = false :=
  ⟨sample_city_snapshot,
   (get_current_as_result_post standard_consts sample_city scratch_result _
      (by decide) sample_city_snapshot).2.2.2.2,
   (get_current_as_result_post standard_consts sample_city scratch_result _
      (by decide) sample_city_snapshot).2.2.2.1⟩

/-! ## Properties of apply_result_on_server: the requests sent -/

theorem send_all_nil {R : Type} (env : environment R) (s : req_state) :
    send_all env s [] = s := rfl

theorem send_all_cons {R : Type} (env : environment R) (s : req_state) (e : event)
    (es : List event) :
    send_all env s (e :: es) = send_all env (record_request s (send_packet env s.c e)) es := rfl

theorem send_all_append {R : Type} (env : environment R) (s : req_state)
    (es es' : List event) :
    send_all env s (es ++ es') = send_all env (send_all env s es) es' := by
  unfold send_all
  rw [List.foldl_append]

theorem send_all_c {R : Type} (env : environment R) (s : req_state) (es : List event) :
    (send_all env s es).c = log_events s.c es := by
  induction es generalizing s with
  | nil => simp [send_all, log_events]
  | cons e es ih =>
    rw [send_all_cons, ih]
    simp [record_request, send_packet, log_event, log_events]

theorem send_all_aborted {R : Type} (env : environment R) (s : req_state) (es : List event) :
    (send_all env s es).aborted = s.aborted := by
  induction es generalizing s with
  | nil => rfl
  | cons e es ih =>
    rw [send_all_cons, ih]
    rfl

theorem request_count_append (t es : List event) (h : ∀ e ∈ es, is_request e = true) :
    request_count (t ++ es) = request_count t + es.length := by
  unfold request_count
  rw [List.filter_append, List.length_append, List.filter_eq_self.2 h]

/-- After a non-empty list of requests `last_request_id` is the id of the last
one. -/
theorem send_all_last {R : Type} (env : environment R) (s : req_state) (es : List event)
    (h : ∀ e ∈ es, is_request e = true) (hne : es ≠ []) :
    (send_all env s es).last_request_id
      = env.request_id (request_count s.c.trace + es.length - 1) := by
  induction es generalizing s with
  | nil => exact absurd rfl hne
  | cons e es ih =>
    rw [send_all_cons]
    by_cases hes : es = []
    · subst hes
      simp [send_all, record_request, send_packet]
    · rw [ih _ (fun e' he' => h e' (List.mem_cons_of_mem _ he')) hes]
      have he : is_request e = true := h e (List.mem_cons_self _ _)
      have hc : request_count (record_request s (send_packet env s.c e)).c.trace
          = request_count s.c.trace + 1 := by
        simp only [record_request, send_packet, log_event]
        rw [request_count_append _ [e] (by simpa using he)]
        rfl
      rw [hc]
      congr 1
      have : 0 < es.length := List.length_pos.2 hes
      simp only [List.length_cons]
      omega

theorem remove_surplus_workers_eq {R : Type} (env : environment R) (pcity : city)
    (result : cm_result) (s : req_state) :
    remove_surplus_workers env pcity result s
      = send_all env s (surplus_worker_toggles env.g pcity result) := by
  unfold remove_surplus_workers surplus_worker_toggles
  generalize my_city_map_iterate env.g pcity = l
  induction l generalizing s with
  | nil => rfl
  | cons p l ih =>
    rw [List.foldl_cons, List.filter_cons]
    by_cases hc : pcity.city_map p.1 p.2 = city_tile_type.C_TILE_WORKER
        ∧ result.worker_positions_used p.1 p.2 = false
    · rw [if_pos hc, ih]
      simp [hc.1, hc.2, send_all_cons, city_toggle_worker]
    · rw [if_neg hc, ih]
      have : (decide (pcity.city_map p.1 p.2 = city_tile_type.C_TILE_WORKER)
          && !result.worker_positions_used p.1 p.2) = false := by
        rw [Bool.eq_false_iff]
        intro h
        simp only [Bool.and_eq_true, decide_eq_true_eq, Bool.not_eq_true'] at h
        exact hc h
      simp [this]

theorem send_repeated {R : Type} (env : environment R) (e : event) (n : Nat) (s : req_state) :
    (List.range n).foldl (fun s _ => record_request s (send_packet env s.c e)) s
      = send_all env s (List.replicate n e) := by
  induction n with
  | zero => rfl
  | succ n ih =>
    rw [List.range_succ, List.foldl_append, ih, List.replicate_succ', send_all_append]
    rfl

theorem change_excess_specialists_eq {R : Type} (env : environment R) (pcity : city)
    (result : cm_result) (s : req_state) :
    change_excess_specialists env pcity result s
      = send_all env s (excess_specialist_changes env.g pcity result) := by
  unfold change_excess_specialists excess_specialist_changes
  generalize List.range env.g.SP_COUNT = l
  induction l generalizing s with
  | nil => rfl
  | cons sp l ih =>
    rw [List.foldl_cons, List.flatMap_cons, send_all_append]
    by_cases hd : sp = env.g.DEFAULT_SPECIALIST
    · rw [if_pos hd, if_pos hd, ih]
      rfl
    · rw [if_neg hd, if_neg hd, ih]
      congr 1
      exact send_repeated env _ _ s

theorem set_specialists_eq {R : Type} (env : environment R) (pcity : city)
    (result : cm_result) (s : req_state) :
    set_specialists env pcity result s
      = send_all env s (missing_specialist_changes env.g pcity result) := by
  unfold set_specialists missing_specialist_changes
  generalize List.range env.g.SP_COUNT = l
  induction l generalizing s with
  | nil => rfl
  | cons sp l ih =>
    rw [List.foldl_cons, List.flatMap_cons, send_all_append]
    by_cases hd : sp = env.g.DEFAULT_SPECIALIST
    · rw [if_pos hd, if_pos hd, ih]
      rfl
    · rw [if_neg hd, if_neg hd, ih]
      congr 1
      exact send_repeated env _ _ s

theorem set_workers_eq {R : Type} (env : environment R) (pcity : city)
    (result : cm_result) (s : req_state) (hs : s.aborted = false)
    (hempty : ∀ p ∈ my_city_map_iterate env.g pcity,
      result.worker_positions_used p.1 p.2 = true →
      pcity.city_map p.1 p.2 ≠ city_tile_type.C_TILE_WORKER →
      pcity.city_map p.1 p.2 = city_tile_type.C_TILE_EMPTY) :
    set_workers env pcity result s
      = send_all env s (missing_worker_toggles env.g pcity result) := by
  unfold set_workers missing_worker_toggles
  generalize my_city_map_iterate env.g pcity = l at hempty
  induction l generalizing s with
  | nil => rfl
  | cons p l ih =>
    have hl : ∀ q ∈ l, result.worker_positions_used q.1 q.2 = true →
        pcity.city_map q.1 q.2 ≠ city_tile_type.C_TILE_WORKER →
        pcity.city_map q.1 q.2 = city_tile_type.C_TILE_EMPTY :=
      fun q hq => hempty q (List.mem_cons_of_mem _ hq)
    rw [List.foldl_cons, List.filter_cons]
    simp only [hs, Bool.false_eq_true, if_false]
    by_cases hc : result.worker_positions_used p.1 p.2 = true
        ∧ pcity.city_map p.1 p.2 ≠ city_tile_type.C_TILE_WORKER
    · have he := hempty p (List.mem_cons_self _ _) hc.1 hc.2
      rw [if_pos hc, if_neg (not_not.2 he), ih _ (by simpa [record_request] using hs) hl]
      simp [hc.1, hc.2, send_all_cons, city_toggle_worker]
    · rw [if_neg hc, ih _ hs hl]
      have : (result.worker_positions_used p.1 p.2
          && !decide (pcity.city_map p.1 p.2 = city_tile_type.C_TILE_WORKER)) = false := by
        rw [Bool.eq_false_iff]
        intro h
        simp only [Bool.and_eq_true, Bool.not_eq_true', decide_eq_false_iff_not] at h
        exact hc h
      simp [this]

theorem apply_result_on_server_invalid {R : Type} (env : environment R) (c : client)
    (pcity : city) (result : cm_result) (hv : result.found_a_valid = false) :
    apply_result_on_server env c pcity result = (c, none) := by
  unfold apply_result_on_server
  rw [if_pos hv]

theorem apply_result_on_server_fast {R : Type} (env : environment R) (c : client)
    (pcity : city) (result cur : cm_result) (hv : result.found_a_valid = true)
    (hs : get_current_as_result env.g pcity env.uninit_result = some cur)
    (heq : results_are_equal env.g pcity result cur = true) :
    apply_result_on_server env c pcity result
      = ({ world := c.world
           stats := { c.stats with apply_result_ignored := c.stats.apply_result_ignored + 1 }
           trace := c.trace ++ [event.get_current_as_result pcity.id,
             event.results_are_equal pcity.id] }, some true) := by
  unfold apply_result_on_server
  rw [if_neg (by simp [hv]), hs]
  simp only [heq, ALWAYS_APPLY_AT_SERVER, and_self, if_true, log_event, List.append_assoc,
    List.singleton_append]

theorem apply_result_on_server_slow {R : Type} (env : environment R) (c : client)
    (pcity : city) (result cur : cm_result) (hv : result.found_a_valid = true)
    (hs : get_current_as_result env.g pcity env.uninit_result = some cur)
    (hne : results_are_equal env.g pcity result cur = false) :
    apply_result_on_server env c pcity result
      = if (state_before_wait env c pcity result).aborted then
          ((state_before_wait env c pcity result).c, none)
        else await_and_compare env (state_before_wait env c pcity result) pcity result := by
  unfold apply_result_on_server
  rw [if_neg (by simp [hv]), hs]
  simp only [hne, Bool.false_eq_true, false_and, if_false]
  rfl

/-- The locals when the connection is unbuffered, for a target that passes the
checks: the requests of the four phases are sent, then the refresh if it is
forced, then `reports_freeze_till` and `connection_do_unbuffer` are called. -/
theorem send_changes_eq {R : Type} (env : environment R) (c : client) (pcity : city)
    (result : cm_result) (hchk : target_passes_checks env.g pcity result) :
    send_changes env c pcity result
      = { c := log_events
            (force_refresh env pcity
              (send_all env ⟨c, 0, 0, false⟩ (diff_requests env.g pcity result))).c
            [event.reports_freeze_till
               (force_refresh env pcity
                 (send_all env ⟨c, 0, 0, false⟩
                   (diff_requests env.g pcity result))).last_request_id,
             event.connection_do_unbuffer]
          first_request_id :=
            (force_refresh env pcity
              (send_all env ⟨c, 0, 0, false⟩
                (diff_requests env.g pcity result))).first_request_id
          last_request_id :=
            (force_refresh env pcity
              (send_all env ⟨c, 0, 0, false⟩
                (diff_requests env.g pcity result))).last_request_id
          aborted := false } := by
  unfold send_changes
  rw [if_neg (not_not.2 hchk.1)]
  simp only [remove_surplus_workers_eq, change_excess_specialists_eq]
  rw [set_workers_eq env pcity result _ (by simp [send_all_aborted]) hchk.2]
  simp only [set_specialists_eq, ← send_all_append, send_all_aborted, Bool.false_eq_true,
    if_false]
  have hD : surplus_worker_toggles env.g pcity result ++ excess_specialist_changes env.g pcity result
      ++ missing_worker_toggles env.g pcity result ++ missing_specialist_changes env.g pcity result
      = diff_requests env.g pcity result := rfl
  rw [hD]
  have hab : (force_refresh env pcity
      (send_all env ⟨c, 0, 0, false⟩ (diff_requests env.g pcity result))).aborted = false := by
    unfold force_refresh
    split <;> simp [send_all_aborted]
  simp [log_event, log_events, hab]

theorem diff_requests_are_requests (g : game_consts) (pcity : city) (result : cm_result) :
    ∀ e ∈ diff_requests g pcity result, is_request e = true ∧ is_diff_request e = true := by
  intro e he
  simp only [diff_requests, surplus_worker_toggles, excess_specialist_changes,
    missing_worker_toggles, missing_specialist_changes, List.mem_append, List.mem_map,
    List.mem_flatMap] at he
  rcases he with ((⟨p, -, rfl⟩ | ⟨sp, -, hsp⟩) | ⟨p, -, rfl⟩) | ⟨sp, -, hsp⟩
  · exact ⟨rfl, rfl⟩
  · split at hsp
    · simp at hsp
    · rw [(List.mem_replicate.1 hsp).2]; exact ⟨rfl, rfl⟩
  · exact ⟨rfl, rfl⟩
  · split at hsp
    · simp at hsp
    · rw [(List.mem_replicate.1 hsp).2]; exact ⟨rfl, rfl⟩

/-- A specialist conversion among the requests of the four phases never converts
a type to itself. -/
theorem diff_requests_no_self_change (g : game_consts) (pcity : city) (result : cm_result)
    (city_id : Int) (a b : Nat)
    (h : event.city_change_specialist city_id a b ∈ diff_requests g pcity result) : a ≠ b := by
  simp only [diff_requests, surplus_worker_toggles, excess_specialist_changes,
    missing_worker_toggles, missing_specialist_changes, List.mem_append, List.mem_map,
    List.mem_flatMap] at h
  rcases h with ((⟨p, -, hp⟩ | ⟨sp, -, hsp⟩) | ⟨p, -, hp⟩) | ⟨sp, -, hsp⟩
  · exact absurd hp (by simp)
  · split at hsp
    · simp at hsp
    · rename_i hd
      have := (List.mem_replicate.1 hsp).2
      injection this with h1 h2 h3
      subst h2 h3
      exact hd
  · exact absurd hp (by simp)
  · split at hsp
    · simp at hsp
    · rename_i hd
      have := (List.mem_replicate.1 hsp).2
      injection this with h1 h2 h3
      subst h2 h3
      exact fun h => hd h.symm

/-- After the requests of the four phases `last_request_id` is 0 when there is
none, and the id of the last one otherwise. -/
theorem last_request_id_after_diff {R : Type} (env : environment R) (c : client)
    (pcity : city) (result : cm_result) :
    (send_all env ⟨c, 0, 0, false⟩ (diff_requests env.g pcity result)).last_request_id
      = if diff_requests env.g pcity result = [] then 0
        else env.request_id
          (request_count c.trace + (diff_requests env.g pcity result).length - 1) := by
  split
  · rename_i h
    rw [h]
    rfl
  · rename_i h
    exact send_all_last env _ _ (fun e he => (diff_requests_are_requests _ _ _ e he).1) h

/-- With request ids that are never 0, the refresh is forced exactly when the
four phases sent no request. -/
theorem forced_refresh_events_eq {R : Type} (env : environment R) (c : client) (pcity : city)
    (result : cm_result) (hid : ∀ n, env.request_id n ≠ 0) :
    forced_refresh_events env c pcity result
      = if diff_requests env.g pcity result = [] then
          [event.dsend_packet_city_refresh pcity.id]
        else [] := by
  unfold forced_refresh_events
  rw [last_request_id_after_diff]
  by_cases h : diff_requests env.g pcity result = []
  · simp [h]
  · simp [h, hid]

/-- The client state when the connection is unbuffered, for a target that passes
the checks. -/
theorem send_changes_client {R : Type} (env : environment R) (c : client) (pcity : city)
    (result : cm_result) (hchk : target_passes_checks env.g pcity result) :
    (send_changes env c pcity result).c
      = { world := c.world
          stats := { c.stats with
            refresh_forced := c.stats.refresh_forced
              + ((forced_refresh_events env c pcity result).length : Int) }
          trace := c.trace ++ diff_requests env.g pcity result
            ++ forced_refresh_events env c pcity result
            ++ [event.reports_freeze_till (send_changes env c pcity result).last_request_id,
                event.connection_do_unbuffer] } := by
  have hlast : (send_changes env c pcity result).last_request_id
      = (force_refresh env pcity
          (send_all env ⟨c, 0, 0, false⟩ (diff_requests env.g pcity result))).last_request_id := by
    rw [send_changes_eq env c pcity result hchk]
  rw [hlast, send_changes_eq env c pcity result hchk]
  unfold force_refresh forced_refresh_events
  by_cases h0 : (send_all env ⟨c, 0, 0, false⟩
      (diff_requests env.g pcity result)).last_request_id = 0
  · simp [h0, ALWAYS_APPLY_AT_SERVER, dsend_packet_city_refresh, send_packet, send_all_c,
      log_event, log_events]
  · simp [h0, ALWAYS_APPLY_AT_SERVER, send_all_c, log_events]

theorem send_changes_not_aborted {R : Type} (env : environment R) (c : client) (pcity : city)
    (result : cm_result) (hchk : target_passes_checks env.g pcity result) :
    (send_changes env c pcity result).aborted = false := by
  rw [send_changes_eq env c pcity result hchk]

/-- What `compare_with_target` adds to the trace, and what it returns. -/
theorem compare_with_target_spec {R : Type} (env : environment R) (c : client) (pcity : city)
    (result : cm_result) :
    (compare_with_target env c pcity result).1.world = c.world ∧
    (compare_with_target env c pcity result).1.stats = c.stats ∧
    (∃ tail, (compare_with_target env c pcity result).1.trace = c.trace ++ tail ∧
      ∀ e ∈ tail, is_request e = false) ∧
    (∀ cur, get_current_as_result env.g pcity env.uninit_result = some cur →
      (compare_with_target env c pcity result).2
        = some (results_are_equal env.g pcity result cur)) := by
  unfold compare_with_target
  cases hs : get_current_as_result env.g pcity env.uninit_result with
  | none =>
    refine ⟨rfl, rfl, ⟨[event.get_current_as_result pcity.id], rfl, ?_⟩, ?_⟩
    · intro e he
      rw [List.mem_singleton.1 he]; rfl
    · intro cur hcur
      exact Option.noConfusion hcur
  | some cur =>
    cases hr : results_are_equal env.g pcity result cur with
    | false =>
      simp only [hr, if_true]
      refine ⟨rfl, rfl, ⟨[event.get_current_as_result pcity.id,
        event.results_are_equal pcity.id, event.cm_clear_cache pcity.id],
        by simp [log_event], ?_⟩, ?_⟩
      · intro e he
        simp only [List.mem_cons, List.mem_singleton, List.not_mem_nil, or_false] at he
        rcases he with rfl | rfl | rfl <;> rfl
      · intro cur' hcur'
        rw [← Option.some.inj hcur', hr]
    | true =>
      simp only [hr, Bool.true_eq_false, if_false]
      refine ⟨rfl, rfl, ⟨[event.get_current_as_result pcity.id,
        event.results_are_equal pcity.id], by simp [log_event], ?_⟩, ?_⟩
      · intro e he
        simp only [List.mem_cons, List.mem_singleton, List.not_mem_nil, or_false] at he
        rcases he with rfl | rfl <;> rfl
      · intro cur' hcur'
        rw [← Option.some.inj hcur', hr]

/-- What `check_city` does to the client: nothing, or the release of the city. -/
theorem check_city_client {R : Type} (env : environment R) (c : client) (city_id : Int)
    (parameter : Option (cm_parameter R)) :
    (check_city env c city_id parameter).1 = c ∨
      ∃ pcity, (check_city env c city_id parameter).1 = cma_release_city c pcity ∧
        (check_city env c city_id parameter).2 = some (false,
          parameter.map (fun _ => ((cma_get_parameter env.cm_init_parameter c.world.store
            ATTR_CITY_CMA_PARAMETER city_id
            (parameter.getD env.uninit_parameter)).getD (false, env.uninit_parameter)).2)) := by
  unfold check_city
  cases hc : c.world.cities city_id with
  | none => exact Or.inl rfl
  | some pcity =>
    simp only
    cases hg : cma_get_parameter env.cm_init_parameter c.world.store ATTR_CITY_CMA_PARAMETER
        city_id (parameter.getD env.uninit_parameter) with
    | none => exact Or.inl rfl
    | some r =>
      obtain ⟨b, filled⟩ := r
      cases b with
      | false => exact Or.inl rfl
      | true =>
        simp only
        by_cases ho : pcity.owner ≠ c.world.player_ptr
        · rw [if_pos ho]
          exact Or.inr ⟨pcity, rfl, rfl⟩
        · rw [if_neg ho]
          exact Or.inl rfl

/-- `check_city` sends no request and leaves the statistics alone. -/
theorem check_city_trace {R : Type} (env : environment R) (c : client) (city_id : Int)
    (parameter : Option (cm_parameter R)) :
    (check_city env c city_id parameter).1.stats = c.stats ∧
    ∃ tail, (check_city env c city_id parameter).1.trace = c.trace ++ tail ∧
      ∀ e ∈ tail, is_request e = false ∧ (∀ i, e ≠ event.get_current_as_result i) ∧
        (∀ i, e ≠ event.results_are_equal i) ∧ (∀ i, e ≠ event.cm_clear_cache i) := by
  rcases check_city_client env c city_id parameter with h | ⟨pcity, h, -⟩
  · rw [h]
    exact ⟨rfl, [], by simp, by simp⟩
  · rw [h]
    refine ⟨rfl, [event.refresh_city_dialog pcity.id,
      event.city_report_dialog_update_city pcity.id],
      by simp [cma_release_city, release_city, log_event], ?_⟩
    intro e he
    simp only [List.mem_cons, List.mem_singleton, List.not_mem_nil, or_false] at he
    rcases he with rfl | rfl <;> simp [is_request]

theorem check_city_passed {R : Type} (env : environment R) (c : client) (city_id : Int)
    (parameter : Option (cm_parameter R))
    (h : Option.map Prod.fst (check_city env c city_id parameter).2 = some true) :
    (check_city env c city_id parameter).1 = c := by
  rcases check_city_client env c city_id parameter with h1 | ⟨pcity, -, h2⟩
  · exact h1
  · rw [h2] at h
    simp at h

theorem await_and_compare_waited {R : Type} (env : environment R) (s : req_state)
    (pcity : city) (result : cm_result) (h : s.last_request_id ≠ 0) :
    await_and_compare env s pcity result
      = match check_city env (waited env s) pcity.id none with
        | (c, none) => (c, none)
        | (c, some (false, _)) => (c, some false)
        | (c, some (true, _)) =>
          compare_with_target env c ((c.world.cities pcity.id).getD pcity) result := by
  unfold await_and_compare
  rw [if_pos h]
  rfl

/-- The part of `apply_result_on_server` after `connection_do_unbuffer` sends no
request and leaves the statistics alone. -/
theorem await_and_compare_trace {R : Type} (env : environment R) (s : req_state)
    (pcity : city) (result : cm_result) :
    (await_and_compare env s pcity result).1.stats = s.c.stats ∧
    ∃ tail, (await_and_compare env s pcity result).1.trace = s.c.trace ++ tail ∧
      ∀ e ∈ tail, is_request e = false := by
  by_cases h : s.last_request_id ≠ 0
  · rw [await_and_compare_waited env s pcity result h]
    generalize hcw : waited env s = cw
    have hst : cw.stats = s.c.stats := by rw [← hcw]; rfl
    have htr : cw.trace = s.c.trace
        ++ [event.wait_for_requests s.first_request_id s.last_request_id] := by
      rw [← hcw]; rfl
    obtain ⟨hcs, t1, ht1, hr1⟩ := check_city_trace env cw pcity.id none
    generalize check_city env cw pcity.id none = r at hcs ht1
    obtain ⟨c', o⟩ := r
    simp only at hcs ht1
    have hbase : ∀ e ∈ [event.wait_for_requests s.first_request_id s.last_request_id] ++ t1,
        is_request e = false := by
      intro e he
      rcases List.mem_append.1 he with he | he
      · rw [List.mem_singleton.1 he]; rfl
      · exact (hr1 e he).1
    rcases o with _ | ⟨b, q⟩
    · exact ⟨by rw [hcs, hst], _, by rw [ht1, htr, List.append_assoc], hbase⟩
    · cases b with
      | false => exact ⟨by rw [hcs, hst], _, by rw [ht1, htr, List.append_assoc], hbase⟩
      | true =>
        simp only
        obtain ⟨-, h2, ⟨t2, ht2, hr2⟩, -⟩ :=
          compare_with_target_spec env c' ((c'.world.cities pcity.id).getD pcity) result
        refine ⟨by rw [h2, hcs, hst], _, by rw [ht2, ht1, htr, List.append_assoc,
          List.append_assoc], ?_⟩
        intro e he
        rcases List.mem_append.1 he with he | he
        · rw [List.mem_singleton.1 he]; rfl
        · rcases List.mem_append.1 he with he | he
          · exact (hr1 e he).1
          · exact hr2 e he
  · have h0 : s.last_request_id = 0 := not_not.1 h
    unfold await_and_compare
    rw [if_neg h]
    obtain ⟨-, h2, h3, -⟩ := compare_with_target_spec env s.c pcity result
    exact ⟨h2, h3⟩

/-- The trace and the statistics of a call of `apply_result_on_server` that does
not take the fast path, for a target that passes the checks. -/
theorem apply_result_on_server_slow_trace {R : Type} (env : environment R) (c : client)
    (pcity : city) (result cur : cm_result) (hv : result.found_a_valid = true)
    (hs : get_current_as_result env.g pcity env.uninit_result = some cur)
    (hne : results_are_equal env.g pcity result cur = false)
    (hchk : target_passes_checks env.g pcity result) :
    (apply_result_on_server env c pcity result).1.stats
      = { apply_result_ignored := c.stats.apply_result_ignored
          apply_result_applied := c.stats.apply_result_applied + 1
          refresh_forced := c.stats.refresh_forced
            + ((forced_refresh_events env (client_after_entry c pcity) pcity result).length
                : Int) } ∧
    ∃ tail, (apply_result_on_server env c pcity result).1.trace
        = c.trace ++ [event.get_current_as_result pcity.id, event.results_are_equal pcity.id,
            event.connection_do_buffer]
          ++ diff_requests env.g pcity result
          ++ forced_refresh_events env (client_after_entry c pcity) pcity result
          ++ tail ∧
      ∀ e ∈ tail, is_request e = false := by
  rw [apply_result_on_server_slow env c pcity result cur hv hs hne]
  have hnab : (state_before_wait env c pcity result).aborted = false :=
    send_changes_not_aborted env _ pcity result hchk
  rw [hnab]
  simp only [Bool.false_eq_true, if_false]
  obtain ⟨h1, t, ht, hr⟩ :=
    await_and_compare_trace env (state_before_wait env c pcity result) pcity result
  have hc := send_changes_client env (client_after_entry c pcity) pcity result hchk
  refine ⟨?_, [event.reports_freeze_till (state_before_wait env c pcity result).last_request_id,
    event.connection_do_unbuffer] ++ t, ?_, ?_⟩
  · rw [h1]
    unfold state_before_wait
    rw [hc]
    simp [client_after_entry, log_event]
  · rw [ht]
    unfold state_before_wait
    rw [hc]
    simp [client_after_entry, log_event]
  · intro e he
    rcases List.mem_append.1 he with he | he
    · simp only [List.mem_cons, List.mem_singleton, List.not_mem_nil, or_false] at he
      rcases he with rfl | rfl <;> rfl
    · exact hr e he

/-! ## The requests simulated on the server model -/

theorem simulate_append (g : game_consts) (a : assignment) (es es' : List event) :
    simulate g a (es ++ es') = simulate g (simulate g a es) es' := by
  unfold simulate
  rw [List.foldl_append]

theorem safe_run_sound (g : game_consts) (pcity : city) (a : assignment) (es : List event)
    (h : safe_run g pcity a es) : assignment_sound g pcity a := by
  cases es with
  | nil => exact h
  | cons e es => exact h.1

theorem safe_run_final (g : game_consts) (pcity : city) (a : assignment) (es : List event)
    (h : safe_run g pcity a es) : assignment_sound g pcity (simulate g a es) := by
  induction es generalizing a with
  | nil => exact h
  | cons e es ih => exact ih _ h.2.2

theorem safe_run_append (g : game_consts) (pcity : city) (a : assignment)
    (es es' : List event) (h : safe_run g pcity a es)
    (h' : safe_run g pcity (simulate g a es) es') : safe_run g pcity a (es ++ es') := by
  induction es generalizing a with
  | nil => exact h'
  | cons e es ih => exact ⟨h.1, h.2.1, ih _ h.2.2 h'⟩

/-- Changing the flag of one position of a list without repetition changes the
number of set flags by the difference of the two values. -/
theorem filter_length_array2_set (w : Nat → Nat → Bool) (l : List (Nat × Nat))
    (hl : l.Nodup) (p : Nat × Nat) (hp : p ∈ l) (v : Bool) :
    (((l.filter (fun q => array2_set w p.1 p.2 v q.1 q.2)).length : Int))
      = ((l.filter (fun q => w q.1 q.2)).length : Int)
        + (if v then 1 else 0) - (if w p.1 p.2 then 1 else 0) := by
  induction l with
  | nil => exact absurd hp (List.not_mem_nil _)
  | cons q l ih =>
    have hq : q ∉ l := (List.nodup_cons.1 hl).1
    have hl' : l.Nodup := (List.nodup_cons.1 hl).2
    by_cases hpq : p = q
    · subst hpq
      have hrest : l.filter (fun q => array2_set w p.1 p.2 v q.1 q.2)
          = l.filter (fun q => w q.1 q.2) := by
        apply List.filter_congr
        intro r hr
        have hne : ¬ (r.1 = p.1 ∧ r.2 = p.2) := by
          rintro ⟨h1, h2⟩
          exact hq (by rw [← Prod.ext h1 h2]; exact hr)
        simp [array2_set, hne]
      rw [List.filter_cons, List.filter_cons, hrest]
      have hset : array2_set w p.1 p.2 v p.1 p.2 = v := by simp [array2_set]
      rw [hset]
      cases v <;> cases hw : w p.1 p.2 <;> simp
    · have hp' : p ∈ l := by
        rcases List.mem_cons.1 hp with h | h
        · exact absurd h hpq
        · exact h
      have hne : ¬ (q.1 = p.1 ∧ q.2 = p.2) := by
        rintro ⟨h1, h2⟩
        exact hpq (Prod.ext h1 h2).symm
      have hhead : array2_set w p.1 p.2 v q.1 q.2 = w q.1 q.2 := by simp [array2_set, hne]
      rw [List.filter_cons, List.filter_cons, hhead]
      have := ih hl' hp'
      cases hw : w q.1 q.2 <;> simp <;> omega

/-- Changing one entry of an array changes the sum of its first `n` entries by the
difference of the two values. -/
theorem sum_array_set (f : Nat → Int) (n i : Nat) (hi : i < n) (v : Int) :
    ((List.range n).map (array_set f i v)).sum = ((List.range n).map f).sum + (v - f i) := by
  induction n with
  | zero => omega
  | succ n ih =>
    rw [List.range_succ, List.map_append, List.map_append, List.sum_append, List.sum_append]
    simp only [List.map_cons, List.map_nil, List.sum_cons, List.sum_nil, add_zero]
    by_cases h : i = n
    · subst h
      have hrest : (List.range i).map (array_set f i v) = (List.range i).map f := by
        apply List.map_congr_left
        intro j hj
        have : j ≠ i := Nat.ne_of_lt (List.mem_range.1 hj)
        simp [array_set, this]
      rw [hrest]
      simp [array_set]
    · have hlt : i < n := by omega
      rw [ih hlt]
      have : n ≠ i := fun h' => h h'.symm
      simp only [array_set, this, if_false]
      ring

theorem toggle_worked_sound (g : game_consts) (pcity : city) (a : assignment)
    (hg : well_formed_geometry g) (hd : g.DEFAULT_SPECIALIST < g.SP_COUNT)
    (city_id : Int) (p : Nat × Nat) (hp : p ∈ my_city_map_iterate g pcity)
    (hw : a.worked p.1 p.2 = true) (ha : assignment_sound g pcity a) :
    assignment_sound g pcity (server_apply g a (event.city_toggle_worker city_id p.1 p.2)) := by
  have hnd : (my_city_map_iterate g pcity).Nodup := (hg.1.filter _).filter _
  simp only [server_apply, hw, if_true]
  refine ⟨?_, ?_⟩
  · intro sp hsp
    have := ha.1 sp hsp
    have := ha.1 _ hd
    simp only [array_set]
    split <;> omega
  · have h1 := filter_length_array2_set a.worked _ hnd p hp false
    have h2 := sum_array_set a.specialists g.SP_COUNT g.DEFAULT_SPECIALIST hd
      (a.specialists g.DEFAULT_SPECIALIST + 1)
    have h3 := ha.2
    simp only [assignment_total, specialists_sum] at h3 ⊢
    rw [h1, h2, hw]
    simp only [Bool.false_eq_true, if_false, if_true]
    omega

theorem toggle_empty_sound (g : game_consts) (pcity : city) (a : assignment)
    (hg : well_formed_geometry g) (hd : g.DEFAULT_SPECIALIST < g.SP_COUNT)
    (city_id : Int) (p : Nat × Nat) (hp : p ∈ my_city_map_iterate g pcity)
    (hw : a.worked p.1 p.2 = false) (hav : 1 ≤ a.specialists g.DEFAULT_SPECIALIST)
    (ha : assignment_sound g pcity a) :
    assignment_sound g pcity (server_apply g a (event.city_toggle_worker city_id p.1 p.2)) := by
  have hnd : (my_city_map_iterate g pcity).Nodup := (hg.1.filter _).filter _
  simp only [server_apply, hw, Bool.false_eq_true, if_false]
  refine ⟨?_, ?_⟩
  · intro sp hsp
    have := ha.1 sp hsp
    simp only [array_set]
    split <;> omega
  · have h1 := filter_length_array2_set a.worked _ hnd p hp true
    have h2 := sum_array_set a.specialists g.SP_COUNT g.DEFAULT_SPECIALIST hd
      (a.specialists g.DEFAULT_SPECIALIST - 1)
    have h3 := ha.2
    simp only [assignment_total, specialists_sum] at h3 ⊢
    rw [h1, h2, hw]
    simp only [Bool.false_eq_true, if_false, if_true]
    omega

theorem change_specialist_sound (g : game_consts) (pcity : city) (a : assignment)
    (city_id : Int) (f t : Nat) (hf : f < g.SP_COUNT) (ht : t < g.SP_COUNT) (hft : f ≠ t)
    (hav : 1 ≤ a.specialists f) (ha : assignment_sound g pcity a) :
    assignment_sound g pcity (server_apply g a (event.city_change_specialist city_id f t)) := by
  simp only [server_apply]
  refine ⟨?_, ?_⟩
  · intro sp hsp
    have := ha.1 sp hsp
    have := ha.1 t ht
    simp only [array_set]
    split
    · have : ¬ t = f := fun h => hft h.symm
      simp only [this, if_false]
      omega
    · split <;> omega
  · have h1 := sum_array_set (array_set a.specialists f (a.specialists f - 1)) g.SP_COUNT t ht
      (array_set a.specialists f (a.specialists f - 1) t + 1)
    have h2 := sum_array_set a.specialists g.SP_COUNT f hf (a.specialists f - 1)
    have h3 := ha.2
    simp only [assignment_total, specialists_sum] at h3 ⊢
    rw [h1, h2]
    omega

theorem assignment_ext (a b : assignment) (h1 : a.worked = b.worked)
    (h2 : a.specialists = b.specialists) : a = b := by
  cases a; cases b; simp_all

theorem server_apply_toggle_worked (g : game_consts) (a : assignment) (city_id : Int)
    (x y : Nat) (hw : a.worked x y = true) :
    server_apply g a (event.city_toggle_worker city_id x y)
      = { worked := array2_set a.worked x y false
          specialists := array_set a.specialists g.DEFAULT_SPECIALIST
            (a.specialists g.DEFAULT_SPECIALIST + 1) } := by
  simp [server_apply, hw]

theorem server_apply_toggle_empty (g : game_consts) (a : assignment) (city_id : Int)
    (x y : Nat) (hw : a.worked x y = false) :
    server_apply g a (event.city_toggle_worker city_id x y)
      = { worked := array2_set a.worked x y true
          specialists := array_set a.specialists g.DEFAULT_SPECIALIST
            (a.specialists g.DEFAULT_SPECIALIST - 1) } := by
  simp [server_apply, hw]

theorem array2_set_other {α : Type} (w : Nat → Nat → α) (p q : Nat × Nat) (v : α)
    (h : q ≠ p) : array2_set w p.1 p.2 v q.1 q.2 = w q.1 q.2 := by
  have hne : ¬ (q.1 = p.1 ∧ q.2 = p.2) := fun hh => h (Prod.ext hh.1 hh.2)
  simp [array2_set, hne]

/-- The assignment after toggles on distinct worked tiles: the tiles are freed
and each adds one default specialist. -/
theorem simulate_toggles_off (g : game_consts) (city_id : Int) (L : List (Nat × Nat))
    (a : assignment) (hL : L.Nodup) (hw : ∀ p ∈ L, a.worked p.1 p.2 = true) :
    simulate g a (L.map (fun p => event.city_toggle_worker city_id p.1 p.2))
      = { worked := fun x y => if (x, y) ∈ L then false else a.worked x y
          specialists := array_set a.specialists g.DEFAULT_SPECIALIST
            (a.specialists g.DEFAULT_SPECIALIST + (L.length : Int)) } := by
  induction L generalizing a with
  | nil =>
    simp only [List.map_nil, simulate, List.foldl_nil, List.not_mem_nil, if_false,
      List.length_nil, Nat.cast_zero, add_zero]
    apply assignment_ext
    · rfl
    · funext i
      simp only [array_set]
      split
      · rename_i h; rw [h]
      · rfl
  | cons p L ih =>
    have hp : p ∉ L := (List.nodup_cons.1 hL).1
    have hL' : L.Nodup := (List.nodup_cons.1 hL).2
    have hwp := hw p (List.mem_cons_self _ _)
    have hstep : simulate g a ((p :: L).map (fun p => event.city_toggle_worker city_id p.1 p.2))
        = simulate g (server_apply g a (event.city_toggle_worker city_id p.1 p.2))
            (L.map (fun p => event.city_toggle_worker city_id p.1 p.2)) := rfl
    rw [hstep, server_apply_toggle_worked g a city_id p.1 p.2 hwp, ih _ hL']
    · congr 1
      · funext x y
        by_cases hm : (x, y) ∈ L
        · simp [hm]
        · by_cases he : (x, y) = p
          · subst he
            simp [hm, array2_set]
          · have := array2_set_other a.worked p (x, y) false he
            simp only at this
            simp [hm, he, this]
      · funext i
        simp only [array_set, List.length_cons, Nat.cast_add, Nat.cast_one]
        split <;> simp
        ring
    · intro q hq
      have hne : q ≠ p := fun h => hp (h ▸ hq)
      simp only
      rw [array2_set_other a.worked p q false hne]
      exact hw q (List.mem_cons_of_mem _ hq)

/-- The assignment after toggles on distinct tiles that are not worked: the tiles
are worked and each consumes one default specialist. -/
theorem simulate_toggles_on (g : game_consts) (city_id : Int) (L : List (Nat × Nat))
    (a : assignment) (hL : L.Nodup) (hw : ∀ p ∈ L, a.worked p.1 p.2 = false) :
    simulate g a (L.map (fun p => event.city_toggle_worker city_id p.1 p.2))
      = { worked := fun x y => if (x, y) ∈ L then true else a.worked x y
          specialists := array_set a.specialists g.DEFAULT_SPECIALIST
            (a.specialists g.DEFAULT_SPECIALIST - (L.length : Int)) } := by
  induction L generalizing a with
  | nil =>
    simp only [List.map_nil, simulate, List.foldl_nil, List.not_mem_nil, if_false,
      List.length_nil, Nat.cast_zero, sub_zero]
    apply assignment_ext
    · rfl
    · funext i
      simp only [array_set]
      split
      · rename_i h; rw [h]
      · rfl
  | cons p L ih =>
    have hp : p ∉ L := (List.nodup_cons.1 hL).1
    have hL' : L.Nodup := (List.nodup_cons.1 hL).2
    have hwp := hw p (List.mem_cons_self _ _)
    have hstep : simulate g a ((p :: L).map (fun p => event.city_toggle_worker city_id p.1 p.2))
        = simulate g (server_apply g a (event.city_toggle_worker city_id p.1 p.2))
            (L.map (fun p => event.city_toggle_worker city_id p.1 p.2)) := rfl
    rw [hstep, server_apply_toggle_empty g a city_id p.1 p.2 hwp, ih _ hL']
    · congr 1
      · funext x y
        by_cases hm : (x, y) ∈ L
        · simp [hm]
        · by_cases he : (x, y) = p
          · subst he
            simp [hm, array2_set]
          · have := array2_set_other a.worked p (x, y) true he
            simp only at this
            simp [hm, he, this]
      · funext i
        simp only [array_set, List.length_cons, Nat.cast_add, Nat.cast_one]
        split <;> simp
        ring
    · intro q hq
      have hne : q ≠ p := fun h => hp (h ▸ hq)
      simp only
      rw [array2_set_other a.worked p q true hne]
      exact hw q (List.mem_cons_of_mem _ hq)

/-- The assignment after `m` conversions from `f` to another type `t`. -/
theorem simulate_changes (g : game_consts) (city_id : Int) (f t : Nat) (hft : f ≠ t)
    (m : Nat) (a : assignment) :
    simulate g a (List.replicate m (event.city_change_specialist city_id f t))
      = { worked := a.worked
          specialists := fun i =>
            if i = t then a.specialists t + (m : Int)
            else if i = f then a.specialists f - (m : Int)
            else a.specialists i } := by
  induction m generalizing a with
  | zero =>
    simp only [List.replicate_zero, simulate, List.foldl_nil, Nat.cast_zero, add_zero, sub_zero]
    apply assignment_ext
    · rfl
    · funext i
      simp only
      split
      · rename_i h; rw [h]
      · split
        · rename_i h; rw [h]
        · rfl
  | succ m ih =>
    have hstep : simulate g a (List.replicate (m + 1) (event.city_change_specialist city_id f t))
        = simulate g (server_apply g a (event.city_change_specialist city_id f t))
            (List.replicate m (event.city_change_specialist city_id f t)) := rfl
    rw [hstep, ih]
    simp only [server_apply]
    congr 1
    funext i
    have htf : ¬ t = f := fun h => hft h.symm
    by_cases h1 : i = t
    · subst h1
      simp [array_set, htf]
      ring
    · by_cases h2 : i = f
      · subst h2
        simp [array_set, h1, hft]
        ring
      · simp [array_set, h1, h2]

/-- The assignment after, for each type `sp` of a list without repetition other
than the default type, `k sp` conversions from `sp` to the default type. -/
theorem simulate_changes_to_default (g : game_consts) (city_id : Int) (k : Nat → Nat)
    (Ls : List Nat) (a : assignment) (hLs : Ls.Nodup) :
    simulate g a (Ls.flatMap (fun sp =>
        if sp = g.DEFAULT_SPECIALIST then []
        else List.replicate (k sp)
          (event.city_change_specialist city_id sp g.DEFAULT_SPECIALIST)))
      = { worked := a.worked
          specialists := fun i =>
            if i = g.DEFAULT_SPECIALIST then
              a.specialists g.DEFAULT_SPECIALIST
                + (Ls.map (fun sp => if sp = g.DEFAULT_SPECIALIST then 0 else (k sp : Int))).sum
            else if i ∈ Ls then a.specialists i - (k i : Int)
            else a.specialists i } := by
  induction Ls generalizing a with
  | nil =>
    simp only [List.flatMap_nil, simulate, List.foldl_nil, List.map_nil, List.sum_nil, add_zero,
      List.not_mem_nil, if_false]
    apply assignment_ext
    · rfl
    · funext i
      simp only
      split
      · rename_i h; rw [h]
      · rfl
  | cons sp Ls ih =>
    have hsp : sp ∉ Ls := (List.nodup_cons.1 hLs).1
    have hLs' : Ls.Nodup := (List.nodup_cons.1 hLs).2
    rw [List.flatMap_cons, simulate_append, ih _ hLs']
    by_cases hd : sp = g.DEFAULT_SPECIALIST
    · rw [if_pos hd]
      apply assignment_ext
      · rfl
      · funext i
        simp only [simulate, List.foldl_nil, List.map_cons, List.sum_cons, hd, if_true,
          zero_add, List.mem_cons]
        by_cases h1 : i = g.DEFAULT_SPECIALIST
        · simp [h1]
        · simp [h1]
    · rw [if_neg hd, simulate_changes g city_id sp g.DEFAULT_SPECIALIST hd]
      apply assignment_ext
      · rfl
      · funext i
        simp only [List.map_cons, List.sum_cons, hd, if_false, List.mem_cons, if_true]
        by_cases h1 : i = g.DEFAULT_SPECIALIST
        · simp only [h1, if_true]
          ring
        · by_cases h2 : i = sp
          · subst h2
            simp [h1, hsp]
          · simp [h1, h2]

/-- The assignment after, for each type `sp` of a list without repetition other
than the default type, `k sp` conversions from the default type to `sp`. -/
theorem simulate_changes_from_default (g : game_consts) (city_id : Int) (k : Nat → Nat)
    (Ls : List Nat) (a : assignment) (hLs : Ls.Nodup) :
    simulate g a (Ls.flatMap (fun sp =>
        if sp = g.DEFAULT_SPECIALIST then []
        else List.replicate (k sp)
          (event.city_change_specialist city_id g.DEFAULT_SPECIALIST sp)))
      = { worked := a.worked
          specialists := fun i =>
            if i = g.DEFAULT_SPECIALIST then
              a.specialists g.DEFAULT_SPECIALIST
                - (Ls.map (fun sp => if sp = g.DEFAULT_SPECIALIST then 0 else (k sp : Int))).sum
            else if i ∈ Ls then a.specialists i + (k i : Int)
            else a.specialists i } := by
  induction Ls generalizing a with
  | nil =>
    simp only [List.flatMap_nil, simulate, List.foldl_nil, List.map_nil, List.sum_nil, sub_zero,
      List.not_mem_nil, if_false]
    apply assignment_ext
    · rfl
    · funext i
      simp only
      split
      · rename_i h; rw [h]
      · rfl
  | cons sp Ls ih =>
    have hsp : sp ∉ Ls := (List.nodup_cons.1 hLs).1
    have hLs' : Ls.Nodup := (List.nodup_cons.1 hLs).2
    rw [List.flatMap_cons, simulate_append, ih _ hLs']
    by_cases hd : sp = g.DEFAULT_SPECIALIST
    · rw [if_pos hd]
      apply assignment_ext
      · rfl
      · funext i
        simp only [simulate, List.foldl_nil, List.map_cons, List.sum_cons, hd, if_true,
          zero_add, List.mem_cons]
        by_cases h1 : i = g.DEFAULT_SPECIALIST
        · simp [h1]
        · simp [h1]
    · have hd' : g.DEFAULT_SPECIALIST ≠ sp := fun h => hd h.symm
      rw [if_neg hd, simulate_changes g city_id g.DEFAULT_SPECIALIST sp hd']
      apply assignment_ext
      · rfl
      · funext i
        simp only [List.map_cons, List.sum_cons, hd, if_false, List.mem_cons, if_true]
        by_cases h1 : i = g.DEFAULT_SPECIALIST
        · have : ¬ g.DEFAULT_SPECIALIST = sp := hd'
          simp only [h1, if_true, this, if_false]
          ring
        · by_cases h2 : i = sp
          · subst h2
            simp [h1, hsp]
          · simp [h1, h2]

/-- Toggles on distinct worked tiles of the city form a safe run. -/
theorem safe_run_toggles_off (g : game_consts) (pcity : city) (hg : well_formed_geometry g)
    (hd : g.DEFAULT_SPECIALIST < g.SP_COUNT) (city_id : Int) (L : List (Nat × Nat))
    (a : assignment) (hL : L.Nodup) (hsub : ∀ p ∈ L, p ∈ my_city_map_iterate g pcity)
    (hw : ∀ p ∈ L, a.worked p.1 p.2 = true) (ha : assignment_sound g pcity a) :
    safe_run g pcity a (L.map (fun p => event.city_toggle_worker city_id p.1 p.2)) := by
  induction L generalizing a with
  | nil => exact ha
  | cons p L ih =>
    have hp : p ∉ L := (List.nodup_cons.1 hL).1
    have hwp := hw p (List.mem_cons_self _ _)
    refine ⟨ha, Or.inl hwp, ih _ (List.nodup_cons.1 hL).2
      (fun q hq => hsub q (List.mem_cons_of_mem _ hq)) ?_
      (toggle_worked_sound g pcity a hg hd city_id p (hsub p (List.mem_cons_self _ _)) hwp ha)⟩
    intro q hq
    have hne : q ≠ p := fun h => hp (h ▸ hq)
    rw [server_apply_toggle_worked g a city_id p.1 p.2 hwp]
    simp only
    rw [array2_set_other a.worked p q false hne]
    exact hw q (List.mem_cons_of_mem _ hq)

/-- Toggles on distinct tiles of the city that are not worked form a safe run
when there are as many default specialists as tiles. -/
theorem safe_run_toggles_on (g : game_consts) (pcity : city) (hg : well_formed_geometry g)
    (hd : g.DEFAULT_SPECIALIST < g.SP_COUNT) (city_id : Int) (L : List (Nat × Nat))
    (a : assignment) (hL : L.Nodup) (hsub : ∀ p ∈ L, p ∈ my_city_map_iterate g pcity)
    (hw : ∀ p ∈ L, a.worked p.1 p.2 = false)
    (hav : (L.length : Int) ≤ a.specialists g.DEFAULT_SPECIALIST)
    (ha : assignment_sound g pcity a) :
    safe_run g pcity a (L.map (fun p => event.city_toggle_worker city_id p.1 p.2)) := by
  induction L generalizing a with
  | nil => exact ha
  | cons p L ih =>
    have hp : p ∉ L := (List.nodup_cons.1 hL).1
    have hwp := hw p (List.mem_cons_self _ _)
    have hav1 : 1 ≤ a.specialists g.DEFAULT_SPECIALIST := by
      simp only [List.length_cons, Nat.cast_add, Nat.cast_one] at hav
      omega
    refine ⟨ha, Or.inr hav1, ih _ (List.nodup_cons.1 hL).2
      (fun q hq => hsub q (List.mem_cons_of_mem _ hq)) ?_ ?_
      (toggle_empty_sound g pcity a hg hd city_id p (hsub p (List.mem_cons_self _ _)) hwp
        hav1 ha)⟩
    · intro q hq
      have hne : q ≠ p := fun h => hp (h ▸ hq)
      rw [server_apply_toggle_empty g a city_id p.1 p.2 hwp]
      simp only
      rw [array2_set_other a.worked p q true hne]
      exact hw q (List.mem_cons_of_mem _ hq)
    · rw [server_apply_toggle_empty g a city_id p.1 p.2 hwp]
      simp only [array_set, if_true, List.length_cons, Nat.cast_add, Nat.cast_one] at hav ⊢
      omega

/-- Conversions from `f` to another type `t`, no more than there are specialists
of type `f`, form a safe run. -/
theorem safe_run_changes (g : game_consts) (pcity : city) (city_id : Int) (f t : Nat)
    (hf : f < g.SP_COUNT) (ht : t < g.SP_COUNT) (hft : f ≠ t) (m : Nat) (a : assignment)
    (hav : (m : Int) ≤ a.specialists f) (ha : assignment_sound g pcity a) :
    safe_run g pcity a (List.replicate m (event.city_change_specialist city_id f t)) := by
  induction m generalizing a with
  | zero => exact ha
  | succ m ih =>
    have hav1 : 1 ≤ a.specialists f := by
      simp only [Nat.cast_add, Nat.cast_one] at hav
      omega
    refine ⟨ha, hav1, ih _ ?_ (change_specialist_sound g pcity a city_id f t hf ht hft hav1 ha)⟩
    have htf : ¬ f = t := hft
    simp only [server_apply, array_set, htf, if_false, if_true, Nat.cast_add, Nat.cast_one]
      at hav ⊢
    omega

theorem sum_default_terms_nonneg (d : Nat) (k : Nat → Nat) (Ls : List Nat) :
    0 ≤ (Ls.map (fun sp => if sp = d then 0 else (k sp : Int))).sum := by
  apply List.sum_nonneg
  intro x hx
  obtain ⟨sp, -, rfl⟩ := List.mem_map.1 hx
  split
  · exact le_refl _
  · exact Int.natCast_nonneg _

/-- Conversions to the default type, for each type no more than there are
specialists of it, form a safe run. -/
theorem safe_run_changes_to_default (g : game_consts) (pcity : city) (city_id : Int)
    (hd : g.DEFAULT_SPECIALIST < g.SP_COUNT) (k : Nat → Nat) (Ls : List Nat) (a : assignment)
    (hLs : Ls.Nodup) (hlt : ∀ sp ∈ Ls, sp < g.SP_COUNT)
    (hav : ∀ sp ∈ Ls, sp ≠ g.DEFAULT_SPECIALIST → (k sp : Int) ≤ a.specialists sp)
    (ha : assignment_sound g pcity a) :
    safe_run g pcity a (Ls.flatMap (fun sp =>
      if sp = g.DEFAULT_SPECIALIST then []
      else List.replicate (k sp)
        (event.city_change_specialist city_id sp g.DEFAULT_SPECIALIST))) := by
  induction Ls generalizing a with
  | nil => exact ha
  | cons sp Ls ih =>
    have hsp : sp ∉ Ls := (List.nodup_cons.1 hLs).1
    have hLs' : Ls.Nodup := (List.nodup_cons.1 hLs).2
    have hlt' : ∀ q ∈ Ls, q < g.SP_COUNT := fun q hq => hlt q (List.mem_cons_of_mem _ hq)
    rw [List.flatMap_cons]
    by_cases hsd : sp = g.DEFAULT_SPECIALIST
    · rw [if_pos hsd, List.nil_append]
      exact ih a hLs' hlt' (fun q hq => hav q (List.mem_cons_of_mem _ hq)) ha
    · rw [if_neg hsd]
      have h1 := safe_run_changes g pcity city_id sp g.DEFAULT_SPECIALIST
        (hlt sp (List.mem_cons_self _ _)) hd hsd (k sp) a
        (hav sp (List.mem_cons_self _ _) hsd) ha
      refine safe_run_append g pcity a _ _ h1 (ih _ hLs' hlt' ?_ (safe_run_final g pcity a _ h1))
      intro q hq hqd
      have hqs : q ≠ sp := fun h => hsp (h ▸ hq)
      rw [simulate_changes g city_id sp g.DEFAULT_SPECIALIST hsd]
      simp only [hqd, hqs, if_false]
      exact hav q (List.mem_cons_of_mem _ hq) hqd

/-- Conversions from the default type, in all no more than there are default
specialists, form a safe run. -/
theorem safe_run_changes_from_default (g : game_consts) (pcity : city) (city_id : Int)
    (hd : g.DEFAULT_SPECIALIST < g.SP_COUNT) (k : Nat → Nat) (Ls : List Nat) (a : assignment)
    (hLs : Ls.Nodup) (hlt : ∀ sp ∈ Ls, sp < g.SP_COUNT)
    (hav : (Ls.map (fun sp => if sp = g.DEFAULT_SPECIALIST then 0 else (k sp : Int))).sum
      ≤ a.specialists g.DEFAULT_SPECIALIST)
    (ha : assignment_sound g pcity a) :
    safe_run g pcity a (Ls.flatMap (fun sp =>
      if sp = g.DEFAULT_SPECIALIST then []
      else List.replicate (k sp)
        (event.city_change_specialist city_id g.DEFAULT_SPECIALIST sp))) := by
  induction Ls generalizing a with
  | nil => exact ha
  | cons sp Ls ih =>
    have hLs' : Ls.Nodup := (List.nodup_cons.1 hLs).2
    have hlt' : ∀ q ∈ Ls, q < g.SP_COUNT := fun q hq => hlt q (List.mem_cons_of_mem _ hq)
    have hnn := sum_default_terms_nonneg g.DEFAULT_SPECIALIST k Ls
    rw [List.flatMap_cons]
    rw [List.map_cons, List.sum_cons] at hav
    by_cases hsd : sp = g.DEFAULT_SPECIALIST
    · rw [if_pos hsd, List.nil_append]
      rw [if_pos hsd, zero_add] at hav
      exact ih a hLs' hlt' hav ha
    · rw [if_neg hsd]
      rw [if_neg hsd] at hav
      have hds : g.DEFAULT_SPECIALIST ≠ sp := fun h => hsd h.symm
      have h1 := safe_run_changes g pcity city_id g.DEFAULT_SPECIALIST sp hd
        (hlt sp (List.mem_cons_self _ _)) hds (k sp) a (by omega) ha
      refine safe_run_append g pcity a _ _ h1 (ih _ hLs' hlt' ?_ (safe_run_final g pcity a _ h1))
      rw [simulate_changes g city_id g.DEFAULT_SPECIALIST sp hds]
      have : ¬ g.DEFAULT_SPECIALIST = sp := hds
      simp only [this, if_false, if_true]
      omega

/-- A list splits, along a second predicate, the elements that satisfy a first
one. -/
theorem filter_length_split {α : Type} (l : List α) (P Q : α → Bool) :
    (l.filter P).length
      = (l.filter (fun x => P x && Q x)).length + (l.filter (fun x => P x && !Q x)).length := by
  induction l with
  | nil => rfl
  | cons x l ih =>
    simp only [List.filter_cons]
    cases hP : P x <;> cases hQ : Q x <;> simp [ih] <;> omega

/-- The sum of the first `n` entries is the entry `d` plus the sum of the
others. -/
theorem sum_split_default (f : Nat → Int) (n d : Nat) (hd : d < n) :
    ((List.range n).map f).sum
      = f d + ((List.range n).map (fun i => if i = d then 0 else f i)).sum := by
  have h := sum_array_set f n d hd 0
  have hfun : (List.range n).map (array_set f d 0)
      = (List.range n).map (fun i => if i = d then 0 else f i) := by
    apply List.map_congr_left
    intro i _
    rfl
  rw [hfun] at h
  omega

theorem sum_sub_congr (l : List Nat) (f1 f2 f3 f4 : Nat → Int)
    (h : ∀ i ∈ l, f1 i - f2 i = f3 i - f4 i) :
    (l.map f1).sum - (l.map f2).sum = (l.map f3).sum - (l.map f4).sum := by
  induction l with
  | nil => rfl
  | cons x l ih =>
    have hx := h x (List.mem_cons_self _ _)
    have := ih (fun i hi => h i (List.mem_cons_of_mem _ hi))
    simp only [List.map_cons, List.sum_cons]
    omega

theorem toNat_sub_le (x y : Int) (hx : 0 ≤ x) (hy : 0 ≤ y) : ((x - y).toNat : Int) ≤ x := by
  omega

theorem toNat_sub_toNat (x y : Int) : ((x - y).toNat : Int) - ((y - x).toNat : Int) = x - y := by
  omega

/-- The requests of the four phases on the server model, from the assignment of
the city: the final assignment is the target, and when no count of the city or
of the target is negative the requests form a safe run. -/
theorem diff_requests_run (g : game_consts) (pcity : city) (result : cm_result)
    (hg : well_formed_geometry g) (hd : g.DEFAULT_SPECIALIST < g.SP_COUNT)
    (hcur : (visited_worker_count g pcity : Int) + specialists_sum g pcity.specialists
      = pcity.size)
    (htgt : pcity.size = cm_count_worker g pcity result + cm_count_specialist g pcity result) :
    ((∀ p ∈ my_city_map_iterate g pcity,
        (simulate g (city_assignment pcity) (diff_requests g pcity result)).worked p.1 p.2
          = result.worker_positions_used p.1 p.2) ∧
      ∀ sp < g.SP_COUNT,
        (simulate g (city_assignment pcity) (diff_requests g pcity result)).specialists sp
          = result.specialists sp) ∧
    ((∀ sp < g.SP_COUNT, 0 ≤ pcity.specialists sp) →
      (∀ sp < g.SP_COUNT, 0 ≤ result.specialists sp) →
      safe_run g pcity (city_assignment pcity) (diff_requests g pcity result)) := by
  have hMnd : (my_city_map_iterate g pcity).Nodup := (hg.1.filter _).filter _
  have hrn : (List.range g.SP_COUNT).Nodup := List.nodup_range _
  -- the four phases
  have hPa : surplus_worker_toggles g pcity result
      = ((my_city_map_iterate g pcity).filter (fun p =>
          decide (pcity.city_map p.1 p.2 = city_tile_type.C_TILE_WORKER)
            && !result.worker_positions_used p.1 p.2)).map
        (fun p => event.city_toggle_worker pcity.id p.1 p.2) := rfl
  have hPc : missing_worker_toggles g pcity result
      = ((my_city_map_iterate g pcity).filter (fun p =>
          result.worker_positions_used p.1 p.2
            && !decide (pcity.city_map p.1 p.2 = city_tile_type.C_TILE_WORKER))).map
        (fun p => event.city_toggle_worker pcity.id p.1 p.2) := rfl
  have hPb : excess_specialist_changes g pcity result
      = (List.range g.SP_COUNT).flatMap (fun sp =>
          if sp = g.DEFAULT_SPECIALIST then []
          else List.replicate ((fun sp => (pcity.specialists sp - result.specialists sp).toNat) sp)
            (event.city_change_specialist pcity.id sp g.DEFAULT_SPECIALIST)) := rfl
  have hPd : missing_specialist_changes g pcity result
      = (List.range g.SP_COUNT).flatMap (fun sp =>
          if sp = g.DEFAULT_SPECIALIST then []
          else List.replicate ((fun sp => (result.specialists sp - pcity.specialists sp).toNat) sp)
            (event.city_change_specialist pcity.id g.DEFAULT_SPECIALIST sp)) := rfl
  generalize hLa : (my_city_map_iterate g pcity).filter (fun p =>
      decide (pcity.city_map p.1 p.2 = city_tile_type.C_TILE_WORKER)
        && !result.worker_positions_used p.1 p.2) = La at hPa
  generalize hLc : (my_city_map_iterate g pcity).filter (fun p =>
      result.worker_positions_used p.1 p.2
        && !decide (pcity.city_map p.1 p.2 = city_tile_type.C_TILE_WORKER)) = Lc at hPc
  have hLa_nd : La.Nodup := hLa ▸ hMnd.filter _
  have hLc_nd : Lc.Nodup := hLc ▸ hMnd.filter _
  have hLa_mem : ∀ p, p ∈ La ↔ p ∈ my_city_map_iterate g pcity ∧
      pcity.city_map p.1 p.2 = city_tile_type.C_TILE_WORKER ∧
      result.worker_positions_used p.1 p.2 = false := by
    intro p
    rw [← hLa, List.mem_filter]
    simp
  have hLc_mem : ∀ p, p ∈ Lc ↔ p ∈ my_city_map_iterate g pcity ∧
      result.worker_positions_used p.1 p.2 = true ∧
      pcity.city_map p.1 p.2 ≠ city_tile_type.C_TILE_WORKER := by
    intro p
    rw [← hLc, List.mem_filter]
    simp
  -- the counts
  have hE2 := filter_length_split (my_city_map_iterate g pcity)
    (fun p => decide (pcity.city_map p.1 p.2 = city_tile_type.C_TILE_WORKER))
    (fun p => result.worker_positions_used p.1 p.2)
  have hE3 := filter_length_split (my_city_map_iterate g pcity)
    (fun p => result.worker_positions_used p.1 p.2)
    (fun p => decide (pcity.city_map p.1 p.2 = city_tile_type.C_TILE_WORKER))
  have hX : (my_city_map_iterate g pcity).filter (fun p =>
        result.worker_positions_used p.1 p.2
          && decide (pcity.city_map p.1 p.2 = city_tile_type.C_TILE_WORKER))
      = (my_city_map_iterate g pcity).filter (fun p =>
        decide (pcity.city_map p.1 p.2 = city_tile_type.C_TILE_WORKER)
          && result.worker_positions_used p.1 p.2) :=
    List.filter_congr (fun p _ => Bool.and_comm _ _)
  rw [hX, hLc] at hE3
  rw [hLa] at hE2
  have hE4 := sum_split_default pcity.specialists g.SP_COUNT g.DEFAULT_SPECIALIST hd
  have hE4' := sum_split_default result.specialists g.SP_COUNT g.DEFAULT_SPECIALIST hd
  have hE5 := sum_sub_congr (List.range g.SP_COUNT)
    (fun sp => if sp = g.DEFAULT_SPECIALIST then 0
      else (((pcity.specialists sp - result.specialists sp).toNat : Nat) : Int))
    (fun sp => if sp = g.DEFAULT_SPECIALIST then 0
      else (((result.specialists sp - pcity.specialists sp).toNat : Nat) : Int))
    (fun sp => if sp = g.DEFAULT_SPECIALIST then 0 else pcity.specialists sp)
    (fun sp => if sp = g.DEFAULT_SPECIALIST then 0 else result.specialists sp)
    (by
      intro i _
      by_cases h : i = g.DEFAULT_SPECIALIST
      · simp only [h, if_true]
      · simp only [h, if_false]
        exact toNat_sub_toNat _ _)
  have hSd := sum_default_terms_nonneg g.DEFAULT_SPECIALIST
    (fun sp => (result.specialists sp - pcity.specialists sp).toNat) (List.range g.SP_COUNT)
  unfold visited_worker_count specialists_sum at hcur
  unfold cm_count_worker cm_count_specialist at htgt
  -- the assignments after each phase
  have h1 := simulate_toggles_off g pcity.id La (city_assignment pcity) hLa_nd
    (fun p hp => by
      have := ((hLa_mem p).1 hp).2.1
      simp [city_assignment, this])
  have h2 := simulate_changes_to_default g pcity.id
    (fun sp => (pcity.specialists sp - result.specialists sp).toNat) (List.range g.SP_COUNT)
    (simulate g (city_assignment pcity) (surplus_worker_toggles g pcity result)) hrn
  rw [← hPb] at h2
  have hw1 : ∀ x y, (simulate g (city_assignment pcity)
      (surplus_worker_toggles g pcity result)).worked x y
      = if (x, y) ∈ La then false
        else decide (pcity.city_map x y = city_tile_type.C_TILE_WORKER) := by
    intro x y
    rw [hPa, h1]
    rfl
  have hs1 : ∀ i, (simulate g (city_assignment pcity)
      (surplus_worker_toggles g pcity result)).specialists i
      = if i = g.DEFAULT_SPECIALIST then
          pcity.specialists g.DEFAULT_SPECIALIST + (La.length : Int)
        else pcity.specialists i := by
    intro i
    rw [hPa, h1]
    rfl
  generalize ha1 : simulate g (city_assignment pcity)
    (surplus_worker_toggles g pcity result) = a1 at h2 hw1 hs1
  have hw2 : ∀ x y, (simulate g a1 (excess_specialist_changes g pcity result)).worked x y
      = a1.worked x y := by
    intro x y
    rw [h2]
  have hs2 : ∀ i, (simulate g a1 (excess_specialist_changes g pcity result)).specialists i
      = if i = g.DEFAULT_SPECIALIST then
          a1.specialists g.DEFAULT_SPECIALIST
            + ((List.range g.SP_COUNT).map (fun sp => if sp = g.DEFAULT_SPECIALIST then 0
                else (((pcity.specialists sp - result.specialists sp).toNat : Nat) : Int))).sum
        else if i ∈ List.range g.SP_COUNT then
          a1.specialists i - (((pcity.specialists i - result.specialists i).toNat : Nat) : Int)
        else a1.specialists i := by
    intro i
    rw [h2]
  clear h2
  generalize ha2 : simulate g a1 (excess_specialist_changes g pcity result) = a2 at hw2 hs2
  have hwc : ∀ p ∈ Lc, a2.worked p.1 p.2 = false := by
    intro p hp
    have h := ((hLc_mem p).1 hp).2.2
    rw [hw2, hw1]
    simp [h]
  have h3 := simulate_toggles_on g pcity.id Lc a2 hLc_nd hwc
  rw [← hPc] at h3
  have hw3 : ∀ x y, (simulate g a2 (missing_worker_toggles g pcity result)).worked x y
      = if (x, y) ∈ Lc then true else a2.worked x y := by
    intro x y
    rw [h3]
  have hs3 : ∀ i, (simulate g a2 (missing_worker_toggles g pcity result)).specialists i
      = if i = g.DEFAULT_SPECIALIST then
          a2.specialists g.DEFAULT_SPECIALIST - (Lc.length : Int)
        else a2.specialists i := by
    intro i
    rw [h3]
    rfl
  clear h3
  generalize ha3 : simulate g a2 (missing_worker_toggles g pcity result) = a3 at hw3 hs3
  have h4 := simulate_changes_from_default g pcity.id
    (fun sp => (result.specialists sp - pcity.specialists sp).toNat) (List.range g.SP_COUNT)
    a3 hrn
  rw [← hPd] at h4
  have hw4 : ∀ x y, (simulate g a3 (missing_specialist_changes g pcity result)).worked x y
      = a3.worked x y := by
    intro x y
    rw [h4]
  have hs4 : ∀ i, (simulate g a3 (missing_specialist_changes g pcity result)).specialists i
      = if i = g.DEFAULT_SPECIALIST then
          a3.specialists g.DEFAULT_SPECIALIST
            - ((List.range g.SP_COUNT).map (fun sp => if sp = g.DEFAULT_SPECIALIST then 0
                else (((result.specialists sp - pcity.specialists sp).toNat : Nat) : Int))).sum
        else if i ∈ List.range g.SP_COUNT then
          a3.specialists i + (((result.specialists i - pcity.specialists i).toNat : Nat) : Int)
        else a3.specialists i := by
    intro i
    rw [h4]
  clear h4
  have hsim : simulate g (city_assignment pcity) (diff_requests g pcity result)
      = simulate g a3 (missing_specialist_changes g pcity result) := by
    unfold diff_requests
    rw [simulate_append, simulate_append, simulate_append, ha1, ha2, ha3]
  have hdef2 : a2.specialists g.DEFAULT_SPECIALIST
      = pcity.specialists g.DEFAULT_SPECIALIST + (La.length : Int)
        + ((List.range g.SP_COUNT).map (fun sp => if sp = g.DEFAULT_SPECIALIST then 0
            else (((pcity.specialists sp - result.specialists sp).toNat : Nat) : Int))).sum := by
    rw [hs2, if_pos rfl, hs1, if_pos rfl]
  have hdef3 : a3.specialists g.DEFAULT_SPECIALIST
      = result.specialists g.DEFAULT_SPECIALIST
        + ((List.range g.SP_COUNT).map (fun sp => if sp = g.DEFAULT_SPECIALIST then 0
            else (((result.specialists sp - pcity.specialists sp).toNat : Nat) : Int))).sum := by
    rw [hs3, if_pos rfl, hdef2]
    omega
  refine ⟨⟨?_, ?_⟩, ?_⟩
  · intro p hp
    rw [hsim, hw4, hw3, hw2, hw1]
    have hLa_p := hLa_mem p
    have hLc_p := hLc_mem p
    by_cases hc : (p.1, p.2) ∈ Lc
    · rw [if_pos hc]
      exact ((hLc_p.1 hc).2.1).symm
    · rw [if_neg hc]
      by_cases ha : (p.1, p.2) ∈ La
      · rw [if_pos ha]
        exact ((hLa_p.1 ha).2.2).symm
      · rw [if_neg ha]
        cases hT : result.worker_positions_used p.1 p.2 <;>
          by_cases hW : pcity.city_map p.1 p.2 = city_tile_type.C_TILE_WORKER
        · exact absurd (hLa_p.2 ⟨hp, hW, hT⟩) ha
        · simp [hW]
        · simp [hW]
        · exact absurd (hLc_p.2 ⟨hp, hT, hW⟩) hc
  · intro sp hsp
    rw [hsim, hs4]
    by_cases h : sp = g.DEFAULT_SPECIALIST
    · rw [if_pos h, hdef3, h]
      omega
    · have hm : sp ∈ List.range g.SP_COUNT := List.mem_range.2 hsp
      rw [if_neg h, if_pos hm, hs3, if_neg h, hs2, if_neg h, if_pos hm, hs1, if_neg h]
      omega
  · intro hcn htn
    have hsound0 : assignment_sound g pcity (city_assignment pcity) := ⟨hcn, hcur⟩
    have sa : safe_run g pcity (city_assignment pcity) (surplus_worker_toggles g pcity result) := by
      rw [hPa]
      exact safe_run_toggles_off g pcity hg hd pcity.id La _ hLa_nd
        (fun p hp => ((hLa_mem p).1 hp).1)
        (fun p hp => by
          have := ((hLa_mem p).1 hp).2.1
          simp [city_assignment, this]) hsound0
    have hsound1 := safe_run_final g pcity _ _ sa
    rw [ha1] at hsound1
    have sb : safe_run g pcity a1 (excess_specialist_changes g pcity result) := by
      rw [hPb]
      refine safe_run_changes_to_default g pcity pcity.id hd _ _ a1 hrn
        (fun sp hsp => List.mem_range.1 hsp) ?_ hsound1
      intro sp hsp hne
      rw [hs1, if_neg hne]
      exact toNat_sub_le _ _ (hcn sp (List.mem_range.1 hsp)) (htn sp (List.mem_range.1 hsp))
    have hsound2 := safe_run_final g pcity _ _ sb
    rw [ha2] at hsound2
    have htd := htn _ hd
    have sc : safe_run g pcity a2 (missing_worker_toggles g pcity result) := by
      rw [hPc]
      refine safe_run_toggles_on g pcity hg hd pcity.id Lc a2 hLc_nd
        (fun p hp => ((hLc_mem p).1 hp).1) hwc ?_ hsound2
      rw [hdef2]
      omega
    have hsound3 := safe_run_final g pcity _ _ sc
    rw [ha3] at hsound3
    have sd : safe_run g pcity a3 (missing_specialist_changes g pcity result) := by
      rw [hPd]
      refine safe_run_changes_from_default g pcity pcity.id hd _ _ a3 hrn
        (fun sp hsp => List.mem_range.1 hsp) ?_ hsound3
      rw [hdef3]
      omega
    unfold diff_requests
    refine safe_run_append g pcity _ _ _ (safe_run_append g pcity _ _ _
      (safe_run_append g pcity _ _ _ sa ?_) ?_) ?_
    · rw [ha1]; exact sb
    · rw [simulate_append, ha1, ha2]; exact sc
    · rw [simulate_append, simulate_append, ha1, ha2, ha3]; exact sd

/-! ## The number of requests -/

theorem filter_length_differ {α : Type} (l : List α) (P Q : α → Bool) :
    (l.filter (fun x => P x != Q x)).length
      = (l.filter (fun x => P x && !Q x)).length + (l.filter (fun x => Q x && !P x)).length := by
  induction l with
  | nil => rfl
  | cons x l ih =>
    simp only [List.filter_cons]
    cases hP : P x <;> cases hQ : Q x <;> simp [ih] <;> omega

theorem length_flatMap_replicate (d : Nat) (k : Nat → Nat) (ev : Nat → event) (Ls : List Nat) :
    (Ls.flatMap (fun sp => if sp = d then [] else List.replicate (k sp) (ev sp))).length
      = (Ls.map (fun sp => if sp = d then 0 else k sp)).sum := by
  induction Ls with
  | nil => rfl
  | cons sp Ls ih =>
    rw [List.flatMap_cons, List.length_append, ih, List.map_cons, List.sum_cons]
    by_cases h : sp = d
    · simp [h]
    · simp [h]

theorem sum_add_congr (l : List Nat) (f1 f2 f3 : Nat → Nat)
    (h : ∀ i ∈ l, f1 i + f2 i = f3 i) :
    (l.map f1).sum + (l.map f2).sum = (l.map f3).sum := by
  induction l with
  | nil => rfl
  | cons x l ih =>
    have hx := h x (List.mem_cons_self _ _)
    have := ih (fun i hi => h i (List.mem_cons_of_mem _ hi))
    simp only [List.map_cons, List.sum_cons]
    omega

theorem filter_toggles_map (city_id : Int) (L : List (Nat × Nat)) :
    (L.map (fun p => event.city_toggle_worker city_id p.1 p.2)).filter is_toggle_worker
        = L.map (fun p => event.city_toggle_worker city_id p.1 p.2) ∧
      (L.map (fun p => event.city_toggle_worker city_id p.1 p.2)).filter is_change_specialist
        = [] := by
  constructor
  · apply List.filter_eq_self.2
    intro e he
    obtain ⟨p, -, rfl⟩ := List.mem_map.1 he
    rfl
  · apply List.filter_eq_nil_iff.2
    intro e he
    obtain ⟨p, -, rfl⟩ := List.mem_map.1 he
    simp [is_change_specialist]

theorem filter_changes_flatMap (d : Nat) (k : Nat → Nat) (city_id : Int) (f t : Nat → Nat)
    (Ls : List Nat) :
    (Ls.flatMap (fun sp => if sp = d then []
        else List.replicate (k sp) (event.city_change_specialist city_id (f sp) (t sp)))).filter
        is_toggle_worker = [] ∧
      (Ls.flatMap (fun sp => if sp = d then []
        else List.replicate (k sp) (event.city_change_specialist city_id (f sp) (t sp)))).filter
        is_change_specialist
        = Ls.flatMap (fun sp => if sp = d then []
            else List.replicate (k sp) (event.city_change_specialist city_id (f sp) (t sp))) := by
  have hmem : ∀ e ∈ Ls.flatMap (fun sp => if sp = d then []
        else List.replicate (k sp) (event.city_change_specialist city_id (f sp) (t sp))),
      ∃ sp, e = event.city_change_specialist city_id (f sp) (t sp) := by
    intro e he
    obtain ⟨sp, -, hsp⟩ := List.mem_flatMap.1 he
    split at hsp
    · simp at hsp
    · exact ⟨sp, (List.mem_replicate.1 hsp).2⟩
  constructor
  · apply List.filter_eq_nil_iff.2
    intro e he
    obtain ⟨sp, rfl⟩ := hmem e he
    simp [is_toggle_worker]
  · apply List.filter_eq_self.2
    intro e he
    obtain ⟨sp, rfl⟩ := hmem e he
    rfl

/-- The toggle-worker requests among those of the four phases are those of
phases (a) and (c); the conversions are those of phases (b) and (d). -/
theorem diff_requests_filter (g : game_consts) (pcity : city) (result : cm_result) :
    (diff_requests g pcity result).filter is_toggle_worker
        = surplus_worker_toggles g pcity result ++ missing_worker_toggles g pcity result ∧
      (diff_requests g pcity result).filter is_change_specialist
        = excess_specialist_changes g pcity result
          ++ missing_specialist_changes g pcity result := by
  have ha := filter_toggles_map pcity.id ((my_city_map_iterate g pcity).filter (fun p =>
      decide (pcity.city_map p.1 p.2 = city_tile_type.C_TILE_WORKER)
        && !result.worker_positions_used p.1 p.2))
  have hc := filter_toggles_map pcity.id ((my_city_map_iterate g pcity).filter (fun p =>
      result.worker_positions_used p.1 p.2
        && !decide (pcity.city_map p.1 p.2 = city_tile_type.C_TILE_WORKER)))
  have hb := filter_changes_flatMap g.DEFAULT_SPECIALIST
    (fun sp => (pcity.specialists sp - result.specialists sp).toNat) pcity.id
    (fun sp => sp) (fun _ => g.DEFAULT_SPECIALIST) (List.range g.SP_COUNT)
  have hd := filter_changes_flatMap g.DEFAULT_SPECIALIST
    (fun sp => (result.specialists sp - pcity.specialists sp).toNat) pcity.id
    (fun _ => g.DEFAULT_SPECIALIST) (fun sp => sp) (List.range g.SP_COUNT)
  unfold diff_requests
  unfold surplus_worker_toggles excess_specialist_changes missing_worker_toggles
    missing_specialist_changes
  constructor
  · rw [List.filter_append, List.filter_append, List.filter_append, ha.1, hb.1, hc.1, hd.1,
      List.append_nil, List.append_nil]
  · rw [List.filter_append, List.filter_append, List.filter_append, ha.2, hb.2, hc.2, hd.2,
      List.nil_append, List.append_nil]

/-- The number of toggle-worker requests of the four phases, over the positions
that `my_city_map_iterate` visits. -/
theorem diff_requests_toggle_count (g : game_consts) (pcity : city) (result : cm_result) :
    ((diff_requests g pcity result).filter is_toggle_worker).length
      = ((my_city_map_iterate g pcity).filter (fun p =>
          decide (pcity.city_map p.1 p.2 = city_tile_type.C_TILE_WORKER)
            && !result.worker_positions_used p.1 p.2)).length
        + ((my_city_map_iterate g pcity).filter (fun p =>
          result.worker_positions_used p.1 p.2
            && !decide (pcity.city_map p.1 p.2 = city_tile_type.C_TILE_WORKER))).length := by
  rw [(diff_requests_filter g pcity result).1, List.length_append]
  unfold surplus_worker_toggles missing_worker_toggles
  rw [List.length_map, List.length_map]

theorem diff_requests_toggle_count_eq (g : game_consts) (pcity : city) (result : cm_result)
    (hg : well_formed_geometry g) :
    ((diff_requests g pcity result).filter is_toggle_worker).length
      = differing_tile_count g pcity result := by
  rw [diff_requests_toggle_count]
  unfold differing_tile_count
  rw [← visited_count_eq_array_count g pcity hg (fun p =>
    decide (pcity.city_map p.1 p.2 = city_tile_type.C_TILE_WORKER)
      != result.worker_positions_used p.1 p.2)]
  exact (filter_length_differ (my_city_map_iterate g pcity)
    (fun p => decide (pcity.city_map p.1 p.2 = city_tile_type.C_TILE_WORKER))
    (fun p => result.worker_positions_used p.1 p.2)).symm

theorem diff_requests_change_count (g : game_consts) (pcity : city) (result : cm_result) :
    ((diff_requests g pcity result).filter is_change_specialist).length
      = conversion_count g pcity result := by
  rw [(diff_requests_filter g pcity result).2, List.length_append]
  unfold excess_specialist_changes missing_specialist_changes conversion_count
  rw [length_flatMap_replicate g.DEFAULT_SPECIALIST
      (fun sp => (pcity.specialists sp - result.specialists sp).toNat)
      (fun sp => event.city_change_specialist pcity.id sp g.DEFAULT_SPECIALIST),
    length_flatMap_replicate g.DEFAULT_SPECIALIST
      (fun sp => (result.specialists sp - pcity.specialists sp).toNat)
      (fun sp => event.city_change_specialist pcity.id g.DEFAULT_SPECIALIST sp)]
  apply sum_add_congr
  intro i _
  by_cases h : i = g.DEFAULT_SPECIALIST
  · simp [h]
  · simp only [h, if_false]
    omega

theorem filter_toggle_of_diff (l : List event) :
    l.filter is_toggle_worker = (l.filter is_diff_request).filter is_toggle_worker ∧
      l.filter is_change_specialist
        = (l.filter is_diff_request).filter is_change_specialist := by
  rw [List.filter_filter, List.filter_filter]
  constructor
  · apply List.filter_congr
    intro e _
    cases e <;> rfl
  · apply List.filter_congr
    intro e _
    cases e <;> rfl

theorem snapshot_some_sum (g : game_consts) (pcity : city) (prior cur : cm_result)
    (hs : get_current_as_result g pcity prior = some cur) :
    (visited_worker_count g pcity : Int) + specialists_sum g pcity.specialists = pcity.size := by
  rw [get_current_as_result_eq] at hs
  by_contra h
  rw [if_pos h] at hs
  cases hs

theorem village_snapshot :
    get_current_as_result faithful_env.g village faithful_env.uninit_result
      = some (current_result standard_consts village scratch_result) := by
  show get_current_as_result standard_consts village scratch_result = _
  rw [get_current_as_result_eq]
  exact if_neg (by decide)

theorem village_after_snapshot :
    get_current_as_result faithful_env.g village_after faithful_env.uninit_result
      = some (current_result standard_consts village_after scratch_result) := by
  show get_current_as_result standard_consts village_after scratch_result = _
  rw [get_current_as_result_eq]
  exact if_neg (by decide)

theorem not_request_not_diff (e : event) (h : is_request e = false) :
    is_diff_request e = false := by
  cases e <;> simp_all [is_request, is_diff_request]

theorem forced_refresh_events_mem {R : Type} (env : environment R) (c : client) (pcity : city)
    (result : cm_result) (e : event) (he : e ∈ forced_refresh_events env c pcity result) :
    e = event.dsend_packet_city_refresh pcity.id := by
  unfold forced_refresh_events at he
  split at he
  · exact List.mem_singleton.1 he
  · exact absurd he (List.not_mem_nil _)

/-- The requests, and the toggle-worker and conversion requests, that a call of
`apply_result_on_server` off the fast path issues. -/
theorem new_events_requests {R : Type} (env : environment R) (c : client)
    (pcity : city) (result cur : cm_result) (hv : result.found_a_valid = true)
    (hs : get_current_as_result env.g pcity env.uninit_result = some cur)
    (hne : results_are_equal env.g pcity result cur = false)
    (hchk : target_passes_checks env.g pcity result) :
    (new_events c (apply_result_on_server env c pcity result).1).filter is_request
        = diff_requests env.g pcity result
          ++ forced_refresh_events env (client_after_entry c pcity) pcity result ∧
      (new_events c (apply_result_on_server env c pcity result).1).filter is_diff_request
        = diff_requests env.g pcity result := by
  obtain ⟨-, t, ht, hr⟩ := apply_result_on_server_slow_trace env c pcity result cur hv hs hne hchk
  have hD1 : (diff_requests env.g pcity result).filter is_request
      = diff_requests env.g pcity result :=
    List.filter_eq_self.2 (fun e he => (diff_requests_are_requests _ _ _ e he).1)
  have hD2 : (diff_requests env.g pcity result).filter is_diff_request
      = diff_requests env.g pcity result :=
    List.filter_eq_self.2 (fun e he => (diff_requests_are_requests _ _ _ e he).2)
  have hR1 : (forced_refresh_events env (client_after_entry c pcity) pcity result).filter
      is_request = forced_refresh_events env (client_after_entry c pcity) pcity result :=
    List.filter_eq_self.2 (fun e he => by
      rw [forced_refresh_events_mem env _ pcity result e he]; rfl)
  have hR2 : (forced_refresh_events env (client_after_entry c pcity) pcity result).filter
      is_diff_request = [] :=
    List.filter_eq_nil_iff.2 (fun e he => by
      rw [forced_refresh_events_mem env _ pcity result e he]; simp [is_diff_request])
  have ht1 : t.filter is_request = [] :=
    List.filter_eq_nil_iff.2 (fun e he => by simp [hr e he])
  have ht2 : t.filter is_diff_request = [] :=
    List.filter_eq_nil_iff.2 (fun e he => by simp [not_request_not_diff e (hr e he)])
  rw [new_events, ht]
  simp only [List.append_assoc, List.drop_left', List.filter_append, hD1, hD2, hR1, hR2, ht1,
    ht2, List.append_nil]
  exact ⟨rfl, rfl⟩

theorem apply_result_on_server_waited {R : Type} (env : environment R) (c : client)
    (pcity : city) (result cur : cm_result) (hv : result.found_a_valid = true)
    (hs : get_current_as_result env.g pcity env.uninit_result = some cur)
    (hne : results_are_equal env.g pcity result cur = false)
    (hnab : (state_before_wait env c pcity result).aborted = false)
    (hlast : (state_before_wait env c pcity result).last_request_id ≠ 0) :
    apply_result_on_server env c pcity result
      = match check_city env (client_after_wait env c pcity result) pcity.id none with
        | (c, none) => (c, none)
        | (c, some (false, _)) => (c, some false)
        | (c, some (true, _)) =>
          compare_with_target env c ((c.world.cities pcity.id).getD pcity) result := by
  rw [apply_result_on_server_slow env c pcity result cur hv hs hne, hnab]
  simp only [Bool.false_eq_true, if_false]
  rw [await_and_compare_waited env _ pcity result hlast]
  rfl

/-! ## Properties of apply_result_on_server: the requests on the server model -/

theorem simulate_forced_refresh {R : Type} (env : environment R) (c : client) (pcity : city)
    (result : cm_result) (a : assignment) :
    simulate env.g a (forced_refresh_events env c pcity result) = a := by
  unfold forced_refresh_events
  split <;> rfl

/-- The calls of a call of `apply_result_on_server` that does not take the fast
path. -/
theorem new_events_slow {R : Type} (env : environment R) (c : client)
    (pcity : city) (result cur : cm_result) (hv : result.found_a_valid = true)
    (hs : get_current_as_result env.g pcity env.uninit_result = some cur)
    (hne : results_are_equal env.g pcity result cur = false)
    (hchk : target_passes_checks env.g pcity result) :
    ∃ tail, new_events c (apply_result_on_server env c pcity result).1
        = [event.get_current_as_result pcity.id, event.results_are_equal pcity.id,
            event.connection_do_buffer]
          ++ (diff_requests env.g pcity result
          ++ (forced_refresh_events env (client_after_entry c pcity) pcity result
          ++ tail)) ∧
      ∀ e ∈ tail, is_request e = false := by
  obtain ⟨-, t, ht, hr⟩ := apply_result_on_server_slow_trace env c pcity result cur hv hs hne hchk
  refine ⟨t, ?_, hr⟩
  rw [new_events, ht]
  simp only [List.append_assoc, List.drop_left']

/-! ## The claims about apply_result_on_server and cma_apply_result -/

/-- C11 (apply precondition): for a target with `found_a_valid = FALSE`,
`apply_result_on_server` ends in a failed assertion and the client is as it was:
no request is issued, no statistics counter is changed and no snapshot is
taken. -/
theorem apply_result_requires_valid {R : Type} (env : environment R) (c : client)
    (pcity : city) (result : cm_result) (hv : result.found_a_valid = false) :
    (apply_result_on_server env c pcity result).2 = none ∧
      (apply_result_on_server env c pcity result).1 = c ∧
      (apply_result_on_server env c pcity result).1.trace = c.trace ∧
      (apply_result_on_server env c pcity result).1.stats = c.stats := by
  rw [apply_result_on_server_invalid env c pcity result hv]
  exact ⟨rfl, rfl, rfl, rfl⟩

/-- Witness of C11: `village_target` with its validity flag cleared. -/
theorem apply_result_requires_valid_witness :
    (apply_result_on_server faithful_env agent_client village
        { village_target with found_a_valid := false }).2 = none ∧
      (apply_result_on_server faithful_env agent_client village
        { village_target with found_a_valid := false }).1 = agent_client ∧
      (apply_result_on_server faithful_env agent_client village
        { village_target with found_a_valid := false }).1.trace = agent_client.trace ∧
      (apply_result_on_server faithful_env agent_client village
        { village_target with found_a_valid := false }).1.stats = agent_client.stats :=
  apply_result_requires_valid faithful_env agent_client village
    { village_target with found_a_valid := false } rfl

/-- C12 (fast path): for a valid target that equals the current snapshot of the
city under `results_are_equal`, `apply_result_on_server` returns TRUE; the only
calls it makes are the snapshot and the comparison, so it issues no toggle-worker,
change-specialist or refresh request, does not buffer the connection and does not
wait for requests; it increments `apply_result_ignored` by one and leaves
`apply_result_applied`, `refresh_forced` and the world unchanged. -/
theorem apply_result_fast_path {R : Type} (env : environment R) (c : client)
    (pcity : city) (result cur : cm_result) (hv : result.found_a_valid = true)
    (hs : get_current_as_result env.g pcity env.uninit_result = some cur)
    (heq : results_are_equal env.g pcity result cur = true) :
    (apply_result_on_server env c pcity result).2 = some true ∧
      (apply_result_on_server env c pcity result).1.trace
        = c.trace ++ [event.get_current_as_result pcity.id, event.results_are_equal pcity.id] ∧
      (∀ e ∈ new_events c (apply_result_on_server env c pcity result).1,
        is_request e = false ∧ e ≠ event.connection_do_buffer ∧
          ∀ first last, e ≠ event.wait_for_requests first last) ∧
      (apply_result_on_server env c pcity result).1.stats.apply_result_ignored
        = c.stats.apply_result_ignored + 1 ∧
      (apply_result_on_server env c pcity result).1.stats.apply_result_applied
        = c.stats.apply_result_applied ∧
      (apply_result_on_server env c pcity result).1.stats.refresh_forced
        = c.stats.refresh_forced ∧
      (apply_result_on_server env c pcity result).1.world = c.world := by
  rw [apply_result_on_server_fast env c pcity result cur hv hs heq]
  refine ⟨rfl, rfl, ?_, rfl, rfl, rfl, rfl⟩
  intro e he
  simp only [new_events, List.drop_left', List.mem_cons, List.mem_singleton,
    List.not_mem_nil, or_false] at he
  rcases he with rfl | rfl <;> simp [is_request]

/-- Witness of C12: `village_after` already is what `village_target` asks for. -/
theorem apply_result_fast_path_witness :
    (apply_result_on_server faithful_env agent_client village_after village_target).2 = some true ∧
      (apply_result_on_server faithful_env agent_client village_after village_target).1.trace
        = agent_client.trace ++ [event.get_current_as_result village_after.id,
            event.results_are_equal village_after.id] ∧
      (apply_result_on_server faithful_env agent_client village_after
          village_target).1.stats.apply_result_ignored
        = agent_client.stats.apply_result_ignored + 1 :=
  ⟨(apply_result_fast_path faithful_env agent_client village_after village_target _ rfl
      village_after_snapshot (by decide)).1,
   (apply_result_fast_path faithful_env agent_client village_after village_target _ rfl
      village_after_snapshot (by decide)).2.1,
   (apply_result_fast_path faithful_env agent_client village_after village_target _ rfl
      village_after_snapshot (by decide)).2.2.2.1⟩

/-- C13 (fixed request order), amended: on a call of `apply_result_on_server` that does not
take the fast path, with a target that passes the checks of the function, the
calls made after `connection_do_buffer` begin with the requests of four phases in
this order: (a) one toggle-worker for each currently worked non-free tile that
the target does not use; (b) for each non-default specialist type `sp`,
`max(0, current[sp] - target[sp])` conversions from `sp` to the default
specialist; (c) one toggle-worker for each target tile that is not currently
worked; (d) for each non-default specialist type `sp`,
`max(0, target[sp] - current[sp])` conversions from the default specialist to
`sp`.  No toggle-worker or conversion is issued after them, and no conversion
converts a specialist type to itself. -/
theorem apply_result_request_order {R : Type} (env : environment R) (c : client)
    (pcity : city) (result cur : cm_result) (hv : result.found_a_valid = true)
    (hs : get_current_as_result env.g pcity env.uninit_result = some cur)
    (hne : results_are_equal env.g pcity result cur = false)
    (hchk : target_passes_checks env.g pcity result) :
    (∃ tail, (apply_result_on_server env c pcity result).1.trace
        = c.trace ++ [event.get_current_as_result pcity.id, event.results_are_equal pcity.id,
            event.connection_do_buffer]
          ++ surplus_worker_toggles env.g pcity result
          ++ excess_specialist_changes env.g pcity result
          ++ missing_worker_toggles env.g pcity result
          ++ missing_specialist_changes env.g pcity result
          ++ tail ∧
      ∀ e ∈ tail, is_diff_request e = false) ∧
    ∀ city_id a b, event.city_change_specialist city_id a b
        ∈ new_events c (apply_result_on_server env c pcity result).1 → a ≠ b := by
  obtain ⟨-, t, ht, hr⟩ := apply_result_on_server_slow_trace env c pcity result cur hv hs hne hchk
  have htail : ∀ e ∈ forced_refresh_events env (client_after_entry c pcity) pcity result ++ t,
      is_diff_request e = false := by
    intro e he
    rcases List.mem_append.1 he with he | he
    · rw [forced_refresh_events_mem env _ pcity result e he]; rfl
    · exact not_request_not_diff e (hr e he)
  refine ⟨⟨forced_refresh_events env (client_after_entry c pcity) pcity result ++ t, ?_, htail⟩, ?_⟩
  · rw [ht]
    simp only [diff_requests, List.append_assoc]
  · intro city_id a b hmem
    rw [new_events, ht] at hmem
    simp only [List.append_assoc, List.drop_left'] at hmem
    rw [← List.append_assoc] at hmem
    simp only [List.cons_append, List.nil_append, List.mem_cons, List.mem_append] at hmem
    rcases hmem with h | h | h | h | h
    · exact absurd h (by simp)
    · exact absurd h (by simp)
    · exact absurd h (by simp)
    · exact diff_requests_no_self_change env.g pcity result city_id a b h
    · have := htail _ (List.mem_append.2 h)
      simp [is_diff_request] at this

/-- Witness of C13: from `village` to `village_target`. -/
theorem apply_result_request_order_witness :
    (∃ tail, (apply_result_on_server faithful_env agent_client village village_target).1.trace
        = agent_client.trace ++ [event.get_current_as_result village.id,
            event.results_are_equal village.id, event.connection_do_buffer]
          ++ surplus_worker_toggles faithful_env.g village village_target
          ++ excess_specialist_changes faithful_env.g village village_target
          ++ missing_worker_toggles faithful_env.g village village_target
          ++ missing_specialist_changes faithful_env.g village village_target
          ++ tail ∧
      ∀ e ∈ tail, is_diff_request e = false) ∧
    ∀ city_id a b, event.city_change_specialist city_id a b
        ∈ new_events agent_client
          (apply_result_on_server faithful_env agent_client village village_target).1 → a ≠ b :=
  apply_result_request_order faithful_env agent_client village village_target _ rfl
    village_snapshot (by decide) (by decide)

/-- C15 (convergence under a faithful server), amended: on a call of
`apply_result_on_server` that does not take the fast path, for a target that
passes the checks of the function (it sums to the size of the city), the requests
of the call simulated in order on the server model lead from the assignment of
the city to one that has a worked tile exactly where the target has a flag, on
every non-free valid position, and the specialist count of the target for every
specialist type, the default type included. -/
theorem apply_result_converges {R : Type} (env : environment R) (c : client)
    (pcity : city) (result cur : cm_result) (hg : well_formed_geometry env.g)
    (hd : env.g.DEFAULT_SPECIALIST < env.g.SP_COUNT) (hv : result.found_a_valid = true)
    (hs : get_current_as_result env.g pcity env.uninit_result = some cur)
    (hne : results_are_equal env.g pcity result cur = false)
    (hchk : target_passes_checks env.g pcity result) :
    (∀ x y, valid_city_position env.g pcity x y → is_free_worked_tile env.g x y = false →
      (simulate env.g (city_assignment pcity)
        ((new_events c (apply_result_on_server env c pcity result).1).filter
          is_request)).worked x y = result.worker_positions_used x y) ∧
    ∀ sp < env.g.SP_COUNT,
      (simulate env.g (city_assignment pcity)
        ((new_events c (apply_result_on_server env c pcity result).1).filter
          is_request)).specialists sp = result.specialists sp := by
  rw [(new_events_requests env c pcity result cur hv hs hne hchk).1, simulate_append,
    simulate_forced_refresh]
  obtain ⟨⟨hw, hsp⟩, -⟩ := diff_requests_run env.g pcity result hg hd
    (snapshot_some_sum _ _ _ _ hs) hchk.1
  exact ⟨fun x y hvalid hfree =>
    hw (x, y) ((mem_my_city_map_iterate env.g pcity x y).2 ⟨hvalid, hfree⟩), hsp⟩

/-- Witness of C15: from `village` to `village_target`. -/
theorem apply_result_converges_witness :
    (∀ x y, valid_city_position faithful_env.g village x y →
      is_free_worked_tile faithful_env.g x y = false →
      (simulate faithful_env.g (city_assignment village)
        ((new_events agent_client
          (apply_result_on_server faithful_env agent_client village village_target).1).filter
          is_request)).worked x y = village_target.worker_positions_used x y) ∧
    ∀ sp < faithful_env.g.SP_COUNT,
      (simulate faithful_env.g (city_assignment village)
        ((new_events agent_client
          (apply_result_on_server faithful_env agent_client village village_target).1).filter
          is_request)).specialists sp = village_target.specialists sp :=
  apply_result_converges faithful_env agent_client village village_target _
    (by decide) (by decide) rfl village_snapshot (by decide) (by decide)

/-- C16 (request count), amended: on a call of `apply_result_on_server` that does not take
the fast path, with a target that passes the checks of the function, the number
of toggle-worker requests is the number of non-free valid tiles on which the
worked state of the city and the flag of the target differ, and the number of
specialist conversions is the sum over the non-default specialist types of
`|current - target|`.  In particular, for a city of size 5 with 5 default
specialists and no other, and a target of 3 worked tiles and 2 default
specialists and no other, with request ids that are not 0, the call issues
exactly 3 toggle-worker requests, no specialist conversion and no refresh
request. -/
theorem apply_result_request_count {R : Type} (env : environment R) (c : client)
    (pcity : city) (result cur : cm_result) (hg : well_formed_geometry env.g)
    (hd : env.g.DEFAULT_SPECIALIST < env.g.SP_COUNT) (hv : result.found_a_valid = true)
    (hs : get_current_as_result env.g pcity env.uninit_result = some cur)
    (hne : results_are_equal env.g pcity result cur = false)
    (hchk : target_passes_checks env.g pcity result) :
    ((new_events c (apply_result_on_server env c pcity result).1).filter
        is_toggle_worker).length = differing_tile_count env.g pcity result ∧
    ((new_events c (apply_result_on_server env c pcity result).1).filter
        is_change_specialist).length = conversion_count env.g pcity result ∧
    (pcity.size = 5 → pcity.specialists env.g.DEFAULT_SPECIALIST = 5 →
      (∀ sp < env.g.SP_COUNT, sp ≠ env.g.DEFAULT_SPECIALIST → pcity.specialists sp = 0) →
      cm_count_worker env.g pcity result = 3 →
      result.specialists env.g.DEFAULT_SPECIALIST = 2 →
      (∀ sp < env.g.SP_COUNT, sp ≠ env.g.DEFAULT_SPECIALIST → result.specialists sp = 0) →
      (∀ n, env.request_id n ≠ 0) →
      ((new_events c (apply_result_on_server env c pcity result).1).filter
          is_toggle_worker).length = 3 ∧
        ((new_events c (apply_result_on_server env c pcity result).1).filter
          is_change_specialist).length = 0 ∧
        (new_events c (apply_result_on_server env c pcity result).1).filter is_refresh
          = []) := by
  have hdiff := (new_events_requests env c pcity result cur hv hs hne hchk).2
  have hf := filter_toggle_of_diff (new_events c (apply_result_on_server env c pcity result).1)
  rw [hf.1, hf.2, hdiff]
  refine ⟨diff_requests_toggle_count_eq env.g pcity result hg,
    diff_requests_change_count env.g pcity result, ?_⟩
  intro hsz hcd hco htw htd hto hid
  have hcur := snapshot_some_sum _ _ _ _ hs
  unfold visited_worker_count specialists_sum at hcur
  unfold cm_count_worker at htw
  have hE2 := filter_length_split (my_city_map_iterate env.g pcity)
    (fun p => decide (pcity.city_map p.1 p.2 = city_tile_type.C_TILE_WORKER))
    (fun p => result.worker_positions_used p.1 p.2)
  have hE3 := filter_length_split (my_city_map_iterate env.g pcity)
    (fun p => result.worker_positions_used p.1 p.2)
    (fun p => decide (pcity.city_map p.1 p.2 = city_tile_type.C_TILE_WORKER))
  have hX : (my_city_map_iterate env.g pcity).filter (fun p =>
        result.worker_positions_used p.1 p.2
          && decide (pcity.city_map p.1 p.2 = city_tile_type.C_TILE_WORKER))
      = (my_city_map_iterate env.g pcity).filter (fun p =>
        decide (pcity.city_map p.1 p.2 = city_tile_type.C_TILE_WORKER)
          && result.worker_positions_used p.1 p.2) :=
    List.filter_congr (fun p _ => Bool.and_comm _ _)
  rw [hX] at hE3
  have hE4 := sum_split_default pcity.specialists env.g.SP_COUNT env.g.DEFAULT_SPECIALIST hd
  have hz : ((List.range env.g.SP_COUNT).map
      (fun i => if i = env.g.DEFAULT_SPECIALIST then 0 else pcity.specialists i)).sum = 0 := by
    apply List.sum_eq_zero
    intro x hx
    obtain ⟨sp, hsp, rfl⟩ := List.mem_map.1 hx
    by_cases h : sp = env.g.DEFAULT_SPECIALIST
    · simp [h]
    · simp only [h, if_false]
      exact hco sp (List.mem_range.1 hsp) h
  have htog : ((diff_requests env.g pcity result).filter is_toggle_worker).length = 3 := by
    rw [diff_requests_toggle_count]
    omega
  refine ⟨htog, ?_, ?_⟩
  · rw [diff_requests_change_count]
    unfold conversion_count
    apply List.sum_eq_zero
    intro x hx
    obtain ⟨sp, hsp, rfl⟩ := List.mem_map.1 hx
    by_cases h : sp = env.g.DEFAULT_SPECIALIST
    · simp [h]
    · simp only [h, if_false]
      rw [hco sp (List.mem_range.1 hsp) h, hto sp (List.mem_range.1 hsp) h]
      rfl
  · have hD : diff_requests env.g pcity result ≠ [] := by
      intro h
      rw [h] at htog
      simp at htog
    obtain ⟨t, ht, hr⟩ := new_events_slow env c pcity result cur hv hs hne hchk
    have hR := forced_refresh_events_eq env (client_after_entry c pcity) pcity result hid
    rw [if_neg hD] at hR
    rw [ht, hR, List.nil_append]
    apply List.filter_eq_nil_iff.2
    intro e he
    simp only [List.cons_append, List.nil_append, List.mem_cons, List.mem_append] at he
    rcases he with rfl | rfl | rfl | he | he
    · simp [is_refresh]
    · simp [is_refresh]
    · simp [is_refresh]
    · have := (diff_requests_are_requests _ _ _ e he).2
      cases e <;> simp_all [is_diff_request, is_refresh]
    · have := hr e he
      cases e <;> simp_all [is_request, is_refresh]

/-- Witness of C16: `village` has size 5 and 5 default specialists,
`village_target` asks for 3 worked tiles and 2 default specialists. -/
theorem apply_result_request_count_witness :
    ((new_events agent_client
        (apply_result_on_server faithful_env agent_client village village_target).1).filter
        is_toggle_worker).length = 3 ∧
      ((new_events agent_client
        (apply_result_on_server faithful_env agent_client village village_target).1).filter
        is_change_specialist).length = 0 ∧
      (new_events agent_client
        (apply_result_on_server faithful_env agent_client village village_target).1).filter
        is_refresh = [] :=
  (apply_result_request_count faithful_env agent_client village village_target _
    (by decide) (by decide) rfl village_snapshot (by decide) (by decide)).2.2
    rfl rfl (by decide) (by decide) rfl (by decide)
    (by intro n; show (n : Int) + 1 ≠ 0; omega)

/-- C17 (forced refresh), amended: on a call of `apply_result_on_server` that does not take
the fast path, with a target that passes the checks and request ids that are
never 0, a city-refresh request is issued exactly when the four phases issued no
toggle-worker and no conversion; it is then the only request of the call and
`refresh_forced` is incremented by one; otherwise `refresh_forced` is
unchanged. -/
theorem forced_refresh_iff {R : Type} (env : environment R) (c : client)
    (pcity : city) (result cur : cm_result) (hv : result.found_a_valid = true)
    (hs : get_current_as_result env.g pcity env.uninit_result = some cur)
    (hne : results_are_equal env.g pcity result cur = false)
    (hchk : target_passes_checks env.g pcity result)
    (hid : ∀ n, env.request_id n ≠ 0) :
    ((∃ i, event.dsend_packet_city_refresh i
          ∈ new_events c (apply_result_on_server env c pcity result).1) ↔
        (new_events c (apply_result_on_server env c pcity result).1).filter is_diff_request
          = []) ∧
    ((new_events c (apply_result_on_server env c pcity result).1).filter is_diff_request = [] →
      (new_events c (apply_result_on_server env c pcity result).1).filter is_request
          = [event.dsend_packet_city_refresh pcity.id] ∧
        (apply_result_on_server env c pcity result).1.stats.refresh_forced
          = c.stats.refresh_forced + 1) ∧
    ((new_events c (apply_result_on_server env c pcity result).1).filter is_diff_request ≠ [] →
      (apply_result_on_server env c pcity result).1.stats.refresh_forced
        = c.stats.refresh_forced) := by
  obtain ⟨hst, -⟩ := apply_result_on_server_slow_trace env c pcity result cur hv hs hne hchk
  obtain ⟨hreq, hdiff⟩ := new_events_requests env c pcity result cur hv hs hne hchk
  have hR := forced_refresh_events_eq env (client_after_entry c pcity) pcity result hid
  have hmem : ∀ i, event.dsend_packet_city_refresh i
        ∈ new_events c (apply_result_on_server env c pcity result).1 ↔
      event.dsend_packet_city_refresh i
        ∈ (new_events c (apply_result_on_server env c pcity result).1).filter is_request := by
    intro i
    rw [List.mem_filter]
    exact ⟨fun h => ⟨h, rfl⟩, fun h => h.1⟩
  rw [hdiff, hst]
  by_cases hD : diff_requests env.g pcity result = []
  · rw [hR, if_pos hD] at hreq ⊢
    rw [hD] at hreq
    refine ⟨⟨fun _ => hD, fun _ => ⟨pcity.id, (hmem _).2 (by rw [hreq]; simp)⟩⟩, ?_, ?_⟩
    · intro _
      exact ⟨by rw [hreq]; rfl, by simp⟩
    · intro h
      exact absurd hD h
  · rw [hR, if_neg hD] at hreq ⊢
    refine ⟨⟨?_, fun h => absurd h hD⟩, fun h => absurd h hD, fun _ => by simp⟩
    rintro ⟨i, hi⟩
    rw [hmem, hreq, List.append_nil] at hi
    have := (diff_requests_are_requests _ _ _ _ hi).2
    simp [is_diff_request] at this

/-- Witness of C17: `village_stale_target` asks for the assignment that `village`
already has, with another surplus; the refresh is the only request. -/
theorem forced_refresh_iff_witness :
    (new_events agent_client
        (apply_result_on_server faithful_env agent_client village village_stale_target).1).filter
        is_request = [event.dsend_packet_city_refresh village.id] ∧
      (apply_result_on_server faithful_env agent_client village
        village_stale_target).1.stats.refresh_forced = agent_client.stats.refresh_forced + 1 :=
  (forced_refresh_iff faithful_env agent_client village village_stale_target _ rfl
    village_snapshot (by decide) (by decide)
    (by intro n; show (n : Int) + 1 ≠ 0; omega)).2.1 (by decide)

/-- C18 (apply succeeds iff the states match): on a call of
`apply_result_on_server` with a valid target that does not take the fast path,
reaches the wait (no assertion failed and `last_request_id` is not 0) and whose
city passes `check_city` after the wait, the function returns, and it returns
TRUE exactly when the snapshot taken after the wait equals the target under
`results_are_equal`. -/
theorem apply_result_success_iff {R : Type} (env : environment R) (c : client)
    (pcity : city) (result cur cur2 : cm_result) (hv : result.found_a_valid = true)
    (hs : get_current_as_result env.g pcity env.uninit_result = some cur)
    (hne : results_are_equal env.g pcity result cur = false)
    (hnab : (state_before_wait env c pcity result).aborted = false)
    (hlast : (state_before_wait env c pcity result).last_request_id ≠ 0)
    (hcheck : Option.map Prod.fst
      (check_city env (client_after_wait env c pcity result) pcity.id none).2 = some true)
    (hs2 : get_current_as_result env.g (city_after_wait env c pcity result) env.uninit_result
      = some cur2) :
    ∃ b, (apply_result_on_server env c pcity result).2 = some b ∧
      (b = true ↔ results_are_equal env.g (city_after_wait env c pcity result) result cur2
        = true) := by
  rw [apply_result_on_server_waited env c pcity result cur hv hs hne hnab hlast]
  have hc := check_city_passed env _ _ _ hcheck
  generalize check_city env (client_after_wait env c pcity result) pcity.id none = r
    at hcheck hc
  obtain ⟨c', o⟩ := r
  simp only at hc
  subst hc
  rcases o with _ | ⟨b, q⟩
  · simp at hcheck
  · cases b with
    | false => simp at hcheck
    | true =>
      simp only
      obtain ⟨-, -, -, h4⟩ := compare_with_target_spec env
        (client_after_wait env c pcity result)
        (((client_after_wait env c pcity result).world.cities pcity.id).getD pcity) result
      exact ⟨_, h4 cur2 hs2, Iff.rfl⟩

/-- Witness of C18: `village`, under agent control, brought to `village_target` by
a faithful server; the call returns TRUE. -/
theorem apply_result_success_iff_witness :
    ∃ b, (apply_result_on_server faithful_env agent_client village village_target).2 = some b ∧
      (b = true ↔ results_are_equal faithful_env.g
        (city_after_wait faithful_env agent_client village village_target) village_target
        (current_result standard_consts village_after scratch_result) = true) :=
  apply_result_success_iff faithful_env agent_client village village_target _ _ rfl
    village_snapshot (by decide) (by decide) (by decide) (by decide) village_after_snapshot

/-- C19 (one-shot apply of the public interface): `village` is not under agent
control and `village_target` is valid; `cma_apply_result` issues three
toggle-worker requests, the server applies them, and the state of the city read
after the wait equals the target under `results_are_equal`; yet the function
returns FALSE, because `check_city`, called after the wait, finds no stored
parameter for the city. -/
theorem cma_apply_result_false_on_match :
    Option.map Prod.fst (cma_is_city_under_agent faithful_env.cm_init_parameter
        free_client.world.store village.id faithful_env.uninit_parameter none) = some false ∧
      village_target.found_a_valid = true ∧
      (new_events free_client
        (cma_apply_result faithful_env free_client village village_target).1).filter is_request
        = [event.city_toggle_worker 7 1 2, event.city_toggle_worker 7 2 1,
            event.city_toggle_worker 7 3 3] ∧
      (Option.map (results_are_equal faithful_env.g
          (city_after_wait faithful_env free_client village village_target) village_target)
        (get_current_as_result faithful_env.g
          (city_after_wait faithful_env free_client village village_target)
          faithful_env.uninit_result)) = some true ∧
      (cma_apply_result faithful_env free_client village village_target).2 = some false := by
  refine ⟨by decide, rfl, by decide, by decide, by decide⟩

/-- C20 (eligibility loss after acknowledgment): on a call of
`apply_result_on_server` that reaches the wait with a `last_request_id` that is
not 0, when `check_city` returns FALSE after the wait the function returns FALSE
at once: the client is as `check_city` left it, and after the wait no snapshot is
taken, no comparison is made and the solver cache is not invalidated. -/
theorem apply_result_eligibility_lost {R : Type} (env : environment R) (c : client)
    (pcity : city) (result cur : cm_result) (hv : result.found_a_valid = true)
    (hs : get_current_as_result env.g pcity env.uninit_result = some cur)
    (hne : results_are_equal env.g pcity result cur = false)
    (hnab : (state_before_wait env c pcity result).aborted = false)
    (hlast : (state_before_wait env c pcity result).last_request_id ≠ 0)
    (hfail : Option.map Prod.fst
      (check_city env (client_after_wait env c pcity result) pcity.id none).2 = some false) :
    (apply_result_on_server env c pcity result).2 = some false ∧
      (apply_result_on_server env c pcity result).1
        = (check_city env (client_after_wait env c pcity result) pcity.id none).1 ∧
      ∀ e ∈ new_events (client_after_wait env c pcity result)
          (apply_result_on_server env c pcity result).1,
        (∀ i, e ≠ event.get_current_as_result i) ∧ (∀ i, e ≠ event.results_are_equal i) ∧
          (∀ i, e ≠ event.cm_clear_cache i) := by
  rw [apply_result_on_server_waited env c pcity result cur hv hs hne hnab hlast]
  obtain ⟨-, t, ht, hr⟩ := check_city_trace env (client_after_wait env c pcity result)
    pcity.id none
  generalize check_city env (client_after_wait env c pcity result) pcity.id none = r
    at hfail ht
  obtain ⟨c', o⟩ := r
  rcases o with _ | ⟨b, q⟩
  · simp at hfail
  · cases b with
    | true => simp at hfail
    | false =>
      refine ⟨rfl, rfl, ?_⟩
      intro e he
      simp only at ht
      simp only [new_events, ht, List.drop_left'] at he
      exact (hr e he).2

/-- Witness of C20: `village` has no stored parameter, so `check_city` fails after
the wait. -/
theorem apply_result_eligibility_lost_witness :
    (apply_result_on_server faithful_env free_client village village_target).2 = some false ∧
      (apply_result_on_server faithful_env free_client village village_target).1
        = (check_city faithful_env
            (client_after_wait faithful_env free_client village village_target)
            village.id none).1 ∧
      ∀ e ∈ new_events (client_after_wait faithful_env free_client village village_target)
          (apply_result_on_server faithful_env free_client village village_target).1,
        (∀ i, e ≠ event.get_current_as_result i) ∧ (∀ i, e ≠ event.results_are_equal i) ∧
          (∀ i, e ≠ event.cm_clear_cache i) :=
  apply_result_eligibility_lost faithful_env free_client village village_target _ rfl
    village_snapshot (by decide) (by decide) (by decide) (by decide)

/-! ## Properties of check_city and of the release -/

/-- When `cma_get_parameter` returns, it returns TRUE exactly when a blob is
stored. -/
theorem cma_get_parameter_flag {R : Type} (init : cm_parameter R → cm_parameter R)
    (store : attribute_store) (attr : attr_city) (city_id : Int) (prior : cm_parameter R)
    (b : Bool) (q : cm_parameter R)
    (h : cma_get_parameter init store attr city_id prior = some (b, q)) :
    b = true ↔ attr_city_get store attr city_id ≠ [] := by
  by_cases h0 : (attr_city_get store attr city_id).length = 0
  · rw [cma_get_parameter_none_stored init store attr city_id prior h0] at h
    have hb : b = false := by
      injection h with h
      exact (congrArg Prod.fst h).symm
    rw [hb]
    simp [List.length_eq_zero.1 h0]
  · have hne : attr_city_get store attr city_id ≠ [] := fun hh => h0 (by rw [hh]; rfl)
    by_cases h1 : (attr_city_get store attr city_id).length = 29
    · by_cases hv : (attr_city_get store attr city_id).getD 0 0 = 2
      · obtain ⟨q', hq', -⟩ := cma_get_parameter_decode init store attr city_id prior h1 hv
        rw [hq'] at h
        have hb : b = true := by
          injection h with h
          exact (congrArg Prod.fst h).symm
        simp [hb, hne]
      · rw [cma_get_parameter_bad_version init store attr city_id prior h1 hv] at h
        exact Option.noConfusion h
    · rw [cma_get_parameter_bad_length init store attr city_id prior h0 h1] at h
      exact Option.noConfusion h

/-- After `release_city` no blob is stored for the city. -/
theorem release_city_store (c : client) (city_id : Int) :
    attr_city_get (release_city c city_id).world.store ATTR_CITY_CMA_PARAMETER city_id = [] := by
  simp [release_city, attr_city_get, attr_city_set]

theorem cma_release_city_store (c : client) (pcity : city) :
    (cma_release_city c pcity).world.store = (release_city c pcity.id).world.store := rfl

/-- A city without a stored blob is not under agent control. -/
theorem not_under_agent_of_no_blob {R : Type} (init : cm_parameter R → cm_parameter R)
    (store : attribute_store) (city_id : Int) (my_parameter : cm_parameter R)
    (parameter : Option (cm_parameter R))
    (h : attr_city_get store ATTR_CITY_CMA_PARAMETER city_id = []) :
    cma_is_city_under_agent init store city_id my_parameter parameter
      = some (false, parameter) := by
  unfold cma_is_city_under_agent
  rw [cma_get_parameter_none_stored init store ATTR_CITY_CMA_PARAMETER city_id my_parameter
    (by rw [h]; rfl)]

/-- The value of `check_city`, case by case. -/
theorem check_city_cases {R : Type} (env : environment R) (c : client) (city_id : Int)
    (parameter : Option (cm_parameter R)) :
    (c.world.cities city_id = none ∧ check_city env c city_id parameter
        = (c, some (false, parameter))) ∨
    (∃ pcity, c.world.cities city_id = some pcity ∧
      cma_get_parameter env.cm_init_parameter c.world.store ATTR_CITY_CMA_PARAMETER city_id
        (parameter.getD env.uninit_parameter) = none ∧
      check_city env c city_id parameter = (c, none)) ∨
    (∃ pcity q, c.world.cities city_id = some pcity ∧
      cma_get_parameter env.cm_init_parameter c.world.store ATTR_CITY_CMA_PARAMETER city_id
        (parameter.getD env.uninit_parameter) = some (false, q) ∧
      check_city env c city_id parameter = (c, some (false, parameter))) ∨
    (∃ pcity q, c.world.cities city_id = some pcity ∧
      cma_get_parameter env.cm_init_parameter c.world.store ATTR_CITY_CMA_PARAMETER city_id
        (parameter.getD env.uninit_parameter) = some (true, q) ∧
      pcity.owner ≠ c.world.player_ptr ∧
      check_city env c city_id parameter
        = (cma_release_city c pcity, some (false, parameter.map (fun _ => q)))) ∨
    (∃ pcity q, c.world.cities city_id = some pcity ∧
      cma_get_parameter env.cm_init_parameter c.world.store ATTR_CITY_CMA_PARAMETER city_id
        (parameter.getD env.uninit_parameter) = some (true, q) ∧
      pcity.owner = c.world.player_ptr ∧
      check_city env c city_id parameter
        = (c, some (true, parameter.map (fun _ => q)))) := by
  unfold check_city
  cases hc : c.world.cities city_id with
  | none => exact Or.inl ⟨rfl, rfl⟩
  | some pcity =>
    simp only
    cases hg : cma_get_parameter env.cm_init_parameter c.world.store ATTR_CITY_CMA_PARAMETER
        city_id (parameter.getD env.uninit_parameter) with
    | none => exact Or.inr (Or.inl ⟨pcity, rfl, rfl, rfl⟩)
    | some r =>
      obtain ⟨b, q⟩ := r
      cases b with
      | false => exact Or.inr (Or.inr (Or.inl ⟨pcity, q, rfl, rfl, rfl⟩))
      | true =>
        simp only
        by_cases ho : pcity.owner = c.world.player_ptr
        · refine Or.inr (Or.inr (Or.inr (Or.inr ⟨pcity, q, rfl, rfl, ho, ?_⟩)))
          simp [ho]
        · refine Or.inr (Or.inr (Or.inr (Or.inl ⟨pcity, q, rfl, rfl, ho, ?_⟩)))
          simp [ho]

/-! ## Properties of handle_city: one pass of the loop -/

/-- What `after_apply` adds to the log, and how the pass ends, case by case. -/
theorem after_apply_log {R : Type} (env : agent_environment R) (city_id : Int) (i : Nat)
    (s : agent_state) (pcity : city) (applied : client × Option Bool) :
    (applied.2 = none ∧
      after_apply env city_id i s pcity applied
        = (⟨applied.1, s.log ++ [cycle_event.apply_result_on_server pcity.id none]⟩,
            try_outcome.fault)) ∨
    (applied.2 = some true ∧
      after_apply env city_id i s pcity applied
        = (⟨applied.1, s.log ++ [cycle_event.apply_result_on_server pcity.id (some true)]⟩,
            try_outcome.converged)) ∨
    (applied.2 = some false ∧ (check_city env.base applied.1 city_id none).2 = none ∧
      after_apply env city_id i s pcity applied
        = (⟨(check_city env.base applied.1 city_id none).1,
            s.log ++ [cycle_event.apply_result_on_server pcity.id (some false)]
              ++ [cycle_event.check_city city_id false none]⟩, try_outcome.fault)) ∨
    (∃ passed q, applied.2 = some false ∧
      (check_city env.base applied.1 city_id none).2 = some (passed, q) ∧
      after_apply env city_id i s pcity applied
        = (⟨(check_city env.base applied.1 city_id none).1,
            s.log ++ [cycle_event.apply_result_on_server pcity.id (some false)]
              ++ [cycle_event.check_city city_id false (some passed)]
              ++ (if passed = true ∧ i = 0 then
                    [cycle_event.create_event pcity.id cma_message.confused]
                  else [])⟩, try_outcome.diverged)) := by
  obtain ⟨c1, o⟩ := applied
  unfold after_apply
  rcases o with _ | b
  · exact Or.inl ⟨rfl, rfl⟩
  · cases b with
    | true => exact Or.inr (Or.inl ⟨rfl, rfl⟩)
    | false =>
      cases hk : (check_city env.base c1 city_id none).2 with
      | none =>
        refine Or.inr (Or.inr (Or.inl ⟨rfl, rfl, ?_⟩))
        simp [log_call, hk]
      | some r =>
        obtain ⟨passed, q⟩ := r
        refine Or.inr (Or.inr (Or.inr ⟨passed, q, rfl, rfl, ?_⟩))
        by_cases hp : passed = true ∧ i = 0
        · simp [log_call, hk, hp]
        · simp only [log_call, hk, hp, if_false, Option.map_some', List.append_nil]

theorem query_and_apply_infeasible {R : Type} (env : agent_environment R) (city_id : Int)
    (i : Nat) (s : agent_state) (pcity : city) (parameter : cm_parameter R)
    (result : cm_result)
    (hq : (env.cm_query_result s.c pcity parameter result).found_a_valid = false) :
    query_and_apply env city_id i s pcity parameter result
      = (⟨cma_release_city s.c pcity,
          s.log ++ [cycle_event.cm_query_result pcity.id false,
            cycle_event.cma_release_city pcity.id,
            cycle_event.create_event pcity.id cma_message.cant_fulfill]⟩,
          env.cm_query_result s.c pcity parameter result, try_outcome.infeasible) := by
  unfold query_and_apply
  simp [log_call, hq]

theorem query_and_apply_valid {R : Type} (env : agent_environment R) (city_id : Int)
    (i : Nat) (s : agent_state) (pcity : city) (parameter : cm_parameter R)
    (result : cm_result)
    (hq : (env.cm_query_result s.c pcity parameter result).found_a_valid = true) :
    query_and_apply env city_id i s pcity parameter result
      = ((after_apply env city_id i
            ⟨s.c, s.log ++ [cycle_event.cm_query_result pcity.id true]⟩ pcity
            (apply_result_on_server env.base s.c pcity
              (env.cm_query_result s.c pcity parameter result))).1,
          env.cm_query_result s.c pcity parameter result,
          (after_apply env city_id i
            ⟨s.c, s.log ++ [cycle_event.cm_query_result pcity.id true]⟩ pcity
            (apply_result_on_server env.base s.c pcity
              (env.cm_query_result s.c pcity parameter result))).2) := by
  unfold query_and_apply
  simp [log_call, hq]

theorem handle_city_try_check_fault {R : Type} (env : agent_environment R) (city_id : Int)
    (i : Nat) (s : agent_state) (result : cm_result)
    (hc : (check_city env.base s.c city_id (some env.base.uninit_parameter)).2 = none) :
    handle_city_try env city_id i s result
      = (⟨(check_city env.base s.c city_id (some env.base.uninit_parameter)).1,
          s.log ++ [cycle_event.check_city city_id true none]⟩, result,
          try_outcome.fault) := by
  unfold handle_city_try
  simp [log_call, hc]

theorem handle_city_try_not_eligible {R : Type} (env : agent_environment R) (city_id : Int)
    (i : Nat) (s : agent_state) (result : cm_result) (q : Option (cm_parameter R))
    (hc : (check_city env.base s.c city_id (some env.base.uninit_parameter)).2
      = some (false, q)) :
    handle_city_try env city_id i s result
      = (⟨(check_city env.base s.c city_id (some env.base.uninit_parameter)).1,
          s.log ++ [cycle_event.check_city city_id true (some false)]⟩, result,
          try_outcome.not_eligible) := by
  unfold handle_city_try
  simp [log_call, hc]

/-- A successful `check_city` leaves the client as it was. -/
theorem check_city_true_client {R : Type} (env : environment R) (c : client) (city_id : Int)
    (parameter q : Option (cm_parameter R))
    (hc : (check_city env c city_id parameter).2 = some (true, q)) :
    (check_city env c city_id parameter).1 = c ∧ ∃ pc, c.world.cities city_id = some pc := by
  rcases check_city_cases env c city_id parameter with
    ⟨-, h⟩ | ⟨pc, -, -, h⟩ | ⟨pc, q', -, -, h⟩ | ⟨pc, q', -, -, -, h⟩ | ⟨pc, q', hpc, -, -, h⟩
  · rw [h] at hc; simp at hc
  · rw [h] at hc; simp at hc
  · rw [h] at hc; simp at hc
  · rw [h] at hc; simp at hc
  · rw [h]; exact ⟨rfl, pc, hpc⟩

theorem handle_city_try_eligible {R : Type} (env : agent_environment R) (city_id : Int)
    (i : Nat) (s : agent_state) (result : cm_result) (q : Option (cm_parameter R))
    (pcity : city)
    (hc : (check_city env.base s.c city_id (some env.base.uninit_parameter)).2
      = some (true, q))
    (hcity : s.c.world.cities city_id = some pcity) :
    handle_city_try env city_id i s result
      = query_and_apply env city_id i
          ⟨s.c, s.log ++ [cycle_event.check_city city_id true (some true)]⟩ pcity
          (q.getD env.base.uninit_parameter) result := by
  have h1 := (check_city_true_client env.base s.c city_id _ q hc).1
  unfold handle_city_try
  simp [log_call, hc, h1, hcity]

/-- What one pass of the loop adds to the log and how it ends, case by case (a
successful `check_city` followed by a failed lookup of the city does not
occur). -/
theorem handle_city_try_log {R : Type} (env : agent_environment R) (city_id : Int)
    (i : Nat) (s : agent_state) (result : cm_result) :
    ∃ L, (handle_city_try env city_id i s result).1.log = s.log ++ L ∧
      (((handle_city_try env city_id i s result).2.2 = try_outcome.fault ∧
          L = [cycle_event.check_city city_id true none]) ∨
        ((handle_city_try env city_id i s result).2.2 = try_outcome.not_eligible ∧
          L = [cycle_event.check_city city_id true (some false)]) ∨
        (∃ pid, (handle_city_try env city_id i s result).2.2 = try_outcome.infeasible ∧
          L = [cycle_event.check_city city_id true (some true),
            cycle_event.cm_query_result pid false, cycle_event.cma_release_city pid,
            cycle_event.create_event pid cma_message.cant_fulfill]) ∨
        (∃ pid, (handle_city_try env city_id i s result).2.2 = try_outcome.fault ∧
          L = [cycle_event.check_city city_id true (some true),
            cycle_event.cm_query_result pid true,
            cycle_event.apply_result_on_server pid none]) ∨
        (∃ pid, (handle_city_try env city_id i s result).2.2 = try_outcome.converged ∧
          L = [cycle_event.check_city city_id true (some true),
            cycle_event.cm_query_result pid true,
            cycle_event.apply_result_on_server pid (some true)]) ∨
        (∃ pid, (handle_city_try env city_id i s result).2.2 = try_outcome.fault ∧
          L = [cycle_event.check_city city_id true (some true),
            cycle_event.cm_query_result pid true,
            cycle_event.apply_result_on_server pid (some false),
            cycle_event.check_city city_id false none]) ∨
        (∃ pid passed, (handle_city_try env city_id i s result).2.2 = try_outcome.diverged ∧
          L = [cycle_event.check_city city_id true (some true),
            cycle_event.cm_query_result pid true,
            cycle_event.apply_result_on_server pid (some false),
            cycle_event.check_city city_id false (some passed)]
            ++ (if passed = true ∧ i = 0 then
                  [cycle_event.create_event pid cma_message.confused]
                else []))) := by
  cases hc : (check_city env.base s.c city_id (some env.base.uninit_parameter)).2 with
  | none =>
    rw [handle_city_try_check_fault env city_id i s result hc]
    exact ⟨_, rfl, Or.inl ⟨rfl, rfl⟩⟩
  | some r =>
    obtain ⟨b, q⟩ := r
    cases b with
    | false =>
      rw [handle_city_try_not_eligible env city_id i s result q hc]
      exact ⟨_, rfl, Or.inr (Or.inl ⟨rfl, rfl⟩)⟩
    | true =>
      obtain ⟨-, pc, hpc⟩ := check_city_true_client env.base s.c city_id _ q hc
      rw [handle_city_try_eligible env city_id i s result q pc hc hpc]
      cases hq : (env.cm_query_result s.c pc (q.getD env.base.uninit_parameter)
          result).found_a_valid with
      | false =>
        rw [query_and_apply_infeasible env city_id i
          ⟨s.c, s.log ++ [cycle_event.check_city city_id true (some true)]⟩ pc _ result hq]
        exact ⟨_, List.append_assoc _ _ _, Or.inr (Or.inr (Or.inl ⟨pc.id, rfl, rfl⟩))⟩
      | true =>
        rw [query_and_apply_valid env city_id i
          ⟨s.c, s.log ++ [cycle_event.check_city city_id true (some true)]⟩ pc _ result hq]
        rcases after_apply_log env city_id i
          ⟨s.c, s.log ++ [cycle_event.check_city city_id true (some true)]
            ++ [cycle_event.cm_query_result pc.id true]⟩ pc
          (apply_result_on_server env.base s.c pc
            (env.cm_query_result s.c pc (q.getD env.base.uninit_parameter) result)) with
          ⟨-, h⟩ | ⟨-, h⟩ | ⟨-, -, h⟩ | ⟨passed, q', -, -, h⟩
        · rw [h]
          exact ⟨_, by simp only [List.append_assoc]; rfl,
            Or.inr (Or.inr (Or.inr (Or.inl ⟨pc.id, rfl, rfl⟩)))⟩
        · rw [h]
          exact ⟨_, by simp only [List.append_assoc]; rfl,
            Or.inr (Or.inr (Or.inr (Or.inr (Or.inl ⟨pc.id, rfl, rfl⟩))))⟩
        · rw [h]
          exact ⟨_, by simp only [List.append_assoc]; rfl,
            Or.inr (Or.inr (Or.inr (Or.inr (Or.inr (Or.inl ⟨pc.id, rfl, rfl⟩)))))⟩
        · rw [h]
          exact ⟨_, by simp only [List.append_assoc]; rfl,
            Or.inr (Or.inr (Or.inr (Or.inr (Or.inr (Or.inr ⟨pc.id, passed, rfl, rfl⟩)))))⟩

/-! ## Properties of handle_city: the loop -/

theorem handle_city_loop_diverged {R : Type} (env : agent_environment R) (city_id : Int)
    (n i : Nat) (s : agent_state) (result : cm_result)
    (h : (handle_city_try env city_id i s result).2.2 = try_outcome.diverged) :
    handle_city_loop env city_id (n + 1) i s result
      = handle_city_loop env city_id n (i + 1) (handle_city_try env city_id i s result).1
          (handle_city_try env city_id i s result).2.1 := by
  rw [handle_city_loop]
  generalize handle_city_try env city_id i s result = t at h
  obtain ⟨s', r', o⟩ := t
  simp only at h
  subst h
  rfl

theorem handle_city_loop_fault {R : Type} (env : agent_environment R) (city_id : Int)
    (n i : Nat) (s : agent_state) (result : cm_result)
    (h : (handle_city_try env city_id i s result).2.2 = try_outcome.fault) :
    handle_city_loop env city_id (n + 1) i s result
      = ((handle_city_try env city_id i s result).1, none) := by
  rw [handle_city_loop]
  generalize handle_city_try env city_id i s result = t at h
  obtain ⟨s', r', o⟩ := t
  simp only at h
  subst h
  rfl

theorem handle_city_loop_handled {R : Type} (env : agent_environment R) (city_id : Int)
    (n i : Nat) (s : agent_state) (result : cm_result)
    (h1 : (handle_city_try env city_id i s result).2.2 ≠ try_outcome.diverged)
    (h2 : (handle_city_try env city_id i s result).2.2 ≠ try_outcome.fault) :
    handle_city_loop env city_id (n + 1) i s result
      = ((handle_city_try env city_id i s result).1, some true) := by
  rw [handle_city_loop]
  generalize handle_city_try env city_id i s result = t at h1 h2
  obtain ⟨s', r', o⟩ := t
  cases o <;> simp_all

/-- When the passes before pass `k` have all ended with a failed apply, the loop
is at pass `k` with `n - k` passes left. -/
theorem handle_city_loop_reach {R : Type} (env : agent_environment R) (city_id : Int)
    (n : Nat) (s : agent_state) (k : Nat) (hk : k ≤ n)
    (hprev : ∀ j < k, (attempt env city_id s j).2.2 = try_outcome.diverged) :
    handle_city_loop env city_id n 0 s env.base.uninit_result
      = handle_city_loop env city_id (n - k) k (attempt_start env city_id s k).1
          (attempt_start env city_id s k).2 := by
  induction k with
  | zero => rfl
  | succ k ih =>
    rw [ih (by omega) (fun j hj => hprev j (by omega))]
    have hd := hprev k (by omega)
    have hn : n - k = (n - (k + 1)) + 1 := by omega
    rw [hn, handle_city_loop_diverged env city_id _ k _ _ hd]
    rfl

/-- The calls that one pass adds to the log: at most one query, at most one
apply, no diagnostic at the level of an error, and an event "confused" only in
pass 0.  A pass that ends with a failed apply has logged a successful
`check_city`, a query with a valid result and an apply that returned FALSE. -/
theorem handle_city_try_counts {R : Type} (env : agent_environment R) (city_id : Int)
    (i : Nat) (s : agent_state) (result : cm_result) :
    ∃ L, (handle_city_try env city_id i s result).1.log = s.log ++ L ∧
      L.countP is_query ≤ 1 ∧ L.countP is_apply ≤ 1 ∧ L.countP is_error_log = 0 ∧
      L.countP is_confused_event ≤ (if i = 0 then 1 else 0) ∧
      ((handle_city_try env city_id i s result).2.2 = try_outcome.diverged →
        L.countP is_query = 1 ∧ L.countP is_apply = 1 ∧ L.countP is_release = 0 ∧
          ∃ pid tail, L = [cycle_event.check_city city_id true (some true),
            cycle_event.cm_query_result pid true,
            cycle_event.apply_result_on_server pid (some false)] ++ tail) := by
  obtain ⟨L, hL, h⟩ := handle_city_try_log env city_id i s result
  refine ⟨L, hL, ?_⟩
  rcases h with ⟨ho, rfl⟩ | ⟨ho, rfl⟩ | ⟨pid, ho, rfl⟩ | ⟨pid, ho, rfl⟩ | ⟨pid, ho, rfl⟩ |
    ⟨pid, ho, rfl⟩ | ⟨pid, passed, ho, rfl⟩
  · rw [ho]; simp [is_query, is_apply, is_error_log, is_confused_event]
  · rw [ho]; simp [is_query, is_apply, is_error_log, is_confused_event]
  · rw [ho]; simp [is_query, is_apply, is_error_log, is_confused_event]
  · rw [ho]; simp [is_query, is_apply, is_error_log, is_confused_event]
  · rw [ho]; simp [is_query, is_apply, is_error_log, is_confused_event]
  · rw [ho]; simp [is_query, is_apply, is_error_log, is_confused_event]
  · by_cases hp : passed = true ∧ i = 0
    · simp [hp, is_query, is_apply, is_error_log, is_confused_event, is_release]
    · simp only [hp, if_false, List.append_nil]
      refine ⟨by simp [is_query], by simp [is_apply], by simp [is_error_log],
        by simp [is_confused_event], fun _ => ⟨by simp [is_query], by simp [is_apply],
          by simp [is_release], pid, _, rfl⟩⟩

/-- The calls that the loop adds to the log: at most as many queries and applies
as there are passes left, no diagnostic at the level of an error, and an event
"confused" only when the loop starts at pass 0. -/
theorem handle_city_loop_counts {R : Type} (env : agent_environment R) (city_id : Int)
    (n i : Nat) (s : agent_state) (result : cm_result) :
    ∃ L, (handle_city_loop env city_id n i s result).1.log = s.log ++ L ∧
      L.countP is_query ≤ n ∧ L.countP is_apply ≤ n ∧ L.countP is_error_log = 0 ∧
      L.countP is_confused_event ≤ (if i = 0 then 1 else 0) := by
  induction n generalizing i s result with
  | zero =>
    refine ⟨[], by simp [handle_city_loop], by simp, by simp, by simp, by simp⟩
  | succ n ih =>
    obtain ⟨L1, hL1, hq1, ha1, he1, hc1, -⟩ := handle_city_try_counts env city_id i s result
    by_cases hd : (handle_city_try env city_id i s result).2.2 = try_outcome.diverged
    · rw [handle_city_loop_diverged env city_id n i s result hd]
      obtain ⟨L2, hL2, hq2, ha2, he2, hc2⟩ := ih (i + 1)
        (handle_city_try env city_id i s result).1 (handle_city_try env city_id i s result).2.1
      refine ⟨L1 ++ L2, by rw [hL2, hL1, List.append_assoc], ?_, ?_, ?_, ?_⟩
      · rw [List.countP_append]; omega
      · rw [List.countP_append]; omega
      · rw [List.countP_append]; omega
      · rw [List.countP_append]
        simp only [Nat.add_one_ne_zero, if_false] at hc2
        omega
    · by_cases hf : (handle_city_try env city_id i s result).2.2 = try_outcome.fault
      · rw [handle_city_loop_fault env city_id n i s result hf]
        exact ⟨L1, hL1, by omega, by omega, he1, hc1⟩
      · rw [handle_city_loop_handled env city_id n i s result hd hf]
        exact ⟨L1, hL1, by omega, by omega, he1, hc1⟩

/-- What the part of `handle_city` after the loop does. -/
theorem after_loop_cases (s : agent_state) (city_id : Int) (handled : Bool) :
    (handled = true ∧ after_loop s city_id handled = (s, some ())) ∨
    (handled = false ∧ s.c.world.cities city_id = none ∧
      after_loop s city_id handled = (s, none)) ∨
    (∃ pc, handled = false ∧ s.c.world.cities city_id = some pc ∧
      after_loop s city_id handled
        = (⟨cma_release_city s.c pc,
            s.log ++ [cycle_event.create_event pc.id cma_message.confused,
              cycle_event.cma_release_city pc.id,
              cycle_event.freelog_error error_message.changed_multiple_times,
              cycle_event.freelog_error error_message.please_report]⟩, some ())) := by
  unfold after_loop
  cases handled with
  | true => exact Or.inl ⟨rfl, rfl⟩
  | false =>
    cases hc : s.c.world.cities city_id with
    | none => exact Or.inr (Or.inl ⟨rfl, rfl, rfl⟩)
    | some pc =>
      refine Or.inr (Or.inr ⟨pc, rfl, rfl, ?_⟩)
      simp [log_call]

theorem handle_city_eq {R : Type} (env : agent_environment R) (s : agent_state)
    (pcity : city) :
    handle_city env s pcity
      = match (handle_city_loop env pcity.id 5 0 s env.base.uninit_result).2 with
        | none => ((handle_city_loop env pcity.id 5 0 s env.base.uninit_result).1, none)
        | some handled =>
          after_loop (handle_city_loop env pcity.id 5 0 s env.base.uninit_result).1 pcity.id
            handled := by
  unfold handle_city
  show (match handle_city_loop env pcity.id 5 0 s env.base.uninit_result with
    | (s, none) => (s, none)
    | (s, some handled) => after_loop s pcity.id handled) = _
  generalize handle_city_loop env pcity.id 5 0 s env.base.uninit_result = r
  obtain ⟨s', o⟩ := r
  cases o <;> rfl

/-- The calls that `handle_city` adds to its log: at most 5 queries, at most 5
applies and at most two events "confused"; there are two only when the loop ran
out of passes, which is when the diagnostics at the level of an error are
made. -/
theorem handle_city_counts {R : Type} (env : agent_environment R) (s : agent_state)
    (pcity : city) :
    ∃ L, (handle_city env s pcity).1.log = s.log ++ L ∧
      L.countP is_query ≤ 5 ∧ L.countP is_apply ≤ 5 ∧
      L.countP is_confused_event ≤ 2 ∧
      (L.countP is_error_log = 0 → L.countP is_confused_event ≤ 1) := by
  obtain ⟨L, hL, hq, ha, he, hc⟩ := handle_city_loop_counts env pcity.id 5 0 s
    env.base.uninit_result
  simp only [if_true] at hc
  rw [handle_city_eq]
  generalize handle_city_loop env pcity.id 5 0 s env.base.uninit_result = r at hL
  obtain ⟨s', o⟩ := r
  simp only at hL
  cases o with
  | none => exact ⟨L, hL, hq, ha, by omega, fun _ => hc⟩
  | some handled =>
    simp only
    rcases after_loop_cases s' pcity.id handled with ⟨-, h⟩ | ⟨-, -, h⟩ | ⟨pc, -, -, h⟩
    · rw [h]; exact ⟨L, hL, hq, ha, by omega, fun _ => hc⟩
    · rw [h]; exact ⟨L, hL, hq, ha, by omega, fun _ => hc⟩
    · rw [h]
      refine ⟨L ++ [cycle_event.create_event pc.id cma_message.confused,
          cycle_event.cma_release_city pc.id,
          cycle_event.freelog_error error_message.changed_multiple_times,
          cycle_event.freelog_error error_message.please_report],
        by simp only [hL, List.append_assoc], ?_, ?_, ?_, ?_⟩
      · rw [List.countP_append]; simp [is_query]; omega
      · rw [List.countP_append]; simp [is_apply]; omega
      · rw [List.countP_append]; simp [is_confused_event]; omega
      · intro h0
        rw [List.countP_append] at h0
        simp [is_error_log] at h0

theorem new_calls_of_log (before after : agent_state) (L : List cycle_event)
    (h : after.log = before.log ++ L) : new_calls before after = L := by
  unfold new_calls
  rw [h, List.drop_left']
  rfl

/-- A pass whose `check_city` succeeds, for a city that is found. -/
theorem handle_city_try_passed {R : Type} (env : agent_environment R) (city_id : Int)
    (i : Nat) (s : agent_state) (result : cm_result) (pcity : city)
    (hc : Option.map Prod.fst
      (check_city env.base s.c city_id (some env.base.uninit_parameter)).2 = some true)
    (hcity : s.c.world.cities city_id = some pcity) :
    handle_city_try env city_id i s result
      = query_and_apply env city_id i
          ⟨s.c, s.log ++ [cycle_event.check_city city_id true (some true)]⟩ pcity
          (checked_parameter env s.c city_id) result := by
  cases hk : (check_city env.base s.c city_id (some env.base.uninit_parameter)).2 with
  | none => rw [hk] at hc; simp at hc
  | some r =>
    obtain ⟨b, q⟩ := r
    rw [hk] at hc
    simp only [Option.map_some', Option.some.injEq] at hc
    subst hc
    rw [handle_city_try_eligible env city_id i s result q pcity hk hcity]
    unfold checked_parameter
    rw [hk]
    cases q <;> rfl

theorem handle_city_try_failed_check {R : Type} (env : agent_environment R) (city_id : Int)
    (i : Nat) (s : agent_state) (result : cm_result)
    (hc : Option.map Prod.fst
      (check_city env.base s.c city_id (some env.base.uninit_parameter)).2 = some false) :
    handle_city_try env city_id i s result
      = (⟨(check_city env.base s.c city_id (some env.base.uninit_parameter)).1,
          s.log ++ [cycle_event.check_city city_id true (some false)]⟩, result,
          try_outcome.not_eligible) := by
  cases hk : (check_city env.base s.c city_id (some env.base.uninit_parameter)).2 with
  | none => rw [hk] at hc; simp at hc
  | some r =>
    obtain ⟨b, q⟩ := r
    rw [hk] at hc
    simp only [Option.map_some', Option.some.injEq] at hc
    subst hc
    exact handle_city_try_not_eligible env city_id i s result q hk

/-- The log at the start of pass `k`, when the passes before it have all ended
with a failed apply: `k` queries, `k` applies, no release by `handle_city` and no
diagnostic at the level of an error. -/
theorem attempt_start_log {R : Type} (env : agent_environment R) (city_id : Int)
    (s : agent_state) (k : Nat)
    (hprev : ∀ j < k, (attempt env city_id s j).2.2 = try_outcome.diverged) :
    ∃ M, (attempt_start env city_id s k).1.log = s.log ++ M ∧
      M.countP is_query = k ∧ M.countP is_apply = k ∧ M.countP is_release = 0 ∧
      M.countP is_error_log = 0 := by
  induction k with
  | zero => exact ⟨[], by simp [attempt_start], rfl, rfl, rfl, rfl⟩
  | succ k ih =>
    obtain ⟨M, hM, hq, ha, hr, he⟩ := ih (fun j hj => hprev j (by omega))
    obtain ⟨L, hL, -, -, he1, -, hd⟩ := handle_city_try_counts env city_id k
      (attempt_start env city_id s k).1 (attempt_start env city_id s k).2
    obtain ⟨hq1, ha1, hr1, -⟩ := hd (hprev k (by omega))
    refine ⟨M ++ L, ?_, ?_, ?_, ?_, ?_⟩
    · show (handle_city_try env city_id k (attempt_start env city_id s k).1
        (attempt_start env city_id s k).2).1.log = _
      rw [hL, hM, List.append_assoc]
    · rw [List.countP_append]; omega
    · rw [List.countP_append]; omega
    · rw [List.countP_append]; omega
    · rw [List.countP_append]; omega

/-- After five passes that all ended with a failed apply, `handle_city` runs the
part after the loop with `handled = FALSE`. -/
theorem handle_city_exhausted {R : Type} (env : agent_environment R) (s : agent_state)
    (pcity : city)
    (hdiv : ∀ k < 5, (attempt env pcity.id s k).2.2 = try_outcome.diverged) :
    handle_city env s pcity = after_loop (attempt_start env pcity.id s 5).1 pcity.id false := by
  rw [handle_city_eq, handle_city_loop_reach env pcity.id 5 s 5 (le_refl 5) hdiv]
  rfl

/-- When pass `k` is reached and does not end with a failed apply or a fault,
`handle_city` returns in the state in which the pass ends. -/
theorem handle_city_handled_at {R : Type} (env : agent_environment R) (s : agent_state)
    (pcity : city) (k : Nat) (hk : k < 5)
    (hprev : ∀ j < k, (attempt env pcity.id s j).2.2 = try_outcome.diverged)
    (h1 : (attempt env pcity.id s k).2.2 ≠ try_outcome.diverged)
    (h2 : (attempt env pcity.id s k).2.2 ≠ try_outcome.fault) :
    handle_city env s pcity = ((attempt env pcity.id s k).1, some ()) := by
  have hn : 5 - k = (5 - k - 1) + 1 := by omega
  rw [handle_city_eq, handle_city_loop_reach env pcity.id 5 s k (by omega) hprev, hn,
    handle_city_loop_handled env pcity.id _ k _ _ h1 h2]
  rfl

/-- When pass `k` is reached and ends in a fault, so does `handle_city`. -/
theorem handle_city_fault_at {R : Type} (env : agent_environment R) (s : agent_state)
    (pcity : city) (k : Nat) (hk : k < 5)
    (hprev : ∀ j < k, (attempt env pcity.id s j).2.2 = try_outcome.diverged)
    (h : (attempt env pcity.id s k).2.2 = try_outcome.fault) :
    handle_city env s pcity = ((attempt env pcity.id s k).1, none) := by
  have hn : 5 - k = (5 - k - 1) + 1 := by omega
  rw [handle_city_eq, handle_city_loop_reach env pcity.id 5 s k (by omega) hprev, hn,
    handle_city_loop_fault env pcity.id _ k _ _ h]
  rfl

/-- The calls of one pass of the loop: the first is `check_city` with a
parameter; when it does not return TRUE nothing follows it and the client is as
`check_city` left it; otherwise a query may follow it at once, and no other query
is made in the pass. -/
theorem handle_city_try_calls {R : Type} (env : agent_environment R) (city_id : Int)
    (i : Nat) (s : agent_state) (result : cm_result) :
    ∃ rest, (handle_city_try env city_id i s result).1.log
        = s.log ++ cycle_event.check_city city_id true (Option.map Prod.fst
            (check_city env.base s.c city_id (some env.base.uninit_parameter)).2) :: rest ∧
      (Option.map Prod.fst
          (check_city env.base s.c city_id (some env.base.uninit_parameter)).2 ≠ some true →
        rest = [] ∧ (handle_city_try env city_id i s result).1.c
          = (check_city env.base s.c city_id (some env.base.uninit_parameter)).1) ∧
      (rest = [] ∨ ∃ pid v rest', rest = cycle_event.cm_query_result pid v :: rest' ∧
        rest'.countP is_query = 0) := by
  cases hc : (check_city env.base s.c city_id (some env.base.uninit_parameter)).2 with
  | none =>
    rw [handle_city_try_check_fault env city_id i s result hc]
    exact ⟨[], rfl, fun _ => ⟨rfl, rfl⟩, Or.inl rfl⟩
  | some r =>
    obtain ⟨b, q⟩ := r
    cases b with
    | false =>
      rw [handle_city_try_not_eligible env city_id i s result q hc]
      exact ⟨[], rfl, fun _ => ⟨rfl, rfl⟩, Or.inl rfl⟩
    | true =>
      obtain ⟨-, pc, hpc⟩ := check_city_true_client env.base s.c city_id _ q hc
      rw [handle_city_try_eligible env city_id i s result q pc hc hpc]
      simp only [Option.map_some', ne_eq, not_true_eq_false, false_implies, true_and]
      cases hq : (env.cm_query_result s.c pc (q.getD env.base.uninit_parameter)
          result).found_a_valid with
      | false =>
        rw [query_and_apply_infeasible env city_id i
          ⟨s.c, s.log ++ [cycle_event.check_city city_id true (some true)]⟩ pc _ result hq]
        exact ⟨_, by simp only [List.append_assoc]; rfl,
          Or.inr ⟨pc.id, false, _, rfl, by simp [is_query]⟩⟩
      | true =>
        rw [query_and_apply_valid env city_id i
          ⟨s.c, s.log ++ [cycle_event.check_city city_id true (some true)]⟩ pc _ result hq]
        rcases after_apply_log env city_id i
          ⟨s.c, s.log ++ [cycle_event.check_city city_id true (some true)]
            ++ [cycle_event.cm_query_result pc.id true]⟩ pc
          (apply_result_on_server env.base s.c pc
            (env.cm_query_result s.c pc (q.getD env.base.uninit_parameter) result)) with
          ⟨-, h⟩ | ⟨-, h⟩ | ⟨-, -, h⟩ | ⟨passed, q', -, -, h⟩
        · rw [h]
          exact ⟨_, by simp only [List.append_assoc]; rfl,
            Or.inr ⟨pc.id, true, _, rfl, by simp [is_query]⟩⟩
        · rw [h]
          exact ⟨_, by simp only [List.append_assoc]; rfl,
            Or.inr ⟨pc.id, true, _, rfl, by simp [is_query]⟩⟩
        · rw [h]
          exact ⟨_, by simp only [List.append_assoc]; rfl,
            Or.inr ⟨pc.id, true, _, rfl, by simp [is_query]⟩⟩
        · rw [h]
          refine ⟨_, by simp only [List.append_assoc]; rfl,
            Or.inr ⟨pc.id, true, _, rfl, ?_⟩⟩
          by_cases hp : passed = true ∧ i = 0
          · simp [hp, is_query]
          · simp only [hp, if_false]
            simp [is_query]

/-- The events "confused" of one pass of the loop: none after pass 0, and at most
one in pass 0, which follows an apply that returned FALSE and a `check_city`
that returned TRUE. -/
theorem handle_city_try_confused {R : Type} (env : agent_environment R) (city_id : Int)
    (i : Nat) (s : agent_state) (result : cm_result) :
    (i ≠ 0 → (new_calls s (handle_city_try env city_id i s result).1).countP
        is_confused_event = 0) ∧
      (new_calls s (handle_city_try env city_id i s result).1).countP is_confused_event ≤ 1 ∧
      ((new_calls s (handle_city_try env city_id i s result).1).countP is_confused_event = 1 →
        ∃ pid, new_calls s (handle_city_try env city_id i s result).1
          = [cycle_event.check_city city_id true (some true),
              cycle_event.cm_query_result pid true,
              cycle_event.apply_result_on_server pid (some false),
              cycle_event.check_city city_id false (some true),
              cycle_event.create_event pid cma_message.confused]) := by
  obtain ⟨L, hL, h⟩ := handle_city_try_log env city_id i s result
  rw [new_calls_of_log _ _ L hL]
  rcases h with ⟨-, rfl⟩ | ⟨-, rfl⟩ | ⟨pid, -, rfl⟩ | ⟨pid, -, rfl⟩ | ⟨pid, -, rfl⟩ |
    ⟨pid, -, rfl⟩ | ⟨pid, passed, -, rfl⟩
  · simp [is_confused_event]
  · simp [is_confused_event]
  · simp [is_confused_event]
  · simp [is_confused_event]
  · simp [is_confused_event]
  · simp [is_confused_event]
  · by_cases hp : passed = true ∧ i = 0
    · rw [if_pos hp, hp.1]
      refine ⟨fun hi => absurd hp.2 hi, by simp [is_confused_event], fun _ => ⟨pid, rfl⟩⟩
    · rw [if_neg hp]
      simp [is_confused_event]

/-! ## Properties of format_duration -/

theorem toDigits_length_lt_100 :
    ∀ m < 100, (Nat.toDigits 10 m).length = if m < 10 then 1 else 2 := by
  decide

/-- The conversion `%02d` of a number from 0 to 99 has two characters. -/
theorem format_02d_length (n : Int) (h0 : 0 ≤ n) (h1 : n < 100) :
    (format_02d n).length = 2 := by
  have hm : n.toNat < 100 := by omega
  have hlen := toDigits_length_lt_100 n.toNat hm
  unfold format_02d
  rw [if_neg (by omega)]
  by_cases h10 : n < 10
  · rw [if_pos h10, List.length_cons, hlen, if_pos (by omega)]
  · rw [if_neg h10, hlen, if_neg (by omega)]

theorem format_seconds (a : Int) :
    format_text (Q_ "?seconds:%02ds".toList) [a] = format_02d a ++ ['s'] := rfl

theorem format_mins_secs (a b : Int) :
    format_text (Q_ "?mins/secs:%02dm %02ds".toList) [a, b]
      = format_02d a ++ ('m' :: ' ' :: (format_02d b ++ ['s'])) := rfl

theorem format_hrs_mns (a b : Int) :
    format_text (Q_ "?hrs/mns:%02dh %02dm".toList) [a, b]
      = format_02d a ++ ('h' :: ' ' :: (format_02d b ++ ['m'])) := rfl

theorem format_dys_hrs (a b : Int) :
    format_text (Q_ "?dys/hrs:%02dd %02dh".toList) [a, b]
      = format_02d a ++ ('d' :: ' ' :: (format_02d b ++ ['h'])) := rfl

theorem format_overflow :
    format_text (Q_ "?duration:overflow".toList) [] = "overflow".toList := by
  decide

/-! ## Properties of apply_result_on_server: the wait -/

theorem send_all_first_keep {R : Type} (env : environment R) (s : req_state)
    (es : List event) (h : s.first_request_id ≠ 0) :
    (send_all env s es).first_request_id = s.first_request_id := by
  induction es generalizing s with
  | nil => rfl
  | cons e es ih =>
    rw [send_all_cons, ih]
    · simp [record_request, h]
    · simp [record_request, h]

/-- After a non-empty list of requests sent with ids that are not 0,
`first_request_id` is the id of the first one. -/
theorem send_all_first {R : Type} (env : environment R) (s : req_state) (es : List event)
    (hne : es ≠ []) (hid : ∀ n, env.request_id n ≠ 0) (h0 : s.first_request_id = 0) :
    (send_all env s es).first_request_id = env.request_id (request_count s.c.trace) := by
  cases es with
  | nil => exact absurd rfl hne
  | cons e es =>
    rw [send_all_cons, send_all_first_keep]
    · simp [record_request, send_packet, h0]
    · simp [record_request, send_packet, h0, hid]

/-- The ids with which `wait_for_requests` is called, for a target that passes
the checks and request ids that are not 0: the id of the first and the id of the
last request of the call. -/
theorem send_changes_ids {R : Type} (env : environment R) (c : client) (pcity : city)
    (result : cm_result) (hchk : target_passes_checks env.g pcity result)
    (hid : ∀ n, env.request_id n ≠ 0) :
    (send_changes env c pcity result).first_request_id
        = env.request_id (request_count c.trace) ∧
      (send_changes env c pcity result).last_request_id
        = env.request_id (request_count c.trace
            + (diff_requests env.g pcity result
                ++ forced_refresh_events env c pcity result).length - 1) ∧
      0 < (diff_requests env.g pcity result
            ++ forced_refresh_events env c pcity result).length := by
  rw [send_changes_eq env c pcity result hchk]
  simp only
  have hR := forced_refresh_events_eq env c pcity result hid
  have hlast := last_request_id_after_diff env c pcity result
  by_cases hD : diff_requests env.g pcity result = []
  · rw [hR, if_pos hD, hD]
    simp [force_refresh, send_all_nil, dsend_packet_city_refresh, send_packet]
  · rw [hR, if_neg hD]
    rw [if_neg hD] at hlast
    have hl0 : (send_all env ⟨c, 0, 0, false⟩
        (diff_requests env.g pcity result)).last_request_id ≠ 0 := by
      rw [hlast]; exact hid _
    unfold force_refresh
    rw [if_neg (by simp [hl0, ALWAYS_APPLY_AT_SERVER])]
    refine ⟨send_all_first env _ _ hD hid rfl, ?_, ?_⟩
    · rw [hlast, List.append_nil]
    · rw [List.append_nil]
      exact List.length_pos.2 hD

theorem compare_with_target_no_wait {R : Type} (env : environment R) (c : client)
    (pcity : city) (result : cm_result) :
    ∃ tail, (compare_with_target env c pcity result).1.trace = c.trace ++ tail ∧
      ∀ e ∈ tail, is_request e = false ∧ is_wait e = false := by
  unfold compare_with_target
  cases hs : get_current_as_result env.g pcity env.uninit_result with
  | none =>
    refine ⟨[event.get_current_as_result pcity.id], rfl, ?_⟩
    intro e he
    rw [List.mem_singleton.1 he]
    exact ⟨rfl, rfl⟩
  | some cur =>
    cases hr : results_are_equal env.g pcity result cur with
    | false =>
      refine ⟨[event.get_current_as_result pcity.id, event.results_are_equal pcity.id,
        event.cm_clear_cache pcity.id], by simp [hr, log_event], ?_⟩
      intro e he
      simp only [List.mem_cons, List.mem_singleton, List.not_mem_nil, or_false] at he
      rcases he with rfl | rfl | rfl <;> exact ⟨rfl, rfl⟩
    | true =>
      refine ⟨[event.get_current_as_result pcity.id, event.results_are_equal pcity.id],
        by simp [hr, log_event], ?_⟩
      intro e he
      simp only [List.mem_cons, List.mem_singleton, List.not_mem_nil, or_false] at he
      rcases he with rfl | rfl <;> exact ⟨rfl, rfl⟩

theorem check_city_no_wait {R : Type} (env : environment R) (c : client) (city_id : Int)
    (parameter : Option (cm_parameter R)) :
    ∃ tail, (check_city env c city_id parameter).1.trace = c.trace ++ tail ∧
      ∀ e ∈ tail, is_request e = false ∧ is_wait e = false := by
  rcases check_city_client env c city_id parameter with h | ⟨pcity, h, -⟩
  · rw [h]
    exact ⟨[], by simp, by simp⟩
  · rw [h]
    refine ⟨[event.refresh_city_dialog pcity.id,
      event.city_report_dialog_update_city pcity.id],
      by simp [cma_release_city, release_city, log_event], ?_⟩
    intro e he
    simp only [List.mem_cons, List.mem_singleton, List.not_mem_nil, or_false] at he
    rcases he with rfl | rfl <;> exact ⟨rfl, rfl⟩

/-- The part of `apply_result_on_server` after `connection_do_unbuffer`, when a
request was sent: `wait_for_requests` is called once, with the two ids, and
neither it nor a request is called after that. -/
theorem await_and_compare_wait {R : Type} (env : environment R) (s : req_state)
    (pcity : city) (result : cm_result) (h : s.last_request_id ≠ 0) :
    ∃ tail, (await_and_compare env s pcity result).1.trace
        = s.c.trace ++ [event.wait_for_requests s.first_request_id s.last_request_id]
          ++ tail ∧
      ∀ e ∈ tail, is_request e = false ∧ is_wait e = false := by
  rw [await_and_compare_waited env s pcity result h]
  generalize hcw : waited env s = cw
  have htr : cw.trace = s.c.trace
      ++ [event.wait_for_requests s.first_request_id s.last_request_id] := by
    rw [← hcw]; rfl
  obtain ⟨t1, ht1, hr1⟩ := check_city_no_wait env cw pcity.id none
  generalize check_city env cw pcity.id none = r at ht1
  obtain ⟨c', o⟩ := r
  simp only at ht1
  rcases o with _ | ⟨b, q⟩
  · exact ⟨t1, by rw [ht1, htr], hr1⟩
  · cases b with
    | false => exact ⟨t1, by rw [ht1, htr], hr1⟩
    | true =>
      simp only
      obtain ⟨t2, ht2, hr2⟩ :=
        compare_with_target_no_wait env c' ((c'.world.cities pcity.id).getD pcity) result
      refine ⟨t1 ++ t2, by rw [ht2, ht1, htr, List.append_assoc], ?_⟩
      intro e he
      rcases List.mem_append.1 he with he | he
      · exact hr1 e he
      · exact hr2 e he

theorem request_count_client_after_entry (c : client) (pcity : city) :
    request_count (client_after_entry c pcity).trace = request_count c.trace := by
  simp [client_after_entry, log_event, request_count, is_request]

/-- The calls of a call of `apply_result_on_server` that does not take the fast
path, for a target that passes the checks and request ids that are not 0. -/
theorem new_events_with_wait {R : Type} (env : environment R) (c : client)
    (pcity : city) (result cur : cm_result) (hv : result.found_a_valid = true)
    (hs : get_current_as_result env.g pcity env.uninit_result = some cur)
    (hne : results_are_equal env.g pcity result cur = false)
    (hchk : target_passes_checks env.g pcity result)
    (hid : ∀ n, env.request_id n ≠ 0) :
    ∃ reqs tail, reqs ≠ [] ∧ (∀ e ∈ reqs, is_request e = true) ∧
      new_events c (apply_result_on_server env c pcity result).1
        = [event.get_current_as_result pcity.id, event.results_are_equal pcity.id,
            event.connection_do_buffer] ++ reqs
          ++ [event.reports_freeze_till
                (env.request_id (request_count c.trace + reqs.length - 1)),
              event.connection_do_unbuffer,
              event.wait_for_requests (env.request_id (request_count c.trace))
                (env.request_id (request_count c.trace + reqs.length - 1))]
          ++ tail ∧
      ∀ e ∈ tail, is_request e = false ∧ is_wait e = false := by
  obtain ⟨hfirst, hlast, hpos⟩ := send_changes_ids env (client_after_entry c pcity) pcity
    result hchk hid
  rw [request_count_client_after_entry] at hfirst hlast
  have hnab : (state_before_wait env c pcity result).aborted = false :=
    send_changes_not_aborted env _ pcity result hchk
  have hl0 : (state_before_wait env c pcity result).last_request_id ≠ 0 := by
    unfold state_before_wait
    rw [hlast]
    exact hid _
  obtain ⟨tail, ht, hr⟩ := await_and_compare_wait env (state_before_wait env c pcity result)
    pcity result hl0
  have hc := send_changes_client env (client_after_entry c pcity) pcity result hchk
  refine ⟨diff_requests env.g pcity result
      ++ forced_refresh_events env (client_after_entry c pcity) pcity result, tail,
    fun h => by rw [h] at hpos; exact absurd hpos (by decide), ?_, ?_, hr⟩
  · intro e he
    rcases List.mem_append.1 he with he | he
    · exact (diff_requests_are_requests _ _ _ e he).1
    · rw [forced_refresh_events_mem env _ pcity result e he]; rfl
  · rw [apply_result_on_server_slow env c pcity result cur hv hs hne, hnab]
    simp only [Bool.false_eq_true, if_false]
    rw [new_events, ht]
    simp only [state_before_wait]
    rw [hfirst, hc, hlast]
    simp only [client_after_entry, log_event, List.append_assoc, List.drop_left',
      List.singleton_append, List.cons_append, List.nil_append]

/-! ## The claims about handle_city -/

/-- C21 (retry bound): a call of `handle_city` never makes more than 5 calls of
`cm_query_result` nor more than 5 calls of `apply_result_on_server`.  When each
of the five passes of the loop ends with a failed apply (the city passes
`check_city`, the oracle gives a valid result and `apply_result_on_server`
returns FALSE) and the city still exists after the fifth, `handle_city` returns
after exactly 5 queries and exactly 5 applies, followed by the event "confused",
the release of the city and the two diagnostics; no blob is stored for the city
afterwards and `cma_is_city_under_agent` returns FALSE. -/
theorem handle_city_retry_bound {R : Type} (env : agent_environment R) (s : agent_state)
    (pcity : city) :
    ((new_calls s (handle_city env s pcity).1).countP is_query ≤ 5 ∧
      (new_calls s (handle_city env s pcity).1).countP is_apply ≤ 5) ∧
    ((∀ k < 5, (attempt env pcity.id s k).2.2 = try_outcome.diverged) →
      Option.map city.id ((attempt_start env pcity.id s 5).1.c.world.cities pcity.id)
        = some pcity.id →
      (handle_city env s pcity).2 = some () ∧
      (new_calls s (handle_city env s pcity).1).countP is_query = 5 ∧
      (new_calls s (handle_city env s pcity).1).countP is_apply = 5 ∧
      (∀ k < 5, ∃ pid tail, new_calls (attempt_start env pcity.id s k).1
          (attempt env pcity.id s k).1
        = [cycle_event.check_city pcity.id true (some true),
            cycle_event.cm_query_result pid true,
            cycle_event.apply_result_on_server pid (some false)] ++ tail) ∧
      (∃ before, new_calls s (handle_city env s pcity).1
          = before ++ [cycle_event.create_event pcity.id cma_message.confused,
              cycle_event.cma_release_city pcity.id,
              cycle_event.freelog_error error_message.changed_multiple_times,
              cycle_event.freelog_error error_message.please_report] ∧
        before.countP is_query = 5 ∧ before.countP is_apply = 5 ∧
        before.countP is_release = 0) ∧
      attr_city_get (handle_city env s pcity).1.c.world.store ATTR_CITY_CMA_PARAMETER
        pcity.id = [] ∧
      ∀ my_parameter parameter, cma_is_city_under_agent env.base.cm_init_parameter
        (handle_city env s pcity).1.c.world.store pcity.id my_parameter parameter
          = some (false, parameter)) := by
  constructor
  · obtain ⟨L, hL, hq, ha, -, -⟩ := handle_city_counts env s pcity
    rw [new_calls_of_log _ _ L hL]
    exact ⟨hq, ha⟩
  · intro hdiv hst
    obtain ⟨M, hM, hq, ha, hr, -⟩ := attempt_start_log env pcity.id s 5 hdiv
    have hpass : ∀ k < 5, ∃ pid tail, new_calls (attempt_start env pcity.id s k).1
          (attempt env pcity.id s k).1
        = [cycle_event.check_city pcity.id true (some true),
            cycle_event.cm_query_result pid true,
            cycle_event.apply_result_on_server pid (some false)] ++ tail := by
      intro k hk
      obtain ⟨L, hL, -, -, -, -, hd⟩ := handle_city_try_counts env pcity.id k
        (attempt_start env pcity.id s k).1 (attempt_start env pcity.id s k).2
      obtain ⟨-, -, -, pid, tail, ht⟩ := hd (hdiv k hk)
      exact ⟨pid, tail, (new_calls_of_log _ _ L hL).trans ht⟩
    rw [handle_city_exhausted env s pcity hdiv]
    rcases after_loop_cases (attempt_start env pcity.id s 5).1 pcity.id false with
      ⟨h, -⟩ | ⟨-, hn, -⟩ | ⟨pc, -, hpc, h⟩
    · exact Bool.noConfusion h
    · rw [hn] at hst
      exact Option.noConfusion hst
    · rw [hpc] at hst
      have hid : pc.id = pcity.id := by
        simpa using hst
      rw [h, hid]
      have hgone : attr_city_get (cma_release_city (attempt_start env pcity.id s 5).1.c
          pc).world.store ATTR_CITY_CMA_PARAMETER pcity.id = [] := by
        rw [cma_release_city_store, hid]
        exact release_city_store _ _
      have hnew : new_calls s
          ⟨cma_release_city (attempt_start env pcity.id s 5).1.c pc,
            (attempt_start env pcity.id s 5).1.log
              ++ [cycle_event.create_event pcity.id cma_message.confused,
                cycle_event.cma_release_city pcity.id,
                cycle_event.freelog_error error_message.changed_multiple_times,
                cycle_event.freelog_error error_message.please_report]⟩
          = M ++ [cycle_event.create_event pcity.id cma_message.confused,
                cycle_event.cma_release_city pcity.id,
                cycle_event.freelog_error error_message.changed_multiple_times,
                cycle_event.freelog_error error_message.please_report] :=
        new_calls_of_log _ _ _ (by rw [hM, List.append_assoc])
      simp only
      rw [hnew]
      refine ⟨trivial, ?_, ?_, hpass, ⟨M, rfl, hq, ha, hr⟩, hgone, fun my_parameter parameter =>
        not_under_agent_of_no_blob _ _ _ _ _ hgone⟩
      · rw [List.countP_append, hq]; simp [is_query]
      · rw [List.countP_append, ha]; simp [is_apply]

/-- Witness of C21: `village` under agent control, an oracle that always proposes
`village_target` and a server that ignores every request. -/
theorem handle_city_retry_bound_witness :
    (handle_city ignoring_env agent_start village).2 = some () ∧
      (new_calls agent_start (handle_city ignoring_env agent_start village).1).countP is_query
        = 5 ∧
      (new_calls agent_start (handle_city ignoring_env agent_start village).1).countP is_apply
        = 5 ∧
      attr_city_get (handle_city ignoring_env agent_start village).1.c.world.store
        ATTR_CITY_CMA_PARAMETER village.id = [] :=
  ⟨((handle_city_retry_bound ignoring_env agent_start village).2 (by decide) (by decide)).1,
   ((handle_city_retry_bound ignoring_env agent_start village).2 (by decide) (by decide)).2.1,
   ((handle_city_retry_bound ignoring_env agent_start village).2 (by decide)
      (by decide)).2.2.1,
   ((handle_city_retry_bound ignoring_env agent_start village).2 (by decide)
      (by decide)).2.2.2.2.2.1⟩

/-- C22 (infeasible goal): when the city passes `check_city` and the oracle
returns a result with `found_a_valid = FALSE` in the first pass, `handle_city`
returns after exactly these calls: the `check_city`, the query, one
`cma_release_city` and one `create_event` ("can't fulfill").  So it makes one
release, no apply, one user event, no second query and no diagnostic at the level
of an error; the client is as `cma_release_city` leaves it, which is the only
release made (one call of `refresh_city_dialog`). -/
theorem handle_city_infeasible {R : Type} (env : agent_environment R) (s : agent_state)
    (pcity pc : city)
    (hc : Option.map Prod.fst
      (check_city env.base s.c pcity.id (some env.base.uninit_parameter)).2 = some true)
    (hcity : s.c.world.cities pcity.id = some pc)
    (hq : (queried_result env s.c pcity.id pc env.base.uninit_result).found_a_valid = false) :
    (handle_city env s pcity).2 = some () ∧
      new_calls s (handle_city env s pcity).1
        = [cycle_event.check_city pcity.id true (some true),
            cycle_event.cm_query_result pc.id false,
            cycle_event.cma_release_city pc.id,
            cycle_event.create_event pc.id cma_message.cant_fulfill] ∧
      (new_calls s (handle_city env s pcity).1).countP is_release = 1 ∧
      (new_calls s (handle_city env s pcity).1).countP is_apply = 0 ∧
      (new_calls s (handle_city env s pcity).1).countP is_user_event = 1 ∧
      (new_calls s (handle_city env s pcity).1).countP is_query = 1 ∧
      (new_calls s (handle_city env s pcity).1).countP is_error_log = 0 ∧
      (handle_city env s pcity).1.c = cma_release_city s.c pc ∧
      (new_events s.c (handle_city env s pcity).1.c).countP is_refresh_city_dialog = 1 := by
  have htry : attempt env pcity.id s 0
      = (⟨cma_release_city s.c pc,
          s.log ++ [cycle_event.check_city pcity.id true (some true)]
            ++ [cycle_event.cm_query_result pc.id false,
              cycle_event.cma_release_city pc.id,
              cycle_event.create_event pc.id cma_message.cant_fulfill]⟩,
          queried_result env s.c pcity.id pc env.base.uninit_result,
          try_outcome.infeasible) := by
    show handle_city_try env pcity.id 0 s env.base.uninit_result = _
    rw [handle_city_try_passed env pcity.id 0 s _ pc hc hcity]
    exact query_and_apply_infeasible env pcity.id 0
      ⟨s.c, s.log ++ [cycle_event.check_city pcity.id true (some true)]⟩ pc _ _ hq
  rw [handle_city_handled_at env s pcity 0 (by decide) (fun j hj => absurd hj (Nat.not_lt_zero j))
    (by rw [htry]; exact fun h => try_outcome.noConfusion h)
    (by rw [htry]; exact fun h => try_outcome.noConfusion h), htry]
  have hnew : new_calls s
      ⟨cma_release_city s.c pc,
        s.log ++ [cycle_event.check_city pcity.id true (some true)]
          ++ [cycle_event.cm_query_result pc.id false,
            cycle_event.cma_release_city pc.id,
            cycle_event.create_event pc.id cma_message.cant_fulfill]⟩
      = [cycle_event.check_city pcity.id true (some true),
          cycle_event.cm_query_result pc.id false,
          cycle_event.cma_release_city pc.id,
          cycle_event.create_event pc.id cma_message.cant_fulfill] :=
    new_calls_of_log _ _ _ (by simp only [List.append_assoc]; rfl)
  simp only
  rw [hnew]
  refine ⟨trivial, rfl, by simp [is_release], by simp [is_apply], by simp [is_user_event],
    by simp [is_query], by simp [is_error_log], ?_⟩
  simp [new_events, cma_release_city, release_city, log_event, is_refresh_city_dialog]

/-- Witness of C22: `village` under agent control and an oracle that finds no
valid assignment. -/
theorem handle_city_infeasible_witness :
    (handle_city infeasible_env agent_start village).2 = some () ∧
      new_calls agent_start (handle_city infeasible_env agent_start village).1
        = [cycle_event.check_city village.id true (some true),
            cycle_event.cm_query_result village.id false,
            cycle_event.cma_release_city village.id,
            cycle_event.create_event village.id cma_message.cant_fulfill] :=
  ⟨(handle_city_infeasible infeasible_env agent_start village village (by decide) rfl rfl).1,
   (handle_city_infeasible infeasible_env agent_start village village (by decide) rfl rfl).2.1⟩

/-- C23 (converged is terminal): when pass `k` of the loop is reached (the passes
before it ended with a failed apply), the city passes `check_city`, the oracle
gives a valid result and `apply_result_on_server` returns TRUE, `handle_city`
returns at once: the calls of that pass are the `check_city`, the query and the
apply and nothing follows them, the state of the client (the attribute store
with it) is the one in which `apply_result_on_server` returned, and in the whole
call `handle_city` has made no release and no diagnostic at the level of an
error. -/
theorem handle_city_converged_terminal {R : Type} (env : agent_environment R)
    (s : agent_state) (pcity pc : city) (k : Nat) (hk : k < 5)
    (hprev : ∀ j < k, (attempt env pcity.id s j).2.2 = try_outcome.diverged)
    (hc : Option.map Prod.fst
      (check_city env.base (attempt_start env pcity.id s k).1.c pcity.id
        (some env.base.uninit_parameter)).2 = some true)
    (hcity : (attempt_start env pcity.id s k).1.c.world.cities pcity.id = some pc)
    (hq : (queried_result env (attempt_start env pcity.id s k).1.c pcity.id pc
      (attempt_start env pcity.id s k).2).found_a_valid = true)
    (happly : (apply_result_on_server env.base (attempt_start env pcity.id s k).1.c pc
      (queried_result env (attempt_start env pcity.id s k).1.c pcity.id pc
        (attempt_start env pcity.id s k).2)).2 = some true) :
    (handle_city env s pcity).2 = some () ∧
      new_calls (attempt_start env pcity.id s k).1 (handle_city env s pcity).1
        = [cycle_event.check_city pcity.id true (some true),
            cycle_event.cm_query_result pc.id true,
            cycle_event.apply_result_on_server pc.id (some true)] ∧
      (handle_city env s pcity).1.c
        = (apply_result_on_server env.base (attempt_start env pcity.id s k).1.c pc
            (queried_result env (attempt_start env pcity.id s k).1.c pcity.id pc
              (attempt_start env pcity.id s k).2)).1 ∧
      (new_calls s (handle_city env s pcity).1).countP is_query = k + 1 ∧
      (new_calls s (handle_city env s pcity).1).countP is_apply = k + 1 ∧
      (new_calls s (handle_city env s pcity).1).countP is_release = 0 ∧
      (new_calls s (handle_city env s pcity).1).countP is_error_log = 0 := by
  obtain ⟨M, hM, hqM, haM, hrM, heM⟩ := attempt_start_log env pcity.id s k hprev
  generalize hsk : attempt_start env pcity.id s k = sk at hc hcity hq happly hM
  have htry : attempt env pcity.id s k
      = (⟨(apply_result_on_server env.base sk.1.c pc
            (queried_result env sk.1.c pcity.id pc sk.2)).1,
          sk.1.log ++ [cycle_event.check_city pcity.id true (some true)]
            ++ [cycle_event.cm_query_result pc.id true]
            ++ [cycle_event.apply_result_on_server pc.id (some true)]⟩,
          queried_result env sk.1.c pcity.id pc sk.2, try_outcome.converged) := by
    show handle_city_try env pcity.id k (attempt_start env pcity.id s k).1
      (attempt_start env pcity.id s k).2 = _
    rw [hsk, handle_city_try_passed env pcity.id k sk.1 _ pc hc hcity,
      query_and_apply_valid env pcity.id k
        ⟨sk.1.c, sk.1.log ++ [cycle_event.check_city pcity.id true (some true)]⟩ pc _ _ hq]
    rcases after_apply_log env pcity.id k
      ⟨sk.1.c, sk.1.log ++ [cycle_event.check_city pcity.id true (some true)]
        ++ [cycle_event.cm_query_result pc.id true]⟩ pc
      (apply_result_on_server env.base sk.1.c pc
        (queried_result env sk.1.c pcity.id pc sk.2)) with
      ⟨h, -⟩ | ⟨-, h⟩ | ⟨h, -⟩ | ⟨_, _, h, -⟩
    · rw [happly] at h; exact Option.noConfusion h
    · unfold queried_result at h ⊢
      rw [h]
    · rw [happly] at h; simp at h
    · rw [happly] at h; simp at h
  rw [handle_city_handled_at env s pcity k hk hprev
    (by rw [htry]; exact fun h => try_outcome.noConfusion h)
    (by rw [htry]; exact fun h => try_outcome.noConfusion h), htry]
  simp only
  have h1 : new_calls sk.1
      ⟨(apply_result_on_server env.base sk.1.c pc
          (queried_result env sk.1.c pcity.id pc sk.2)).1,
        sk.1.log ++ [cycle_event.check_city pcity.id true (some true)]
          ++ [cycle_event.cm_query_result pc.id true]
          ++ [cycle_event.apply_result_on_server pc.id (some true)]⟩
      = [cycle_event.check_city pcity.id true (some true),
          cycle_event.cm_query_result pc.id true,
          cycle_event.apply_result_on_server pc.id (some true)] :=
    new_calls_of_log _ _ _ (by simp only [List.append_assoc]; rfl)
  have h2 : new_calls s
      ⟨(apply_result_on_server env.base sk.1.c pc
          (queried_result env sk.1.c pcity.id pc sk.2)).1,
        sk.1.log ++ [cycle_event.check_city pcity.id true (some true)]
          ++ [cycle_event.cm_query_result pc.id true]
          ++ [cycle_event.apply_result_on_server pc.id (some true)]⟩
      = M ++ [cycle_event.check_city pcity.id true (some true),
          cycle_event.cm_query_result pc.id true,
          cycle_event.apply_result_on_server pc.id (some true)] :=
    new_calls_of_log _ _ _ (by rw [hM]; simp only [List.append_assoc]; rfl)
  rw [h1, h2]
  refine ⟨trivial, rfl, trivial, ?_, ?_, ?_, ?_⟩
  · rw [List.countP_append, hqM]; simp [is_query]
  · rw [List.countP_append, haM]; simp [is_apply]
  · rw [List.countP_append, hrM]; simp [is_release]
  · rw [List.countP_append, heM]; simp [is_error_log]

/-- Witness of C23: with a faithful server the first apply brings `village` to
`village_target` and returns TRUE. -/
theorem handle_city_converged_terminal_witness :
    (handle_city faithful_agent_env agent_start village).2 = some () ∧
      new_calls (attempt_start faithful_agent_env village.id agent_start 0).1
          (handle_city faithful_agent_env agent_start village).1
        = [cycle_event.check_city village.id true (some true),
            cycle_event.cm_query_result village.id true,
            cycle_event.apply_result_on_server village.id (some true)] :=
  ⟨(handle_city_converged_terminal faithful_agent_env agent_start village village 0
      (by decide) (fun j hj => absurd hj (Nat.not_lt_zero j)) (by decide) rfl rfl
      (by decide)).1,
   (handle_city_converged_terminal faithful_agent_env agent_start village village 0
      (by decide) (fun j hj => absurd hj (Nat.not_lt_zero j)) (by decide) rfl rfl
      (by decide)).2.1⟩

/-- Counterexample to C24 as stated: with a server that ignores every request the
event "confused" is created in the first pass and once more after the fifth
failed apply, so two are created in one call of `handle_city`. -/
theorem confused_event_created_twice :
    (handle_city ignoring_env agent_start village).2 = some () ∧
      (new_calls agent_start (handle_city ignoring_env agent_start village).1).countP
        is_confused_event = 2 ∧
      (new_calls agent_start (handle_city ignoring_env agent_start village).1).take 5
        = [cycle_event.check_city 7 true (some true), cycle_event.cm_query_result 7 true,
            cycle_event.apply_result_on_server 7 (some false),
            cycle_event.check_city 7 false (some true),
            cycle_event.create_event 7 cma_message.confused] ∧
      (new_calls agent_start (handle_city ignoring_env agent_start village).1).drop 17
        = [cycle_event.check_city 7 true (some true), cycle_event.cm_query_result 7 true,
            cycle_event.apply_result_on_server 7 (some false),
            cycle_event.check_city 7 false (some true),
            cycle_event.create_event 7 cma_message.confused,
            cycle_event.cma_release_city 7,
            cycle_event.freelog_error error_message.changed_multiple_times,
            cycle_event.freelog_error error_message.please_report] := by
  decide

/-- C24, amended (divergence is notified in the first pass and at exhaustion): in
the loop of `handle_city` the event "confused" is created only in the first pass
(`i = 0`), after `apply_result_on_server` has returned FALSE and
`check_city(city_id, NULL)` has returned TRUE; no later pass creates one.  In a
whole call of `handle_city` at most two are created, and at most one when the
call makes no diagnostic at the level of an error, that is when the loop does
not run out of passes. -/
theorem confused_event_first_pass_or_exhaustion {R : Type} (env : agent_environment R)
    (s : agent_state) (pcity : city) :
    (∀ i s' result, i ≠ 0 →
      (new_calls s' (handle_city_try env pcity.id i s' result).1).countP
        is_confused_event = 0) ∧
    (∀ s' result,
      (new_calls s' (handle_city_try env pcity.id 0 s' result).1).countP
          is_confused_event ≤ 1 ∧
        ((new_calls s' (handle_city_try env pcity.id 0 s' result).1).countP
            is_confused_event = 1 →
          ∃ pid, new_calls s' (handle_city_try env pcity.id 0 s' result).1
            = [cycle_event.check_city pcity.id true (some true),
                cycle_event.cm_query_result pid true,
                cycle_event.apply_result_on_server pid (some false),
                cycle_event.check_city pcity.id false (some true),
                cycle_event.create_event pid cma_message.confused])) ∧
    (new_calls s (handle_city env s pcity).1).countP is_confused_event ≤ 2 ∧
    ((new_calls s (handle_city env s pcity).1).countP is_error_log = 0 →
      (new_calls s (handle_city env s pcity).1).countP is_confused_event ≤ 1) := by
  refine ⟨fun i s' result hi => (handle_city_try_confused env pcity.id i s' result).1 hi,
    fun s' result => (handle_city_try_confused env pcity.id 0 s' result).2, ?_⟩
  obtain ⟨L, hL, -, -, h2, h1⟩ := handle_city_counts env s pcity
  rw [new_calls_of_log _ _ L hL]
  exact ⟨h2, h1⟩

/-- Witness of C24, amended: with a server that ignores every request, the second
pass creates no event "confused". -/
theorem confused_event_first_pass_or_exhaustion_witness :
    (new_calls (attempt_start ignoring_env village.id agent_start 1).1
        (handle_city_try ignoring_env village.id 1
          (attempt_start ignoring_env village.id agent_start 1).1
          (attempt_start ignoring_env village.id agent_start 1).2).1).countP
      is_confused_event = 0 :=
  (confused_event_first_pass_or_exhaustion ignoring_env agent_start village).1 1
    (attempt_start ignoring_env village.id agent_start 1).1
    (attempt_start ignoring_env village.id agent_start 1).2 (by decide)

/-- C25 (eligibility is re-validated at the start of every pass): in every pass
of the loop of `handle_city` the first call is `check_city` with the local
parameter, a query is made only directly after a `check_city` that returned
TRUE, and only once in the pass; when `check_city` does not return TRUE the pass
makes no other call.  When pass `k` is reached and its `check_city` returns
FALSE, `handle_city` returns at once: the `check_city` is the last call, so
there is no query, no apply, no user event and no diagnostic at the level of an
error in that pass or after it, and the client is as `check_city` left it. -/
theorem handle_city_revalidates {R : Type} (env : agent_environment R) (s : agent_state)
    (pcity : city) :
    (∀ i s' result, ∃ rest,
      new_calls s' (handle_city_try env pcity.id i s' result).1
        = cycle_event.check_city pcity.id true (Option.map Prod.fst
            (check_city env.base s'.c pcity.id (some env.base.uninit_parameter)).2) :: rest ∧
      (Option.map Prod.fst
          (check_city env.base s'.c pcity.id (some env.base.uninit_parameter)).2 ≠ some true →
        rest = []) ∧
      (rest = [] ∨ ∃ pid v rest', rest = cycle_event.cm_query_result pid v :: rest' ∧
        rest'.countP is_query = 0)) ∧
    (∀ k < 5, (∀ j < k, (attempt env pcity.id s j).2.2 = try_outcome.diverged) →
      Option.map Prod.fst
        (check_city env.base (attempt_start env pcity.id s k).1.c pcity.id
          (some env.base.uninit_parameter)).2 = some false →
      (handle_city env s pcity).2 = some () ∧
        new_calls (attempt_start env pcity.id s k).1 (handle_city env s pcity).1
          = [cycle_event.check_city pcity.id true (some false)] ∧
        (handle_city env s pcity).1.c
          = (check_city env.base (attempt_start env pcity.id s k).1.c pcity.id
              (some env.base.uninit_parameter)).1) := by
  constructor
  · intro i s' result
    obtain ⟨rest, hrest, h1, h2⟩ := handle_city_try_calls env pcity.id i s' result
    exact ⟨rest, new_calls_of_log _ _ _ hrest, fun h => (h1 h).1, h2⟩
  · intro k hk hprev hfail
    have htry := handle_city_try_failed_check env pcity.id k
      (attempt_start env pcity.id s k).1 (attempt_start env pcity.id s k).2 hfail
    have hat : attempt env pcity.id s k
        = handle_city_try env pcity.id k (attempt_start env pcity.id s k).1
            (attempt_start env pcity.id s k).2 := rfl
    rw [handle_city_handled_at env s pcity k hk hprev
      (by rw [hat, htry]; exact fun h => try_outcome.noConfusion h)
      (by rw [hat, htry]; exact fun h => try_outcome.noConfusion h), hat, htry]
    exact ⟨rfl, new_calls_of_log _ _ _ rfl, rfl⟩

/-- Witness of C25: `village` is not under agent control, so the first
`check_city` fails and `handle_city` returns. -/
theorem handle_city_revalidates_witness :
    (handle_city faithful_agent_env free_start village).2 = some () ∧
      new_calls (attempt_start faithful_agent_env village.id free_start 0).1
          (handle_city faithful_agent_env free_start village).1
        = [cycle_event.check_city village.id true (some false)] ∧
      (handle_city faithful_agent_env free_start village).1.c
        = (check_city faithful_agent_env.base
            (attempt_start faithful_agent_env village.id free_start 0).1.c village.id
            (some faithful_agent_env.base.uninit_parameter)).1 :=
  (handle_city_revalidates faithful_agent_env free_start village).2 0 (by decide)
    (fun j hj => absurd hj (Nat.not_lt_zero j)) (by decide)

/-- C26 (eligibility loss in the fifth pass): four passes end with a failed apply
while `village` stays eligible; in the fifth pass the city is eligible at the
start and is lost while `apply_result_on_server` waits for its requests 13 to
15.  When the city is destroyed, `handle_city` ends in the failed assertion
`pcity != NULL`.  When the stored parameter is removed, `handle_city` creates the
event "confused" and makes the two diagnostics at the level of an error. -/
theorem eligibility_loss_in_fifth_pass :
    ((handle_city destroying_env agent_start village).2 = none ∧
      (new_calls agent_start (handle_city destroying_env agent_start village).1).drop 17
        = [cycle_event.check_city 7 true (some true), cycle_event.cm_query_result 7 true,
            cycle_event.apply_result_on_server 7 (some false),
            cycle_event.check_city 7 false (some false)] ∧
      event.wait_for_requests 13 15
        ∈ (handle_city destroying_env agent_start village).1.c.trace ∧
      ((handle_city destroying_env agent_start village).1.c.world.cities 7).isNone = true) ∧
    ((handle_city revoking_env agent_start village).2 = some () ∧
      (new_calls agent_start (handle_city revoking_env agent_start village).1).drop 17
        = [cycle_event.check_city 7 true (some true), cycle_event.cm_query_result 7 true,
            cycle_event.apply_result_on_server 7 (some false),
            cycle_event.check_city 7 false (some false),
            cycle_event.create_event 7 cma_message.confused,
            cycle_event.cma_release_city 7,
            cycle_event.freelog_error error_message.changed_multiple_times,
            cycle_event.freelog_error error_message.please_report] ∧
      event.wait_for_requests 13 15
        ∈ (handle_city revoking_env agent_start village).1.c.trace) := by
  decide

/-- C27 (eligibility test): when the blob stored for the city, if there is one,
is well formed (so that `cma_get_parameter` hits no assertion), `check_city`
returns, and it returns TRUE exactly when a city with that id exists, a parameter
blob is stored for it and the owner of the city is the local player.  When the
city exists with a stored blob but another owner, `check_city` returns FALSE
after `cma_release_city`, so that no blob is stored any more and the city is not
under agent control.  When the city does not exist or no blob is stored,
`check_city` returns FALSE and changes nothing; it changes nothing either when it
returns TRUE. -/
theorem check_city_eligibility {R : Type} (env : environment R) (c : client) (city_id : Int)
    (parameter : Option (cm_parameter R))
    (hwf : c.world.cities city_id ≠ none →
      cma_get_parameter env.cm_init_parameter c.world.store ATTR_CITY_CMA_PARAMETER city_id
        (parameter.getD env.uninit_parameter) ≠ none)
    (hid : ∀ pc, c.world.cities city_id = some pc → pc.id = city_id) :
    (∃ b, Option.map Prod.fst (check_city env c city_id parameter).2 = some b ∧
      (b = true ↔ ∃ pc, c.world.cities city_id = some pc ∧
        attr_city_get c.world.store ATTR_CITY_CMA_PARAMETER city_id ≠ [] ∧
        pc.owner = c.world.player_ptr) ∧
      (b = true → (check_city env c city_id parameter).1 = c)) ∧
    (∀ pc, c.world.cities city_id = some pc →
      attr_city_get c.world.store ATTR_CITY_CMA_PARAMETER city_id ≠ [] →
      pc.owner ≠ c.world.player_ptr →
      Option.map Prod.fst (check_city env c city_id parameter).2 = some false ∧
        (check_city env c city_id parameter).1 = cma_release_city c pc ∧
        attr_city_get (check_city env c city_id parameter).1.world.store
          ATTR_CITY_CMA_PARAMETER city_id = [] ∧
        ∀ my_parameter, cma_is_city_under_agent env.cm_init_parameter
          (check_city env c city_id parameter).1.world.store city_id my_parameter none
            = some (false, none)) ∧
    ((c.world.cities city_id = none ∨
        attr_city_get c.world.store ATTR_CITY_CMA_PARAMETER city_id = []) →
      Option.map Prod.fst (check_city env c city_id parameter).2 = some false ∧
        (check_city env c city_id parameter).1 = c) := by
  rcases check_city_cases env c city_id parameter with
    ⟨hc, h⟩ | ⟨pc, hc, hg, -⟩ | ⟨pc, q, hc, hg, h⟩ | ⟨pc, q, hc, hg, ho, h⟩ | ⟨pc, q, hc, hg, ho, h⟩
  · rw [h]
    refine ⟨⟨false, rfl, ⟨fun hb => Bool.noConfusion hb, ?_⟩, fun hb => Bool.noConfusion hb⟩,
      ?_, fun _ => ⟨rfl, rfl⟩⟩
    · rintro ⟨pc, hpc, -⟩
      rw [hc] at hpc
      exact Option.noConfusion hpc
    · intro pc hpc
      rw [hc] at hpc
      exact Option.noConfusion hpc
  · exact absurd hg (hwf (by rw [hc]; exact fun hh => Option.noConfusion hh))
  · have hblob := (cma_get_parameter_flag _ _ _ _ _ _ _ hg).not.1 (by simp)
    rw [not_not] at hblob
    rw [h]
    refine ⟨⟨false, rfl, ⟨fun hb => Bool.noConfusion hb, ?_⟩, fun hb => Bool.noConfusion hb⟩,
      ?_, fun _ => ⟨rfl, rfl⟩⟩
    · rintro ⟨pc', -, hne, -⟩
      exact absurd hblob hne
    · intro pc' _ hne
      exact absurd hblob hne
  · have hblob := (cma_get_parameter_flag _ _ _ _ _ _ _ hg).1 rfl
    rw [h]
    have hpid : pc.id = city_id := hid pc hc
    have hgone : attr_city_get (cma_release_city c pc).world.store
        ATTR_CITY_CMA_PARAMETER city_id = [] := by
      rw [cma_release_city_store, hpid]
      exact release_city_store c city_id
    refine ⟨⟨false, rfl, ⟨fun hb => Bool.noConfusion hb, ?_⟩, fun hb => Bool.noConfusion hb⟩,
      ?_, ?_⟩
    · rintro ⟨pc', hpc', -, ho'⟩
      rw [hc] at hpc'
      injection hpc' with hpc'
      rw [hpc'] at ho
      exact absurd ho' ho
    · intro pc' hpc' _ _
      rw [hc] at hpc'
      injection hpc' with hpc'
      subst hpc'
      exact ⟨rfl, rfl, hgone, fun my_parameter =>
        not_under_agent_of_no_blob _ _ _ _ _ hgone⟩
    · rintro (hn | hb)
      · rw [hc] at hn
        exact Option.noConfusion hn
      · exact absurd hb hblob
  · have hblob := (cma_get_parameter_flag _ _ _ _ _ _ _ hg).1 rfl
    rw [h]
    refine ⟨⟨true, rfl, ⟨fun _ => ⟨pc, hc, hblob, ho⟩, fun _ => rfl⟩, fun _ => rfl⟩, ?_, ?_⟩
    · intro pc' hpc' _ ho'
      rw [hc] at hpc'
      injection hpc' with hpc'
      rw [hpc'] at ho
      exact absurd ho ho'
    · rintro (hn | hb)
      · rw [hc] at hn
        exact Option.noConfusion hn
      · exact absurd hb hblob

/-- Witness of C27: `village` under agent control and owned by the local player
is eligible. -/
theorem check_city_eligibility_witness :
    ∃ b, Option.map Prod.fst (check_city faithful_env agent_client 7 none).2 = some b ∧
      (b = true ↔ ∃ pc, agent_client.world.cities 7 = some pc ∧
        attr_city_get agent_client.world.store ATTR_CITY_CMA_PARAMETER 7 ≠ [] ∧
        pc.owner = agent_client.world.player_ptr) ∧
      (b = true → (check_city faithful_env agent_client 7 none).1 = agent_client) :=
  (check_city_eligibility faithful_env agent_client 7 none
    (fun _ h => by
      obtain ⟨q, hq, -⟩ := cma_get_parameter_decode faithful_env.cm_init_parameter
        agent_client.world.store ATTR_CITY_CMA_PARAMETER 7
        ((none : Option (cm_parameter Unit)).getD faithful_env.uninit_parameter)
        (by decide) (by decide)
      rw [hq] at h
      exact Option.noConfusion h)
    (fun pc h => by
      have h' : some village = some pc := h
      injection h' with h'
      rw [← h']
      rfl)).1

/-- C28 (release removes control): whatever was stored for the city, after
`cma_release_city`, and likewise after the callback `city_remove` for its id,
`cma_is_city_under_agent` returns FALSE, without a fault; releasing a city that
is not under agent control leaves the attribute store as it was, and a second
release changes nothing in the store. -/
theorem release_removes_control {R : Type} (init : cm_parameter R → cm_parameter R)
    (c : client) (pcity : city) (my_parameter : cm_parameter R)
    (parameter : Option (cm_parameter R)) :
    cma_is_city_under_agent init (cma_release_city c pcity).world.store pcity.id my_parameter
        parameter = some (false, parameter) ∧
      cma_is_city_under_agent init (city_remove c pcity.id).world.store pcity.id my_parameter
        parameter = some (false, parameter) ∧
      (cma_is_city_under_agent init c.world.store pcity.id my_parameter parameter
          = some (false, parameter) →
        (cma_release_city c pcity).world.store = c.world.store) ∧
      (cma_release_city (cma_release_city c pcity) pcity).world.store
        = (cma_release_city c pcity).world.store := by
  have h1 : attr_city_get (cma_release_city c pcity).world.store ATTR_CITY_CMA_PARAMETER
      pcity.id = [] := release_city_store c pcity.id
  refine ⟨not_under_agent_of_no_blob _ _ _ _ _ h1,
    not_under_agent_of_no_blob _ _ _ _ _ (release_city_store c pcity.id), ?_, ?_⟩
  · intro h
    unfold cma_is_city_under_agent at h
    cases hg : cma_get_parameter init c.world.store ATTR_CITY_CMA_PARAMETER pcity.id
        my_parameter with
    | none => rw [hg] at h; exact Option.noConfusion h
    | some r =>
      obtain ⟨b, q⟩ := r
      cases b with
      | true =>
        rw [hg] at h
        cases parameter <;> simp at h
      | false =>
        have hblob := (cma_get_parameter_flag _ _ _ _ _ _ _ hg).not.1 (by simp)
        rw [not_not] at hblob
        show attr_city_set c.world.store ATTR_CITY_CMA_PARAMETER pcity.id 0 [] = c.world.store
        funext a i
        simp only [attr_city_set]
        split
        · rename_i hh
          rw [hh.1, hh.2]
          exact hblob.symm
        · rfl
  · show attr_city_set (attr_city_set c.world.store ATTR_CITY_CMA_PARAMETER pcity.id 0 [])
        ATTR_CITY_CMA_PARAMETER pcity.id 0 []
      = attr_city_set c.world.store ATTR_CITY_CMA_PARAMETER pcity.id 0 []
    funext a i
    simp only [attr_city_set]
    split <;> rfl

/-- Witness of C28: releasing `village`, which is not under agent control in
`free_client`, leaves the store as it was. -/
theorem release_removes_control_witness :
    (cma_release_city free_client village).world.store = free_client.world.store :=
  (release_removes_control (id : cm_parameter Unit → cm_parameter Unit) free_client village
    sample_parameter none).2.2.1
    (not_under_agent_of_no_blob _ _ _ _ _ rfl)

/-- C29 (length of the duration text): the text that `format_duration` leaves in
the buffer has at most 7 characters exactly when the duration is below 8640000
seconds (100 days) or the buffer has at most 8 bytes; for a duration of 8640000
or more and a buffer of 9 bytes or more the text is `overflow`, which has 8
characters, one more than the 7 that the comment of the function promises. -/
theorem format_duration_length_iff (buffer_size : Nat) (duration : Int) :
    ((format_duration buffer_size duration).length ≤ 7 ↔
      (duration < 8640000 ∨ buffer_size ≤ 8)) ∧
    (8640000 ≤ duration → 9 ≤ buffer_size →
      format_duration buffer_size duration = "overflow".toList ∧
        (format_duration buffer_size duration).length = 8) := by
  have hover : "overflow".toList.length = 8 := by decide
  unfold format_duration
  by_cases hneg : duration < 0
  · simp only [hneg, if_true]
    rw [if_pos (by decide), my_snprintf, format_seconds, List.length_take, List.length_append,
      format_02d_length 0 (by decide) (by decide)]
    refine ⟨⟨fun _ => Or.inl (by omega), fun _ => ?_⟩, fun h => by omega⟩
    simp only [List.length_cons, List.length_nil]
    omega
  · simp only [hneg, if_false]
    have h0 : 0 ≤ duration := by omega
    by_cases h1 : duration < 60
    · rw [if_pos h1, my_snprintf, format_seconds, List.length_take, List.length_append,
        format_02d_length duration h0 (by omega)]
      refine ⟨⟨fun _ => Or.inl (by omega), fun _ => ?_⟩, fun h => by omega⟩
      simp only [List.length_cons, List.length_nil]
      omega
    · rw [if_neg h1]
      by_cases h2 : duration < 3600
      · rw [if_pos h2, my_snprintf, format_mins_secs, List.length_take, List.length_append,
          List.length_cons, List.length_cons, List.length_append,
          Int.tdiv_eq_ediv h0 (by decide), Int.tmod_eq_emod h0 (by decide),
          format_02d_length (duration / 60) (by omega) (by omega),
          format_02d_length (duration % 60) (by omega) (by omega)]
        refine ⟨⟨fun _ => Or.inl (by omega), fun _ => ?_⟩, fun h => by omega⟩
        simp only [List.length_cons, List.length_nil]
        omega
      · rw [if_neg h2]
        by_cases h3 : duration < 360000
        · rw [if_pos h3, my_snprintf, format_hrs_mns, List.length_take, List.length_append,
            List.length_cons, List.length_cons, List.length_append,
            Int.tdiv_eq_ediv h0 (by decide), Int.tdiv_eq_ediv h0 (by decide),
            Int.tmod_eq_emod (by omega) (by decide),
            format_02d_length (duration / 3600) (by omega) (by omega),
            format_02d_length (duration / 60 % 60) (by omega) (by omega)]
          refine ⟨⟨fun _ => Or.inl (by omega), fun _ => ?_⟩, fun h => by omega⟩
          simp only [List.length_cons, List.length_nil]
          omega
        · rw [if_neg h3]
          by_cases h4 : duration < 8640000
          · rw [if_pos h4, my_snprintf, format_dys_hrs, List.length_take, List.length_append,
              List.length_cons, List.length_cons, List.length_append,
              Int.tdiv_eq_ediv h0 (by decide), Int.tdiv_eq_ediv h0 (by decide),
              Int.tmod_eq_emod (by omega) (by decide),
              format_02d_length (duration / 86400) (by omega) (by omega),
              format_02d_length (duration / 3600 % 24) (by omega) (by omega)]
            refine ⟨⟨fun _ => Or.inl h4, fun _ => ?_⟩, fun h => by omega⟩
            simp only [List.length_cons, List.length_nil]
            omega
          · rw [if_neg h4, my_snprintf, format_overflow, List.length_take, hover]
            refine ⟨⟨fun h => Or.inr (by omega), fun h => ?_⟩, fun _ hb => ⟨?_, by omega⟩⟩
            · rcases h with h | h
              · exact absurd h h4
              · omega
            · apply List.take_of_length_le
              rw [hover]
              omega

/-- Witness of C29: a duration of 100 days in a buffer of 9 bytes. -/
theorem format_duration_length_iff_witness :
    format_duration 9 8640000 = "overflow".toList ∧ (format_duration 9 8640000).length = 8 :=
  (format_duration_length_iff 9 8640000).2 (by decide) (by decide)

/-- C30 (wait range), amended: on a call of `apply_result_on_server` that does not take the
fast path, with a target that passes the checks of the function and request ids
that are not 0 and increase, at least one request is issued and
`wait_for_requests` is called exactly once, right after `connection_do_unbuffer`
and after every request of the call, with the id returned by the first request of
the call (the connection has sent `request_count c.trace` requests before) and
the id returned by the last one; the first id is at most the last and the id of
every request of the call lies between them.  On the fast path no request is
issued and `wait_for_requests` is not called. -/
theorem apply_result_wait_range {R : Type} (env : environment R) (c : client)
    (pcity : city) (result cur : cm_result) (hv : result.found_a_valid = true)
    (hs : get_current_as_result env.g pcity env.uninit_result = some cur) :
    (results_are_equal env.g pcity result cur = false →
      target_passes_checks env.g pcity result →
      (∀ n, env.request_id n ≠ 0) →
      (∀ m n, m < n → env.request_id m < env.request_id n) →
      ∃ reqs tail, reqs ≠ [] ∧
        (new_events c (apply_result_on_server env c pcity result).1).filter is_request
          = reqs ∧
        new_events c (apply_result_on_server env c pcity result).1
          = [event.get_current_as_result pcity.id, event.results_are_equal pcity.id,
              event.connection_do_buffer] ++ reqs
            ++ [event.reports_freeze_till
                  (env.request_id (request_count c.trace + reqs.length - 1)),
                event.connection_do_unbuffer,
                event.wait_for_requests (env.request_id (request_count c.trace))
                  (env.request_id (request_count c.trace + reqs.length - 1))]
            ++ tail ∧
        (∀ e ∈ tail, is_request e = false ∧ is_wait e = false) ∧
        (new_events c (apply_result_on_server env c pcity result).1).countP is_wait = 1 ∧
        env.request_id (request_count c.trace)
          ≤ env.request_id (request_count c.trace + reqs.length - 1) ∧
        ∀ j < reqs.length,
          env.request_id (request_count c.trace)
              ≤ env.request_id (request_count c.trace + j) ∧
            env.request_id (request_count c.trace + j)
              ≤ env.request_id (request_count c.trace + reqs.length - 1)) ∧
    (results_are_equal env.g pcity result cur = true →
      (new_events c (apply_result_on_server env c pcity result).1).countP is_wait = 0 ∧
        (new_events c (apply_result_on_server env c pcity result).1).filter is_request
          = []) := by
  constructor
  · intro hne hchk hid hmono
    obtain ⟨reqs, tail, hnn, hreq, hnew, htail⟩ :=
      new_events_with_wait env c pcity result cur hv hs hne hchk hid
    have hle : ∀ a b : Nat, a ≤ b → env.request_id a ≤ env.request_id b := by
      intro a b hab
      rcases Nat.lt_or_eq_of_le hab with h | h
      · exact le_of_lt (hmono a b h)
      · rw [h]
    have hpos : 0 < reqs.length := List.length_pos.2 hnn
    have hreqw : reqs.countP is_wait = 0 := by
      rw [List.countP_eq_zero]
      intro e he
      have := hreq e he
      cases e <;> simp_all [is_request, is_wait]
    have htailw : tail.countP is_wait = 0 := by
      rw [List.countP_eq_zero]
      intro e he
      simp [(htail e he).2]
    have htailr : tail.filter is_request = [] :=
      List.filter_eq_nil_iff.2 (fun e he => by simp [(htail e he).1])
    refine ⟨reqs, tail, hnn, ?_, hnew, htail, ?_, hle _ _ (by omega), fun j hj =>
      ⟨hle _ _ (by omega), hle _ _ (by omega)⟩⟩
    · rw [hnew]
      simp only [List.filter_append, htailr, List.filter_eq_self.2 hreq, List.append_nil]
      simp [is_request]
    · rw [hnew]
      simp only [List.countP_append, hreqw, htailw]
      simp [is_wait]
  · intro heq
    rw [apply_result_on_server_fast env c pcity result cur hv hs heq]
    simp [new_events, is_wait, is_request]

/-- Witness of C30: from `village` to `village_target` the three toggles get the
ids 1, 2 and 3, and the wait is for 1 to 3. -/
theorem apply_result_wait_range_witness :
    ∃ reqs tail, reqs ≠ [] ∧
      (new_events agent_client
        (apply_result_on_server faithful_env agent_client village village_target).1).filter
          is_request = reqs ∧
      new_events agent_client
          (apply_result_on_server faithful_env agent_client village village_target).1
        = [event.get_current_as_result village.id, event.results_are_equal village.id,
            event.connection_do_buffer] ++ reqs
          ++ [event.reports_freeze_till
                (faithful_env.request_id (request_count agent_client.trace + reqs.length - 1)),
              event.connection_do_unbuffer,
              event.wait_for_requests
                (faithful_env.request_id (request_count agent_client.trace))
                (faithful_env.request_id
                  (request_count agent_client.trace + reqs.length - 1))]
          ++ tail ∧
      (∀ e ∈ tail, is_request e = false ∧ is_wait e = false) ∧
      (new_events agent_client
        (apply_result_on_server faithful_env agent_client village village_target).1).countP
          is_wait = 1 ∧
      faithful_env.request_id (request_count agent_client.trace)
        ≤ faithful_env.request_id (request_count agent_client.trace + reqs.length - 1) ∧
      ∀ j < reqs.length,
        faithful_env.request_id (request_count agent_client.trace)
            ≤ faithful_env.request_id (request_count agent_client.trace + j) ∧
          faithful_env.request_id (request_count agent_client.trace + j)
            ≤ faithful_env.request_id (request_count agent_client.trace + reqs.length - 1) :=
  (apply_result_wait_range faithful_env agent_client village village_target _ rfl
    village_snapshot).1 (by decide) (by decide)
    (by intro n; show (n : Int) + 1 ≠ 0; omega)
    (by intro m n h; show (m : Int) + 1 < (n : Int) + 1; omega)

/-! ## Properties of apply_result_on_server: the statistics and the solver cache -/

theorem send_all_stats {R : Type} (env : environment R) (s : req_state) (es : List event) :
    (send_all env s es).c.stats = s.c.stats := by
  rw [send_all_c]
  rfl

theorem set_workers_stats {R : Type} (env : environment R) (pcity : city)
    (result : cm_result) (s : req_state) :
    (set_workers env pcity result s).c.stats = s.c.stats := by
  unfold set_workers
  generalize my_city_map_iterate env.g pcity = l
  induction l generalizing s with
  | nil => rfl
  | cons p l ih =>
    rw [List.foldl_cons, ih]
    split
    · rfl
    · split
      · split
        · rfl
        · rfl
      · rfl

/-- The block `force_refresh` adds one to `refresh_forced` or leaves the
statistics alone. -/
theorem force_refresh_stats {R : Type} (env : environment R) (pcity : city) (s : req_state) :
    (force_refresh env pcity s).c.stats = s.c.stats ∨
      (force_refresh env pcity s).c.stats
        = { s.c.stats with refresh_forced := s.c.stats.refresh_forced + 1 } := by
  unfold force_refresh
  split
  · exact Or.inr rfl
  · exact Or.inl rfl

/-- From "Do checks" to `connection_do_unbuffer` the statistics are left alone,
but for `refresh_forced`, which may have grown by one. -/
theorem send_changes_stats {R : Type} (env : environment R) (c : client) (pcity : city)
    (result : cm_result) :
    (send_changes env c pcity result).c.stats = c.stats ∨
      (send_changes env c pcity result).c.stats
        = { c.stats with refresh_forced := c.stats.refresh_forced + 1 } := by
  unfold send_changes
  simp only
  split
  · exact Or.inl rfl
  · have h3 : (set_workers env pcity result (change_excess_specialists env pcity result
        (remove_surplus_workers env pcity result ⟨c, 0, 0, false⟩))).c.stats = c.stats := by
      rw [set_workers_stats, change_excess_specialists_eq, remove_surplus_workers_eq,
        send_all_stats, send_all_stats]
    split
    · exact Or.inl h3
    · have h4 : (set_specialists env pcity result (set_workers env pcity result
          (change_excess_specialists env pcity result
            (remove_surplus_workers env pcity result ⟨c, 0, 0, false⟩)))).c.stats
          = c.stats := by
        rw [set_specialists_eq, send_all_stats, h3]
      rcases force_refresh_stats env pcity (set_specialists env pcity result
        (set_workers env pcity result (change_excess_specialists env pcity result
          (remove_surplus_workers env pcity result ⟨c, 0, 0, false⟩)))) with h | h
      · left
        simp only [log_event]
        rw [h, h4]
      · right
        simp only [log_event]
        rw [h, h4]

/-- What a call of `apply_result_on_server` does to the statistics: nothing (the
precondition or the first snapshot fails), or one more in `apply_result_ignored`,
or one more in `apply_result_applied`, with or without one more in
`refresh_forced`. -/
theorem apply_result_on_server_stats {R : Type} (env : environment R) (c : client)
    (pcity : city) (result : cm_result) :
    ((result.found_a_valid = false ∨
        get_current_as_result env.g pcity env.uninit_result = none) ∧
      (apply_result_on_server env c pcity result).1.stats = c.stats) ∨
    (result.found_a_valid = true ∧
      get_current_as_result env.g pcity env.uninit_result ≠ none ∧
      ((apply_result_on_server env c pcity result).1.stats
          = { c.stats with apply_result_ignored := c.stats.apply_result_ignored + 1 } ∨
        (apply_result_on_server env c pcity result).1.stats
          = { c.stats with apply_result_applied := c.stats.apply_result_applied + 1 } ∨
        (apply_result_on_server env c pcity result).1.stats
          = { c.stats with
              apply_result_applied := c.stats.apply_result_applied + 1
              refresh_forced := c.stats.refresh_forced + 1 })) := by
  cases hv : result.found_a_valid with
  | false =>
    left
    rw [apply_result_on_server_invalid env c pcity result hv]
    exact ⟨Or.inl rfl, rfl⟩
  | true =>
    cases hs : get_current_as_result env.g pcity env.uninit_result with
    | none =>
      left
      refine ⟨Or.inr rfl, ?_⟩
      unfold apply_result_on_server
      rw [if_neg (by simp [hv]), hs]
      rfl
    | some cur =>
      right
      refine ⟨rfl, fun h => Option.noConfusion h, ?_⟩
      cases heq : results_are_equal env.g pcity result cur with
      | true =>
        left
        rw [apply_result_on_server_fast env c pcity result cur hv hs heq]
      | false =>
        right
        rw [apply_result_on_server_slow env c pcity result cur hv hs heq]
        have hsc := send_changes_stats env (client_after_entry c pcity) pcity result
        have he : (client_after_entry c pcity).stats
            = { c.stats with apply_result_applied := c.stats.apply_result_applied + 1 } := rfl
        have haw := (await_and_compare_trace env (state_before_wait env c pcity result) pcity
          result).1
        have hfin : (if (state_before_wait env c pcity result).aborted = true then
              ((state_before_wait env c pcity result).c, none)
            else await_and_compare env (state_before_wait env c pcity result) pcity
              result).1.stats = (state_before_wait env c pcity result).c.stats := by
          split
          · rfl
          · exact haw
        rw [hfin]
        unfold state_before_wait
        rcases hsc with h | h
        · left
          rw [h, he]
        · right
          rw [h, he]

/-- The end of `apply_result_on_server` calls `cm_clear_cache` once when it
returns FALSE and not at all otherwise. -/
theorem compare_with_target_clear {R : Type} (env : environment R) (c : client)
    (pcity : city) (result : cm_result) :
    ∃ tail, (compare_with_target env c pcity result).1.trace = c.trace ++ tail ∧
      tail.countP is_clear_cache
        = (if (compare_with_target env c pcity result).2 = some false then 1 else 0) := by
  unfold compare_with_target
  cases hs : get_current_as_result env.g pcity env.uninit_result with
  | none => exact ⟨[event.get_current_as_result pcity.id], rfl, by simp [is_clear_cache]⟩
  | some cur =>
    cases hr : results_are_equal env.g pcity result cur with
    | false =>
      exact ⟨[event.get_current_as_result pcity.id, event.results_are_equal pcity.id,
        event.cm_clear_cache pcity.id], by simp [hr, log_event],
        by simp [hr, is_clear_cache]⟩
    | true =>
      exact ⟨[event.get_current_as_result pcity.id, event.results_are_equal pcity.id],
        by simp [hr, log_event], by simp [hr, is_clear_cache]⟩

theorem check_city_no_clear {R : Type} (env : environment R) (c : client) (city_id : Int)
    (parameter : Option (cm_parameter R)) :
    ∃ tail, (check_city env c city_id parameter).1.trace = c.trace ++ tail ∧
      tail.countP is_clear_cache = 0 := by
  obtain ⟨-, tail, ht, hr⟩ := check_city_trace env c city_id parameter
  refine ⟨tail, ht, ?_⟩
  rw [List.countP_eq_zero]
  intro e he
  have h3 := (hr e he).2.2.2
  cases e <;> first
    | exact absurd rfl (h3 _)
    | simp [is_clear_cache]

/-- The calls of `cm_clear_cache` in the part of `apply_result_on_server` after
`connection_do_unbuffer`. -/
theorem await_and_compare_clear {R : Type} (env : environment R) (s : req_state)
    (pcity : city) (result : cm_result) :
    ∃ tail, (await_and_compare env s pcity result).1.trace = s.c.trace ++ tail ∧
      tail.countP is_clear_cache ≤ 1 ∧
      ((await_and_compare env s pcity result).2 ≠ some false →
        tail.countP is_clear_cache = 0) ∧
      (s.last_request_id ≠ 0 →
        Option.map Prod.fst (check_city env (waited env s) pcity.id none).2 ≠ some true →
        tail.countP is_clear_cache = 0) ∧
      (s.last_request_id ≠ 0 →
        Option.map Prod.fst (check_city env (waited env s) pcity.id none).2 = some true →
        tail.countP is_clear_cache
          = (if (await_and_compare env s pcity result).2 = some false then 1 else 0)) ∧
      (s.last_request_id = 0 →
        tail.countP is_clear_cache
          = (if (await_and_compare env s pcity result).2 = some false then 1 else 0)) := by
  by_cases h : s.last_request_id ≠ 0
  · rw [await_and_compare_waited env s pcity result h]
    generalize hcw : waited env s = cw
    have htr : cw.trace = s.c.trace
        ++ [event.wait_for_requests s.first_request_id s.last_request_id] := by
      rw [← hcw]; rfl
    obtain ⟨t1, ht1, hr1⟩ := check_city_no_clear env cw pcity.id none
    generalize check_city env cw pcity.id none = r at ht1
    obtain ⟨c', o⟩ := r
    simp only at ht1
    have hbase : ([event.wait_for_requests s.first_request_id s.last_request_id]
        ++ t1).countP is_clear_cache = 0 := by
      rw [List.countP_append, hr1]
      simp [is_clear_cache]
    rcases o with _ | ⟨b, q⟩
    · refine ⟨_, by rw [ht1, htr, List.append_assoc], by omega, fun _ => hbase,
        fun _ _ => hbase, ?_, fun h0 => absurd h0 h⟩
      intro _ hc
      simp at hc
    · cases b with
      | false =>
        refine ⟨_, by rw [ht1, htr, List.append_assoc], by omega, fun _ => hbase,
          fun _ _ => hbase, ?_, fun h0 => absurd h0 h⟩
        intro _ hc
        simp at hc
      | true =>
        simp only
        obtain ⟨t2, ht2, hr2⟩ :=
          compare_with_target_clear env c' ((c'.world.cities pcity.id).getD pcity) result
        have hcount : ([event.wait_for_requests s.first_request_id s.last_request_id]
            ++ t1 ++ t2).countP is_clear_cache
            = (if (compare_with_target env c' ((c'.world.cities pcity.id).getD pcity)
                result).2 = some false then 1 else 0) := by
          rw [List.countP_append, hbase, hr2, zero_add]
        refine ⟨[event.wait_for_requests s.first_request_id s.last_request_id] ++ t1 ++ t2,
          by rw [ht2, ht1, htr]; simp only [List.append_assoc], ?_, ?_, ?_, fun _ _ => hcount,
          fun h0 => absurd h0 h⟩
        · rw [hcount]; split <;> omega
        · intro ht
          rw [hcount, if_neg ht]
        · intro _ hc
          simp at hc
  · rw [not_not] at h
    have heq : await_and_compare env s pcity result
        = compare_with_target env s.c pcity result := by
      unfold await_and_compare
      rw [if_neg (by simp [h])]
    rw [heq]
    obtain ⟨t2, ht2, hr2⟩ := compare_with_target_clear env s.c pcity result
    refine ⟨t2, ht2, by rw [hr2]; split <;> omega, ?_, fun h0 => absurd h h0,
      fun h0 => absurd h h0, fun _ => hr2⟩
    intro ht
    rw [hr2, if_neg ht]

theorem set_workers_no_clear {R : Type} (env : environment R) (pcity : city)
    (result : cm_result) (s : req_state) :
    ∃ tail, (set_workers env pcity result s).c.trace = s.c.trace ++ tail ∧
      tail.countP is_clear_cache = 0 := by
  unfold set_workers
  generalize my_city_map_iterate env.g pcity = l
  induction l generalizing s with
  | nil => exact ⟨[], (List.append_nil _).symm, rfl⟩
  | cons p l ih =>
    rw [List.foldl_cons]
    split
    · exact ih s
    · split
      · split
        · exact ih _
        · obtain ⟨t, ht, hc⟩ := ih (record_request s (city_toggle_worker env s.c pcity p.1 p.2))
          refine ⟨[event.city_toggle_worker pcity.id p.1 p.2] ++ t, ?_, ?_⟩
          · rw [ht, ← List.append_assoc]
            rfl
          · rw [List.countP_append, hc]
            rfl
      · exact ih s

/-- From "Do checks" to `connection_do_unbuffer`, `cm_clear_cache` is not
called. -/
theorem send_changes_no_clear {R : Type} (env : environment R) (c : client) (pcity : city)
    (result : cm_result) :
    ∃ tail, (send_changes env c pcity result).c.trace = c.trace ++ tail ∧
      tail.countP is_clear_cache = 0 := by
  have hD : ∀ es : List event, (∀ e ∈ es, is_request e = true) →
      es.countP is_clear_cache = 0 := by
    intro es hes
    rw [List.countP_eq_zero]
    intro e he
    have := hes e he
    cases e <;> first
      | exact absurd this (fun h => Bool.noConfusion h)
      | exact fun h => Bool.noConfusion h
  have h12 : (change_excess_specialists env pcity result
      (remove_surplus_workers env pcity result ⟨c, 0, 0, false⟩)).c.trace
      = c.trace ++ (surplus_worker_toggles env.g pcity result
        ++ excess_specialist_changes env.g pcity result) := by
    rw [change_excess_specialists_eq, remove_surplus_workers_eq, send_all_c, send_all_c]
    simp [log_events]
  obtain ⟨t3, ht3, hc3⟩ := set_workers_no_clear env pcity result
    (change_excess_specialists env pcity result
      (remove_surplus_workers env pcity result ⟨c, 0, 0, false⟩))
  have hc12 : (surplus_worker_toggles env.g pcity result
      ++ excess_specialist_changes env.g pcity result).countP is_clear_cache = 0 := by
    apply hD
    intro e he
    apply (diff_requests_are_requests env.g pcity result e _).1
    unfold diff_requests
    simp only [List.mem_append] at he ⊢
    tauto
  unfold send_changes
  simp only
  split
  · exact ⟨[], (List.append_nil _).symm, rfl⟩
  · split
    · refine ⟨_, by rw [ht3, h12, List.append_assoc], ?_⟩
      rw [List.countP_append, hc12, hc3]
    · have h4 : (set_specialists env pcity result (set_workers env pcity result
          (change_excess_specialists env pcity result
            (remove_surplus_workers env pcity result ⟨c, 0, 0, false⟩)))).c.trace
          = c.trace ++ ((surplus_worker_toggles env.g pcity result
            ++ excess_specialist_changes env.g pcity result) ++ t3
            ++ missing_specialist_changes env.g pcity result) := by
        rw [set_specialists_eq, send_all_c]
        simp only [log_events, ht3, h12, List.append_assoc]
      have hc4 : (missing_specialist_changes env.g pcity result).countP is_clear_cache
          = 0 := by
        apply hD
        intro e he
        apply (diff_requests_are_requests env.g pcity result e _).1
        unfold diff_requests
        simp only [List.mem_append]
        tauto
      generalize set_specialists env pcity result (set_workers env pcity result
          (change_excess_specialists env pcity result
            (remove_surplus_workers env pcity result ⟨c, 0, 0, false⟩))) = s4 at h4
      unfold force_refresh
      split
      · refine ⟨((surplus_worker_toggles env.g pcity result
            ++ excess_specialist_changes env.g pcity result) ++ t3
            ++ missing_specialist_changes env.g pcity result)
            ++ [event.dsend_packet_city_refresh pcity.id,
              event.reports_freeze_till (dsend_packet_city_refresh env s4.c pcity.id).2,
              event.connection_do_unbuffer], ?_, ?_⟩
        · simp [log_event, dsend_packet_city_refresh, send_packet, h4]
        · simp only [List.countP_append, hc12, hc3, hc4]
          rfl
      · refine ⟨((surplus_worker_toggles env.g pcity result
            ++ excess_specialist_changes env.g pcity result) ++ t3
            ++ missing_specialist_changes env.g pcity result)
            ++ [event.reports_freeze_till s4.last_request_id,
              event.connection_do_unbuffer], ?_, ?_⟩
        · simp [log_event, h4]
        · simp only [List.countP_append, hc12, hc3, hc4]
          rfl

/-- What `apply_result_on_server` returns when the city passes `check_city` after
the wait: the comparison of the target with the snapshot taken then. -/
theorem apply_result_success_core {R : Type} (env : environment R) (c : client)
    (pcity : city) (result cur cur2 : cm_result) (hv : result.found_a_valid = true)
    (hs : get_current_as_result env.g pcity env.uninit_result = some cur)
    (hne : results_are_equal env.g pcity result cur = false)
    (hnab : (state_before_wait env c pcity result).aborted = false)
    (hlast : (state_before_wait env c pcity result).last_request_id ≠ 0)
    (hcheck : Option.map Prod.fst
      (check_city env (client_after_wait env c pcity result) pcity.id none).2 = some true)
    (hs2 : get_current_as_result env.g (city_after_wait env c pcity result) env.uninit_result
      = some cur2) :
    (apply_result_on_server env c pcity result).2
      = some (results_are_equal env.g (city_after_wait env c pcity result) result cur2) := by
  rw [apply_result_on_server_waited env c pcity result cur hv hs hne hnab hlast]
  have hc := check_city_passed env _ _ _ hcheck
  generalize check_city env (client_after_wait env c pcity result) pcity.id none = r
    at hcheck hc
  obtain ⟨c', o⟩ := r
  simp only at hc
  subst hc
  rcases o with _ | ⟨b, q⟩
  · simp at hcheck
  · cases b with
    | false => simp at hcheck
    | true =>
      simp only
      obtain ⟨-, -, -, h4⟩ := compare_with_target_spec env
        (client_after_wait env c pcity result)
        (((client_after_wait env c pcity result).world.cities pcity.id).getD pcity) result
      exact h4 cur2 hs2

/-! ## Properties of climap_renumber_continent -/

theorem climap_renumber_continent_succ (env : map_env) (fuel : Nat) (m : climap)
    (xy : Int × Int) (newnumber : Int) :
    climap_renumber_continent env (fuel + 1) m xy newnumber
      = match env.normalize_map_pos xy with
        | none => run_result.returned m
        | some p =>
          if ¬ ((m.tiles p).known ≥ env.TILE_KNOWN_FOGGED) then run_result.fault
          else if ¬ ((m.tiles p).terrain ≠ env.T_OCEAN) then run_result.fault
          else if ¬ (map_get_continent m p > 0 ∧ map_get_continent m p ≤ m.max_cont_used) then
            run_result.fault
          else
            renumber_adjacent env (fun m q => climap_renumber_continent env fuel m q newnumber)
              (map_get_continent m p) (env.adjc_iterate p)
              (map_set_continent { m with
                island_calls := m.island_calls
                  ++ [island_call.renumber_island_impr_effect (map_get_continent m p)
                    newnumber] } p newnumber) := rfl

theorem renumber_adjacent_nil (env : map_env)
    (recurse : climap → Int × Int → run_result climap) (old : Int) (m : climap) :
    renumber_adjacent env recurse old [] m = run_result.returned m := rfl

theorem renumber_adjacent_cons (env : map_env)
    (recurse : climap → Int × Int → run_result climap) (old : Int) (q : Int × Int)
    (qs : List (Int × Int)) (m : climap) :
    renumber_adjacent env recurse old (q :: qs) m
      = if is_known_land env m q = true ∧ map_get_continent m q = old then
          match recurse m q with
          | run_result.returned m => renumber_adjacent env recurse old qs m
          | run_result.fault => run_result.fault
          | run_result.out_of_fuel => run_result.out_of_fuel
        else renumber_adjacent env recurse old qs m := rfl

theorem renumbered_refl (old newnumber : Int) (m : climap) : renumbered old newnumber m m :=
  ⟨rfl, rfl, fun _ => ⟨rfl, rfl, Or.inl rfl⟩⟩

theorem renumbered_trans {old newnumber : Int} {m1 m2 m3 : climap}
    (h12 : renumbered old newnumber m1 m2) (h23 : renumbered old newnumber m2 m3) :
    renumbered old newnumber m1 m3 := by
  obtain ⟨a1, b1, c1⟩ := h12
  obtain ⟨a2, b2, c2⟩ := h23
  refine ⟨a2.trans a1, b2.trans b1, fun t => ?_⟩
  obtain ⟨x1, y1, z1⟩ := c1 t
  obtain ⟨x2, y2, z2⟩ := c2 t
  refine ⟨x2.trans x1, y2.trans y1, ?_⟩
  rcases z2 with z2 | ⟨z2, z2'⟩
  · rcases z1 with z1 | ⟨z1, z1'⟩
    · exact Or.inl (z2.trans z1)
    · exact Or.inr ⟨z1, z2.trans z1'⟩
  · rcases z1 with z1 | ⟨z1, -⟩
    · exact Or.inr ⟨z1 ▸ z2, z2'⟩
    · exact Or.inr ⟨z1, z2'⟩

theorem renumbered_known_land (env : map_env) {old newnumber : Int} {m1 m2 : climap}
    (h : renumbered old newnumber m1 m2) (q : Int × Int) :
    is_known_land env m2 q = is_known_land env m1 q := by
  unfold is_known_land
  rw [(h.2.2 q).1, (h.2.2 q).2.1]

theorem renumbered_not_old {old newnumber : Int} {m1 m2 : climap}
    (h : renumbered old newnumber m1 m2) (t : Int × Int)
    (ht : map_get_continent m1 t ≠ old) : map_get_continent m2 t ≠ old := by
  rcases (h.2.2 t).2.2 with z | ⟨z, -⟩
  · rw [z]; exact ht
  · exact absurd z ht

theorem renumbered_carrying_le {old newnumber : Int} {m1 m2 : climap}
    (h : renumbered old newnumber m1 m2) (all_tiles : List (Int × Int)) :
    carrying all_tiles m2 old ≤ carrying all_tiles m1 old := by
  unfold carrying
  apply List.countP_mono_left
  intro t _ ht
  simp only [decide_eq_true_eq] at ht ⊢
  by_contra hc
  exact renumbered_not_old h t hc ht

theorem countP_lt_of_mem {α : Type} (p q : α → Bool) (l : List α) (a : α)
    (hpq : ∀ x ∈ l, p x = true → q x = true) (ha : a ∈ l) (hq : q a = true)
    (hp : p a = false) : l.countP p < l.countP q := by
  induction l with
  | nil => exact absurd ha (List.not_mem_nil a)
  | cons x xs ih =>
    have hle : xs.countP p ≤ xs.countP q :=
      List.countP_mono_left (fun y hy => hpq y (List.mem_cons_of_mem x hy))
    rw [List.countP_cons, List.countP_cons]
    rcases List.mem_cons.1 ha with rfl | hmem
    · rw [hp, hq]
      simp only [Bool.false_eq_true, if_false, if_true]
      omega
    · have hlt := ih (fun y hy => hpq y (List.mem_cons_of_mem x hy)) hmem
      by_cases hx : p x = true
      · rw [hx, hpq x (List.mem_cons_self x xs) hx]
        simp only [if_true]
        omega
      · simp only [hx, Bool.false_eq_true, if_false]
        split <;> omega

theorem map_set_continent_get (m : climap) (p t : Int × Int) (val : Int) :
    map_get_continent (map_set_continent m p val) t
      = if t = p then val else map_get_continent m t := by
  unfold map_get_continent map_set_continent
  by_cases h : t = p
  · simp [h]
  · simp [h]

theorem map_set_continent_renumbered (m : climap) (p : Int × Int) (newnumber : Int)
    (calls : List island_call) :
    renumbered (map_get_continent m p) newnumber m
      (map_set_continent { m with island_calls := calls } p newnumber) := by
  refine ⟨rfl, rfl, fun t => ?_⟩
  by_cases h : t = p
  · subst h
    refine ⟨?_, ?_, Or.inr ⟨rfl, ?_⟩⟩
    · simp [map_set_continent]
    · simp [map_set_continent]
    · simp [map_set_continent, map_get_continent]
  · refine ⟨?_, ?_, Or.inl ?_⟩
    · simp [map_set_continent, h]
    · simp [map_set_continent, h]
    · simp [map_set_continent, map_get_continent, h]

theorem map_set_continent_carrying (m : climap) (p : Int × Int) (newnumber : Int)
    (calls : List island_call) (all_tiles : List (Int × Int)) (hp : p ∈ all_tiles)
    (hne : newnumber ≠ map_get_continent m p) :
    carrying all_tiles (map_set_continent { m with island_calls := calls } p newnumber)
        (map_get_continent m p) < carrying all_tiles m (map_get_continent m p) := by
  unfold carrying
  apply countP_lt_of_mem _ _ all_tiles p
  · intro t _ ht
    simp only [decide_eq_true_eq] at ht ⊢
    by_contra hc
    exact renumbered_not_old (map_set_continent_renumbered m p newnumber calls) t hc ht
  · exact hp
  · simp
  · simp only [decide_eq_false_iff_not]
    rw [map_set_continent_get, if_pos rfl]
    exact hne

theorem closed_under_adjacency_trans (env : map_env) {old newnumber : Int}
    {m1 m2 m3 : climap} (h12 : renumbered old newnumber m1 m2)
    (h23 : renumbered old newnumber m2 m3) (c12 : closed_under_adjacency env old m1 m2)
    (c23 : closed_under_adjacency env old m2 m3) : closed_under_adjacency env old m1 m3 := by
  intro t ht1 ht3 q hq hk
  by_cases ht2 : map_get_continent m2 t = old
  · exact c23 t ht2 ht3 q hq (by rw [renumbered_known_land env h12]; exact hk)
  · exact renumbered_not_old h23 q (c12 t ht1 ht2 q hq hk)

/-- The loop over the adjacent tiles, when every recursive call it makes returns
with the tiles of one more part of the continent renumbered. -/
theorem renumber_adjacent_spec (env : map_env) (all_tiles : List (Int × Int))
    (recurse : climap → Int × Int → run_result climap) (old newnumber : Int) (fuel : Nat)
    (hrec : ∀ m q, env.normalize_map_pos q = some q → is_known_land env m q = true →
      map_get_continent m q = old → old ≤ m.max_cont_used →
      carrying all_tiles m old < fuel →
      ∃ m2, recurse m q = run_result.returned m2 ∧ renumbered old newnumber m m2 ∧
        map_get_continent m2 q = newnumber ∧ closed_under_adjacency env old m m2)
    (hne : newnumber ≠ old) :
    ∀ (qs : List (Int × Int)) (m : climap),
      (∀ q ∈ qs, env.normalize_map_pos q = some q) → old ≤ m.max_cont_used →
      carrying all_tiles m old < fuel →
      ∃ m2, renumber_adjacent env recurse old qs m = run_result.returned m2 ∧
        renumbered old newnumber m m2 ∧ closed_under_adjacency env old m m2 ∧
        ∀ q ∈ qs, is_known_land env m q = true → map_get_continent m2 q ≠ old := by
  intro qs
  induction qs with
  | nil =>
    intro m _ _ _
    refine ⟨m, rfl, renumbered_refl _ _ _, ?_, fun q hq => absurd hq (List.not_mem_nil q)⟩
    intro t ht1 ht2
    exact absurd ht1 ht2
  | cons q qs ih =>
    intro m hnorm hmax hfuel
    rw [renumber_adjacent_cons]
    by_cases hg : is_known_land env m q = true ∧ map_get_continent m q = old
    · rw [if_pos hg]
      obtain ⟨m2, hr, hren, hq2, hcl⟩ :=
        hrec m q (hnorm q (List.mem_cons_self q qs)) hg.1 hg.2 hmax hfuel
      rw [hr]
      simp only
      obtain ⟨m3, hr3, hren3, hcl3, hqs3⟩ := ih m2
        (fun q' hq' => hnorm q' (List.mem_cons_of_mem q hq'))
        (by rw [hren.1]; exact hmax)
        (Nat.lt_of_le_of_lt (renumbered_carrying_le hren all_tiles) hfuel)
      refine ⟨m3, hr3, renumbered_trans hren hren3,
        closed_under_adjacency_trans env hren hren3 hcl hcl3, ?_⟩
      intro q' hq' hk
      rcases List.mem_cons.1 hq' with rfl | hmem
      · apply renumbered_not_old hren3
        rw [hq2]
        exact hne
      · exact hqs3 q' hmem (by rw [renumbered_known_land env hren]; exact hk)
    · rw [if_neg hg]
      obtain ⟨m3, hr3, hren3, hcl3, hqs3⟩ := ih m
        (fun q' hq' => hnorm q' (List.mem_cons_of_mem q hq')) hmax hfuel
      refine ⟨m3, hr3, hren3, hcl3, ?_⟩
      intro q' hq' hk
      rcases List.mem_cons.1 hq' with rfl | hmem
      · apply renumbered_not_old hren3
        intro hc
        exact hg ⟨hk, hc⟩
      · exact hqs3 q' hmem hk

/-- A call of `climap_renumber_continent` on a known land tile with a number in
use returns when the fuel exceeds the number of tiles that carry the old number;
the tile has the new number, only tiles that carried the old number have changed,
and no renumbered tile has an adjacent known land tile with the old number. -/
theorem renumber_spec (env : map_env) (all_tiles : List (Int × Int))
    (hwf : well_formed_map env all_tiles) :
    ∀ (fuel : Nat) (m : climap) (xy : Int × Int) (newnumber : Int) (p : Int × Int),
      env.normalize_map_pos xy = some p → is_known_land env m p = true →
      0 < map_get_continent m p → map_get_continent m p ≤ m.max_cont_used →
      newnumber ≠ map_get_continent m p →
      carrying all_tiles m (map_get_continent m p) < fuel →
      ∃ m2, climap_renumber_continent env fuel m xy newnumber = run_result.returned m2 ∧
        renumbered (map_get_continent m p) newnumber m m2 ∧
        map_get_continent m2 p = newnumber ∧
        closed_under_adjacency env (map_get_continent m p) m m2 := by
  intro fuel
  induction fuel with
  | zero =>
    intro m xy newnumber p _ _ _ _ _ hf
    exact absurd hf (Nat.not_lt_zero _)
  | succ fuel ih =>
    intro m xy newnumber p hnorm hk hpos hmax hne hf
    have hk2 := hk
    unfold is_known_land at hk2
    simp only [Bool.and_eq_true, decide_eq_true_eq] at hk2
    rw [climap_renumber_continent_succ, hnorm]
    simp only
    rw [if_neg (not_not.2 hk2.1), if_neg (not_not.2 hk2.2), if_neg (not_not.2 ⟨hpos, hmax⟩)]
    have hset := map_set_continent_renumbered m p newnumber
      (m.island_calls ++ [island_call.renumber_island_impr_effect (map_get_continent m p)
        newnumber])
    have hcar := map_set_continent_carrying m p newnumber
      (m.island_calls ++ [island_call.renumber_island_impr_effect (map_get_continent m p)
        newnumber]) all_tiles (hwf.1 xy p hnorm) hne
    obtain ⟨m3, hr3, hren3, hcl3, hqs3⟩ := renumber_adjacent_spec env all_tiles
      (fun m q => climap_renumber_continent env fuel m q newnumber)
      (map_get_continent m p) newnumber fuel
      (fun m' q hq hkq hcq hmq hfq => by
        obtain ⟨m2, h1, h2, h3, h4⟩ := ih m' q newnumber q hq hkq (by rw [hcq]; exact hpos)
          (by rw [hcq]; exact hmq) (by rw [hcq]; exact hne) (by rw [hcq]; exact hfq)
        rw [hcq] at h2 h4
        exact ⟨m2, h1, h2, h3, h4⟩)
      hne (env.adjc_iterate p) _ (fun q hq => hwf.2 p q hq)
      (by rw [hset.1]; exact hmax) (by omega)
    refine ⟨m3, hr3, renumbered_trans hset hren3, ?_, ?_⟩
    · rcases (hren3.2.2 p).2.2 with z | ⟨z, -⟩
      · rw [z, map_set_continent_get, if_pos rfl]
      · rw [map_set_continent_get, if_pos rfl] at z
        exact absurd z hne
    · intro t ht1 ht3 q hq hkq
      by_cases htp : t = p
      · subst htp
        exact hqs3 q hq (by rw [renumbered_known_land env hset]; exact hkq)
      · apply hcl3 t _ ht3 q hq (by rw [renumbered_known_land env hset]; exact hkq)
        rw [map_set_continent_get, if_neg htp]
        exact ht1

theorem renumber_adjacent_mono (env : map_env)
    (r1 r2 : climap → Int × Int → run_result climap) (old : Int)
    (hr : ∀ m q, r1 m q ≠ run_result.out_of_fuel → r2 m q = r1 m q) :
    ∀ (qs : List (Int × Int)) (m : climap),
      renumber_adjacent env r1 old qs m ≠ run_result.out_of_fuel →
      renumber_adjacent env r2 old qs m = renumber_adjacent env r1 old qs m := by
  intro qs
  induction qs with
  | nil => intro m _; rfl
  | cons q qs ih =>
    intro m h
    rw [renumber_adjacent_cons] at h ⊢
    rw [renumber_adjacent_cons]
    by_cases hg : is_known_land env m q = true ∧ map_get_continent m q = old
    · rw [if_pos hg] at h
      rw [if_pos hg, if_pos hg]
      cases h1 : r1 m q with
      | returned m2 =>
        rw [hr m q (by rw [h1]; exact fun h => run_result.noConfusion h)]
        rw [h1] at h ⊢
        exact ih m2 h
      | fault =>
        rw [hr m q (by rw [h1]; exact fun h => run_result.noConfusion h), h1]
      | out_of_fuel =>
        rw [h1] at h
        exact absurd rfl h
    · rw [if_neg hg] at h
      rw [if_neg hg, if_neg hg]
      exact ih m h

/-- More fuel does not change the outcome of a run that did not run out of
fuel. -/
theorem renumber_fuel_mono (env : map_env) :
    ∀ (fuel : Nat) (m : climap) (xy : Int × Int) (newnumber : Int),
      climap_renumber_continent env fuel m xy newnumber ≠ run_result.out_of_fuel →
      climap_renumber_continent env (fuel + 1) m xy newnumber
        = climap_renumber_continent env fuel m xy newnumber := by
  intro fuel
  induction fuel with
  | zero =>
    intro m xy newnumber h
    exact absurd rfl h
  | succ fuel ih =>
    intro m xy newnumber h
    rw [climap_renumber_continent_succ] at h ⊢
    rw [climap_renumber_continent_succ env fuel]
    cases hn : env.normalize_map_pos xy with
    | none => rfl
    | some p =>
      rw [hn] at h
      simp only at h ⊢
      split
      · rfl
      · split
        · rfl
        · split
          · rfl
          · rename_i h1 h2 h3
            rw [if_neg h1, if_neg h2, if_neg h3] at h
            exact renumber_adjacent_mono env _ _ _ (fun m q hq => ih m q newnumber hq) _ _ h

theorem renumber_fuel_add (env : map_env) (fuel : Nat) (m : climap) (xy : Int × Int)
    (newnumber : Int)
    (h : climap_renumber_continent env fuel m xy newnumber ≠ run_result.out_of_fuel) :
    ∀ k, climap_renumber_continent env (fuel + k) m xy newnumber
      = climap_renumber_continent env fuel m xy newnumber := by
  intro k
  induction k with
  | zero => rfl
  | succ k ih =>
    rw [← Nat.add_assoc, renumber_fuel_mono env (fuel + k) m xy newnumber (by rw [ih]; exact h),
      ih]

/-- With more fuel than the map has tiles, a call of `climap_renumber_continent`
with a new number that differs from the old one does not run out of fuel. -/
theorem renumber_total (env : map_env) (all_tiles : List (Int × Int))
    (hwf : well_formed_map env all_tiles) (fuel : Nat) (hfuel : all_tiles.length < fuel)
    (m : climap) (xy : Int × Int) (newnumber : Int)
    (hne : ∀ p, env.normalize_map_pos xy = some p → newnumber ≠ map_get_continent m p) :
    climap_renumber_continent env fuel m xy newnumber ≠ run_result.out_of_fuel := by
  cases hn : env.normalize_map_pos xy with
  | none =>
    obtain ⟨k, rfl⟩ : ∃ k, fuel = k + 1 := ⟨fuel - 1, by omega⟩
    rw [climap_renumber_continent_succ, hn]
    exact fun h => run_result.noConfusion h
  | some p =>
    by_cases hok : is_known_land env m p = true ∧ 0 < map_get_continent m p
        ∧ map_get_continent m p ≤ m.max_cont_used
    · obtain ⟨m2, h2, -⟩ := renumber_spec env all_tiles hwf fuel m xy newnumber p hn hok.1
        hok.2.1 hok.2.2 (hne p hn)
        (Nat.lt_of_le_of_lt (List.countP_le_length _) hfuel)
      rw [h2]
      exact fun h => run_result.noConfusion h
    · obtain ⟨k, rfl⟩ : ∃ k, fuel = k + 1 := ⟨fuel - 1, by omega⟩
      rw [climap_renumber_continent_succ, hn]
      simp only
      unfold is_known_land at hok
      simp only [Bool.and_eq_true, decide_eq_true_eq] at hok
      split
      · exact fun h => run_result.noConfusion h
      · split
        · exact fun h => run_result.noConfusion h
        · split
          · exact fun h => run_result.noConfusion h
          · rename_i h1 h2 h3
            exact absurd ⟨⟨not_not.1 h1, not_not.1 h2⟩, not_not.1 h3⟩ hok

/-- A failed assertion of the first call ends the run in a fault. -/
theorem renumber_fault (env : map_env) (fuel : Nat) (m : climap) (xy p : Int × Int)
    (newnumber : Int) (hn : env.normalize_map_pos xy = some p)
    (hbad : ¬ (is_known_land env m p = true ∧ 0 < map_get_continent m p
      ∧ map_get_continent m p ≤ m.max_cont_used)) :
    climap_renumber_continent env (fuel + 1) m xy newnumber = run_result.fault := by
  rw [climap_renumber_continent_succ, hn]
  simp only
  unfold is_known_land at hbad
  simp only [Bool.and_eq_true, decide_eq_true_eq] at hbad
  split
  · rfl
  · split
    · rfl
    · split
      · rfl
      · rename_i h1 h2 h3
        exact absurd ⟨⟨not_not.1 h1, not_not.1 h2⟩, not_not.1 h3⟩ hbad

/-- Every tile reached from a renumbered tile through adjacent known land tiles
that carried the old number is renumbered. -/
theorem reachable_renumbered (env : map_env) (m m2 : climap) (old newnumber : Int)
    (p : Int × Int) (hp : map_get_continent m p = old) (hp2 : map_get_continent m2 p ≠ old)
    (hren : renumbered old newnumber m m2) (hcl : closed_under_adjacency env old m m2)
    (t : Int × Int) (ht : reachable env m old p t) :
    map_get_continent m t = old ∧ map_get_continent m2 t ≠ old
      ∧ map_get_continent m2 t = newnumber := by
  have key : map_get_continent m t = old ∧ map_get_continent m2 t ≠ old := by
    induction ht with
    | start => exact ⟨hp, hp2⟩
    | step t q _ hq hk hc ih => exact ⟨hc, hcl t ih.1 ih.2 q hq hk⟩
  refine ⟨key.1, key.2, ?_⟩
  rcases (hren.2.2 t).2.2 with z | ⟨-, z⟩
  · exact absurd (z.trans key.1) key.2
  · exact z

theorem sample_map_well_formed : well_formed_map sample_map_env sample_tiles := by
  constructor
  · rintro ⟨x, y⟩ q h
    simp only [sample_map_env] at h
    split at h
    · rename_i hb
      obtain ⟨h1, h2, h3, h4⟩ := hb
      cases h
      have hx : x = 0 ∨ x = 1 ∨ x = 2 ∨ x = 3 := by omega
      have hy : y = 0 ∨ y = 1 := by omega
      rcases hx with rfl | rfl | rfl | rfl <;> rcases hy with rfl | rfl <;> decide
    · exact Option.noConfusion h
  · intro p q hq
    simp only [sample_map_env, List.mem_filter, decide_eq_true_eq] at hq
    simp only [sample_map_env]
    rw [if_pos hq.2]

/-! ## Properties of climap_update_continents -/

theorem update_adjacent_nil (env : map_env) (fuel : Nat) (xy : Int × Int) (m : climap)
    (this_con : Int) :
    update_adjacent env fuel xy [] m this_con = run_result.returned (m, this_con) := rfl

theorem update_adjacent_cons (env : map_env) (fuel : Nat) (xy q : Int × Int)
    (qs : List (Int × Int)) (m : climap) (this_con : Int) :
    update_adjacent env fuel xy (q :: qs) m this_con
      = if is_known_land env m q = true then
          if map_get_continent m q > 0 then
            if this_con = -1 then
              update_adjacent env fuel xy qs (map_set_continent m xy (map_get_continent m q))
                (map_get_continent m q)
            else if map_get_continent m q ≠ this_con then
              match climap_renumber_continent env fuel m q this_con with
              | run_result.returned m2 =>
                match recycle_continent_num m2 (map_get_continent m q) with
                | some m3 => update_adjacent env fuel xy qs m3 this_con
                | none => run_result.fault
              | run_result.fault => run_result.fault
              | run_result.out_of_fuel => run_result.out_of_fuel
            else update_adjacent env fuel xy qs m this_con
          else update_adjacent env fuel xy qs m this_con
        else update_adjacent env fuel xy qs m this_con := rfl

theorem merged_into_refl (this_con : Int) (m : climap) : merged_into this_con m m :=
  ⟨rfl, fun _ => ⟨rfl, rfl, Or.inl rfl⟩⟩

theorem merged_into_trans {this_con : Int} {m1 m2 m3 : climap}
    (h12 : merged_into this_con m1 m2) (h23 : merged_into this_con m2 m3) :
    merged_into this_con m1 m3 := by
  refine ⟨h23.1.trans h12.1, fun t => ?_⟩
  obtain ⟨x1, y1, z1⟩ := h12.2 t
  obtain ⟨x2, y2, z2⟩ := h23.2 t
  refine ⟨x2.trans x1, y2.trans y1, ?_⟩
  rcases z2 with z2 | z2
  · rcases z1 with z1 | z1
    · exact Or.inl (z2.trans z1)
    · exact Or.inr (z2.trans z1)
  · exact Or.inr z2

theorem merged_into_of_renumbered {old this_con : Int} {m1 m2 : climap}
    (h : renumbered old this_con m1 m2) : merged_into this_con m1 m2 := by
  refine ⟨h.1, fun t => ?_⟩
  obtain ⟨x, y, z⟩ := h.2.2 t
  refine ⟨x, y, ?_⟩
  rcases z with z | ⟨-, z⟩
  · exact Or.inl z
  · exact Or.inr z

theorem merged_into_known_land (env : map_env) {this_con : Int} {m1 m2 : climap}
    (h : merged_into this_con m1 m2) (q : Int × Int) :
    is_known_land env m2 q = is_known_land env m1 q := by
  unfold is_known_land
  rw [(h.2 q).1, (h.2 q).2.1]

theorem merged_into_keeps {this_con : Int} {m1 m2 : climap}
    (h : merged_into this_con m1 m2) (t : Int × Int)
    (ht : map_get_continent m1 t = this_con) : map_get_continent m2 t = this_con := by
  rcases (h.2 t).2.2 with z | z
  · exact z.trans ht
  · exact z

theorem merged_into_set (m : climap) (xy : Int × Int) (this_con : Int) :
    merged_into this_con m (map_set_continent m xy this_con) := by
  refine ⟨rfl, fun t => ?_⟩
  by_cases h : t = xy
  · subst h
    refine ⟨?_, ?_, Or.inr ?_⟩
    · simp [map_set_continent]
    · simp [map_set_continent]
    · simp [map_set_continent, map_get_continent]
  · refine ⟨?_, ?_, Or.inl ?_⟩
    · simp [map_set_continent, h]
    · simp [map_set_continent, h]
    · simp [map_set_continent, map_get_continent, h]

/-- A call of `climap_renumber_continent` that returns has passed its
assertions, and has renumbered tiles that carried the old number. -/
theorem renumber_returned (env : map_env) (all_tiles : List (Int × Int))
    (hwf : well_formed_map env all_tiles) (fuel : Nat) (hfuel : all_tiles.length < fuel)
    (m m2 : climap) (xy p : Int × Int) (newnumber : Int)
    (hn : env.normalize_map_pos xy = some p) (hne : newnumber ≠ map_get_continent m p)
    (hret : climap_renumber_continent env fuel m xy newnumber = run_result.returned m2) :
    is_known_land env m p = true ∧ 0 < map_get_continent m p ∧
      map_get_continent m p ≤ m.max_cont_used ∧
      renumbered (map_get_continent m p) newnumber m m2 ∧
      map_get_continent m2 p = newnumber := by
  by_cases hok : is_known_land env m p = true ∧ 0 < map_get_continent m p
      ∧ map_get_continent m p ≤ m.max_cont_used
  · obtain ⟨m3, h3, hren, hp, -⟩ := renumber_spec env all_tiles hwf fuel m xy newnumber p hn
      hok.1 hok.2.1 hok.2.2 hne (Nat.lt_of_le_of_lt (List.countP_le_length _) hfuel)
    rw [h3] at hret
    cases hret
    exact ⟨hok.1, hok.2.1, hok.2.2, hren, hp⟩
  · obtain ⟨k, rfl⟩ : ∃ k, fuel = k + 1 := ⟨fuel - 1, by omega⟩
    rw [renumber_fault env k m xy p newnumber hn hok] at hret
    exact run_result.noConfusion hret

/-- One pass of the loop of `climap_update_continents` once `this_con` is set, at
a numbered neighbour with another number: the pass ends in a failed assertion
when that number exceeds `max_cont_used`; otherwise the neighbour and the tiles
joined to it get the number `this_con`, the old number is recycled, and the loop
goes on. -/
theorem update_adjacent_step (env : map_env) (all_tiles : List (Int × Int))
    (hwf : well_formed_map env all_tiles) (fuel : Nat) (hfuel : all_tiles.length < fuel)
    (xy : Int × Int) (this_con : Int) (hT : this_con ≠ -1) (q : Int × Int)
    (qs : List (Int × Int)) (m : climap) (hq : env.normalize_map_pos q = some q)
    (hk : is_known_land env m q = true) (hc : 0 < map_get_continent m q)
    (hd : map_get_continent m q ≠ this_con) :
    (m.max_cont_used < map_get_continent m q ∧
      update_adjacent env fuel xy (q :: qs) m this_con = run_result.fault) ∨
    (map_get_continent m q ≤ m.max_cont_used ∧
      ∃ m2, renumbered (map_get_continent m q) this_con m m2 ∧
        map_get_continent m2 q = this_con ∧
        update_adjacent env fuel xy (q :: qs) m this_con
          = update_adjacent env fuel xy qs
              { m2 with recyc_conts := m2.recyc_conts ++ [map_get_continent m q] }
              this_con) := by
  rw [update_adjacent_cons, if_pos hk, if_pos hc, if_neg hT, if_pos hd]
  by_cases hmax : map_get_continent m q ≤ m.max_cont_used
  · right
    obtain ⟨m2, h2, hren, hq2, -⟩ := renumber_spec env all_tiles hwf fuel m q this_con q hq hk hc
      hmax (fun h => hd h.symm) (Nat.lt_of_le_of_lt (List.countP_le_length _) hfuel)
    refine ⟨hmax, m2, hren, hq2, ?_⟩
    rw [h2]
    simp only
    have hrec : recycle_continent_num m2 (map_get_continent m q)
        = some { m2 with recyc_conts := m2.recyc_conts ++ [map_get_continent m q] } := by
      unfold recycle_continent_num
      rw [if_pos ⟨hc, by rw [hren.1]; exact hmax⟩]
    rw [hrec]
  · left
    refine ⟨by omega, ?_⟩
    obtain ⟨k, rfl⟩ : ∃ k, fuel = k + 1 := ⟨fuel - 1, by omega⟩
    rw [renumber_fault env k m q q this_con hq (fun h => hmax h.2.2)]

/-- The other passes of the loop of `climap_update_continents` once `this_con` is
set: nothing is done at a position that is not a numbered neighbour with another
number. -/
theorem update_adjacent_skip (env : map_env) (fuel : Nat) (xy : Int × Int) (this_con : Int)
    (hT : this_con ≠ -1) (q : Int × Int) (qs : List (Int × Int)) (m : climap)
    (h : ¬ (is_known_land env m q = true ∧ 0 < map_get_continent m q
      ∧ map_get_continent m q ≠ this_con)) :
    update_adjacent env fuel xy (q :: qs) m this_con
      = update_adjacent env fuel xy qs m this_con := by
  rw [update_adjacent_cons]
  by_cases hk : is_known_land env m q = true
  · rw [if_pos hk]
    by_cases hc : 0 < map_get_continent m q
    · rw [if_pos hc, if_neg hT]
      by_cases hd : map_get_continent m q ≠ this_con
      · exact absurd ⟨hk, hc, hd⟩ h
      · rw [if_neg hd]
    · rw [if_neg hc]
  · rw [if_neg hk]

/-- The loop of `climap_update_continents` once `this_con` is set, when it
returns: `this_con` is as it was, tiles have changed their number to `this_con`
only, and every numbered neighbour still to visit ends with the number
`this_con`. -/
theorem update_adjacent_merge_post (env : map_env) (all_tiles : List (Int × Int))
    (hwf : well_formed_map env all_tiles) (fuel : Nat) (hfuel : all_tiles.length < fuel)
    (xy : Int × Int) (this_con : Int) (hpos : 0 < this_con) :
    ∀ (qs : List (Int × Int)) (m : climap) (r : climap × Int),
      (∀ q ∈ qs, env.normalize_map_pos q = some q) →
      update_adjacent env fuel xy qs m this_con = run_result.returned r →
      r.2 = this_con ∧ merged_into this_con m r.1 ∧
        ∀ q ∈ qs, is_known_land env m q = true → 0 < map_get_continent m q →
          map_get_continent r.1 q = this_con := by
  have hT : this_con ≠ -1 := by omega
  intro qs
  induction qs with
  | nil =>
    intro m r _ h
    rw [update_adjacent_nil] at h
    cases h
    exact ⟨rfl, merged_into_refl _ _, fun q hq => absurd hq (List.not_mem_nil q)⟩
  | cons q qs ih =>
    intro m r hnorm h
    have hnorm2 : ∀ q' ∈ qs, env.normalize_map_pos q' = some q' :=
      fun q' hq' => hnorm q' (List.mem_cons_of_mem q hq')
    by_cases hg : is_known_land env m q = true ∧ 0 < map_get_continent m q
        ∧ map_get_continent m q ≠ this_con
    · rcases update_adjacent_step env all_tiles hwf fuel hfuel xy this_con hT q qs m
        (hnorm q (List.mem_cons_self q qs)) hg.1 hg.2.1 hg.2.2 with ⟨-, hf⟩ | ⟨-, m2, hren, hq2, he⟩
      · rw [hf] at h
        exact run_result.noConfusion h
      · rw [he] at h
        have hm23 : merged_into this_con m
            { m2 with recyc_conts := m2.recyc_conts ++ [map_get_continent m q] } :=
          ⟨(merged_into_of_renumbered hren).1, (merged_into_of_renumbered hren).2⟩
        obtain ⟨hr, hmer, hqs⟩ := ih _ r hnorm2 h
        refine ⟨hr, merged_into_trans hm23 hmer, ?_⟩
        intro q' hq' hk' hc'
        rcases List.mem_cons.1 hq' with rfl | hmem
        · exact merged_into_keeps hmer q' hq2
        · rcases (hm23.2 q').2.2 with z | z
          · exact hqs q' hmem (by rw [merged_into_known_land env hm23]; exact hk')
              (by rw [z]; exact hc')
          · exact merged_into_keeps hmer q' z
    · rw [update_adjacent_skip env fuel xy this_con hT q qs m hg] at h
      obtain ⟨hr, hmer, hqs⟩ := ih m r hnorm2 h
      refine ⟨hr, hmer, ?_⟩
      intro q' hq' hk' hc'
      rcases List.mem_cons.1 hq' with rfl | hmem
      · apply merged_into_keeps hmer
        by_contra hd
        exact hg ⟨hk', hc', hd⟩
      · exact hqs q' hmem hk' hc'

/-- The loop of `climap_update_continents` once `this_con` is set returns when
no numbered neighbour still to visit has a number, other than `this_con`, above
`max_cont_used`, and ends in a failed assertion otherwise. -/
theorem update_adjacent_merge_runs (env : map_env) (all_tiles : List (Int × Int))
    (hwf : well_formed_map env all_tiles) (fuel : Nat) (hfuel : all_tiles.length < fuel)
    (xy : Int × Int) (this_con : Int) (hpos : 0 < this_con) :
    ∀ (qs : List (Int × Int)) (m : climap),
      (∀ q ∈ qs, env.normalize_map_pos q = some q) →
      ((∀ q ∈ qs, is_known_land env m q = true → 0 < map_get_continent m q →
          map_get_continent m q ≠ this_con → map_get_continent m q ≤ m.max_cont_used) →
        ∃ r, update_adjacent env fuel xy qs m this_con = run_result.returned r) ∧
      ((∃ q ∈ qs, is_known_land env m q = true ∧ 0 < map_get_continent m q ∧
          map_get_continent m q ≠ this_con ∧ m.max_cont_used < map_get_continent m q) →
        update_adjacent env fuel xy qs m this_con = run_result.fault) := by
  have hT : this_con ≠ -1 := by omega
  intro qs
  induction qs with
  | nil =>
    intro m _
    refine ⟨fun _ => ⟨_, rfl⟩, ?_⟩
    rintro ⟨q, hq, -⟩
    exact absurd hq (List.not_mem_nil q)
  | cons q qs ih =>
    intro m hnorm
    have hnorm2 : ∀ q' ∈ qs, env.normalize_map_pos q' = some q' :=
      fun q' hq' => hnorm q' (List.mem_cons_of_mem q hq')
    by_cases hg : is_known_land env m q = true ∧ 0 < map_get_continent m q
        ∧ map_get_continent m q ≠ this_con
    · rcases update_adjacent_step env all_tiles hwf fuel hfuel xy this_con hT q qs m
        (hnorm q (List.mem_cons_self q qs)) hg.1 hg.2.1 hg.2.2 with
        ⟨hbig, hf⟩ | ⟨hsmall, m2, hren, hq2, he⟩
      · refine ⟨fun hall => ?_, fun _ => hf⟩
        have := hall q (List.mem_cons_self q qs) hg.1 hg.2.1 hg.2.2
        omega
      · have hm23 : merged_into this_con m
            { m2 with recyc_conts := m2.recyc_conts ++ [map_get_continent m q] } :=
          ⟨(merged_into_of_renumbered hren).1, (merged_into_of_renumbered hren).2⟩
        obtain ⟨ih1, ih2⟩ := ih
          { m2 with recyc_conts := m2.recyc_conts ++ [map_get_continent m q] } hnorm2
        rw [he]
        constructor
        · intro hall
          apply ih1
          intro q' hq' hk' hc' hd'
          rcases (hm23.2 q').2.2 with z | z
          · exact le_of_eq_of_le z (le_of_le_of_eq
              (hall q' (List.mem_cons_of_mem q hq')
                (by rw [← merged_into_known_land env hm23]; exact hk')
                (by rw [← z]; exact hc') (by rw [← z]; exact hd'))
              hm23.1.symm)
          · exact absurd z hd'
        · rintro ⟨q', hq', hk', hc', hd', hbig'⟩
          apply ih2
          rcases List.mem_cons.1 hq' with rfl | hmem
          · omega
          · refine ⟨q', hmem, by rw [merged_into_known_land env hm23]; exact hk', ?_⟩
            have hsame : map_get_continent
                { m2 with recyc_conts := m2.recyc_conts ++ [map_get_continent m q] } q'
                = map_get_continent m q' := by
              rcases (hren.2.2 q').2.2 with z | ⟨z, -⟩
              · exact z
              · omega
            rw [hsame]
            exact ⟨hc', hd', lt_of_eq_of_lt hm23.1 hbig'⟩
    · rw [update_adjacent_skip env fuel xy this_con hT q qs m hg]
      obtain ⟨ih1, ih2⟩ := ih m hnorm2
      constructor
      · intro hall
        exact ih1 (fun q' hq' => hall q' (List.mem_cons_of_mem q hq'))
      · rintro ⟨q', hq', hk', hc', hd', hbig'⟩
        apply ih2
        rcases List.mem_cons.1 hq' with rfl | hmem
        · exact absurd ⟨hk', hc', hd'⟩ hg
        · exact ⟨q', hmem, hk', hc', hd', hbig'⟩

theorem is_numbered_land_iff (env : map_env) (m : climap) (q : Int × Int) :
    is_numbered_land env m q = true
      ↔ is_known_land env m q = true ∧ 0 < map_get_continent m q := by
  unfold is_numbered_land
  simp only [Bool.and_eq_true, decide_eq_true_eq]

/-- The first pass of the loop of `climap_update_continents` that finds a numbered
neighbour, `this_con` being -1: the tile gets the number of the neighbour. -/
theorem update_adjacent_found (env : map_env) (fuel : Nat) (xy q : Int × Int)
    (qs : List (Int × Int)) (m : climap) (hq : is_numbered_land env m q = true) :
    update_adjacent env fuel xy (q :: qs) m (-1)
      = update_adjacent env fuel xy qs (map_set_continent m xy (map_get_continent m q))
          (map_get_continent m q) := by
  have h := (is_numbered_land_iff env m q).1 hq
  rw [update_adjacent_cons, if_pos h.1, if_pos h.2, if_pos rfl]

/-- The passes of the loop of `climap_update_continents` before a numbered
neighbour is found do nothing. -/
theorem update_adjacent_pass (env : map_env) (fuel : Nat) (xy q : Int × Int)
    (qs : List (Int × Int)) (m : climap) (hq : is_numbered_land env m q = false) :
    update_adjacent env fuel xy (q :: qs) m (-1) = update_adjacent env fuel xy qs m (-1) := by
  have h : ¬ (is_known_land env m q = true ∧ 0 < map_get_continent m q) := by
    rw [← is_numbered_land_iff, hq]
    exact fun h => Bool.noConfusion h
  rw [update_adjacent_cons]
  by_cases hk : is_known_land env m q = true
  · rw [if_pos hk, if_neg (fun hc => h ⟨hk, hc⟩)]
  · rw [if_neg hk]

/-- The loop of `climap_update_continents` from its start, when it returns:
without a numbered neighbour nothing is done; otherwise the tile gets the number
of the first numbered neighbour, and so does every numbered neighbour. -/
theorem update_adjacent_first_post (env : map_env) (all_tiles : List (Int × Int))
    (hwf : well_formed_map env all_tiles) (fuel : Nat) (hfuel : all_tiles.length < fuel)
    (xy : Int × Int) (m : climap) :
    ∀ (qs : List (Int × Int)) (r : climap × Int),
      (∀ q ∈ qs, env.normalize_map_pos q = some q) →
      update_adjacent env fuel xy qs m (-1) = run_result.returned r →
      (qs.find? (is_numbered_land env m) = none → r = (m, -1)) ∧
      (∀ q0, qs.find? (is_numbered_land env m) = some q0 →
        0 < map_get_continent m q0 ∧ r.2 = map_get_continent m q0 ∧
          merged_into (map_get_continent m q0) m r.1 ∧
          map_get_continent r.1 xy = map_get_continent m q0 ∧
          ∀ q ∈ qs, is_known_land env m q = true → 0 < map_get_continent m q →
            map_get_continent r.1 q = map_get_continent m q0) := by
  intro qs
  induction qs with
  | nil =>
    intro r _ h
    rw [update_adjacent_nil] at h
    cases h
    exact ⟨fun _ => rfl, fun q0 h0 => Option.noConfusion h0⟩
  | cons q qs ih =>
    intro r hnorm h
    have hnorm2 : ∀ q' ∈ qs, env.normalize_map_pos q' = some q' :=
      fun q' hq' => hnorm q' (List.mem_cons_of_mem q hq')
    rw [List.find?_cons]
    cases hq : is_numbered_land env m q with
    | true =>
      have hq' := (is_numbered_land_iff env m q).1 hq
      rw [update_adjacent_found env fuel xy q qs m hq] at h
      refine ⟨fun h0 => Option.noConfusion h0, fun q0 h0 => ?_⟩
      simp only [Option.some.injEq] at h0
      subst h0
      have hset := merged_into_set m xy (map_get_continent m q)
      obtain ⟨hr, hmer, hqs⟩ := update_adjacent_merge_post env all_tiles hwf fuel hfuel xy
        (map_get_continent m q) hq'.2 qs _ r hnorm2 h
      refine ⟨hq'.2, hr, merged_into_trans hset hmer, ?_, ?_⟩
      · apply merged_into_keeps hmer
        rw [map_set_continent_get, if_pos rfl]
      · intro q' hin hk' hc'
        rcases List.mem_cons.1 hin with rfl | hmem
        · apply merged_into_keeps hmer
          rw [map_set_continent_get]
          split <;> rfl
        · rcases (hset.2 q').2.2 with z | z
          · exact hqs q' hmem (by rw [merged_into_known_land env hset]; exact hk')
              (by rw [z]; exact hc')
          · exact merged_into_keeps hmer q' z
    | false =>
      rw [update_adjacent_pass env fuel xy q qs m hq] at h
      obtain ⟨ih1, ih2⟩ := ih r hnorm2 h
      refine ⟨ih1, fun q0 h0 => ?_⟩
      obtain ⟨hp, hr, hmer, hxy, hqs⟩ := ih2 q0 h0
      refine ⟨hp, hr, hmer, hxy, ?_⟩
      intro q' hin hk' hc'
      rcases List.mem_cons.1 hin with rfl | hmem
      · have := (is_numbered_land_iff env m q').2 ⟨hk', hc'⟩
        rw [hq] at this
        exact Bool.noConfusion this
      · exact hqs q' hmem hk' hc'

/-- The loop of `climap_update_continents` from its start returns without a
numbered neighbour; with one, it returns when no other numbered neighbour, the
tile itself apart, has a number that differs from the first one and exceeds
`max_cont_used`, and ends in a failed assertion otherwise. -/
theorem update_adjacent_first_runs (env : map_env) (all_tiles : List (Int × Int))
    (hwf : well_formed_map env all_tiles) (fuel : Nat) (hfuel : all_tiles.length < fuel)
    (xy : Int × Int) (m : climap) :
    ∀ (qs : List (Int × Int)),
      (∀ q ∈ qs, env.normalize_map_pos q = some q) →
      (qs.find? (is_numbered_land env m) = none →
        update_adjacent env fuel xy qs m (-1) = run_result.returned (m, -1)) ∧
      (∀ q0, qs.find? (is_numbered_land env m) = some q0 →
        ((∀ q ∈ qs, q ≠ xy → is_numbered_land env m q = true →
            map_get_continent m q ≠ map_get_continent m q0 →
            map_get_continent m q ≤ m.max_cont_used) →
          ∃ r, update_adjacent env fuel xy qs m (-1) = run_result.returned r) ∧
        ((∃ q ∈ qs, q ≠ xy ∧ is_numbered_land env m q = true ∧
            map_get_continent m q ≠ map_get_continent m q0 ∧
            m.max_cont_used < map_get_continent m q) →
          update_adjacent env fuel xy qs m (-1) = run_result.fault)) := by
  intro qs
  induction qs with
  | nil =>
    intro _
    exact ⟨fun _ => rfl, fun q0 h0 => Option.noConfusion h0⟩
  | cons q qs ih =>
    intro hnorm
    have hnorm2 : ∀ q' ∈ qs, env.normalize_map_pos q' = some q' :=
      fun q' hq' => hnorm q' (List.mem_cons_of_mem q hq')
    rw [List.find?_cons]
    cases hq : is_numbered_land env m q with
    | true =>
      have hq' := (is_numbered_land_iff env m q).1 hq
      rw [update_adjacent_found env fuel xy q qs m hq]
      refine ⟨fun h0 => Option.noConfusion h0, fun q0 h0 => ?_⟩
      simp only [Option.some.injEq] at h0
      subst h0
      have hset := merged_into_set m xy (map_get_continent m q)
      have hother : ∀ q', q' ≠ xy →
          map_get_continent (map_set_continent m xy (map_get_continent m q)) q'
            = map_get_continent m q' := by
        intro q' hne
        rw [map_set_continent_get, if_neg hne]
      obtain ⟨h1, h2⟩ := update_adjacent_merge_runs env all_tiles hwf fuel hfuel xy
        (map_get_continent m q) hq'.2 qs (map_set_continent m xy (map_get_continent m q))
        hnorm2
      constructor
      · intro hall
        apply h1
        intro q' hin hk' hc' hd'
        have hne : q' ≠ xy := by
          intro he
          apply hd'
          rw [he, map_set_continent_get, if_pos rfl]
        rw [hother q' hne] at hc' hd' ⊢
        rw [merged_into_known_land env hset] at hk'
        exact le_of_le_of_eq (hall q' (List.mem_cons_of_mem q hin) hne
          ((is_numbered_land_iff env m q').2 ⟨hk', hc'⟩) hd') hset.1.symm
      · rintro ⟨q', hin, hne, hnum, hd', hbig⟩
        apply h2
        have hnum2 := (is_numbered_land_iff env m q').1 hnum
        rcases List.mem_cons.1 hin with rfl | hmem
        · exact absurd rfl hd'
        · refine ⟨q', hmem, by rw [merged_into_known_land env hset]; exact hnum2.1, ?_⟩
          rw [hother q' hne]
          exact ⟨hnum2.2, hd', lt_of_eq_of_lt hset.1 hbig⟩
    | false =>
      rw [update_adjacent_pass env fuel xy q qs m hq]
      obtain ⟨ih1, ih2⟩ := ih hnorm2
      refine ⟨ih1, fun q0 h0 => ?_⟩
      obtain ⟨h1, h2⟩ := ih2 q0 h0
      constructor
      · intro hall
        exact h1 (fun q' hin => hall q' (List.mem_cons_of_mem q hin))
      · rintro ⟨q', hin, hne, hnum, hd', hbig⟩
        apply h2
        rcases List.mem_cons.1 hin with rfl | hmem
        · rw [hq] at hnum
          exact Bool.noConfusion hnum
        · exact ⟨q', hmem, hne, hnum, hd', hbig⟩

/-- What `new_continent_num` returns, when it returns: the tiles are left alone,
and the number is the last recycled one, or `max_cont_used + 1` when none is
recycled. -/
theorem new_continent_num_some (m m1 : climap) (ret : Int)
    (h : new_continent_num m = some (m1, ret)) :
    m1.tiles = m.tiles ∧ (m.recyc_conts = [] → ret = m.max_cont_used + 1) ∧
      (∀ c, m.recyc_conts.getLast? = some c → ret = c) := by
  unfold new_continent_num at h
  cases hl : m.recyc_conts.getLast? with
  | some c =>
    rw [hl] at h
    simp only [Option.some.injEq, Prod.mk.injEq] at h
    obtain ⟨h1, h2⟩ := h
    subst h1 h2
    refine ⟨rfl, ?_, fun c' hc' => (Option.some.inj hc').symm ▸ rfl⟩
    intro he
    rw [he] at hl
    exact Option.noConfusion hl
  | none =>
    rw [hl] at h
    simp only at h
    split at h
    · simp only [Option.some.injEq, Prod.mk.injEq] at h
      obtain ⟨h1, h2⟩ := h
      subst h1 h2
      exact ⟨rfl, fun _ => rfl, fun c hc => Option.noConfusion hc⟩
    · exact Option.noConfusion h

/-- The assertion of `new_continent_num` holds exactly when a number is recycled
or `max_cont_used` is below `MAX_NUM_CONT`. -/
theorem new_continent_num_runs (m : climap) :
    (m.recyc_conts ≠ [] ∨ m.max_cont_used < MAX_NUM_CONT → ∃ r, new_continent_num m = some r) ∧
    (¬ (m.recyc_conts ≠ [] ∨ m.max_cont_used < MAX_NUM_CONT) → new_continent_num m = none) := by
  unfold new_continent_num
  cases hl : m.recyc_conts.getLast? with
  | some c =>
    refine ⟨fun _ => ⟨_, rfl⟩, fun hn => ?_⟩
    exfalso
    apply hn
    left
    intro he
    rw [he] at hl
    exact Option.noConfusion hl
  | none =>
    have he : m.recyc_conts = [] := List.getLast?_eq_none_iff.1 hl
    simp only
    constructor
    · rintro (h | h)
      · exact absurd he h
      · rw [if_pos h]
        exact ⟨_, rfl⟩
    · intro hn
      rw [if_neg (fun h => hn (Or.inr h))]

/-- What `climap_update_continents` does on a tile that is not ocean, in terms of
its loop and of `new_continent_num`. -/
theorem climap_update_continents_land (env : map_env) (fuel : Nat) (m : climap)
    (xy : Int × Int) (hl : (m.tiles xy).terrain ≠ env.T_OCEAN) :
    climap_update_continents env fuel m xy
      = match update_adjacent env fuel xy (env.adjc_iterate xy) m (-1) with
        | run_result.returned (m, this_con) =>
          if this_con = -1 then
            match new_continent_num m with
            | some (m, ret) => run_result.returned (map_set_continent m xy ret)
            | none => run_result.fault
          else run_result.returned m
        | run_result.fault => run_result.fault
        | run_result.out_of_fuel => run_result.out_of_fuel := by
  unfold climap_update_continents
  rw [if_neg hl]

theorem stale_map_known_land (t : Int × Int)
    (h : is_known_land sample_map_env stale_map t = true) :
    t = (0, 0) ∨ t = (1, 0) ∨ t = (3, 0) := by
  by_cases h1 : t = (0, 0)
  · exact Or.inl h1
  · by_cases h2 : t = (1, 0)
    · exact Or.inr (Or.inl h2)
    · by_cases h3 : t = (3, 0)
      · exact Or.inr (Or.inr h3)
      · have ht : stale_map.tiles t = ⟨7, 2, 0⟩ := by
          show (if t = (0, 0) then (⟨3, 2, 1⟩ : tile)
            else if t = (1, 0) then ⟨3, 2, 1⟩
            else if t = (3, 0) then ⟨3, 2, 0⟩
            else ⟨7, 2, 0⟩) = ⟨7, 2, 0⟩
          rw [if_neg h1, if_neg h2, if_neg h3]
        unfold is_known_land at h
        rw [ht] at h
        exact absurd h (by decide)

theorem stale_map_connected : continents_connected sample_map_env stale_map := by
  intro t1 t2 hk1 hk2 hpos heq
  rcases stale_map_known_land t1 hk1 with rfl | rfl | rfl
  · rcases stale_map_known_land t2 hk2 with rfl | rfl | rfl
    · exact reachable.start
    · exact reachable.step (0, 0) (1, 0) reachable.start (by decide) (by decide) (by decide)
    · exact absurd heq (by decide)
  · rcases stale_map_known_land t2 hk2 with rfl | rfl | rfl
    · exact reachable.step (1, 0) (0, 0) reachable.start (by decide) (by decide) (by decide)
    · exact reachable.start
    · exact absurd heq (by decide)
  · exact absurd hpos (by decide)

/-! ## The claims about the solver cache, the statistics and the public interface -/

/-- C31 (cache invalidation exactly on mismatch): on a call of
`apply_result_on_server` that passes its precondition and its first snapshot,
`cm_clear_cache` is not called on the fast path.  Off the fast path it is called
at most once and only when the call returns FALSE; it is not called when the
eligibility check after the wait does not pass; when that check passes it is
called exactly when the snapshot taken after the wait differs from the target;
and when no wait was needed (`last_request_id` is 0) the final comparison is made
on the city as it was, which differs from the target, so that it is called. -/
theorem clear_cache_iff_mismatch {R : Type} (env : environment R) (c : client)
    (pcity : city) (result cur : cm_result) (hv : result.found_a_valid = true)
    (hs : get_current_as_result env.g pcity env.uninit_result = some cur) :
    (results_are_equal env.g pcity result cur = true →
      (new_events c (apply_result_on_server env c pcity result).1).countP is_clear_cache = 0) ∧
    (results_are_equal env.g pcity result cur = false →
      (new_events c (apply_result_on_server env c pcity result).1).countP is_clear_cache ≤ 1 ∧
      ((apply_result_on_server env c pcity result).2 ≠ some false →
        (new_events c (apply_result_on_server env c pcity result).1).countP is_clear_cache
          = 0) ∧
      ((state_before_wait env c pcity result).aborted = false →
        (state_before_wait env c pcity result).last_request_id ≠ 0 →
        Option.map Prod.fst
          (check_city env (client_after_wait env c pcity result) pcity.id none).2 ≠ some true →
        (new_events c (apply_result_on_server env c pcity result).1).countP is_clear_cache
          = 0) ∧
      ((state_before_wait env c pcity result).aborted = false →
        (state_before_wait env c pcity result).last_request_id ≠ 0 →
        Option.map Prod.fst
          (check_city env (client_after_wait env c pcity result) pcity.id none).2 = some true →
        ∀ cur2, get_current_as_result env.g (city_after_wait env c pcity result)
            env.uninit_result = some cur2 →
          ((new_events c (apply_result_on_server env c pcity result).1).countP is_clear_cache
              = 1 ↔
            results_are_equal env.g (city_after_wait env c pcity result) result cur2
              = false)) ∧
      ((state_before_wait env c pcity result).aborted = false →
        (state_before_wait env c pcity result).last_request_id = 0 →
        (new_events c (apply_result_on_server env c pcity result).1).countP is_clear_cache
          = 1)) := by
  constructor
  · intro heq
    rw [apply_result_on_server_fast env c pcity result cur hv hs heq]
    simp [new_events, is_clear_cache]
  · intro hne
    obtain ⟨t1, ht1, hc1⟩ := send_changes_no_clear env (client_after_entry c pcity) pcity result
    have hentry : (client_after_entry c pcity).trace
        = c.trace ++ [event.get_current_as_result pcity.id, event.results_are_equal pcity.id,
            event.connection_do_buffer] := by
      simp [client_after_entry, log_event]
    have hsbw : (state_before_wait env c pcity result).c.trace
        = c.trace ++ ([event.get_current_as_result pcity.id, event.results_are_equal pcity.id,
            event.connection_do_buffer] ++ t1) := by
      unfold state_before_wait
      rw [ht1, hentry, List.append_assoc]
    have hpre : ([event.get_current_as_result pcity.id, event.results_are_equal pcity.id,
        event.connection_do_buffer] ++ t1).countP is_clear_cache = 0 := by
      rw [List.countP_append, hc1]
      rfl
    rw [apply_result_on_server_slow env c pcity result cur hv hs hne]
    cases hab : (state_before_wait env c pcity result).aborted with
    | true =>
      have h0 : (new_events c (state_before_wait env c pcity result).c).countP is_clear_cache
          = 0 := by
        rw [new_events, hsbw, List.drop_left' rfl]
        exact hpre
      simp only [if_true]
      refine ⟨by omega, fun _ => h0, fun h => Bool.noConfusion h, fun h => Bool.noConfusion h,
        fun h => Bool.noConfusion h⟩
    | false =>
      simp only [Bool.false_eq_true, if_false]
      obtain ⟨t2, ht2, hle, hnf, hfail, hpass, hzero⟩ :=
        await_and_compare_clear env (state_before_wait env c pcity result) pcity result
      have hcount : (new_events c
          (await_and_compare env (state_before_wait env c pcity result) pcity result).1).countP
          is_clear_cache = t2.countP is_clear_cache := by
        rw [new_events, ht2, hsbw, List.append_assoc, List.drop_left' rfl, List.countP_append, hpre,
          zero_add]
      rw [hcount]
      refine ⟨hle, hnf, fun _ hl hc => hfail hl hc, ?_, ?_⟩
      · intro _ hl hc cur2 hs2
        rw [hpass hl hc]
        have hret := (apply_result_success_core env c pcity result cur cur2 hv hs hne hab hl hc
          hs2)
        rw [apply_result_on_server_slow env c pcity result cur hv hs hne, hab] at hret
        simp only [Bool.false_eq_true, if_false] at hret
        rw [hret]
        cases results_are_equal env.g (city_after_wait env c pcity result) result cur2 <;> simp
      · intro _ hl
        rw [hzero hl]
        have heq : await_and_compare env (state_before_wait env c pcity result) pcity result
            = compare_with_target env (state_before_wait env c pcity result).c pcity result := by
          unfold await_and_compare
          rw [if_neg (by simp [hl])]
        rw [heq, (compare_with_target_spec env _ pcity result).2.2.2 cur hs, hne]
        rfl

/-- Witness of C31: `village`, under agent control, with a server that ignores the
three toggle-worker requests; the city passes `check_city` after the wait, its
snapshot still differs from `village_target`, and `cm_clear_cache` is called
once. -/
theorem clear_cache_iff_mismatch_witness :
    (new_events agent_client
        (apply_result_on_server ignoring_env.base agent_client village
          village_target).1).countP is_clear_cache = 1 ∧
      results_are_equal ignoring_env.base.g
        (city_after_wait ignoring_env.base agent_client village village_target) village_target
        (current_result standard_consts village scratch_result) = false :=
  have h := ((clear_cache_iff_mismatch ignoring_env.base agent_client village village_target _
    rfl village_snapshot).2 (by decide)).2.2.2.1 (by decide) (by decide) (by decide) _
    village_snapshot
  ⟨h.2 (by decide), by decide⟩

theorem apply_calls_invariant {R : Type} (env : environment R) (calls : List apply_call)
    (c : client) (h : c.stats.refresh_forced ≤ c.stats.apply_result_applied) :
    (apply_calls env c calls).stats.refresh_forced
      ≤ (apply_calls env c calls).stats.apply_result_applied := by
  unfold apply_calls
  induction calls generalizing c with
  | nil => exact h
  | cons call calls ih =>
    rw [List.foldl_cons]
    apply ih
    rcases apply_result_on_server_stats env { c with world := call.world } call.pcity
      call.result with ⟨-, h1⟩ | ⟨-, -, h1 | h1 | h1⟩
    · rw [h1]; exact h
    · rw [h1]; exact h
    · rw [h1]
      show c.stats.refresh_forced ≤ c.stats.apply_result_applied + 1
      omega
    · rw [h1]
      show c.stats.refresh_forced + 1 ≤ c.stats.apply_result_applied + 1
      omega

/-- C32 (statistics counters): a call of `apply_result_on_server` that passes its
precondition and its first snapshot adds exactly one to exactly one of
`apply_result_ignored` and `apply_result_applied`, and adds to `refresh_forced`,
one at most, only when it has added to `apply_result_applied`.  So after
`cma_init`, which sets the three counters to 0, `refresh_forced` is at most
`apply_result_applied` after every sequence of calls, whatever the cities, the
targets and the worlds in which the calls are made. -/
theorem statistics_counters {R : Type} (env : environment R) (c : client)
    (pcity : city) (result cur : cm_result) :
    (result.found_a_valid = true →
      get_current_as_result env.g pcity env.uninit_result = some cur →
      ((apply_result_on_server env c pcity result).1.stats.apply_result_ignored
            = c.stats.apply_result_ignored + 1 ∧
          (apply_result_on_server env c pcity result).1.stats.apply_result_applied
            = c.stats.apply_result_applied ∧
          (apply_result_on_server env c pcity result).1.stats.refresh_forced
            = c.stats.refresh_forced) ∨
        ((apply_result_on_server env c pcity result).1.stats.apply_result_ignored
            = c.stats.apply_result_ignored ∧
          (apply_result_on_server env c pcity result).1.stats.apply_result_applied
            = c.stats.apply_result_applied + 1 ∧
          ((apply_result_on_server env c pcity result).1.stats.refresh_forced
              = c.stats.refresh_forced ∨
            (apply_result_on_server env c pcity result).1.stats.refresh_forced
              = c.stats.refresh_forced + 1))) ∧
    (cma_init c).stats
      = { apply_result_ignored := 0, apply_result_applied := 0, refresh_forced := 0 } ∧
    ∀ calls : List apply_call,
      (apply_calls env (cma_init c) calls).stats.refresh_forced
        ≤ (apply_calls env (cma_init c) calls).stats.apply_result_applied := by
  refine ⟨?_, rfl, fun calls => apply_calls_invariant env calls (cma_init c) (le_refl _)⟩
  intro hv hs
  rcases apply_result_on_server_stats env c pcity result with
    ⟨h | h, -⟩ | ⟨-, -, h1 | h1 | h1⟩
  · rw [hv] at h; exact Bool.noConfusion h
  · rw [hs] at h; exact Option.noConfusion h
  · left; rw [h1]; exact ⟨rfl, rfl, rfl⟩
  · right; rw [h1]; exact ⟨rfl, rfl, Or.inl rfl⟩
  · right; rw [h1]; exact ⟨rfl, rfl, Or.inr rfl⟩

/-- Witness of C32: the call that brings `village` to `village_target`. -/
theorem statistics_counters_witness :
    ((apply_result_on_server faithful_env agent_client village
            village_target).1.stats.apply_result_ignored
          = agent_client.stats.apply_result_ignored + 1 ∧
        (apply_result_on_server faithful_env agent_client village
            village_target).1.stats.apply_result_applied
          = agent_client.stats.apply_result_applied ∧
        (apply_result_on_server faithful_env agent_client village
            village_target).1.stats.refresh_forced
          = agent_client.stats.refresh_forced) ∨
      ((apply_result_on_server faithful_env agent_client village
            village_target).1.stats.apply_result_ignored
          = agent_client.stats.apply_result_ignored ∧
        (apply_result_on_server faithful_env agent_client village
            village_target).1.stats.apply_result_applied
          = agent_client.stats.apply_result_applied + 1 ∧
        ((apply_result_on_server faithful_env agent_client village
              village_target).1.stats.refresh_forced
            = agent_client.stats.refresh_forced ∨
          (apply_result_on_server faithful_env agent_client village
              village_target).1.stats.refresh_forced
            = agent_client.stats.refresh_forced + 1)) :=
  (statistics_counters faithful_env agent_client village village_target _).1 rfl
    village_snapshot

/-- C34 (the exhaustion assertion): with a server that ignores every request and a
city that is destroyed while the fifth apply waits for its requests, the loop of
`handle_city` ends with `handled = FALSE` and no city is found under the saved id,
so the assertion `pcity != NULL` fails: `handle_city` ends in a fault. -/
theorem exhaustion_assertion_fails :
    (handle_city_loop destroying_env village.id 5 0 agent_start
        destroying_env.base.uninit_result).2 = some false ∧
      ((handle_city_loop destroying_env village.id 5 0 agent_start
        destroying_env.base.uninit_result).1.c.world.cities village.id).isNone = true ∧
      (handle_city destroying_env agent_start village).2 = none ∧
      (new_calls agent_start (handle_city destroying_env agent_start village).1).countP
        is_apply = 5 ∧
      (new_calls agent_start (handle_city destroying_env agent_start village).1).countP
        is_error_log = 0 := by
  decide

/-- C35 (equality ignores the validity flag): `results_are_equal` returns TRUE for
two results that agree in every field but `found_a_valid`, whatever the two
flags are; so a result with the flag set compares equal to the same result with
the flag cleared. -/
theorem results_are_equal_ignores_validity (g : game_consts) (pcity : city)
    (result : cm_result) (flag1 flag2 : Bool) :
    results_are_equal g pcity { result with found_a_valid := flag1 }
        { result with found_a_valid := flag2 } = true ∧
      ({ result with found_a_valid := true } : cm_result).found_a_valid = true ∧
      ({ result with found_a_valid := false } : cm_result).found_a_valid = false ∧
      results_are_equal g pcity { result with found_a_valid := true }
        { result with found_a_valid := false } = true := by
  have h : ∀ f1 f2 : Bool, results_are_equal g pcity { result with found_a_valid := f1 }
      { result with found_a_valid := f2 } = true := by
    intro f1 f2
    rw [results_are_equal_eq_true]
    exact ⟨rfl, rfl, fun _ _ => rfl, fun _ _ => rfl, fun _ _ _ _ => rfl⟩
  exact ⟨h flag1 flag2, rfl, rfl, h true false⟩

/-- C36 (one-shot apply of an invalid result): for a city that is not under agent
control and a result with `found_a_valid = FALSE`, `cma_apply_result` returns
TRUE and leaves the client as it was: no request is issued, no snapshot is taken
and no statistics counter is changed.  For a city that is under agent control
`cma_apply_result` ends in a fault (its assertion fails), whatever the result
is, and leaves the client as it was. -/
theorem cma_apply_result_invalid {R : Type} (env : environment R) (c : client)
    (pcity : city) (result : cm_result) :
    (Option.map Prod.fst (cma_is_city_under_agent env.cm_init_parameter c.world.store
        pcity.id env.uninit_parameter none) = some false →
      result.found_a_valid = false →
      cma_apply_result env c pcity result = (c, some true) ∧
        new_events c (cma_apply_result env c pcity result).1 = [] ∧
        (cma_apply_result env c pcity result).1.stats = c.stats) ∧
    (Option.map Prod.fst (cma_is_city_under_agent env.cm_init_parameter c.world.store
        pcity.id env.uninit_parameter none) = some true →
      cma_apply_result env c pcity result = (c, none)) := by
  unfold cma_apply_result
  cases h : cma_is_city_under_agent env.cm_init_parameter c.world.store pcity.id
      env.uninit_parameter none with
  | none => simp
  | some r =>
    obtain ⟨b, q⟩ := r
    cases b with
    | true => simp
    | false =>
      simp only [Option.map_some', true_implies, Option.some.injEq, Bool.false_eq_true,
        false_implies, and_true]
      intro hv
      simp [hv, new_events]

/-- Witness of C36: `village` is not under agent control in `free_client` and is
under agent control in `agent_client`. -/
theorem cma_apply_result_invalid_witness :
    cma_apply_result faithful_env free_client village
        { village_target with found_a_valid := false } = (free_client, some true) ∧
      cma_apply_result faithful_env agent_client village village_target
        = (agent_client, none) :=
  ⟨((cma_apply_result_invalid faithful_env free_client village
      { village_target with found_a_valid := false }).1 (by decide) rfl).1,
   (cma_apply_result_invalid faithful_env agent_client village village_target).2
      (by decide)⟩

/-! ## Calls of apply_result_on_server that fail an assertion while they send requests -/

/-- C13 as it was stated fails when an assertion stops the call: for
`sample_city` and `blocked_target` the call does not take the fast path, and the
four phases would issue the toggle of (3, 3) and then the toggle of (4, 2); the
call issues the first only, because the assertion that the tile (4, 2) is
`C_TILE_EMPTY` fails in the third phase. -/
theorem request_order_cut_short :
    blocked_target.found_a_valid = true ∧
      Option.map (results_are_equal faithful_env.g sample_city blocked_target)
        (get_current_as_result faithful_env.g sample_city faithful_env.uninit_result)
        = some false ∧
      surplus_worker_toggles faithful_env.g sample_city blocked_target
          ++ excess_specialist_changes faithful_env.g sample_city blocked_target
          ++ missing_worker_toggles faithful_env.g sample_city blocked_target
          ++ missing_specialist_changes faithful_env.g sample_city blocked_target
        = [event.city_toggle_worker 7 3 3, event.city_toggle_worker 7 4 2] ∧
      (new_events agent_client
          (apply_result_on_server faithful_env agent_client sample_city blocked_target).1).filter
          is_request = [event.city_toggle_worker 7 3 3] ∧
      (apply_result_on_server faithful_env agent_client sample_city blocked_target).2 = none := by
  decide

/-- C15 as it was stated fails when an assertion stops the call:
`blocked_target` is valid and sums to the size of `sample_city`, yet the requests
of the call, simulated on the server model, leave the tile (4, 2) unworked where
the target has a flag, and one default specialist where the target has none. -/
theorem no_convergence_after_failed_assertion :
    blocked_target.found_a_valid = true ∧
      Option.map (results_are_equal faithful_env.g sample_city blocked_target)
        (get_current_as_result faithful_env.g sample_city faithful_env.uninit_result)
        = some false ∧
      sample_city.size = cm_count_worker faithful_env.g sample_city blocked_target
        + cm_count_specialist faithful_env.g sample_city blocked_target ∧
      valid_city_position faithful_env.g sample_city 4 2 ∧
      is_free_worked_tile faithful_env.g 4 2 = false ∧
      blocked_target.worker_positions_used 4 2 = true ∧
      (simulate faithful_env.g (city_assignment sample_city)
        ((new_events agent_client
          (apply_result_on_server faithful_env agent_client sample_city blocked_target).1).filter
          is_request)).worked 4 2 = false ∧
      blocked_target.specialists 0 = 0 ∧
      (simulate faithful_env.g (city_assignment sample_city)
        ((new_events agent_client
          (apply_result_on_server faithful_env agent_client sample_city blocked_target).1).filter
          is_request)).specialists 0 = 1 := by
  decide

/-- C16 as it was stated fails when an assertion stops the call: `sample_city`
and `blocked_target` differ on the two tiles (3, 3) and (4, 2), and the call,
which does not take the fast path, issues one toggle-worker request. -/
theorem request_count_after_failed_assertion :
    Option.map (results_are_equal faithful_env.g sample_city blocked_target)
        (get_current_as_result faithful_env.g sample_city faithful_env.uninit_result)
        = some false ∧
      differing_tile_count faithful_env.g sample_city blocked_target = 2 ∧
      ((new_events agent_client
          (apply_result_on_server faithful_env agent_client sample_city blocked_target).1).filter
          is_toggle_worker).length = 1 := by
  decide

/-- C17 as it was stated fails when an assertion stops the call: for
`sample_city` and `oversized_target`, with request ids that are never 0, the call
does not take the fast path and fails the assertion on the size of the city; the
four phases have issued no request, and no refresh request is issued either. -/
theorem no_refresh_after_failed_assertion :
    (∀ n, faithful_env.request_id n ≠ 0) ∧
      oversized_target.found_a_valid = true ∧
      Option.map (results_are_equal faithful_env.g sample_city oversized_target)
        (get_current_as_result faithful_env.g sample_city faithful_env.uninit_result)
        = some false ∧
      (new_events agent_client
          (apply_result_on_server faithful_env agent_client sample_city
            oversized_target).1).filter is_diff_request = [] ∧
      (new_events agent_client
          (apply_result_on_server faithful_env agent_client sample_city
            oversized_target).1).filter is_request = [] ∧
      (apply_result_on_server faithful_env agent_client sample_city
          oversized_target).1.stats.refresh_forced = agent_client.stats.refresh_forced ∧
      (apply_result_on_server faithful_env agent_client sample_city oversized_target).2
        = none := by
  refine ⟨?_, by decide, by decide, by decide, by decide, by decide, by decide⟩
  intro n
  show (n : Int) + 1 ≠ 0
  omega

/-- C30 as it was stated fails when an assertion stops the call: with request
ids that are not 0 and increase, for `sample_city` and `blocked_target` the call
issues the toggle of (3, 3), which gets the id 1, and then fails the assertion on
the tile (4, 2); `wait_for_requests` is not called. -/
theorem no_wait_after_failed_assertion :
    (∀ n, faithful_env.request_id n ≠ 0) ∧
      (∀ m n, m < n → faithful_env.request_id m < faithful_env.request_id n) ∧
      (new_events agent_client
          (apply_result_on_server faithful_env agent_client sample_city blocked_target).1).filter
          is_request = [event.city_toggle_worker 7 3 3] ∧
      faithful_env.request_id (request_count agent_client.trace) = 1 ∧
      (new_events agent_client
          (apply_result_on_server faithful_env agent_client sample_city blocked_target).1).countP
          is_wait = 0 ∧
      (apply_result_on_server faithful_env agent_client sample_city blocked_target).2 = none := by
  refine ⟨?_, ?_, by decide, by decide, by decide, by decide⟩
  · intro n
    show (n : Int) + 1 ≠ 0
    omega
  · intro m n h
    show (m : Int) + 1 < (n : Int) + 1
    omega

/-! ## The claims about client/climisc.c -/

/-- C33 as it was stated fails when a number in use is among the recycled
numbers: on `stale_map` every positive number on known land tiles labels one
connected set of tiles, the land tile (3, 0) has no numbered neighbour, and
`climap_update_continents` gives it the recycled number 1, which is not fresh:
the known land tile (0, 0), which is not adjacent to (3, 0), carries it. -/
theorem recycled_number_not_fresh :
    continents_connected sample_map_env stale_map ∧
      (stale_map.tiles (3, 0)).terrain ≠ sample_map_env.T_OCEAN ∧
      (sample_map_env.adjc_iterate (3, 0)).find? (is_numbered_land sample_map_env stale_map)
        = none ∧
      returned_continent (climap_update_continents sample_map_env 9 stale_map (3, 0)) (3, 0)
        = some 1 ∧
      is_known_land sample_map_env stale_map (0, 0) = true ∧
      map_get_continent stale_map (0, 0) = 1 ∧
      returned_continent (climap_update_continents sample_map_env 9 stale_map (3, 0)) (0, 0)
        = some 1 ∧
      (0, 0) ∉ sample_map_env.adjc_iterate (3, 0) :=
  ⟨stale_map_connected, by decide, by decide, by decide, by decide, by decide, by decide,
    by decide⟩

/-- C33 (continent merge), amended: on a finite map with a sound geometry and
with enough fuel for the recursion, `climap_update_continents` changes nothing on
an ocean tile.  On another tile it returns when the assertions it comes to hold
(`update_asserts_hold`) and ends in a failed assertion otherwise.  Whenever it
returns, every tile keeps its terrain and its knowledge and has the number it had
or the number of the tile, and every adjacent known land tile that had a positive
number has the number of the tile; with such a neighbour the number of the tile
is the positive number of the first one in the order of `adjc_iterate`; without
one it is the number that `new_continent_num` hands out (the last recycled
number, or `max_cont_used + 1` when none is recycled), only the tile has changed,
and, when the statics are sound for the map (`continents_sound`), that number is
positive and fresh: no known land tile carried it. -/
theorem continents_merge (env : map_env) (all_tiles : List (Int × Int)) (m : climap)
    (xy : Int × Int) (fuel : Nat) (hwf : well_formed_map env all_tiles)
    (hfuel : all_tiles.length < fuel) :
    ((m.tiles xy).terrain = env.T_OCEAN →
      climap_update_continents env fuel m xy = run_result.returned m) ∧
    ((m.tiles xy).terrain ≠ env.T_OCEAN →
      (update_asserts_hold env m xy →
        ∃ m2, climap_update_continents env fuel m xy = run_result.returned m2) ∧
      (¬ update_asserts_hold env m xy →
        climap_update_continents env fuel m xy = run_result.fault) ∧
      ∀ m2, climap_update_continents env fuel m xy = run_result.returned m2 →
        (∀ t, (m2.tiles t).terrain = (m.tiles t).terrain ∧
          (m2.tiles t).known = (m.tiles t).known ∧
          (map_get_continent m2 t = map_get_continent m t ∨
            map_get_continent m2 t = map_get_continent m2 xy)) ∧
        (∀ q ∈ env.adjc_iterate xy, is_known_land env m q = true → 0 < map_get_continent m q →
          map_get_continent m2 q = map_get_continent m2 xy) ∧
        (∀ q0, (env.adjc_iterate xy).find? (is_numbered_land env m) = some q0 →
          map_get_continent m2 xy = map_get_continent m q0 ∧ 0 < map_get_continent m2 xy) ∧
        ((env.adjc_iterate xy).find? (is_numbered_land env m) = none →
          (∃ m1, new_continent_num m = some (m1, map_get_continent m2 xy)) ∧
          (m.recyc_conts = [] → map_get_continent m2 xy = m.max_cont_used + 1) ∧
          (∀ c, m.recyc_conts.getLast? = some c → map_get_continent m2 xy = c) ∧
          (∀ t, t ≠ xy → m2.tiles t = m.tiles t) ∧
          (continents_sound env m →
            0 < map_get_continent m2 xy ∧
            ∀ t, is_known_land env m t = true →
              map_get_continent m t ≠ map_get_continent m2 xy))) := by
  constructor
  · intro ho
    unfold climap_update_continents
    rw [if_pos ho]
  · intro hl
    rw [climap_update_continents_land env fuel m xy hl]
    have hnorm : ∀ q ∈ env.adjc_iterate xy, env.normalize_map_pos q = some q :=
      fun q hq => hwf.2 xy q hq
    obtain ⟨hr1, hr2⟩ := update_adjacent_first_runs env all_tiles hwf fuel hfuel xy m
      (env.adjc_iterate xy) hnorm
    cases hf : (env.adjc_iterate xy).find? (is_numbered_land env m) with
    | none =>
      rw [hr1 hf]
      simp only [if_true]
      obtain ⟨hn1, hn2⟩ := new_continent_num_runs m
      refine ⟨fun ha => ?_, fun hna => ?_, fun m2 hret => ?_⟩
      · obtain ⟨⟨m1, ret⟩, hnew⟩ := hn1 (ha.2 hf)
        rw [hnew]
        exact ⟨_, rfl⟩
      · have hbad : ¬ (m.recyc_conts ≠ [] ∨ m.max_cont_used < MAX_NUM_CONT) := by
          intro hgood
          apply hna
          refine ⟨fun q0 h0 => ?_, fun _ => hgood⟩
          rw [hf] at h0
          exact Option.noConfusion h0
        rw [hn2 hbad]
      · cases hnew : new_continent_num m with
        | none =>
          rw [hnew] at hret
          exact run_result.noConfusion hret
        | some r =>
          obtain ⟨m1, ret⟩ := r
          rw [hnew] at hret
          simp only [run_result.returned.injEq] at hret
          subst hret
          obtain ⟨htiles, hmax, hlast⟩ := new_continent_num_some m m1 ret hnew
          have hxy : map_get_continent (map_set_continent m1 xy ret) xy = ret := by
            rw [map_set_continent_get, if_pos rfl]
          have hsame : ∀ t, map_get_continent m1 t = map_get_continent m t := by
            intro t
            unfold map_get_continent
            rw [htiles]
          rw [hxy]
          refine ⟨fun t => ?_, fun q hq hk hc => ?_, fun q0 h0 => Option.noConfusion h0,
            fun _ => ⟨⟨m1, rfl⟩, hmax, hlast, fun t ht => ?_, fun hs => ?_⟩⟩
          · obtain ⟨x, y, z⟩ := (merged_into_set m1 xy ret).2 t
            refine ⟨by rw [x, htiles], by rw [y, htiles], ?_⟩
            rcases z with z | z
            · exact Or.inl (z.trans (hsame t))
            · exact Or.inr z
          · exfalso
            exact List.find?_eq_none.1 hf q hq ((is_numbered_land_iff env m q).2 ⟨hk, hc⟩)
          · simp only [map_set_continent, if_neg ht, htiles]
          · obtain ⟨hs0, hs1, hs2⟩ := hs
            cases hl2 : m.recyc_conts.getLast? with
            | some c =>
              rw [hlast c hl2]
              exact hs2 c (List.mem_of_getLast?_eq_some hl2)
            | none =>
              rw [hmax (List.getLast?_eq_none_iff.1 hl2)]
              refine ⟨by omega, fun t hk => ?_⟩
              have := hs1 t hk
              omega
    | some q0 =>
      obtain ⟨hruns, hfault⟩ := hr2 q0 hf
      refine ⟨fun ha => ?_, fun hna => ?_, fun m2 hret => ?_⟩
      · obtain ⟨r, hr⟩ := hruns (ha.1 q0 hf)
        obtain ⟨-, hpost⟩ := update_adjacent_first_post env all_tiles hwf fuel hfuel xy m
          (env.adjc_iterate xy) r hnorm hr
        obtain ⟨hpos, hr2', -⟩ := hpost q0 hf
        rw [hr]
        obtain ⟨m', tc⟩ := r
        simp only at hr2' ⊢
        rw [if_neg (by omega)]
        exact ⟨_, rfl⟩
      · have hex : ∃ q ∈ env.adjc_iterate xy, q ≠ xy ∧ is_numbered_land env m q = true ∧
            map_get_continent m q ≠ map_get_continent m q0 ∧
            m.max_cont_used < map_get_continent m q := by
          by_contra hnone
          apply hna
          refine ⟨fun q1 h1 q hq hne hnum hd => ?_, fun h => ?_⟩
          · rw [hf] at h1
            cases h1
            by_contra hbig
            exact hnone ⟨q, hq, hne, hnum, hd, by omega⟩
          · rw [hf] at h
            exact Option.noConfusion h
        rw [hfault hex]
      · cases hu : update_adjacent env fuel xy (env.adjc_iterate xy) m (-1) with
        | fault =>
          rw [hu] at hret
          exact run_result.noConfusion hret
        | out_of_fuel =>
          rw [hu] at hret
          exact run_result.noConfusion hret
        | returned r =>
          obtain ⟨-, hpost⟩ := update_adjacent_first_post env all_tiles hwf fuel hfuel xy m
            (env.adjc_iterate xy) r hnorm hu
          obtain ⟨hpos, hr2', hmer, hxy, hqs⟩ := hpost q0 hf
          rw [hu] at hret
          obtain ⟨m', tc⟩ := r
          simp only at hr2' hmer hxy hqs hret
          rw [if_neg (by omega)] at hret
          simp only [run_result.returned.injEq] at hret
          subst hret
          rw [hxy]
          refine ⟨fun t => hmer.2 t, hqs, fun q1 h1 => ?_, fun h => Option.noConfusion h⟩
          cases h1
          exact ⟨rfl, hpos⟩

/-- Witness of C33: on the sample map the tile (2, 0) joins the continents 1 and
2; the assertions hold, the tile gets the number 1 of its first numbered
neighbour (1, 0), and its neighbour (3, 0), which was on continent 2, has the
number 1 afterwards. -/
theorem continents_merge_witness :
    ∃ m2, climap_update_continents sample_map_env 9 sample_map (2, 0)
        = run_result.returned m2 ∧
      map_get_continent m2 (2, 0) = 1 ∧ map_get_continent m2 (3, 0) = 1 :=
  have h := (continents_merge sample_map_env sample_tiles sample_map (2, 0) 9
    sample_map_well_formed (by decide)).2 (by decide)
  have hfirst : (sample_map_env.adjc_iterate (2, 0)).find?
      (is_numbered_land sample_map_env sample_map) = some (1, 0) := by decide
  have hasserts : update_asserts_hold sample_map_env sample_map (2, 0) :=
    ⟨fun q0 h0 => by
      rw [hfirst] at h0
      cases h0
      decide, fun h0 => by
      rw [hfirst] at h0
      exact Option.noConfusion h0⟩
  match h.1 hasserts with
  | ⟨m2, h1⟩ =>
    have hxy : map_get_continent m2 (2, 0) = 1 := ((h.2.2 m2 h1).2.2.1 (1, 0) hfirst).1
    ⟨m2, h1, hxy, ((h.2.2 m2 h1).2.1 (3, 0) (by decide) (by decide) (by decide)).trans hxy⟩

theorem sprite_index_cases (N gw heat : Int) (hN : 2 ≤ N) (heven : N % 2 = 0) :
    0 ≤ (if gw ≤ 0 ∧ heat < N.tdiv 2 then MAX 0 heat
        else MIN N ((MAX 0 (4 + gw)).tdiv 5 + (N.tdiv 2 - 1))) ∧
      (if gw ≤ 0 ∧ heat < N.tdiv 2 then MAX 0 heat
        else MIN N ((MAX 0 (4 + gw)).tdiv 5 + (N.tdiv 2 - 1))) ≤ N ∧
      ((if gw ≤ 0 ∧ heat < N.tdiv 2 then MAX 0 heat
        else MIN N ((MAX 0 (4 + gw)).tdiv 5 + (N.tdiv 2 - 1))) = N ↔
        5 * (N / 2) + 1 ≤ gw) := by
  have h2 : N.tdiv 2 = N / 2 := Int.tdiv_eq_ediv (by omega) (by omega)
  have hm : 0 ≤ MAX 0 (4 + gw) := by
    unfold MAX
    split <;> omega
  have h5 : (MAX 0 (4 + gw)).tdiv 5 = MAX 0 (4 + gw) / 5 := Int.tdiv_eq_ediv hm (by omega)
  rw [h2, h5]
  unfold MIN MAX
  split_ifs <;> omega

/-- C37 (range of the progress-indicator index): for an even
`NUM_TILES_PROGRESS` of 2 or more, `client_warming_sprite` returns an index
between 0 and `NUM_TILES_PROGRESS`, and it returns `NUM_TILES_PROGRESS` itself,
which is one past the last of `NUM_TILES_PROGRESS` sprites, exactly when
`game.globalwarming` is at least `5 * (NUM_TILES_PROGRESS / 2) + 1` (21 for 8
sprites); the same holds for `client_cooling_sprite` and `game.nuclearwinter`. -/
theorem sprite_index_range (NUM_TILES_PROGRESS : Int) (game : game_climate)
    (hN : 2 ≤ NUM_TILES_PROGRESS) (heven : NUM_TILES_PROGRESS % 2 = 0) :
    (0 ≤ client_warming_sprite NUM_TILES_PROGRESS game ∧
      client_warming_sprite NUM_TILES_PROGRESS game ≤ NUM_TILES_PROGRESS ∧
      (client_warming_sprite NUM_TILES_PROGRESS game = NUM_TILES_PROGRESS ↔
        5 * (NUM_TILES_PROGRESS / 2) + 1 ≤ game.globalwarming)) ∧
    (0 ≤ client_cooling_sprite NUM_TILES_PROGRESS game ∧
      client_cooling_sprite NUM_TILES_PROGRESS game ≤ NUM_TILES_PROGRESS ∧
      (client_cooling_sprite NUM_TILES_PROGRESS game = NUM_TILES_PROGRESS ↔
        5 * (NUM_TILES_PROGRESS / 2) + 1 ≤ game.nuclearwinter)) :=
  ⟨sprite_index_cases NUM_TILES_PROGRESS game.globalwarming game.heating hN heven,
    sprite_index_cases NUM_TILES_PROGRESS game.nuclearwinter game.cooling hN heven⟩

/-- Witness of C37: with 8 sprites, a global warming of 21 and a nuclear winter of
21 both give the index 8. -/
theorem sprite_index_range_witness :
    client_warming_sprite 8 ⟨21, 0, 21, 0⟩ = 8 ∧ client_cooling_sprite 8 ⟨21, 0, 21, 0⟩ = 8 :=
  have h := sprite_index_range 8 ⟨21, 0, 21, 0⟩ (by decide) (by decide)
  ⟨h.1.2.2.2 (by decide), h.2.2.2.2 (by decide)⟩

theorem wrap_int_of_range (x : Int) (h1 : INT_MIN ≤ x) (h2 : x ≤ INT_MAX) : wrap_int x = x := by
  unfold INT_MIN at h1
  unfold INT_MAX at h2
  unfold wrap_int
  omega

/-- C38 as it was stated fails at the largest `int`: with 68 improvement types,
the code of the unit id 2147483647 is `2147483647 + 68`, which wraps around to
-2147483581; `cid_decode` takes it for an improvement and returns
`(FALSE, -2147483581)`. -/
theorem cid_round_trip_overflow :
    (0 : Int) ≤ 2147483647 ∧ cid_encode 68 true 2147483647 = -2147483581 ∧
      cid_decode 68 (cid_encode 68 true 2147483647) = (false, -2147483581) := by
  decide

/-- C38 (round trip of the compound id), amended: for a constant `B_LAST` and ids
in the range of `int`, decoding the code of a unit id that is not negative and
for which `id + B_LAST` does not exceed `INT_MAX` gives back the unit and the id;
decoding the code of an improvement id between 0 and `B_LAST - 1` gives back the
improvement and the id; and encoding what `cid_is_unit` and `cid_id` return for a
`cid` that is not negative gives back that `cid`. -/
theorem cid_round_trip (B_LAST : Int) (hB1 : INT_MIN ≤ B_LAST) (hB2 : B_LAST ≤ INT_MAX) :
    (∀ id : Int, 0 ≤ id → id ≤ INT_MAX → id + B_LAST ≤ INT_MAX →
      cid_decode B_LAST (cid_encode B_LAST true id) = (true, id)) ∧
    (∀ id : Int, 0 ≤ id → id < B_LAST →
      cid_decode B_LAST (cid_encode B_LAST false id) = (false, id)) ∧
    (∀ cid : Int, 0 ≤ cid → cid ≤ INT_MAX →
      cid_encode B_LAST (cid_is_unit B_LAST cid) (cid_id B_LAST cid) = cid) := by
  unfold INT_MIN at hB1
  unfold INT_MAX at hB2
  refine ⟨fun id h0 h1 h2 => ?_, fun id h0 h1 => ?_, fun cid h0 h1 => ?_⟩
  · unfold INT_MAX at h1 h2
    have he : wrap_int (id + B_LAST) = id + B_LAST := by
      unfold wrap_int
      omega
    have h : id + B_LAST ≥ B_LAST := by omega
    have hi : wrap_int (id + B_LAST - B_LAST) = id := by
      unfold wrap_int
      omega
    simp only [cid_decode, cid_encode, cid_is_unit, cid_id, if_true, he, h, decide_True, hi]
  · have he : wrap_int (id + 0) = id := by
      unfold wrap_int
      omega
    have h : ¬ (id ≥ B_LAST) := by omega
    simp only [cid_decode, cid_encode, cid_is_unit, cid_id, he, h, decide_False, if_false,
      Bool.false_eq_true]
  · unfold INT_MAX at h1
    unfold cid_encode cid_is_unit cid_id
    by_cases h : cid ≥ B_LAST
    · simp only [h, decide_True, if_true]
      unfold wrap_int
      omega
    · simp only [h, decide_False, if_false, Bool.false_eq_true]
      unfold wrap_int
      omega

/-- Witness of C38: with 68 improvement types, the unit 5 and the improvement 5,
and the codes 73 and 5. -/
theorem cid_round_trip_witness :
    cid_decode 68 (cid_encode 68 true 5) = (true, 5) ∧
      cid_decode 68 (cid_encode 68 false 5) = (false, 5) ∧
      cid_encode 68 (cid_is_unit 68 73) (cid_id 68 73) = 73 ∧
      cid_encode 68 (cid_is_unit 68 5) (cid_id 68 5) = 5 :=
  ⟨(cid_round_trip 68 (by decide) (by decide)).1 5 (by decide) (by decide) (by decide),
    (cid_round_trip 68 (by decide) (by decide)).2.1 5 (by decide) (by decide),
    (cid_round_trip 68 (by decide) (by decide)).2.2 73 (by decide) (by decide),
    (cid_round_trip 68 (by decide) (by decide)).2.2 5 (by decide) (by decide)⟩

/-- C39 as it was stated fails at the largest `int`: with 68 improvement types
and 52 unit types, the code of the worklist id 2147483647 is `2147483647 + 68 +
52`, which wraps around to -2147483529; `wid_is_worklist` returns FALSE for it
and `wid_id` returns the code itself. -/
theorem wid_round_trip_overflow :
    (0 : Int) ≤ 2147483647 ∧ wid_encode 68 52 false true 2147483647 = some (-2147483529) ∧
      wid_is_worklist 68 52 (-1) (-2147483529) = some false ∧
      wid_id 68 52 (-1) (-2147483529) = some (-2147483529) := by
  decide

/-- C39 (partition and round trip of the worklist id), amended: for constants
with `0 ≤ B_LAST`, `0 ≤ U_LAST`, `B_LAST + U_LAST ≤ INT_MAX` and
`WORKLIST_END < 0`, and a `wid` between 0 and `INT_MAX`, the three readers return
(their assertion holds), `wid_is_unit` and `wid_is_worklist` are not both TRUE,
and `wid_encode` of the three values returns `wid`; conversely the readers
recover the kind and the id from the code of an improvement id below `B_LAST`, of
a unit id below `U_LAST`, and of a worklist id for which
`id + B_LAST + U_LAST` does not exceed `INT_MAX`, none of them negative. -/
theorem wid_round_trip (B_LAST U_LAST WORKLIST_END : Int) (hB : 0 ≤ B_LAST)
    (hU : 0 ≤ U_LAST) (hBU : B_LAST + U_LAST ≤ INT_MAX) (hW : WORKLIST_END < 0) :
    (∀ wid : Int, 0 ≤ wid → wid ≤ INT_MAX → ∃ u w i,
      wid_is_unit B_LAST U_LAST WORKLIST_END wid = some u ∧
      wid_is_worklist B_LAST U_LAST WORKLIST_END wid = some w ∧
      wid_id B_LAST U_LAST WORKLIST_END wid = some i ∧
      ¬ (u = true ∧ w = true) ∧
      wid_encode B_LAST U_LAST u w i = some wid) ∧
    (∀ id : Int, 0 ≤ id → id < B_LAST → ∃ wid,
      wid_encode B_LAST U_LAST false false id = some wid ∧
      wid_is_unit B_LAST U_LAST WORKLIST_END wid = some false ∧
      wid_is_worklist B_LAST U_LAST WORKLIST_END wid = some false ∧
      wid_id B_LAST U_LAST WORKLIST_END wid = some id) ∧
    (∀ id : Int, 0 ≤ id → id < U_LAST → ∃ wid,
      wid_encode B_LAST U_LAST true false id = some wid ∧
      wid_is_unit B_LAST U_LAST WORKLIST_END wid = some true ∧
      wid_is_worklist B_LAST U_LAST WORKLIST_END wid = some false ∧
      wid_id B_LAST U_LAST WORKLIST_END wid = some id) ∧
    (∀ id : Int, 0 ≤ id → id + B_LAST + U_LAST ≤ INT_MAX → ∃ wid,
      wid_encode B_LAST U_LAST false true id = some wid ∧
      wid_is_unit B_LAST U_LAST WORKLIST_END wid = some false ∧
      wid_is_worklist B_LAST U_LAST WORKLIST_END wid = some true ∧
      wid_id B_LAST U_LAST WORKLIST_END wid = some id) := by
  unfold INT_MAX at hBU
  have hw : wrap_int (B_LAST + U_LAST) = B_LAST + U_LAST := by
    unfold wrap_int
    omega
  refine ⟨fun wid h0 hmax => ?_, fun id h0 h1 => ?_, fun id h0 h1 => ?_, fun id h0 h1 => ?_⟩
  · unfold INT_MAX at hmax
    have hne : wid ≠ WORKLIST_END := by omega
    unfold wid_is_unit wid_is_worklist wid_id
    rw [if_neg hne, if_neg hne, if_neg hne, hw]
    by_cases h1 : wid ≥ B_LAST + U_LAST
    · refine ⟨_, _, _, rfl, rfl, if_pos h1, ?_, ?_⟩
      · have : ¬ (wid ≥ B_LAST ∧ wid < B_LAST + U_LAST) := by omega
        simp [this]
      · have : ¬ (wid ≥ B_LAST ∧ wid < B_LAST + U_LAST) := by omega
        have e1 : wrap_int (wid - (B_LAST + U_LAST)) = wid - (B_LAST + U_LAST) := by
          unfold wrap_int
          omega
        have e2 : wrap_int (wid - (B_LAST + U_LAST) + B_LAST) = wid - U_LAST := by
          unfold wrap_int
          omega
        have e3 : wrap_int (wid - U_LAST + U_LAST) = wid := by
          unfold wrap_int
          omega
        have e4 : wrap_int wid = wid := by
          unfold wrap_int
          omega
        simp [wid_encode, this, h1, e1, e2, e3, e4]
    · by_cases h2 : wid ≥ B_LAST
      · refine ⟨_, _, _, rfl, rfl, (if_neg h1).trans (if_pos h2), ?_, ?_⟩
        · simp [h1]
        · have : wid ≥ B_LAST ∧ wid < B_LAST + U_LAST := by omega
          have e1 : wrap_int (wid - B_LAST) = wid - B_LAST := by
            unfold wrap_int
            omega
          have e2 : wrap_int (wid - B_LAST + B_LAST) = wid := by
            unfold wrap_int
            omega
          have e4 : wrap_int wid = wid := by
            unfold wrap_int
            omega
          simp [wid_encode, this, h1, e1, e2, e4]
      · refine ⟨_, _, _, rfl, rfl, (if_neg h1).trans (if_neg h2), ?_, ?_⟩
        · simp [h1]
        · have : ¬ (wid ≥ B_LAST ∧ wid < B_LAST + U_LAST) := by omega
          simp [wid_encode, this, h1]
  · refine ⟨id, rfl, ?_, ?_, ?_⟩
    · unfold wid_is_unit
      rw [if_neg (by omega), hw]
      have : ¬ (id ≥ B_LAST ∧ id < B_LAST + U_LAST) := by omega
      simp only [this, decide_False]
    · unfold wid_is_worklist
      rw [if_neg (by omega), hw]
      have : ¬ (id ≥ B_LAST + U_LAST) := by omega
      simp only [this, decide_False]
    · unfold wid_id
      rw [if_neg (by omega), hw, if_neg (by omega), if_neg (by omega)]
  · have e1 : wrap_int (id + B_LAST) = id + B_LAST := by
      unfold wrap_int
      omega
    refine ⟨id + B_LAST, ?_, ?_, ?_, ?_⟩
    · simp [wid_encode, e1]
    · unfold wid_is_unit
      rw [if_neg (by omega), hw]
      have : id + B_LAST ≥ B_LAST ∧ id + B_LAST < B_LAST + U_LAST := by omega
      simp only [this, and_self, decide_True]
    · unfold wid_is_worklist
      rw [if_neg (by omega), hw]
      have : ¬ (id + B_LAST ≥ B_LAST + U_LAST) := by omega
      simp only [this, decide_False]
    · unfold wid_id
      rw [if_neg (by omega), hw, if_neg (by omega), if_pos (by omega)]
      congr 1
      unfold wrap_int
      omega
  · unfold INT_MAX at h1
    have e1 : wrap_int (id + B_LAST) = id + B_LAST := by
      unfold wrap_int
      omega
    have e2 : wrap_int (id + B_LAST + U_LAST) = id + B_LAST + U_LAST := by
      unfold wrap_int
      omega
    refine ⟨id + B_LAST + U_LAST, ?_, ?_, ?_, ?_⟩
    · simp [wid_encode, e1, e2]
    · unfold wid_is_unit
      rw [if_neg (by omega), hw]
      have : ¬ (id + B_LAST + U_LAST ≥ B_LAST ∧ id + B_LAST + U_LAST < B_LAST + U_LAST) := by
        omega
      simp only [this, decide_False]
    · unfold wid_is_worklist
      rw [if_neg (by omega), hw]
      have : id + B_LAST + U_LAST ≥ B_LAST + U_LAST := by omega
      simp only [this, decide_True]
    · unfold wid_id
      rw [if_neg (by omega), hw, if_pos (by omega)]
      congr 1
      unfold wrap_int
      omega

/-- Witness of C39: with 68 improvement types, 52 unit types and `WORKLIST_END`
-1, the worklist id 73 is the unit 5, and the improvement 5, the unit 5 and the
worklist 5 are recovered from their codes. -/
theorem wid_round_trip_witness :
    (∃ u w i, wid_is_unit 68 52 (-1) 73 = some u ∧ wid_is_worklist 68 52 (-1) 73 = some w ∧
        wid_id 68 52 (-1) 73 = some i ∧ ¬ (u = true ∧ w = true) ∧
        wid_encode 68 52 u w i = some 73) ∧
      (∃ wid, wid_encode 68 52 false false 5 = some wid ∧
        wid_is_unit 68 52 (-1) wid = some false ∧
        wid_is_worklist 68 52 (-1) wid = some false ∧ wid_id 68 52 (-1) wid = some 5) ∧
      (∃ wid, wid_encode 68 52 true false 5 = some wid ∧
        wid_is_unit 68 52 (-1) wid = some true ∧
        wid_is_worklist 68 52 (-1) wid = some false ∧ wid_id 68 52 (-1) wid = some 5) ∧
      (∃ wid, wid_encode 68 52 false true 5 = some wid ∧
        wid_is_unit 68 52 (-1) wid = some false ∧
        wid_is_worklist 68 52 (-1) wid = some true ∧ wid_id 68 52 (-1) wid = some 5) :=
  have h := wid_round_trip 68 52 (-1) (by decide) (by decide) (by decide) (by decide)
  ⟨h.1 73 (by decide) (by decide), h.2.1 5 (by decide) (by decide),
    h.2.2.1 5 (by decide) (by decide), h.2.2.2 5 (by decide) (by decide)⟩

/-- C40 (the renumbering terminates): on a finite map with a sound geometry, a
call of `climap_renumber_continent` whose new number differs from the number of
the tile ends within a recursion depth of the number of tiles plus one, and more
fuel gives the same outcome.  It returns at once at a position that is not real;
it ends in a failed assertion when the tile is not known land with a number
between 1 and `max_cont_used`; otherwise it returns a map in which the tile has
the new number, only tiles that carried the old number differ, fewer tiles carry
the old number, and every tile reachable from the tile through adjacent known
land tiles that carried the old number has the new number and not the old
one. -/
theorem renumbering_terminates (env : map_env) (all_tiles : List (Int × Int)) (m : climap)
    (xy : Int × Int) (newnumber : Int) (fuel : Nat) (hwf : well_formed_map env all_tiles)
    (hfuel : all_tiles.length < fuel) :
    (env.normalize_map_pos xy = none →
      climap_renumber_continent env fuel m xy newnumber = run_result.returned m) ∧
    (∀ p, env.normalize_map_pos xy = some p → newnumber ≠ map_get_continent m p →
      climap_renumber_continent env fuel m xy newnumber ≠ run_result.out_of_fuel ∧
      climap_renumber_continent env fuel m xy newnumber
        = climap_renumber_continent env (all_tiles.length + 1) m xy newnumber ∧
      (¬ (is_known_land env m p = true ∧ 0 < map_get_continent m p
          ∧ map_get_continent m p ≤ m.max_cont_used) →
        climap_renumber_continent env fuel m xy newnumber = run_result.fault) ∧
      (is_known_land env m p = true → 0 < map_get_continent m p →
        map_get_continent m p ≤ m.max_cont_used →
        ∃ m2, climap_renumber_continent env fuel m xy newnumber = run_result.returned m2 ∧
          map_get_continent m2 p = newnumber ∧
          renumbered (map_get_continent m p) newnumber m m2 ∧
          carrying all_tiles m2 (map_get_continent m p)
            < carrying all_tiles m (map_get_continent m p) ∧
          ∀ t, reachable env m (map_get_continent m p) p t →
            map_get_continent m2 t = newnumber
              ∧ map_get_continent m2 t ≠ map_get_continent m p)) := by
  obtain ⟨k, rfl⟩ : ∃ k, fuel = k + 1 := ⟨fuel - 1, by omega⟩
  constructor
  · intro hn
    rw [climap_renumber_continent_succ, hn]
  · intro p hn hne
    have htot := renumber_total env all_tiles hwf (k + 1) hfuel m xy newnumber
      (fun p' hp' => by
        rw [hn] at hp'
        cases hp'
        exact hne)
    refine ⟨htot, ?_, fun hbad => renumber_fault env k m xy p newnumber hn hbad, ?_⟩
    · have hbase := renumber_total env all_tiles hwf (all_tiles.length + 1) (by omega) m xy
        newnumber (fun p' hp' => by
          rw [hn] at hp'
          cases hp'
          exact hne)
      have hk : k + 1 = all_tiles.length + 1 + (k - all_tiles.length) := by omega
      rw [hk]
      exact renumber_fuel_add env _ m xy newnumber hbase _
    · intro hkl hpos hmax
      obtain ⟨m2, h2, hren, hp2, hcl⟩ := renumber_spec env all_tiles hwf (k + 1) m xy newnumber
        p hn hkl hpos hmax hne (Nat.lt_of_le_of_lt (List.countP_le_length _) hfuel)
      have hp2' : map_get_continent m2 p ≠ map_get_continent m p := by
        rw [hp2]
        exact hne
      refine ⟨m2, h2, hp2, hren, ?_, fun t ht => ?_⟩
      · unfold carrying
        apply countP_lt_of_mem _ _ all_tiles p
        · intro t _ ht
          simp only [decide_eq_true_eq] at ht ⊢
          by_contra hc
          exact renumbered_not_old hren t hc ht
        · exact hwf.1 xy p hn
        · simp
        · simp only [decide_eq_false_iff_not]
          exact hp2'
      · have h := reachable_renumbered env m m2 _ newnumber p rfl hp2' hren hcl t ht
        exact ⟨h.2.2, h.2.1⟩

/-- Witness of C40: on the sample map the continent 1 of the tile (0, 0) is
renumbered to 3; the adjacent tile (1, 0), which carried 1, has the number 3
afterwards. -/
theorem renumbering_terminates_witness :
    ∃ m2, climap_renumber_continent sample_map_env 9 sample_map (0, 0) 3
        = run_result.returned m2 ∧
      map_get_continent m2 (0, 0) = 3 ∧ map_get_continent m2 (1, 0) = 3 :=
  have h := (renumbering_terminates sample_map_env sample_tiles sample_map (0, 0) 3 9
    sample_map_well_formed (by decide)).2 (0, 0) rfl (by decide) |>.2.2.2 (by decide)
    (by decide) (by decide)
  match h with
  | ⟨m2, h1, h2, _, _, h5⟩ =>
    ⟨m2, h1, h2, (h5 (1, 0) (reachable.step (0, 0) (1, 0) reachable.start (by decide)
      (by decide) (by decide))).1⟩

end CmaCore
